import Mathlib

/-!
# Falling-Sand-Sim: movement, thermal and reaction engines, scheduler

A shallow embedding of `src/main.cpp`.

Conventions of the embedding.

* `float` / `double` quantities are exact rationals (`ℚ`); the decimal literals of the source are
  written as fractions (`1.2` is `6/5`, `0.01` is `1/100`, and so on).
* `int` coordinates, depths and counters are `Int`; every value the program computes from them
  stays far from the 32-bit range.
* The global `grid` is a total function from coordinates to particles, passed explicitly and
  returned by every operation that mutates it; only coordinates accepted by `isValidIndex` are
  cells of the C++ grid.
* Random draws (`RNG<T>::getRange`, `std::shuffle`, `getRoughly`) are explicit arguments.
* An access that is undefined in C++ (indexing an empty vector) makes the embedded function
  return `none`; recursive functions carry a fuel argument and return `none` when it runs out.
* Display-only data (`name`, `color`) and the never-written `velocity` / `remainder` fields are
  not part of the embedded record.
* A member function of `Particle` runs on the particle stored in the cell it is called for; its
  reads of `data` are reads of that cell, also after the cell has been overwritten.
-/

namespace FallingSand

/-! ## Constants and enumerations -/

def GRID_WIDTH : Int := 60 * 4

def GRID_HEIGHT : Int := 40 * 4

def CELSIUS_TO_KELVIN : ℚ := 27315 / 100

inductive ParticleType where
  | EMPTY
  | SAND
  | WATER
  | METHANE
  | FIRE
  | SMOKE
  | STEAM
  | STONE
  | DUST
  | LAVA
  | CLONE
  | ICE
  | PLASMA
  | WALL
  | DIAMOND
  | MERCURY
  | OIL
  | ERASER
  | WOOD
  | BURNING_WOOD
  | COUNT
  deriving DecidableEq, Repr

inductive ParticleState where
  | EMPTY
  | SOLID
  | POWDER
  | FLUID
  | GAS
  | PLASMA
  deriving DecidableEq, Repr

/-! ## Movement tables -/

/-- The function `altsoftmax`: every positive weight is divided by the sum of all weights,
every other entry becomes 0. -/
def altsoftmax (weights : List ℚ) : List ℚ :=
  let sum := weights.foldl (fun acc w => acc + w) 0
  weights.map (fun w => if w > 0 then w / sum else 0)

/-- The library function `std::clamp(v, lo, hi)`. -/
def clamp (v lo hi : ℚ) : ℚ :=
  if v < lo then lo else if hi < v then hi else v

/-- The function `smoothstep(edge0, edge1, x)`. -/
def smoothstep (edge0 edge1 x : ℚ) : ℚ :=
  let x := clamp ((x - edge0) / (edge1 - edge0)) 0 1
  x * x * (3 - 2 * x)

def solid_weights : List (List ℚ) :=
  [ [1, 0, 0, 0, 0, 0, 0, 0],
    [1, 1, 1, 0, 0, 0, 0, 0],
    [1, 1, 1, 1, 1, 0, 0, 0],
    [1, 1, 1, 1, 1, 1, 1, 1],
    [0, 0, 0, 1, 1, 1, 1, 1],
    [0, 0, 0, 0, 0, 1, 1, 1],
    [0, 0, 0, 0, 0, 1, 0, 0] ]

def powder_weights : List (List ℚ) :=
  [ [1, 0, 0, 0, 0, 0, 0, 0],
    [1, 1, 1, 0, 0, 0, 0, 0],
    [1, 1, 1, 1, 1, 0, 0, 0],
    [1, 1, 1, 1, 1, 1, 1, 1],
    [0, 0, 0, 1, 1, 1, 1, 1],
    [0, 0, 0, 0, 0, 1, 1, 1],
    [0, 0, 0, 0, 0, 1, 0, 0] ]

def fluid_weights : List (List ℚ) :=
  [ [1, 0, 0, 0, 0, 0, 0, 0],
    [1, 1, 1, 0, 0, 0, 0, 0],
    [1, 1, 1, 1, 1, 0, 0, 0],
    [1, 1, 1, 1, 1, 1, 1, 1],
    [0, 0, 0, 1, 1, 1, 1, 1],
    [0, 0, 0, 1/10, 1/10, 1, 1, 1],
    [0, 0, 0, 1/10000, 1/10000, 1, 1/10, 1/10] ]

def gas_weights : List (List ℚ) :=
  [ [1, 0, 0, 0, 0, 0, 0, 0],
    [1, 1, 1, 0, 0, 0, 0, 0],
    [1, 1, 1, 1, 1, 0, 0, 0],
    [1, 1, 1, 1, 1, 1, 1, 1],
    [0, 0, 0, 1, 1, 1, 1, 1],
    [0, 0, 0, 0, 0, 1, 1, 1],
    [0, 0, 0, 0, 0, 1, 0, 0] ]

def plasma_weights : List (List ℚ) :=
  [ [1, 0, 0, 0, 0, 0, 0, 0],
    [1, 1, 1, 0, 0, 0, 0, 0],
    [1, 1, 1, 1, 1, 0, 0, 0],
    [1, 1, 1, 1, 1, 1, 1, 1],
    [0, 0, 0, 1, 1, 1, 1, 1],
    [0, 0, 0, 0, 0, 1, 1, 1],
    [0, 0, 0, 0, 0, 1, 0, 0] ]

/-- The local `weights` of `interpolateWeights` after the `if / else if` chain on `state`:
it stays the empty vector for `ParticleState::EMPTY`. -/
def selectWeights : ParticleState → List (List ℚ)
  | .SOLID => solid_weights
  | .POWDER => powder_weights
  | .FLUID => fluid_weights
  | .GAS => gas_weights
  | .PLASMA => plasma_weights
  | .EMPTY => []

/-- One interpolation loop of `interpolateWeights`:
`finalWeights[i] = (1 - t) * lo[i] + t * hi[i]` for the eight entries of the two rows. -/
def blendRows (t : ℚ) (lo hi : List ℚ) : List ℚ :=
  List.zipWith (fun a b => (1 - t) * a + t * b) lo hi

/-- One `else if` band of `interpolateWeights`: rows `k` and `k + 1` blended with
`t = smoothstep(e0, e1, density)`. -/
def blendBand (weights : List (List ℚ)) (k : Nat) (e0 e1 density : ℚ) : Option (List ℚ) := do
  let lo ← weights[k]?
  let hi ← weights[k + 1]?
  pure (blendRows (smoothstep e0 e1 density) lo hi)

/-- The function `interpolateWeights(state, density)`; `none` when a row of an empty template
is indexed. -/
def interpolateWeights (state : ParticleState) (density : ℚ) : Option (List ℚ) :=
  let weights := selectWeights state
  if density < 1/100 then weights[0]?
  else if density < 1/4 then blendBand weights 0 (1/100) (1/4) density
  else if density < 1 then blendBand weights 1 (1/4) 1 density
  else if density < 6/5 then blendBand weights 2 1 (6/5) density
  else if density < 7/5 then blendBand weights 3 (6/5) (7/5) density
  else if density < 1000 then blendBand weights 4 (7/5) 1000 density
  else if density < 2000 then blendBand weights 5 1000 2000 density
  else weights[6]?

/-- The local `directions` of `getMovementDirectionsFromDensity`, in source order. -/
def directions : List (Int × Int) :=
  [(0, 1), (-1, 1), (1, 1), (-1, 0), (1, 0), (0, -1), (-1, -1), (1, -1)]

/-- A tier of a movement table: combined weight and member directions. -/
abbrev Tier := ℚ × List (Int × Int)

/-- A direction with its probability (the `std::tuple<int, int, float>` of the source). -/
abbrev DirProb := (Int × Int) × ℚ

/-- The comparator handed to `std::sort`, read as "may stand before": descending probability. -/
def probGE (a b : DirProb) : Prop := b.2 ≤ a.2

instance : DecidableRel probGE := fun a b => inferInstanceAs (Decidable (b.2 ≤ a.2))

/-- Loop state of the grouping loop: finished tiers, `currentTier`, `currentProbability`. -/
abbrev GroupState := List Tier × Tier × ℚ

/-- Body of the grouping loop of `getMovementDirectionsFromDensity`. -/
def groupStep (s : GroupState) (direction : DirProb) : GroupState :=
  let prob := direction.2
  if prob = s.2.2 then
    (s.1, (s.2.1.1 + prob, s.2.1.2 ++ [direction.1]), s.2.2)
  else
    (s.1 ++ [s.2.1], (0 + prob, [direction.1]), prob)

/-- The function `getMovementDirectionsFromDensity(state, density)`. `std::sort` is unstable,
so the order of equally likely directions inside a tier is unspecified in C++; the embedding
sorts stably. `none` stands for the undefined accesses: a row of an empty template, or
element 0 of an empty `directionProbabilities`. -/
def getMovementDirectionsFromDensity (state : ParticleState) (density : ℚ) :
    Option (List Tier) := do
  let finalWeights ← interpolateWeights state density
  let probabilities := altsoftmax finalWeights
  let directionProbabilities : List DirProb :=
    (directions.zip probabilities).filter (fun dp => dp.2 > 0)
  let sorted := directionProbabilities.insertionSort probGE
  let first ← sorted.head?
  let s := sorted.foldl groupStep ([], (0, []), first.2)
  pure (if s.2.1.2.isEmpty then s.1 else s.1 ++ [s.2.1])

/-! ## Material catalog -/

structure AlchemicPrerequisites where
  type : ParticleType
  deriving DecidableEq, Repr

structure AlchemicResults where
  type : ParticleType
  particleTemp : ℚ := -1
  deriving DecidableEq, Repr

structure AlchemicReaction where
  halflife : ℚ
  prerequisites : List AlchemicPrerequisites
  results : List AlchemicResults
  deriving DecidableEq, Repr

structure Emission where
  type : ParticleType
  halflife : ℚ
  deriving DecidableEq, Repr

/-- The simulation fields of `generalParticleData`. The three `ParticleType` members that the
source leaves uninitialised unless a catalog entry assigns them are optional here. -/
structure generalParticleData where
  type : ParticleType
  density : ℚ
  temperature : ℚ
  thermalConductivity : ℚ
  specificHeatCapacity : ℚ
  heatReceived : ℚ
  lowerTransitionPoint : ℚ
  lowerTransitionType : Option ParticleType
  upperTransitionPoint : ℚ
  upperTransitionType : Option ParticleType
  halflife : ℚ
  endOfLifeType : Option ParticleType
  state : ParticleState
  reactions : List AlchemicReaction
  emissions : List Emission
  movementDirections : List Tier
  deriving DecidableEq, Repr

/-- The call sites of `getRoughly` during the construction of one particle. -/
inductive JitterSite where
  | halflife
  | reaction (i : Nat)
  | emission (i : Nat)
  | color
  | density
  | lowerTransitionPoint
  | upperTransitionPoint
  | thermalConductivity
  | specificHeatCapacity
  deriving DecidableEq, Repr

/-- The outcomes of the `getRoughly(value, fraction)` calls made while one particle is built.
`getRoughly` is declared in `Game.h`, which is not among the sources, so it is an argument:
`rough site value fraction` is what the call at `site` returns. -/
abbrev Jitter := JitterSite → ℚ → ℚ → ℚ

/-- The sentinel `9999999.9` of an unused upper transition point. -/
def upperSentinel : ℚ := 99999999 / 10

/-- The defaults assigned at the top of `getParticleData`. -/
def defaultParticleData (type : ParticleType) : generalParticleData :=
  { type := type
    density := 0
    temperature := 30 + CELSIUS_TO_KELVIN
    thermalConductivity := 1
    specificHeatCapacity := 1
    heatReceived := 0
    lowerTransitionPoint := -1
    lowerTransitionType := none
    upperTransitionPoint := upperSentinel
    upperTransitionType := none
    halflife := -1
    endOfLifeType := none
    state := ParticleState.EMPTY
    reactions := []
    emissions := []
    movementDirections := [] }

/-- The assignment `data.movementDirections = getMovementDirectionsFromDensity(state, density)`
of a catalog entry. The call is made with the nominal density, before the density jitter. -/
def withMovement (data : generalParticleData) : generalParticleData :=
  { data with
    movementDirections := (getMovementDirectionsFromDensity data.state data.density).getD [] }

/-- The `if (specificTempDetails)` block of a catalog entry. -/
def withThermal (specificTempDetails : Bool) (k c : ℚ) (data : generalParticleData) :
    generalParticleData :=
  if specificTempDetails then { data with thermalConductivity := k, specificHeatCapacity := c }
  else data

/-- One reaction of a catalog entry: a single prerequisite and a single result. -/
def mkReaction (halflife : ℚ) (pre : ParticleType) (res : AlchemicResults) : AlchemicReaction :=
  { halflife := halflife, prerequisites := [⟨pre⟩], results := [res] }

/-- The `if / else if` chain of `getParticleData` over the material tags. -/
def catalogEntry (rough : Jitter) (stdTemp : Bool) (data : generalParticleData) :
    ParticleType → generalParticleData
  | .EMPTY => { data with thermalConductivity := 0, specificHeatCapacity := 0 }
  | .SAND =>
    withMovement { withThermal stdTemp (27/100) (8/10) { data with density := 1700 } with
      state := .POWDER }
  | .WATER =>
    withMovement { withThermal stdTemp (6/10) (418/100) { data with density := 998 } with
      lowerTransitionPoint := 0 + CELSIUS_TO_KELVIN
      lowerTransitionType := some .ICE
      upperTransitionPoint := 100 + CELSIUS_TO_KELVIN
      upperTransitionType := some .STEAM
      state := .FLUID }
  | .METHANE =>
    withMovement { withThermal stdTemp (34/1000) (22/10) { data with density := 65/100 } with
      state := .GAS
      upperTransitionPoint := 537 + CELSIUS_TO_KELVIN
      upperTransitionType := some .FIRE
      reactions :=
        [ mkReaction (rough (.reaction 0) (1/3) (1/10)) .FIRE ⟨.FIRE, 1960 + CELSIUS_TO_KELVIN⟩,
          mkReaction (rough (.reaction 1) 1 (1/10)) .PLASMA ⟨.FIRE, 1960 + CELSIUS_TO_KELVIN⟩ ] }
  | .FIRE =>
    { withMovement { withThermal stdTemp 90 1 { data with density := 3/10 } with
        halflife := rough .halflife (1/300) (1/10)
        endOfLifeType := some .SMOKE
        temperature := 950 + CELSIUS_TO_KELVIN
        state := .GAS
        lowerTransitionPoint := 200 + CELSIUS_TO_KELVIN
        lowerTransitionType := some .SMOKE
        upperTransitionPoint := 7800 + CELSIUS_TO_KELVIN
        upperTransitionType := some .PLASMA } with
      reactions := [ mkReaction (rough (.reaction 0) (1/8) (1/10)) .WATER ⟨.EMPTY, -1⟩ ] }
  | .SMOKE =>
    withMovement { withThermal stdTemp (1/100) 1 { data with density := 6/5 } with
      halflife := rough .halflife (1/300) (1/10)
      endOfLifeType := some .EMPTY
      upperTransitionPoint := 350 + CELSIUS_TO_KELVIN
      upperTransitionType := some .FIRE
      state := .GAS }
  | .STEAM =>
    withMovement { withThermal stdTemp (2/100) 2 { data with density := 6/10 } with
      halflife := rough .halflife (1/300) (1/10)
      endOfLifeType := some .WATER
      temperature := 150 + CELSIUS_TO_KELVIN
      lowerTransitionPoint := 100 + CELSIUS_TO_KELVIN
      lowerTransitionType := some .WATER
      upperTransitionPoint := 10000 + CELSIUS_TO_KELVIN
      upperTransitionType := some .PLASMA
      state := .GAS }
  | .STONE =>
    withMovement { withThermal stdTemp (25/10) (84/100) { data with density := 2800 } with
      upperTransitionPoint := 1500 + CELSIUS_TO_KELVIN
      upperTransitionType := some .LAVA
      state := .SOLID }
  | .DUST =>
    withMovement { withThermal stdTemp (5/100) (8/10) { data with density := 49 } with
      upperTransitionPoint := 350 + CELSIUS_TO_KELVIN
      upperTransitionType := some .FIRE
      state := .POWDER
      reactions := [ mkReaction (rough (.reaction 0) (1/8) (1/10)) .FIRE ⟨.FIRE, -1⟩ ] }
  | .LAVA =>
    withMovement { withThermal stdTemp 1 (15/10) { data with density := 2900 } with
      temperature := 2050 + CELSIUS_TO_KELVIN
      lowerTransitionPoint := 1000 + CELSIUS_TO_KELVIN
      lowerTransitionType := some .STONE
      upperTransitionPoint := 10000 + CELSIUS_TO_KELVIN
      upperTransitionType := some .PLASMA
      state := .FLUID }
  | .CLONE =>
    { data with
      density := 99999/10
      thermalConductivity := 0
      specificHeatCapacity := 0
      state := .SOLID }
  | .ICE =>
    { withThermal stdTemp (22/10) (209/100) { data with density := 9167/10 } with
      temperature := -20 + CELSIUS_TO_KELVIN
      upperTransitionPoint := 0 + CELSIUS_TO_KELVIN
      upperTransitionType := some .WATER
      state := .SOLID }
  | .PLASMA =>
    withMovement { withThermal stdTemp (1/10) 5 { data with density := 2/100 } with
      temperature := 9500 + CELSIUS_TO_KELVIN
      lowerTransitionPoint := 3000 + CELSIUS_TO_KELVIN
      lowerTransitionType := some .EMPTY
      state := .PLASMA }
  | .WALL =>
    { data with
      density := 99999/10
      thermalConductivity := 0
      specificHeatCapacity := 0
      state := .SOLID }
  | .DIAMOND =>
    { withThermal stdTemp 1500 5 { data with density := 3500 } with state := .SOLID }
  | .MERCURY =>
    withMovement { withThermal stdTemp (83/10) (14/100) { data with density := 13546 } with
      state := .FLUID }
  | .OIL =>
    withMovement { withThermal stdTemp (13/100) (21/10) { data with density := 870 } with
      upperTransitionPoint := 300 + CELSIUS_TO_KELVIN
      upperTransitionType := some .FIRE
      state := .FLUID
      reactions :=
        [ mkReaction (rough (.reaction 0) (1/8) (1/10)) .FIRE ⟨.FIRE, 1200 + CELSIUS_TO_KELVIN⟩ ] }
  | .ERASER =>
    { data with
      density := 99999/10
      thermalConductivity := 0
      specificHeatCapacity := 0
      state := .SOLID }
  | .WOOD =>
    { withThermal stdTemp (15/100) (17/10) { data with density := 600 } with
      upperTransitionPoint := 350 + CELSIUS_TO_KELVIN
      upperTransitionType := some .BURNING_WOOD
      state := .SOLID
      reactions :=
        [ mkReaction (rough (.reaction 0) (1/3) (1/10)) .FIRE
            ⟨.BURNING_WOOD, 500 + CELSIUS_TO_KELVIN⟩,
          mkReaction (rough (.reaction 1) (1/300) (1/10)) .BURNING_WOOD
            ⟨.BURNING_WOOD, 500 + CELSIUS_TO_KELVIN⟩ ] }
  | .BURNING_WOOD =>
    { withThermal stdTemp (15/100) (17/10) { data with density := 600 } with
      temperature := 500 + CELSIUS_TO_KELVIN
      lowerTransitionPoint := 150 + CELSIUS_TO_KELVIN
      lowerTransitionType := some .WOOD
      upperTransitionPoint := 1000 + CELSIUS_TO_KELVIN
      upperTransitionType := some .FIRE
      state := .SOLID
      emissions := [ ⟨.FIRE, rough (.emission 0) (1/5) (1/10)⟩ ]
      reactions :=
        [ mkReaction (rough (.reaction 0) (1/300) (1/10)) .EMPTY ⟨.FIRE, 950 + CELSIUS_TO_KELVIN⟩,
          mkReaction (rough (.reaction 1) (1/300) (1/10)) .FIRE ⟨.FIRE, 950 + CELSIUS_TO_KELVIN⟩,
          mkReaction (rough (.reaction 2) (1/3) (1/10)) .WATER ⟨.WOOD, -1⟩ ] }
  | .COUNT => data

/-- The function `getParticleData(type)`: defaults, the catalog entry, then the density jitter. -/
def getParticleData (rough : Jitter) (type : ParticleType) : generalParticleData :=
  let specificTempDetails := false
  let data := catalogEntry rough specificTempDetails (defaultParticleData type) type
  { data with density := rough .density data.density (1/10000) }

/-! ## Particles and the grid -/

/-- The member functions that the constructor of `Particle` can attach as hooks. -/
inductive SpecialAction where
  | clone
  | checkHalfLifeExpired
  | transferHeatFirstPass
  | transferHeatSecondPass
  | checkAlchemyReactions
  | attemptEmissions
  deriving DecidableEq, Repr

structure Particle where
  data : generalParticleData
  specialPreActions : List SpecialAction
  specialActions : List SpecialAction
  specialPostActions : List SpecialAction
  rememberedParticleType : ParticleType
  deriving DecidableEq, Repr

/-- The thermal block of the constructor: jitter of the configured transition points and of
the two thermal constants of a heat-conducting material. -/
def thermalJitter (rough : Jitter) (data : generalParticleData) : generalParticleData :=
  let data :=
    if data.lowerTransitionPoint ≠ -1 then
      { data with
        lowerTransitionPoint := rough .lowerTransitionPoint data.lowerTransitionPoint (1/100) }
    else data
  let data :=
    if data.upperTransitionPoint ≠ upperSentinel then
      { data with
        upperTransitionPoint := rough .upperTransitionPoint data.upperTransitionPoint (1/100) }
    else data
  let data :=
    { data with thermalConductivity := rough .thermalConductivity data.thermalConductivity (1/100) }
  { data with
    specificHeatCapacity := rough .specificHeatCapacity data.specificHeatCapacity (1/100) }

/-- The constructor `Particle::Particle(ParticleType t)`. -/
def Particle.new (rough : Jitter) (t : ParticleType) : Particle :=
  let data := getParticleData rough t
  let specialActions := match t with
    | .CLONE => [SpecialAction.clone]
    | _ => []
  let post1 := if data.halflife ≠ -1 then [SpecialAction.checkHalfLifeExpired] else []
  let conducts : Bool := data.thermalConductivity > 0 ∧ data.specificHeatCapacity > 0
  let data := if conducts then thermalJitter rough data else data
  let pre := if conducts then [SpecialAction.transferHeatFirstPass] else []
  let post2 := if conducts then post1 ++ [SpecialAction.transferHeatSecondPass] else post1
  let post3 := if ¬ data.reactions.isEmpty then post2 ++ [SpecialAction.checkAlchemyReactions]
    else post2
  let post4 := if ¬ data.emissions.isEmpty then post3 ++ [SpecialAction.attemptEmissions]
    else post3
  { data := data
    specialPreActions := pre
    specialActions := specialActions
    specialPostActions := post4
    rememberedParticleType := .EMPTY }

/-- The global `grid`, as a function of the coordinates. -/
abbrev Grid := Int × Int → Particle

/-- The function `isValidIndex(x, y)`. -/
def isValidIndex (x y : Int) : Bool :=
  x ≥ 0 ∧ x < GRID_WIDTH ∧ y ≥ 0 ∧ y < GRID_HEIGHT

/-- Assignment `grid[pos.first][pos.second] = p`. -/
def Grid.set (g : Grid) (pos : Int × Int) (p : Particle) : Grid :=
  fun q => if q = pos then p else g q

/-- The effect of `std::swap(grid[a], grid[b])`. -/
def Grid.swap (g : Grid) (a b : Int × Int) : Grid :=
  fun q => if q = a then g b else if q = b then g a else g q

/-! ## Movement -/

/-- The loop of `sampleFromProbabilities` from index `i` on, with the running `cumulativeSum`. -/
def sampleLoop (randomValue : ℚ) : List ℚ → ℚ → Int → Int
  | [], _, _ => -1
  | p :: rest, cumulativeSum, i =>
    let cumulativeSum := cumulativeSum + p
    if randomValue ≤ cumulativeSum then i else sampleLoop randomValue rest cumulativeSum (i + 1)

/-- The function `sampleFromProbabilities(probabilities)`; `getRange lo hi` is the value
returned by the call
`RNG<float>::getRange(lo, hi)` (declared in `Game.h`, not among the sources). -/
def sampleFromProbabilities (getRange : ℚ → ℚ → ℚ) (probabilities : List ℚ) : Int :=
  if probabilities.isEmpty then -1
  else
    let totalProbability := probabilities.foldl (fun acc w => acc + w) 0
    let randomValue := getRange 0 totalProbability
    sampleLoop randomValue probabilities 0 0

/-- The global `maxStepDepth`; no statement of the program assigns it after its initialisation. -/
def maxStepDepth : Int := 8

/-- The density block at the end of `StepInDirection`: swaps `grid[x][y]` with the target when
the draw `u` of `RNG<double>::getRange(0, 1)` and the density direction allow it. -/
def densitySwap (u : ℚ) (g : Grid) (firstPos target : Int × Int) (particle : Particle) :
    Bool × Grid :=
  let currentDensity := particle.data.density
  let neighborDensity := (g target).data.density
  if currentDensity > 0 ∧ neighborDensity > 0 ∧ currentDensity ≠ neighborDensity then
    let largerDensity := max currentDensity neighborDensity
    let smallerDensity := min currentDensity neighborDensity
    let swapProbability := smallerDensity / largerDensity
    let swapProbability := if currentDensity < 6/5 then swapProbability else 1 - swapProbability
    let densityDirectionCheck : Bool :=
      if currentDensity < 6/5 then currentDensity = smallerDensity
      else currentDensity = largerDensity
    if u < swapProbability ∧ densityDirectionCheck = true then
      (true, g.swap firstPos target)
    else (false, g)
  else (false, g)

/-- The rest of the movable-target branch of `StepInDirection`, given the outcome `retry` of
the horizontal retry (`some (false, g)` when no retry is made): a successful retry ends the
call; otherwise only a call at depth 0 goes on to the density block. -/
def afterRetry (u : ℚ) (firstPos target : Int × Int) (particle : Particle) (depth : Int) :
    Option (Bool × Grid) → Option (Bool × Grid)
  | none => none
  | some (true, g1) => some (true, g1)
  | some (false, g1) =>
    if depth ≠ 0 then some (false, g1)
    else some (densitySwap u g1 firstPos target particle)

/-- The function `StepInDirection(pos, firstPos, particle, direction, depth, timesSwapped)`.

`particle` is the referent of the reference parameter at the time of the call (every caller
passes `grid[firstPos]`); `rough` gives the jitter of the `Particle(EMPTY)` the call may build
and `u` the uniform draw of the density block. Each call, nested ones included, uses one unit
of `fuel`. -/
def StepInDirection : Nat → Jitter → ℚ → Grid → Int × Int → Int × Int → Particle → Int × Int →
    Int → Int → Option (Bool × Grid)
  | 0, _, _, _, _, _, _, _, _, _ => none
  | fuel + 1, rough, u, g, pos, firstPos, particle, direction, depth, timesSwapped =>
    let newX := pos.1 + direction.1
    let newY := pos.2 + direction.2
    if depth - 1 ≥ maxStepDepth then some (false, g)
    else if isValidIndex newX newY then
      if (g (newX, newY)).data.type = ParticleType.EMPTY then
        if timesSwapped = 0 then
          some (true, (g.set (newX, newY) particle).set firstPos (Particle.new rough .EMPTY))
        else some (false, g)
      else if (g (newX, newY)).data.type = ParticleType.ERASER then
        some (true, g.set firstPos (Particle.new rough .EMPTY))
      else if ¬ (g (newX, newY)).data.movementDirections.isEmpty then
        let retry : Option (Bool × Grid) :=
          if particle.data.state = ParticleState.FLUID ∧ direction.1 ≠ 0 then
            StepInDirection fuel rough u g (newX, newY) firstPos particle (direction.1, 0)
              (depth + 1)
              (if (g (newX, newY)).data.state ≠ ParticleState.FLUID then timesSwapped + 1
                else timesSwapped)
          else some (false, g)
        afterRetry u firstPos (newX, newY) particle depth retry
      else some (false, g)
    else some (false, g)

/-- The random inputs of one `MoveParticle` call. The index `k` counts the iterations of the
`while` loop and `j` the directions tried inside one iteration. -/
structure MoveDraws where
  /-- The value returned by `RNG<float>::getRange(lo, hi)` inside `sampleFromProbabilities`. -/
  getRange : Nat → ℚ → ℚ → ℚ
  /-- The outcome of `std::shuffle` on `directionIndices`. -/
  shuffle : Nat → List Nat → List Nat
  /-- The uniform draw of the density block of the `j`-th step. -/
  swapDraw : Nat → Nat → ℚ
  /-- The jitter of the particle built by the `j`-th step. -/
  rough : Nat → Nat → Jitter

/-- Fuel that lets a `StepInDirection` call at depth 0 run to completion. -/
def stepFuel : Nat := 10

/-- The `for` loop of `MoveParticle` over the shuffled `directionIndices`; `none` when an index
is not an index of `directions`. -/
def tryDirections (rnd : MoveDraws) (k : Nat) (pos : Int × Int) (particle : Particle)
    (dirs : List (Int × Int)) : List Nat → Nat → Grid → Option (Bool × Grid)
  | [], _, g => some (false, g)
  | dirIndex :: rest, j, g =>
    match dirs[dirIndex]? with
    | none => none
    | some direction =>
      match StepInDirection stepFuel (rnd.rough k j) (rnd.swapDraw k j) g pos pos particle
          direction 0 0 with
      | none => none
      | some (true, g1) => some (true, g1)
      | some (false, g1) => tryDirections rnd k pos particle dirs rest (j + 1) g1

/-- The inner loop of `MoveParticle` that collects `movementDirections[index].first` for the
remaining tier indices; `none` when an index is outside the table. -/
def tierWeights (movementDirections : List Tier) : List Nat → Option (List ℚ)
  | [] => some []
  | index :: rest =>
    match movementDirections[index]?, tierWeights movementDirections rest with
    | some tier, some weights => some (tier.1 :: weights)
    | _, _ => none

/-- The `while` loop of `MoveParticle`, one unit of fuel per test of the loop condition.
`none` also stands for the undefined accesses: a `chosenTierIndex` of -1, or a tier index
outside the table. -/
def moveLoop (rnd : MoveDraws) (pos : Int × Int) (particle : Particle) :
    Nat → Nat → List Nat → Grid → Option Grid
  | 0, _, _, _ => none
  | fuel + 1, k, tierIndices, g =>
    if tierIndices.isEmpty then some g
    else
      let movementDirections := particle.data.movementDirections
      match tierWeights movementDirections tierIndices with
      | none => none
      | some weights =>
        let chosenTierIndex := sampleFromProbabilities (rnd.getRange k) weights
        if chosenTierIndex < 0 then none
        else
          match tierIndices[chosenTierIndex.toNat]? with
          | none => none
          | some actualTierIndex =>
            match movementDirections[actualTierIndex]? with
            | none => none
            | some tier =>
              let dirs := tier.2
              let directionIndices := rnd.shuffle k (List.range dirs.length)
              match tryDirections rnd k pos particle dirs directionIndices 0 g with
              | none => none
              | some (true, g1) => some g1
              | some (false, g1) =>
                moveLoop rnd pos particle fuel (k + 1) (tierIndices.eraseIdx chosenTierIndex.toNat)
                  g1

/-- The function `MoveParticle(pos, particle)`; `particle` is the referent of the reference
parameter, which
`UpdateParticles` takes from `grid[pos]`. -/
def MoveParticle (fuel : Nat) (rnd : MoveDraws) (g : Grid) (pos : Int × Int)
    (particle : Particle) : Option Grid :=
  moveLoop rnd pos particle fuel 0 (List.range particle.data.movementDirections.length) g

/-! ## Neighbourhoods -/

/-- The values of the loop variable of `for (int v = lo; v <= hi; ++v)`. -/
def intRange (lo hi : Int) : List Int :=
  (List.range (hi - lo + 1).toNat).map (fun i => lo + (i : Int))

/-- The function `getMooreNeighbours(pos, radius)`: the in-bounds cells of the square of the
given radius around `pos`, the centre left out, in scan order. -/
def getMooreNeighbours (pos : Int × Int) (radius : Int) : List (Int × Int) :=
  let startX := pos.1 - radius
  let startY := pos.2 - radius
  let endX := pos.1 + radius
  let endY := pos.2 + radius
  (intRange startX endX).flatMap fun x =>
    (intRange startY endY).filterMap fun y =>
      if x = pos.1 ∧ y = pos.2 then none
      else if isValidIndex x y then some (x, y)
      else none

/-- The member function `getNeighbours(pos)` with its default neighbourhood type, Moore; no
caller passes another one. -/
def getNeighbours (pos : Int × Int) : List (Int × Int) :=
  getMooreNeighbours pos 1

/-! ## Thermal engine -/

/-- The member function `transferParticleData(pos, newParticle, copySourceTemp)`. -/
def transferParticleData (g : Grid) (pos : Int × Int) (newParticle : Particle)
    (copySourceTemp : Bool) : Grid :=
  let dataCopy := (g pos).data
  let g := g.set pos newParticle
  if copySourceTemp then
    g.set pos { g pos with data := { (g pos).data with temperature := dataCopy.temperature } }
  else g

/-- The body of the neighbour loop of `transferHeatFirstPass` for one neighbour. The two
updates are applied to the grid one after the other, as the two reference writes are. -/
def heatStep (pos : Int × Int) (numNeighbors : Int) (g : Grid) (neighborPos : Int × Int) :
    Grid :=
  let current := g pos
  let neighbor := g neighborPos
  if neighbor.data.thermalConductivity > 0 ∧ neighbor.data.specificHeatCapacity > 0 then
    let tempDelta := current.data.temperature - neighbor.data.temperature
    let combinedConductivity :=
      min current.data.thermalConductivity neighbor.data.thermalConductivity
    let heatTransfer := combinedConductivity * tempDelta
    let totalDensity := current.data.specificHeatCapacity + neighbor.data.specificHeatCapacity
    if totalDensity > 0 then
      let heatExchange := ((1/2) * heatTransfer / totalDensity) / (numNeighbors : ℚ)
      let g1 := g.set pos
        { current with data := { current.data with
            heatReceived := current.data.heatReceived -
              heatExchange *
                (neighbor.data.specificHeatCapacity / current.data.specificHeatCapacity) } }
      let neighbor1 := g1 neighborPos
      g1.set neighborPos
        { neighbor1 with data := { neighbor1.data with
            heatReceived := neighbor1.data.heatReceived +
              heatExchange *
                (current.data.specificHeatCapacity / neighbor.data.specificHeatCapacity) } }
    else g
  else g

/-- The member function `transferHeatFirstPass(pos)`, run on the particle at `pos`. -/
def transferHeatFirstPass (g : Grid) (pos : Int × Int) : Grid :=
  let neighbors := getNeighbours pos
  let numNeighbors : Int := neighbors.length
  neighbors.foldl (heatStep pos numNeighbors) g

/-- The first statements of `transferHeatSecondPass`: the pending heat is added to the
temperature and reset. -/
def applyHeat (g : Grid) (pos : Int × Int) : Grid :=
  let current := g pos
  g.set pos { current with data := { current.data with
    temperature := current.data.temperature + current.data.heatReceived
    heatReceived := 0 } }

/-- The lower-transition block of `transferHeatSecondPass`. The member `data` is read through
`this`, the particle stored at `pos` when the block is entered. `none` when the transition
fires and the material it names was never assigned. -/
def lowerTransition (rough : Jitter) (g : Grid) (pos : Int × Int) : Option Grid :=
  let data := (g pos).data
  if data.lowerTransitionPoint ≠ -1 then
    if data.temperature < data.lowerTransitionPoint then
      match data.lowerTransitionType with
      | none => none
      | some t => some (transferParticleData g pos (Particle.new rough t) true)
    else some g
  else some g

/-- The upper-transition block of `transferHeatSecondPass`. The member `data` is read through
`this`, the particle stored at `pos` when the block is entered: after a lower transition that
is the particle the transition has just stored there. -/
def upperTransition (rough : Jitter) (g : Grid) (pos : Int × Int) : Option Grid :=
  let data := (g pos).data
  if data.upperTransitionPoint ≠ upperSentinel then
    if data.temperature > data.upperTransitionPoint then
      match data.upperTransitionType with
      | none => none
      | some t => some (transferParticleData g pos (Particle.new rough t) true)
    else some g
  else some g

/-- The member function `transferHeatSecondPass(pos)`, run on the particle at `pos`;
`roughLower` and `roughUpper` give the jitter of the particle each transition may build. -/
def transferHeatSecondPass (roughLower roughUpper : Jitter) (g : Grid) (pos : Int × Int) :
    Option Grid :=
  (lowerTransition roughLower (applyHeat g pos) pos).bind fun g1 =>
    upperTransition roughUpper g1 pos

/-! ## Hooks -/

/-- The member function `performSpecialActions(_specialActions, pos)`. Every caller binds
`_specialActions` by reference to one of the hook vectors of the particle stored at `pos`,
and the range-based `for` walks that vector front to back with iterators it takes before the
first call. `run action s` is the effect of the call `(this->*action)(pos)` in the state `s`:
`none` when the call is undefined, otherwise the new state and a flag that tells whether the
call has assigned the particle (the statement `grid[pos.first][pos.second] = newParticle` of
`transferParticleData`). Such an assignment is a `std::vector::operator=` on the vector under
iteration and invalidates the iterators of the loop: an implementation may reuse the storage,
and the loop then goes on over hooks of the new particle up to the old end, or reallocate it,
and the loop then reads freed memory. What the loop does after the assignment is not defined
by the program: `none`. Until then the vector is the one read when the loop starts. The hooks
of the vectors are the member functions the constructor pushes, never null, so the test
`if (action)` always succeeds. -/
def performSpecialActions {σ : Type} (run : SpecialAction → σ → Option (Bool × σ)) :
    List SpecialAction → σ → Option σ
  | [], s => some s
  | action :: rest, s =>
    match run action s with
    | none => none
    | some (true, _) => none
    | some (false, s1) => performSpecialActions run rest s1

/-! ## Reactions -/

/-- The random inputs of one `checkAlchemyReactions` call; the index is the position of the
rule in `data.reactions`. -/
structure ReactionDraws where
  /-- The value returned by `RNG<float>::getRange(0, 1)` for the rule. -/
  draw : Nat → ℚ
  /-- The jitter of the particle built when the rule fires. -/
  rough : Nat → Jitter
  /-- The value returned by `getRoughly(temperature, 0.1)` for the forced temperature. -/
  roughTemp : Nat → ℚ → ℚ → ℚ

/-- The prerequisite loop of `checkAlchemyReactions`: `valid` is cleared at the first
prerequisite whose material is held by no neighbour. -/
def checkPrerequisites (g : Grid) (neighbors : List (Int × Int)) (valid : Bool) :
    List AlchemicPrerequisites → Bool
  | [] => valid
  | prerequisite :: rest =>
    let count := neighbors.countP (fun neighborPos =>
      (g neighborPos).data.type = prerequisite.type)
    if count = 0 then false
    else checkPrerequisites g neighbors valid rest

/-- The rule loop of `checkAlchemyReactions` from rule number `i` on. `none` when a rule that
fires has an empty result list. -/
def reactionLoop (rnd : ReactionDraws) (g : Grid) (pos : Int × Int)
    (neighbors : List (Int × Int)) : List AlchemicReaction → Nat → Option Grid
  | [], _ => some g
  | reaction :: rest, i =>
    let valid : Bool := rnd.draw i < reaction.halflife
    let valid := checkPrerequisites g neighbors valid reaction.prerequisites
    if valid then
      match reaction.results[0]? with
      | none => none
      | some result =>
        let g1 := transferParticleData g pos (Particle.new (rnd.rough i) result.type) true
        if result.particleTemp ≠ (-1 : ℚ) then
          let p := g1 pos
          some (g1.set pos { p with data := { p.data with
            temperature := max (rnd.roughTemp i result.particleTemp (1/10))
              p.data.temperature } })
        else some g1
    else reactionLoop rnd g pos neighbors rest (i + 1)

/-- The member function `checkAlchemyReactions(pos)`, run on the particle at `pos`. -/
def checkAlchemyReactions (rnd : ReactionDraws) (g : Grid) (pos : Int × Int) : Option Grid :=
  reactionLoop rnd g pos (getNeighbours pos) (g pos).data.reactions 0

/-! ## Decay, emissions and cloning -/

/-- The member function `checkHalfLifeExpired(pos)`, run on the particle at `pos`; `u` is the
value returned by `RNG<double>::getRange(0, 1)` and `rough` the jitter of the particle the
call may build. `none` when the decay fires and the end-of-life material was never assigned. -/
def checkHalfLifeExpired (rough : Jitter) (u : ℚ) (g : Grid) (pos : Int × Int) : Option Grid :=
  let data := (g pos).data
  if data.type ≠ ParticleType.EMPTY then
    if data.halflife ≠ -1 then
      if u < data.halflife then
        match data.endOfLifeType with
        | none => none
        | some t => some (transferParticleData g pos (Particle.new rough t) true)
      else some g
    else some g
  else some g

/-- The random inputs of one `attemptEmissions` call; the index is the number of the loop
iteration. -/
structure EmissionDraws where
  /-- The outcome of `std::shuffle` on the copied emission list. -/
  shuffle : List Emission → List Emission
  /-- The value returned by `RNG<double>::getRange(0, 1)`. -/
  draw : Nat → ℚ
  /-- The value returned by `rand()`. -/
  rand : Nat → Nat
  /-- The jitter of the particle built when the rule fires. -/
  rough : Nat → Jitter

/-- The emission loop of `attemptEmissions` from iteration `i` on. The local `emptyNeighbors`
is filled before the loop and no statement of the loop changes it. -/
def emissionLoop (rnd : EmissionDraws) (emptyNeighbors : List (Int × Int)) :
    List Emission → Nat → Grid → Grid
  | [], _, g => g
  | emission :: rest, i, g =>
    if h : emptyNeighbors = [] then g
    else if rnd.draw i < emission.halflife then
      let randomIndex := rnd.rand i % emptyNeighbors.length
      let target := emptyNeighbors.get
        ⟨randomIndex, Nat.mod_lt _ (List.length_pos.mpr h)⟩
      emissionLoop rnd emptyNeighbors rest (i + 1)
        (g.set target (Particle.new (rnd.rough i) emission.type))
    else emissionLoop rnd emptyNeighbors rest (i + 1) g

/-- The member function `attemptEmissions(pos)`, run on the particle at `pos`. -/
def attemptEmissions (rnd : EmissionDraws) (g : Grid) (pos : Int × Int) : Grid :=
  let neighbors := getNeighbours pos
  let emptyNeighbors := neighbors.filter
    (fun neighborPos => (g neighborPos).data.type = ParticleType.EMPTY)
  let emissions := rnd.shuffle (g pos).data.emissions
  emissionLoop rnd emptyNeighbors emissions 0 g

/-- The body of the neighbour loop of `clone`; the state is the member
`rememberedParticleType` and the local `emptyNeighbors`. -/
def cloneScan (g : Grid) (s : ParticleType × List (Int × Int)) (neighborPos : Int × Int) :
    ParticleType × List (Int × Int) :=
  let neighbor := g neighborPos
  if s.1 = ParticleType.EMPTY ∧ neighbor.data.type ≠ ParticleType.CLONE ∧
      neighbor.data.type ≠ ParticleType.EMPTY then
    (neighbor.data.type, s.2)
  else if neighbor.data.type = ParticleType.EMPTY then (s.1, s.2 ++ [neighborPos])
  else s

/-- The final block of `clone`: `s` holds the member `rememberedParticleType` and the local
`emptyNeighbors` after the neighbour loop; `rand` is the value returned by `rand()` and
`rough` the jitter of the particle the block may build. -/
def cloneSpawn (rough : Jitter) (rand : Nat) (g : Grid) (pos : Int × Int)
    (s : ParticleType × List (Int × Int)) : Grid :=
  let g1 := g.set pos { g pos with rememberedParticleType := s.1 }
  if h : s.1 ≠ ParticleType.EMPTY ∧ s.2 ≠ [] then
    let randomIndex := rand % s.2.length
    g1.set (s.2.get ⟨randomIndex, Nat.mod_lt _ (List.length_pos.mpr h.2)⟩)
      (Particle.new rough s.1)
  else g1

/-- The member function `clone(pos)`, run on the particle at `pos`, whose member
`rememberedParticleType` it updates. -/
def clone (rough : Jitter) (rand : Nat) (g : Grid) (pos : Int × Int) : Grid :=
  let neighbors := getNeighbours pos
  cloneSpawn rough rand g pos
    (neighbors.foldl (cloneScan g) ((g pos).rememberedParticleType, []))

/-! ## Scheduler -/

/-- The random inputs of the hooks run for one cell in one sweep. -/
structure HookDraws where
  /-- The jitter of the particle built by `checkHalfLifeExpired` or `clone`. -/
  rough : Jitter
  /-- The jitter of the particle built by a lower transition. -/
  roughLower : Jitter
  /-- The jitter of the particle built by an upper transition. -/
  roughUpper : Jitter
  /-- The uniform draw of `checkHalfLifeExpired`. -/
  draw : ℚ
  /-- The value returned by `rand()` in `clone`. -/
  rand : Nat
  /-- The draws of `checkAlchemyReactions`. -/
  reaction : ReactionDraws
  /-- The draws of `attemptEmissions`. -/
  emission : EmissionDraws

/-- The call `(this->*action)(pos)` of `performSpecialActions`, for each member function the
constructor can attach. -/
def runHook (rnd : HookDraws) (pos : Int × Int) : SpecialAction → Grid → Option Grid
  | .clone, g => some (clone rnd.rough rnd.rand g pos)
  | .checkHalfLifeExpired, g => checkHalfLifeExpired rnd.rough rnd.draw g pos
  | .transferHeatFirstPass, g => some (transferHeatFirstPass g pos)
  | .transferHeatSecondPass, g => transferHeatSecondPass rnd.roughLower rnd.roughUpper g pos
  | .checkAlchemyReactions, g => checkAlchemyReactions rnd.reaction g pos
  | .attemptEmissions, g => some (attemptEmissions rnd.emission g pos)

/-- Whether the rule loop of `checkAlchemyReactions` from rule number `i` on reaches its call
of `transferParticleData`: some rule has its `valid` flag set. -/
def reactionAssigns (rnd : ReactionDraws) (g : Grid) (neighbors : List (Int × Int)) :
    List AlchemicReaction → Nat → Bool
  | [], _ => false
  | reaction :: rest, i =>
    let valid : Bool := rnd.draw i < reaction.halflife
    let valid := checkPrerequisites g neighbors valid reaction.prerequisites
    if valid then true else reactionAssigns rnd g neighbors rest (i + 1)

/-- The test of the lower-transition block of `transferHeatSecondPass`. -/
def lowerTransitionFires (g : Grid) (pos : Int × Int) : Bool :=
  (g pos).data.lowerTransitionPoint ≠ -1 ∧
    (g pos).data.temperature < (g pos).data.lowerTransitionPoint

/-- The test of the upper-transition block of `transferHeatSecondPass`. -/
def upperTransitionFires (g : Grid) (pos : Int × Int) : Bool :=
  (g pos).data.upperTransitionPoint ≠ upperSentinel ∧
    (g pos).data.temperature > (g pos).data.upperTransitionPoint

/-- Whether the call `(this->*action)(pos)` assigns the particle of `pos`, that is, reaches a
call `transferParticleData(pos, ...)`: the decay check when the decay fires, the heat second
pass when one of its two transitions fires, the reaction check when a rule fires. `clone` and
`attemptEmissions` assign neighbours only, and `transferHeatFirstPass` assigns no particle. -/
def hookAssigns (rnd : HookDraws) (pos : Int × Int) : SpecialAction → Grid → Bool
  | .clone, _ => false
  | .checkHalfLifeExpired, g =>
    (g pos).data.type ≠ ParticleType.EMPTY ∧ (g pos).data.halflife ≠ -1 ∧
      rnd.draw < (g pos).data.halflife
  | .transferHeatFirstPass, _ => false
  | .transferHeatSecondPass, g =>
    lowerTransitionFires (applyHeat g pos) pos ||
      match lowerTransition rnd.roughLower (applyHeat g pos) pos with
      | none => false
      | some g1 => upperTransitionFires g1 pos
  | .checkAlchemyReactions, g =>
    reactionAssigns rnd.reaction g (getNeighbours pos) (g pos).data.reactions 0
  | .attemptEmissions, _ => false

/-- The call `(this->*action)(pos)` as `performSpecialActions` sees it: the grid the member
function leaves, and whether the call has assigned the particle of `pos`. -/
def callHook (rnd : HookDraws) (pos : Int × Int) (action : SpecialAction) (g : Grid) :
    Option (Bool × Grid) :=
  (runHook rnd pos action g).map fun g1 => (hookAssigns rnd pos action g, g1)

/-- The call `particle.performSpecialActions(actions, pos)` of `UpdateParticles` on the grid,
`actions` being a hook vector of the particle stored at `pos` when the call is made. -/
def runHooks (rnd : HookDraws) (pos : Int × Int) (actions : List SpecialAction) (g : Grid) :
    Option Grid :=
  performSpecialActions (callHook rnd pos) actions g

/-- The random inputs of one `UpdateParticles` call; the index is the number of the visit
inside a sweep. -/
structure TickDraws where
  /-- The outcome of `std::shuffle` on `positions`. -/
  shuffle : List (Int × Int) → List (Int × Int)
  /-- The draws of the `MoveParticle` call of a visit of the main sweep. -/
  move : Nat → MoveDraws
  /-- The draws of the pre-frame hooks of a visit. -/
  pre : Nat → HookDraws
  /-- The draws of the normal hooks of a visit. -/
  main : Nat → HookDraws
  /-- The draws of the post-frame hooks of a visit. -/
  post : Nat → HookDraws

/-- The body of the first loop of `UpdateParticles`. -/
def preVisit (rnd : TickDraws) (i : Nat) (pos : Int × Int) (g : Grid) : Option Grid :=
  let particle := g pos
  runHooks (rnd.pre i) pos particle.specialPreActions g

/-- The body of the second loop of `UpdateParticles`. `particle` is a reference to the cell,
so the hooks run after `MoveParticle` are those of the particle that is then in the cell.
`MoveParticle` gets one unit of fuel more than the table has tiers. -/
def mainVisit (rnd : TickDraws) (i : Nat) (pos : Int × Int) (g : Grid) : Option Grid :=
  let particle := g pos
  (if particle.data.type ≠ ParticleType.EMPTY then
      MoveParticle (particle.data.movementDirections.length + 1) (rnd.move i) g pos particle
    else some g).bind fun g1 =>
    runHooks (rnd.main i) pos (g1 pos).specialActions g1

/-- The body of the third loop of `UpdateParticles`. The vector handed to
`performSpecialActions` is the post-frame vector of the particle stored at `pos`; a hook that
replaces this particle overwrites that vector, which ends the run as undefined. -/
def postVisit (rnd : TickDraws) (i : Nat) (pos : Int × Int) (g : Grid) : Option Grid :=
  let particle := g pos
  runHooks (rnd.post i) pos particle.specialPostActions g

/-- A loop `for (const auto& pos : positions)` with body `visit`, from visit number `i` on. -/
def sweep {σ : Type} (visit : Nat → Int × Int → σ → Option σ) :
    List (Int × Int) → Nat → σ → Option σ
  | [], _, s => some s
  | pos :: rest, i, s => (visit i pos s).bind (sweep visit rest (i + 1))

/-- The control flow of `UpdateParticles` for given loop bodies: one shuffle of `positions`,
then the three loops over the shuffled list. The shuffled list stays in the global. -/
def UpdateParticlesWith {σ : Type} (shuffle : List (Int × Int) → List (Int × Int))
    (pre main post : Nat → Int × Int → σ → Option σ) (positions : List (Int × Int)) (s : σ) :
    Option (List (Int × Int) × σ) :=
  let positions := shuffle positions
  (sweep pre positions 0 s).bind fun s1 =>
    (sweep main positions 0 s1).bind fun s2 =>
      (sweep post positions 0 s2).map fun s3 => (positions, s3)

/-- The function `UpdateParticles()` on the globals `positions` and `grid`. -/
def UpdateParticles (rnd : TickDraws) (positions : List (Int × Int)) (g : Grid) :
    Option (List (Int × Int) × Grid) :=
  UpdateParticlesWith rnd.shuffle (preVisit rnd) (mainVisit rnd) (postVisit rnd) positions g

/-- The global `positions` as `main` fills it before the first frame. -/
def initPositions : List (Int × Int) :=
  (intRange 0 (GRID_WIDTH - 1)).flatMap fun x =>
    (intRange 0 (GRID_HEIGHT - 1)).map fun y => (x, y)

/-- The grid after `InitializeGrid()`; `rough` gives the jitter of the particle of a cell. -/
def InitializeGrid (rough : Int × Int → Jitter) : Grid :=
  fun pos => Particle.new (rough pos) .EMPTY

/-! ## Auxiliary definitions for the statements -/

/-- The directions listed across all tiers of a table, in table order. -/
def tableDirections (tbl : List Tier) : List (Int × Int) := (tbl.map Prod.snd).flatten

/-- Weight vectors that `interpolateWeights` can return: eight non-negative entries with a
positive sum. -/
def GoodWeights (w : List ℚ) : Prop :=
  w.length = 8 ∧ (∀ x ∈ w, 0 ≤ x) ∧ 0 < w.sum

/-- The materials of the catalog whose entry builds a movement table. -/
def moverTypes : List ParticleType :=
  [.SAND, .WATER, .METHANE, .FIRE, .SMOKE, .STEAM, .STONE, .DUST, .LAVA, .PLASMA, .MERCURY, .OIL]

/-- The swap condition in the words of the specification, for a uniform draw `u`, the mover's
density `d1` and the target's density `d2`. -/
def swapCondition (u d1 d2 : ℚ) : Prop :=
  0 < d1 ∧ 0 < d2 ∧ d1 ≠ d2 ∧
    ((d1 < 6/5 ∧ d1 < d2 ∧ u < min d1 d2 / max d1 d2) ∨
     (6/5 ≤ d1 ∧ d2 < d1 ∧ u < 1 - min d1 d2 / max d1 d2))

instance (u d1 d2 : ℚ) : Decidable (swapCondition u d1 d2) := by
  unfold swapCondition
  exact inferInstance

/-- What a step can do to the grid: nothing when it fails; when it succeeds, the origin is
cleared in front of an eraser, or the mover is relocated into an empty cell and the origin
cleared, or the origin is swapped with a cell, the last only from a call at depth 0 or below. -/
def StepEffect (rough : Jitter) (g : Grid) (firstPos : Int × Int) (particle : Particle)
    (depth : Int) (r : Bool × Grid) : Prop :=
  (r.1 = false ∧ r.2 = g) ∨
  (r.1 = true ∧
    ((∃ t, (g t).data.type = ParticleType.ERASER ∧
        r.2 = g.set firstPos (Particle.new rough .EMPTY)) ∨
     (∃ t, (g t).data.type = ParticleType.EMPTY ∧
        r.2 = (g.set t particle).set firstPos (Particle.new rough .EMPTY)) ∨
     (depth ≤ 0 ∧ ∃ t, r.2 = g.swap firstPos t)))

/-! ## Sample inputs -/

/-- A jitter that returns every nominal value unchanged. -/
def exactJitter : Jitter := fun _ value _ => value

/-- A grid that holds `a` at (5, 5), `b` at (5, 4), `c` at (6, 5) and is EMPTY elsewhere. -/
def sampleGrid (a b c : ParticleType) : Grid := fun q =>
  if q = (5, 5) then Particle.new exactJitter a
  else if q = (5, 4) then Particle.new exactJitter b
  else if q = (6, 5) then Particle.new exactJitter c
  else Particle.new exactJitter .EMPTY

/-- Draws for `MoveParticle`: every range draw returns its lower end, shuffles keep the order,
every swap draw is 0 and no value is jittered. -/
def sampleDraws : MoveDraws :=
  { getRange := fun _ lo _ => lo
    shuffle := fun _ l => l
    swapDraw := fun _ _ => 0
    rough := fun _ _ => exactJitter }

/-! ## Auxiliary definitions for the thermal, hook and reaction claims -/

/-- The eight cells around `pos`, in the scan order of `getMooreNeighbours`. -/
def mooreCandidates (pos : Int × Int) : List (Int × Int) :=
  [(pos.1 - 1, pos.2 - 1), (pos.1 - 1, pos.2), (pos.1 - 1, pos.2 + 1),
   (pos.1, pos.2 - 1), (pos.1, pos.2 + 1),
   (pos.1 + 1, pos.2 - 1), (pos.1 + 1, pos.2), (pos.1 + 1, pos.2 + 1)]

/-- The test of both thermal passes for a particle that conducts heat. -/
def conductsHeat (p : Particle) : Prop :=
  p.data.thermalConductivity > 0 ∧ p.data.specificHeatCapacity > 0

instance (p : Particle) : Decidable (conductsHeat p) := by
  unfold conductsHeat
  exact inferInstance

/-- The exchange amount of the specification for the cell `s`, its neighbour `j` and the
neighbour count `n`: `0.5 * min(k_s, k_j) * (T_s - T_j) / ((c_s + c_j) * n)`. -/
def heatExchange (s j : Particle) (n : ℚ) : ℚ :=
  (1/2) * min s.data.thermalConductivity j.data.thermalConductivity *
    (s.data.temperature - j.data.temperature) /
    ((s.data.specificHeatCapacity + j.data.specificHeatCapacity) * n)

/-- A particle with `dh` added to its pending heat and nothing else changed. -/
def Particle.addHeat (p : Particle) (dh : ℚ) : Particle :=
  { p with data := { p.data with heatReceived := p.data.heatReceived + dh } }

/-- The test under which the neighbour loop of `transferHeatFirstPass` exchanges heat between
the cell `s` and its neighbour `j`. -/
def exchanges (s j : Particle) : Prop :=
  conductsHeat j ∧ s.data.specificHeatCapacity + j.data.specificHeatCapacity > 0

instance (s j : Particle) : Decidable (exchanges s j) := by
  unfold exchanges
  exact inferInstance

/-- The pending heat that one `transferHeatFirstPass` call on `pos` takes from the cell at
`pos`, summed over the neighbours `ns`. -/
def heatGivenOff (g : Grid) (pos : Int × Int) (n : ℚ) (ns : List (Int × Int)) : ℚ :=
  (ns.map (fun j =>
    if exchanges (g pos) (g j) then
      heatExchange (g pos) (g j) n *
        ((g j).data.specificHeatCapacity / (g pos).data.specificHeatCapacity)
    else 0)).sum

/-- The change of the pending heat of the cell `q` made by one `transferHeatFirstPass` call
on `pos` with the neighbour list `ns`. -/
def heatDelta (g : Grid) (pos : Int × Int) (n : ℚ) (ns : List (Int × Int)) (q : Int × Int) :
    ℚ :=
  if q = pos then - heatGivenOff g pos n ns
  else if q ∈ ns ∧ exchanges (g pos) (g q) then
    heatExchange (g pos) (g q) n *
      ((g pos).data.specificHeatCapacity / (g q).data.specificHeatCapacity)
  else 0

/-- A grid that holds `a` at (5, 5), `b` at (5, 4) and EMPTY particles elsewhere. -/
def twoCellGrid (a b : Particle) : Grid := fun q =>
  if q = (5, 5) then a
  else if q = (5, 4) then b
  else Particle.new exactJitter .EMPTY

/-- A particle with its temperature replaced. -/
def Particle.withTemperature (p : Particle) (temperature : ℚ) : Particle :=
  { p with data := { p.data with temperature := temperature } }

/-- A jitter that raises the specific heat capacity by one percent, the largest deviation
`getRoughly(c, 0.01)` allows, and returns every other nominal value unchanged. -/
def capJitter : Jitter := fun site value _ =>
  if site = JitterSite.specificHeatCapacity then value * (101/100) else value

/-- The thermal energy `c_A * T_A + c_B * T_B` of the cells `a` and `b`. -/
def thermalEnergy (g : Grid) (a b : Int × Int) : ℚ :=
  (g a).data.specificHeatCapacity * (g a).data.temperature +
    (g b).data.specificHeatCapacity * (g b).data.temperature

/-- One full thermal round of a two-cell system: the first pass on `a`, the first pass on `b`,
the second pass on `a`, the second pass on `b`. -/
def twoCellRound (r1 r2 r3 r4 : Jitter) (g : Grid) (a b : Int × Int) : Option Grid :=
  (transferHeatSecondPass r1 r2 (transferHeatFirstPass (transferHeatFirstPass g a) b) a).bind
    fun g3 => transferHeatSecondPass r3 r4 g3 b

/-- A jitter that raises a lower transition point by 0.7 percent (within the one percent of
`getRoughly(point, 0.01)`) and returns every other nominal value unchanged. -/
def raisedLowerJitter : Jitter := fun site value _ =>
  if site = JitterSite.lowerTransitionPoint then value * (1007/1000) else value

/-- A jitter that lowers an upper transition point by 0.7 percent (within the one percent of
`getRoughly(point, 0.01)`) and returns every other nominal value unchanged. -/
def loweredUpperJitter : Jitter := fun site value _ =>
  if site = JitterSite.upperTransitionPoint then value * (993/1000) else value

/-- The function `altsoftmax` with its division made explicit: `none` as soon as a division
`weights[i] / sum` with `sum = 0` is executed. -/
def altsoftmaxChecked (weights : List ℚ) : Option (List ℚ) :=
  let sum := weights.foldl (fun acc w => acc + w) 0
  weights.mapM (fun w => if w > 0 then (if sum = 0 then none else some (w / sum)) else some 0)

/-- The band anchors of `interpolateWeights`, in ascending order; anchor `k` belongs to row
`k` of the weight templates. -/
def bandAnchors : List ℚ := [1/100, 1/4, 1, 6/5, 7/5, 1000, 2000]

/-- The six blending bands of `interpolateWeights`: index of the lower row, lower anchor,
upper anchor. -/
def bands : List (Nat × ℚ × ℚ) :=
  [(0, 1/100, 1/4), (1, 1/4, 1), (2, 1, 6/5), (3, 6/5, 7/5), (4, 7/5, 1000), (5, 1000, 2000)]

/-- The direction order claimed for the weight vectors: up; up-diagonals; horizontals;
down-diagonals; down. -/
def claimedDirections : List (Int × Int) :=
  [(0, 1), (-1, 1), (1, 1), (-1, 0), (1, 0), (-1, -1), (1, -1), (0, -1)]

/-- The post-pass hook order claimed for the constructor: heat second pass, decay check,
reaction check, emission attempt. -/
def claimedPostOrder : List SpecialAction :=
  [.transferHeatSecondPass, .checkHalfLifeExpired, .checkAlchemyReactions, .attemptEmissions]

/-- The order in which the constructor of `Particle` pushes the post-pass hooks. -/
def constructorPostOrder : List SpecialAction :=
  [.checkHalfLifeExpired, .transferHeatSecondPass, .checkAlchemyReactions, .attemptEmissions]

/-- A hook call that also records the hook at the end of a trace of the calls made. -/
def recordHook {σ : Type} (run : SpecialAction → σ → Option (Bool × σ))
    (action : SpecialAction) (s : σ × List SpecialAction) :
    Option (Bool × (σ × List SpecialAction)) :=
  (run action s.1).map fun r => (r.1, (r.2, s.2 ++ [action]))

/-- The firing condition of a reaction rule: the draw of the rule is below its halflife and
every prerequisite material is held by at least one of the neighbours. -/
def ruleFires (rnd : ReactionDraws) (g : Grid) (neighbors : List (Int × Int)) (i : Nat)
    (reaction : AlchemicReaction) : Prop :=
  rnd.draw i < reaction.halflife ∧
    ∀ prerequisite ∈ reaction.prerequisites,
      ∃ n ∈ neighbors, (g n).data.type = prerequisite.type

/-- The prerequisites of a rule are all present among the neighbours. -/
def prerequisitesPresent (g : Grid) (neighbors : List (Int × Int))
    (reaction : AlchemicReaction) : Prop :=
  ∀ prerequisite ∈ reaction.prerequisites,
    ∃ n ∈ neighbors, (g n).data.type = prerequisite.type

/-- The grid after rule `i` has fired with the outcome `result`. -/
def fireRule (rnd : ReactionDraws) (g : Grid) (pos : Int × Int) (i : Nat)
    (result : AlchemicResults) : Grid :=
  let g1 := transferParticleData g pos (Particle.new (rnd.rough i) result.type) true
  if result.particleTemp ≠ (-1 : ℚ) then
    let p := g1 pos
    g1.set pos { p with data := { p.data with
      temperature := max (rnd.roughTemp i result.particleTemp (1/10)) p.data.temperature } }
  else g1

/-- Draws for `checkAlchemyReactions`: every uniform draw is 0 and no value is jittered. -/
def sampleReactionDraws : ReactionDraws :=
  { draw := fun _ => 0
    rough := fun _ => exactJitter
    roughTemp := fun _ value _ => value }

/-! ## Auxiliary definitions for the decay, emission, clone and scheduler claims -/

/-- The test of the neighbour loop of `clone` for a material that can be remembered. -/
def cloneable (g : Grid) (neighborPos : Int × Int) : Bool :=
  (g neighborPos).data.type ≠ ParticleType.CLONE ∧
    (g neighborPos).data.type ≠ ParticleType.EMPTY

/-- The neighbours of `pos` that hold EMPTY, in scan order. -/
def emptyNeighbours (g : Grid) (pos : Int × Int) : List (Int × Int) :=
  (getNeighbours pos).filter (fun neighborPos => (g neighborPos).data.type = ParticleType.EMPTY)

/-- The remembered type after one `clone` call: sticky once it is not EMPTY, otherwise the
type of the first neighbour in scan order that is neither EMPTY nor CLONE, if there is one. -/
def rememberedAfter (g : Grid) (pos : Int × Int) : ParticleType :=
  if (g pos).rememberedParticleType ≠ ParticleType.EMPTY then (g pos).rememberedParticleType
  else
    match (getNeighbours pos).find? (cloneable g) with
    | some neighborPos => (g neighborPos).data.type
    | none => ParticleType.EMPTY

/-- A BURNING_WOOD particle whose emission list holds two rules, FIRE and SMOKE, each with
probability 1. -/
def doubleEmitter : Particle :=
  let p := Particle.new exactJitter .BURNING_WOOD
  { p with data := { p.data with emissions := [⟨.FIRE, 1⟩, ⟨.SMOKE, 1⟩] } }

/-- A grid that holds `doubleEmitter` at (5, 5), EMPTY at (5, 4) and WALL elsewhere. -/
def walledGrid : Grid := fun q =>
  if q = (5, 5) then doubleEmitter
  else if q = (5, 4) then Particle.new exactJitter .EMPTY
  else Particle.new exactJitter .WALL

/-- Draws for `attemptEmissions`: the shuffle keeps the order, every uniform draw is 0, every
`rand()` is 0 and no value is jittered. -/
def sampleEmissionDraws : EmissionDraws :=
  { shuffle := fun l => l
    draw := fun _ => 0
    rand := fun _ => 0
    rough := fun _ => exactJitter }

/-- The three loops of `UpdateParticles`. -/
inductive SweepPhase where
  | pre
  | main
  | post
  deriving DecidableEq, Repr

/-- A loop body that also records its visit at the end of a trace. -/
def traced {σ : Type} (phase : SweepPhase) (visit : Nat → Int × Int → σ → Option σ) :
    Nat → Int × Int → σ × List (SweepPhase × (Int × Int)) →
      Option (σ × List (SweepPhase × (Int × Int))) :=
  fun i pos s => (visit i pos s.1).map fun s1 => (s1, s.2 ++ [(phase, pos)])

/-- The visits of one `UpdateParticles` call for the visiting order `order`: the whole
pre-pass, then the whole main pass, then the whole post-pass, each in that order. -/
def tickTrace (order : List (Int × Int)) : List (SweepPhase × (Int × Int)) :=
  order.map (fun pos => (SweepPhase.pre, pos)) ++
    (order.map (fun pos => (SweepPhase.main, pos)) ++
      order.map (fun pos => (SweepPhase.post, pos)))

/-- Draws for the hooks of one visit: every uniform draw is 0, every `rand()` is 0 and no
value is jittered. -/
def sampleHookDraws : HookDraws :=
  { rough := exactJitter
    roughLower := exactJitter
    roughUpper := exactJitter
    draw := 0
    rand := 0
    reaction := sampleReactionDraws
    emission := sampleEmissionDraws }

/-- Draws for the hooks of one visit under which neither the decay check nor a reaction rule
fires: every uniform draw is 1; `rand()` is 0 and no value is jittered. -/
def calmHookDraws : HookDraws :=
  { sampleHookDraws with
    draw := 1
    reaction := { sampleReactionDraws with draw := fun _ => 1 } }

/-- Draws for `UpdateParticles`: the shuffle keeps the order and every visit uses
`sampleDraws` and `sampleHookDraws`. -/
def sampleTick : TickDraws :=
  { shuffle := fun l => l
    move := fun _ => sampleDraws
    pre := fun _ => sampleHookDraws
    main := fun _ => sampleHookDraws
    post := fun _ => sampleHookDraws }

/-- A visiting order of all grid positions that starts with (5, 5) and (5, 4). -/
def revisitOrder : List (Int × Int) :=
  (5, 5) :: (5, 4) :: initPositions.filter (fun p => p ≠ (5, 5) ∧ p ≠ (5, 4))

/-- The draws of `sampleTick` with a shuffle that yields `revisitOrder`. -/
def revisitTick : TickDraws :=
  { sampleTick with shuffle := fun _ => revisitOrder }

/-- Modelled from the spec: the outcomes that `getRoughly(x, f)` (declared in `Game.h`, not
among the sources) can return: "roughly x, within fraction f", a value whose distance from
`x` is at most the fraction `f` of the size of `x`. -/
def admissibleJitter (rough : Jitter) : Prop :=
  ∀ (site : JitterSite) (value fraction : ℚ), 0 ≤ fraction →
    |rough site value fraction - value| ≤ fraction * |value|

/-- A jitter that returns every nominal value raised by half of the allowed fraction. -/
def raisedJitter : Jitter := fun _ value fraction => value * (1 + fraction / 2)

/-! ## Auxiliary definitions for the table, chain, neighbourhood, matter and tick claims -/

/-- The per-direction probability of a tier: its stored weight divided by the number of its
directions. -/
def tierProb (t : Tier) : ℚ := t.1 / (t.2.length : ℚ)

/-- The invariant of the grouping loop of `getMovementDirectionsFromDensity` over the paired
list `pairs` of directions and probabilities: every finished tier and the current tier hold
directions of one common probability, carry the member count times that probability, and
the common probabilities strictly decrease up to `currentProbability`. -/
def GroupInv (pairs : List DirProb) (s : GroupState) : Prop :=
  (s.1.map tierProb).Pairwise (fun a b => a > b) ∧
  (∀ t ∈ s.1, tierProb t > s.2.2 ∧ t.2 ≠ [] ∧ t.1 = (t.2.length : ℚ) * tierProb t ∧
    ∀ d ∈ t.2, (d, tierProb t) ∈ pairs) ∧
  s.2.1.2 ≠ [] ∧ s.2.1.1 = (s.2.1.2.length : ℚ) * s.2.2 ∧
  ∀ d ∈ s.2.1.2, (d, s.2.2) ∈ pairs

/-- The cell `T_i` of the horizontal chain of a step from `p` in the direction `direction`:
`T_1 = p + direction` and `T_(i+1) = T_i + (direction.1, 0)`. -/
def chainCell (p direction : Int × Int) (i : Nat) : Int × Int :=
  (p.1 + (i : Int) * direction.1, p.2 + direction.2)

/-- A cell in bounds that holds a fluid material with a non-empty movement table. -/
def fluidCell (g : Grid) (q : Int × Int) : Prop :=
  isValidIndex q.1 q.2 = true ∧ (g q).data.type ≠ ParticleType.EMPTY ∧
    (g q).data.type ≠ ParticleType.ERASER ∧ (g q).data.state = ParticleState.FLUID ∧
    (g q).data.movementDirections ≠ []

/-- The Chebyshev distance of two positions. -/
def chebyshev (p q : Int × Int) : Int := max |p.1 - q.1| |p.2 - q.2|

/-- What a step writes: nothing when it fails; when it succeeds there is an in-bounds target
`t` such that the origin is cleared in front of the ERASER at `t`, or the mover is stored in
the EMPTY cell `t` and the origin cleared, or the origin is swapped with `t`, which holds a
material other than EMPTY and ERASER with a non-empty movement table. -/
def StepWrites (rough : Jitter) (g : Grid) (firstPos : Int × Int) (particle : Particle)
    (r : Bool × Grid) : Prop :=
  (r.1 = false ∧ r.2 = g) ∨
  (r.1 = true ∧ ∃ t : Int × Int, isValidIndex t.1 t.2 = true ∧
    (((g t).data.type = ParticleType.ERASER ∧
        r.2 = g.set firstPos (Particle.new rough .EMPTY)) ∨
     ((g t).data.type = ParticleType.EMPTY ∧
        r.2 = (g.set t particle).set firstPos (Particle.new rough .EMPTY)) ∨
     ((g t).data.type ≠ ParticleType.EMPTY ∧ (g t).data.type ≠ ParticleType.ERASER ∧
        (g t).data.movementDirections ≠ [] ∧ r.2 = g.swap firstPos t)))

/-- The contents of the non-EMPTY cells of the grid, in the order of `initPositions`. -/
def matter (g : Grid) : List Particle :=
  (initPositions.map g).filter (fun p => decide (p.data.type ≠ ParticleType.EMPTY))

/-- The assignments `grid[target] = Particle(emission.type)` made by the emission loop from
iteration `i` on, in order: one for each rule whose draw is below its probability, as long as
the list of empty neighbours is not empty. -/
def emissionWrites (rnd : EmissionDraws) (emptyNeighbors : List (Int × Int)) :
    List Emission → Nat → List ((Int × Int) × Particle)
  | [], _ => []
  | emission :: rest, i =>
    if h : emptyNeighbors = [] then []
    else if rnd.draw i < emission.halflife then
      (emptyNeighbors.get ⟨rnd.rand i % emptyNeighbors.length,
          Nat.mod_lt _ (List.length_pos.mpr h)⟩,
        Particle.new (rnd.rough i) emission.type) ::
        emissionWrites rnd emptyNeighbors rest (i + 1)
    else emissionWrites rnd emptyNeighbors rest (i + 1)

/-- The grid after a list of cell assignments. -/
def applyWrites (g : Grid) (writes : List ((Int × Int) × Particle)) : Grid :=
  writes.foldl (fun g w => g.set w.1 w.2) g

/-- The sum over the cells of the grid of temperature plus pending heat. -/
def heatBudget (g : Grid) : ℚ :=
  (initPositions.map (fun q => (g q).data.temperature + (g q).data.heatReceived)).sum

/-- The particle `p1` has the hooks and the two thermal constants of `p`, and its pending
heat is that of `p` or 0. -/
def Retouched (p p1 : Particle) : Prop :=
  p1.specialPreActions = p.specialPreActions ∧ p1.specialActions = p.specialActions ∧
  p1.specialPostActions = p.specialPostActions ∧
  p1.data.thermalConductivity = p.data.thermalConductivity ∧
  p1.data.specificHeatCapacity = p.data.specificHeatCapacity ∧
  (p1.data.heatReceived = p.data.heatReceived ∨ p1.data.heatReceived = 0)

/-- The particle `p1` is a particle built by the constructor, retouched. -/
def Constructed (p1 : Particle) : Prop :=
  ∃ rough t, Retouched (Particle.new rough t) p1

/-- What a hook other than `transferHeatFirstPass` run at `pos` does to the grid: the particle
of `pos` is retouched or replaced by a constructed one, and any other cell is left as it was
or, when it held EMPTY, receives a constructed particle. -/
def HookEffect (g g1 : Grid) (pos : Int × Int) : Prop :=
  (Retouched (g pos) (g1 pos) ∨ Constructed (g1 pos)) ∧
  ∀ q, q ≠ pos → g1 q = g q ∨ ((g q).data.type = ParticleType.EMPTY ∧ Constructed (g1 q))

theorem thermalJitter_fields (rough : Jitter) (d : generalParticleData) :
    (thermalJitter rough d).type = d.type ∧ (thermalJitter rough d).state = d.state ∧
    (thermalJitter rough d).density = d.density ∧
    (thermalJitter rough d).movementDirections = d.movementDirections := by
  unfold thermalJitter
  simp only
  split_ifs <;> exact ⟨rfl, rfl, rfl, rfl⟩

theorem new_fields (rough : Jitter) (t : ParticleType) :
    (Particle.new rough t).data.type = (getParticleData rough t).type ∧
    (Particle.new rough t).data.state = (getParticleData rough t).state ∧
    (Particle.new rough t).data.density = (getParticleData rough t).density ∧
    (Particle.new rough t).data.movementDirections
      = (getParticleData rough t).movementDirections := by
  unfold Particle.new
  simp only
  split_ifs
  · exact thermalJitter_fields rough _
  · exact ⟨rfl, rfl, rfl, rfl⟩

theorem getParticleData_type (rough : Jitter) (t : ParticleType) :
    (getParticleData rough t).type = t := by
  cases t <;> simp [getParticleData, catalogEntry, withMovement, withThermal, defaultParticleData]

theorem new_type (rough : Jitter) (t : ParticleType) : (Particle.new rough t).data.type = t := by
  rw [(new_fields rough t).1, getParticleData_type]

theorem fresh_empty_type (rough : Jitter) :
    (Particle.new rough .EMPTY).data.type = ParticleType.EMPTY := new_type rough .EMPTY

/-! ## The movement tables of the catalog -/

theorem weights_SAND : interpolateWeights .POWDER 1700
    = some [0, 0, 0, 0, 0, 1, 27/125, 27/125] := by
  norm_num [interpolateWeights, selectWeights, powder_weights, blendBand, blendRows, smoothstep, clamp]

theorem table_SAND : getMovementDirectionsFromDensity .POWDER 1700
    = some [(125/179, [(0, -1)]), (54/179, [(-1, -1), (1, -1)])] := by
  rw [getMovementDirectionsFromDensity, weights_SAND]
  norm_num [altsoftmax, directions, List.insertionSort, List.orderedInsert, probGE, groupStep]
  all_goals exact List.cons_ne_nil _ _

theorem weights_WATER : interpolateWeights .FLUID 998
    = some [0, 0, 0, 124489197757/1244757346570, 124489197757/1244757346570, 1, 1, 1] := by
  norm_num [interpolateWeights, selectWeights, fluid_weights, blendBand, blendRows, smoothstep, clamp]

theorem table_WATER : getMovementDirectionsFromDensity .FLUID 998
    = some [(1867136019855/1991625217612, [(0, -1), (-1, -1), (1, -1)]), (124489197757/1991625217612, [(-1, 0), (1, 0)])] := by
  rw [getMovementDirectionsFromDensity, weights_WATER]
  norm_num [altsoftmax, directions, List.insertionSort, List.orderedInsert, probGE, groupStep]
  all_goals exact List.cons_ne_nil _ _

theorem weights_METHANE : interpolateWeights .GAS (65/100)
    = some [1, 1, 1, 1856/3375, 1856/3375, 0, 0, 0] := by
  norm_num [interpolateWeights, selectWeights, gas_weights, blendBand, blendRows, smoothstep, clamp]

theorem table_METHANE : getMovementDirectionsFromDensity .GAS (65/100)
    = some [(10125/13837, [(0, 1), (-1, 1), (1, 1)]), (3712/13837, [(-1, 0), (1, 0)])] := by
  rw [getMovementDirectionsFromDensity, weights_METHANE]
  norm_num [altsoftmax, directions, List.insertionSort, List.orderedInsert, probGE, groupStep]
  all_goals exact List.cons_ne_nil _ _

theorem weights_FIRE : interpolateWeights .GAS (3/10)
    = some [1, 1, 1, 43/3375, 43/3375, 0, 0, 0] := by
  norm_num [interpolateWeights, selectWeights, gas_weights, blendBand, blendRows, smoothstep, clamp]

theorem table_FIRE : getMovementDirectionsFromDensity .GAS (3/10)
    = some [(10125/10211, [(0, 1), (-1, 1), (1, 1)]), (86/10211, [(-1, 0), (1, 0)])] := by
  rw [getMovementDirectionsFromDensity, weights_FIRE]
  norm_num [altsoftmax, directions, List.insertionSort, List.orderedInsert, probGE, groupStep]
  all_goals exact List.cons_ne_nil _ _

theorem weights_SMOKE : interpolateWeights .GAS (6/5)
    = some [1, 1, 1, 1, 1, 1, 1, 1] := by
  norm_num [interpolateWeights, selectWeights, gas_weights, blendBand, blendRows, smoothstep, clamp]

theorem table_SMOKE : getMovementDirectionsFromDensity .GAS (6/5)
    = some [(1, [(0, 1), (-1, 1), (1, 1), (-1, 0), (1, 0), (0, -1), (-1, -1), (1, -1)])] := by
  rw [getMovementDirectionsFromDensity, weights_SMOKE]
  norm_num [altsoftmax, directions, List.insertionSort, List.orderedInsert, probGE, groupStep]
  all_goals exact List.cons_ne_nil _ _

theorem weights_STEAM : interpolateWeights .GAS (6/10)
    = some [1, 1, 1, 1519/3375, 1519/3375, 0, 0, 0] := by
  norm_num [interpolateWeights, selectWeights, gas_weights, blendBand, blendRows, smoothstep, clamp]

theorem table_STEAM : getMovementDirectionsFromDensity .GAS (6/10)
    = some [(10125/13163, [(0, 1), (-1, 1), (1, 1)]), (3038/13163, [(-1, 0), (1, 0)])] := by
  rw [getMovementDirectionsFromDensity, weights_STEAM]
  norm_num [altsoftmax, directions, List.insertionSort, List.orderedInsert, probGE, groupStep]
  all_goals exact List.cons_ne_nil _ _

theorem weights_STONE : interpolateWeights .SOLID 2800
    = some [0, 0, 0, 0, 0, 1, 0, 0] := by
  norm_num [interpolateWeights, selectWeights, solid_weights, blendBand, blendRows, smoothstep, clamp]

theorem table_STONE : getMovementDirectionsFromDensity .SOLID 2800
    = some [(1, [(0, -1)])] := by
  rw [getMovementDirectionsFromDensity, weights_STONE]
  norm_num [altsoftmax, directions, List.insertionSort, List.orderedInsert, probGE, groupStep]

theorem weights_DUST : interpolateWeights .POWDER 49
    = some [0, 0, 0, 123654226725/124475734657, 123654226725/124475734657, 1, 1, 1] := by
  norm_num [interpolateWeights, selectWeights, powder_weights, blendBand, blendRows, smoothstep, clamp]

theorem table_DUST : getMovementDirectionsFromDensity .POWDER 49
    = some [(124475734657/206911885807, [(0, -1), (-1, -1), (1, -1)]), (82436151150/206911885807, [(-1, 0), (1, 0)])] := by
  rw [getMovementDirectionsFromDensity, weights_DUST]
  norm_num [altsoftmax, directions, List.insertionSort, List.orderedInsert, probGE, groupStep]
  all_goals exact List.cons_ne_nil _ _

theorem weights_LAVA : interpolateWeights .FLUID 2900
    = some [0, 0, 0, 1/10000, 1/10000, 1, 1/10, 1/10] := by
  norm_num [interpolateWeights, selectWeights, fluid_weights, blendBand, blendRows, smoothstep, clamp]

theorem table_LAVA : getMovementDirectionsFromDensity .FLUID 2900
    = some [(5000/6001, [(0, -1)]), (1000/6001, [(-1, -1), (1, -1)]), (1/6001, [(-1, 0), (1, 0)])] := by
  rw [getMovementDirectionsFromDensity, weights_LAVA]
  norm_num [altsoftmax, directions, List.insertionSort, List.orderedInsert, probGE, groupStep]
  all_goals exact List.cons_ne_nil _ _

theorem weights_PLASMA : interpolateWeights .PLASMA (2/100)
    = some [1, 35/6912, 35/6912, 0, 0, 0, 0, 0] := by
  norm_num [interpolateWeights, selectWeights, plasma_weights, blendBand, blendRows, smoothstep, clamp]

theorem table_PLASMA : getMovementDirectionsFromDensity .PLASMA (2/100)
    = some [(3456/3491, [(0, 1)]), (35/3491, [(-1, 1), (1, 1)])] := by
  rw [getMovementDirectionsFromDensity, weights_PLASMA]
  norm_num [altsoftmax, directions, List.insertionSort, List.orderedInsert, probGE, groupStep]
  all_goals exact List.cons_ne_nil _ _

theorem weights_MERCURY : interpolateWeights .FLUID 13546
    = some [0, 0, 0, 1/10000, 1/10000, 1, 1/10, 1/10] := by
  norm_num [interpolateWeights, selectWeights, fluid_weights, blendBand, blendRows, smoothstep, clamp]

theorem table_MERCURY : getMovementDirectionsFromDensity .FLUID 13546
    = some [(5000/6001, [(0, -1)]), (1000/6001, [(-1, -1), (1, -1)]), (1/6001, [(-1, 0), (1, 0)])] := by
  rw [getMovementDirectionsFromDensity, weights_MERCURY]
  norm_num [altsoftmax, directions, List.insertionSort, List.orderedInsert, probGE, groupStep]
  all_goals exact List.cons_ne_nil _ _

theorem weights_OIL : interpolateWeights .FLUID 870
    = some [0, 0, 0, 176490132157/1244757346570, 176490132157/1244757346570, 1, 1, 1] := by
  norm_num [interpolateWeights, selectWeights, fluid_weights, blendBand, blendRows, smoothstep, clamp]

theorem table_OIL : getMovementDirectionsFromDensity .FLUID 870
    = some [(1867136019855/2043626152012, [(0, -1), (-1, -1), (1, -1)]), (176490132157/2043626152012, [(-1, 0), (1, 0)])] := by
  rw [getMovementDirectionsFromDensity, weights_OIL]
  norm_num [altsoftmax, directions, List.insertionSort, List.orderedInsert, probGE, groupStep]
  all_goals exact List.cons_ne_nil _ _

theorem getParticleData_table (rough : Jitter) (t : ParticleType) :
    ((getParticleData rough t).movementDirections ≠ [] ↔ t ∈ moverTypes) ∧
    ((getParticleData rough t).movementDirections.map Prod.fst).Sorted (fun a b => a > b) := by
  cases t <;>
    simp [getParticleData, catalogEntry, withMovement, withThermal, defaultParticleData,
      moverTypes, table_SAND, table_WATER, table_METHANE, table_FIRE, table_SMOKE, table_STEAM,
      table_STONE, table_DUST, table_LAVA, table_PLASMA, table_MERCURY, table_OIL] <;>
    norm_num

theorem foldl_add_eq_sum (l : List ℚ) : ∀ c : ℚ, l.foldl (fun acc w => acc + w) c = c + l.sum := by
  induction l with
  | nil => intro c; simp
  | cons a rest ih => intro c; simp [ih, add_assoc]

/-! ## Structure of the movement tables -/

theorem clamp_bounds (v : ℚ) : 0 ≤ clamp v 0 1 ∧ clamp v 0 1 ≤ 1 := by
  unfold clamp
  split_ifs with h1 h2
  · exact ⟨le_refl _, zero_le_one⟩
  · exact ⟨zero_le_one, le_refl _⟩
  · exact ⟨not_lt.mp h1, not_lt.mp h2⟩

theorem smoothstep_bounds (edge0 edge1 x : ℚ) :
    0 ≤ smoothstep edge0 edge1 x ∧ smoothstep edge0 edge1 x ≤ 1 := by
  unfold smoothstep
  simp only
  obtain ⟨h0, h1⟩ := clamp_bounds ((x - edge0) / (edge1 - edge0))
  generalize clamp ((x - edge0) / (edge1 - edge0)) 0 1 = c at h0 h1
  constructor
  · have : 0 ≤ c * c := mul_nonneg h0 h0
    nlinarith
  · nlinarith [mul_nonneg (mul_nonneg (sub_nonneg.mpr h1) (sub_nonneg.mpr h1)) h0,
      mul_nonneg (sub_nonneg.mpr h1) (sub_nonneg.mpr h1)]

theorem blendRows_sum (t : ℚ) : ∀ (lo hi : List ℚ), lo.length = hi.length →
    (blendRows t lo hi).sum = (1 - t) * lo.sum + t * hi.sum := by
  intro lo
  induction lo with
  | nil =>
    intro hi h
    cases hi with
    | nil => simp [blendRows]
    | cons b hi => simp at h
  | cons a lo ih =>
    intro hi h
    cases hi with
    | nil => simp at h
    | cons b hi =>
      have := ih hi (by simpa using h)
      simp only [blendRows, List.zipWith_cons_cons, List.sum_cons] at this ⊢
      rw [this]
      ring

theorem blendRows_nonneg (t : ℚ) (h0 : 0 ≤ t) (h1 : t ≤ 1) : ∀ (lo hi : List ℚ),
    (∀ x ∈ lo, 0 ≤ x) → (∀ x ∈ hi, 0 ≤ x) → ∀ x ∈ blendRows t lo hi, 0 ≤ x := by
  intro lo
  induction lo with
  | nil => intro hi _ _ x hx; simp [blendRows] at hx
  | cons a lo ih =>
    intro hi hlo hhi x hx
    cases hi with
    | nil => simp [blendRows] at hx
    | cons b hi =>
      simp only [blendRows, List.zipWith_cons_cons, List.mem_cons] at hx
      rcases hx with hx | hx
      · rw [hx]
        have ha : 0 ≤ a := hlo a (List.mem_cons_self _ _)
        have hb : 0 ≤ b := hhi b (List.mem_cons_self _ _)
        exact add_nonneg (mul_nonneg (sub_nonneg.mpr h1) ha) (mul_nonneg h0 hb)
      · exact ih hi (fun y hy => hlo y (List.mem_cons_of_mem _ hy))
          (fun y hy => hhi y (List.mem_cons_of_mem _ hy)) x hx

theorem blendRows_good (t : ℚ) (h0 : 0 ≤ t) (h1 : t ≤ 1) (lo hi : List ℚ)
    (hlo : GoodWeights lo) (hhi : GoodWeights hi) : GoodWeights (blendRows t lo hi) := by
  obtain ⟨l1, n1, s1⟩ := hlo
  obtain ⟨l2, n2, s2⟩ := hhi
  refine ⟨by simp [blendRows, l1, l2], blendRows_nonneg t h0 h1 lo hi n1 n2, ?_⟩
  rw [blendRows_sum t lo hi (by rw [l1, l2])]
  rcases h0.lt_or_eq with h | h
  · exact add_pos_of_nonneg_of_pos (mul_nonneg (sub_nonneg.mpr h1) s1.le) (mul_pos h s2)
  · rw [← h]; simpa using s1

theorem selectWeights_rows (state : ParticleState) (hs : state ≠ ParticleState.EMPTY) :
    ∃ r0 r1 r2 r3 r4 r5 r6, selectWeights state = [r0, r1, r2, r3, r4, r5, r6] ∧
      GoodWeights r0 ∧ GoodWeights r1 ∧ GoodWeights r2 ∧ GoodWeights r3 ∧ GoodWeights r4 ∧
      GoodWeights r5 ∧ GoodWeights r6 := by
  cases state
  · exact absurd rfl hs
  all_goals
    refine ⟨_, _, _, _, _, _, _, rfl, ?_, ?_, ?_, ?_, ?_, ?_, ?_⟩ <;>
    norm_num [GoodWeights]

theorem interpolateWeights_good (state : ParticleState) (density : ℚ)
    (hs : state ≠ ParticleState.EMPTY) :
    ∃ w, interpolateWeights state density = some w ∧ GoodWeights w := by
  obtain ⟨r0, r1, r2, r3, r4, r5, r6, hsel, g0, g1, g2, g3, g4, g5, g6⟩ :=
    selectWeights_rows state hs
  unfold interpolateWeights
  rw [hsel]
  simp only
  split_ifs
  · exact ⟨r0, rfl, g0⟩
  · exact ⟨_, rfl, blendRows_good _ (smoothstep_bounds _ _ _).1 (smoothstep_bounds _ _ _).2 _ _ g0 g1⟩
  · exact ⟨_, rfl, blendRows_good _ (smoothstep_bounds _ _ _).1 (smoothstep_bounds _ _ _).2 _ _ g1 g2⟩
  · exact ⟨_, rfl, blendRows_good _ (smoothstep_bounds _ _ _).1 (smoothstep_bounds _ _ _).2 _ _ g2 g3⟩
  · exact ⟨_, rfl, blendRows_good _ (smoothstep_bounds _ _ _).1 (smoothstep_bounds _ _ _).2 _ _ g3 g4⟩
  · exact ⟨_, rfl, blendRows_good _ (smoothstep_bounds _ _ _).1 (smoothstep_bounds _ _ _).2 _ _ g4 g5⟩
  · exact ⟨_, rfl, blendRows_good _ (smoothstep_bounds _ _ _).1 (smoothstep_bounds _ _ _).2 _ _ g5 g6⟩
  · exact ⟨r6, rfl, g6⟩

theorem tableDirections_append (a b : List Tier) :
    tableDirections (a ++ b) = tableDirections a ++ tableDirections b := by
  simp [tableDirections]

theorem groupStep_dirs (s : GroupState) (d : DirProb) :
    tableDirections (groupStep s d).1 ++ (groupStep s d).2.1.2
      = tableDirections s.1 ++ s.2.1.2 ++ [d.1] := by
  unfold groupStep
  simp only
  split_ifs
  · simp
  · simp [tableDirections_append, tableDirections]

theorem foldl_groupStep_dirs (l : List DirProb) : ∀ s : GroupState,
    tableDirections (l.foldl groupStep s).1 ++ (l.foldl groupStep s).2.1.2
      = tableDirections s.1 ++ s.2.1.2 ++ l.map Prod.fst := by
  induction l with
  | nil => intro s; simp
  | cons d l ih =>
    intro s
    rw [List.foldl_cons, ih, groupStep_dirs]
    simp

theorem zip_fst_unique {d : Int × Int} {x y : ℚ} : ∀ (ds : List (Int × Int)) (ws : List ℚ),
    ds.Nodup → (d, x) ∈ ds.zip ws → (d, y) ∈ ds.zip ws → x = y := by
  intro ds
  induction ds with
  | nil => intro ws _ h; simp at h
  | cons a ds ih =>
    intro ws hn hx hy
    cases ws with
    | nil => simp at hx
    | cons b ws =>
      simp only [List.zip_cons_cons, List.mem_cons, Prod.mk.injEq] at hx hy
      have hna : a ∉ ds := (List.nodup_cons.mp hn).1
      rcases hx with ⟨h1, h2⟩ | hx
      · rcases hy with ⟨_, h4⟩ | hy
        · rw [h2, h4]
        · exact absurd (h1 ▸ (List.of_mem_zip hy).1) hna
      · rcases hy with ⟨h3, _⟩ | hy
        · exact absurd (h3 ▸ (List.of_mem_zip hx).1) hna
        · exact ih ws (List.nodup_cons.mp hn).2 hx hy

theorem directions_nodup : directions.Nodup := by decide

/-- The directions that survive the probability filter are those with a positive weight. -/
theorem mem_filtered_iff (w : List ℚ) (hsum : 0 < w.sum) (d : Int × Int) (x : ℚ)
    (hdx : (d, x) ∈ directions.zip w) :
    d ∈ ((directions.zip (altsoftmax w)).filter (fun dp => dp.2 > 0)).map Prod.fst ↔ 0 < x := by
  have hz : directions.zip (altsoftmax w)
      = (directions.zip w).map (fun p => (p.1, if p.2 > 0 then p.2 / w.sum else 0)) := by
    unfold altsoftmax
    simp only [foldl_add_eq_sum, zero_add]
    rw [List.zip_map_right]
    rfl
  rw [hz]
  simp only [List.mem_map, List.mem_filter, decide_eq_true_eq]
  constructor
  · rintro ⟨dp, ⟨⟨p, hm, rfl⟩, hpos⟩, rfl⟩
    have hb : p.2 = x := zip_fst_unique directions w directions_nodup hm hdx
    simp only at hpos
    by_contra hx
    rw [hb, if_neg hx] at hpos
    exact lt_irrefl _ hpos
  · intro hx
    refine ⟨(d, x / w.sum), ⟨⟨(d, x), hdx, ?_⟩, ?_⟩, rfl⟩
    · simp only [gt_iff_lt, hx, if_true]
    · exact div_pos hx hsum

theorem exists_pos_of_sum_pos : ∀ (w : List ℚ), 0 < w.sum → ∃ x ∈ w, 0 < x := by
  intro w
  induction w with
  | nil => intro h; simp at h
  | cons a w ih =>
    intro h
    by_cases ha : 0 < a
    · exact ⟨a, List.mem_cons_self _ _, ha⟩
    · have : 0 < w.sum := by
        simp only [List.sum_cons] at h
        linarith
      obtain ⟨x, hx, hp⟩ := ih this
      exact ⟨x, List.mem_cons_of_mem _ hx, hp⟩

/-! ## Properties of `StepInDirection` -/

theorem Grid.set_same (g : Grid) (a : Int × Int) (p : Particle) : (g.set a p) a = p := by
  simp [Grid.set]

theorem Grid.set_other (g : Grid) (a q : Int × Int) (p : Particle) (h : q ≠ a) :
    (g.set a p) q = g q := by
  simp [Grid.set, h]

theorem Grid.swap_other (g : Grid) (a b q : Int × Int) (ha : q ≠ a) (hb : q ≠ b) :
    (g.swap a b) q = g q := by
  simp [Grid.swap, ha, hb]

theorem densitySwap_cases (u : ℚ) (g : Grid) (firstPos target : Int × Int) (particle : Particle) :
    densitySwap u g firstPos target particle = (false, g) ∨
      densitySwap u g firstPos target particle = (true, g.swap firstPos target) := by
  unfold densitySwap
  simp only
  split_ifs <;> simp

section StepBranches

variable (fuel : Nat) (rough : Jitter) (u : ℚ) (g : Grid) (pos firstPos : Int × Int)
  (particle : Particle) (direction : Int × Int) (depth timesSwapped : Int)

/-- A step that is past the depth ceiling fails at once. -/
theorem step_ceiling (h : 9 ≤ depth) :
    StepInDirection (fuel + 1) rough u g pos firstPos particle direction depth timesSwapped
      = some (false, g) := by
  have h1 : depth - 1 ≥ maxStepDepth := by unfold maxStepDepth; omega
  simp [StepInDirection, h1]

theorem step_oob (h : isValidIndex (pos.1 + direction.1) (pos.2 + direction.2) = false) :
    StepInDirection (fuel + 1) rough u g pos firstPos particle direction depth timesSwapped
      = some (false, g) := by
  simp [StepInDirection, h]

theorem step_empty_first (hd : depth ≤ 8)
    (hv : isValidIndex (pos.1 + direction.1) (pos.2 + direction.2) = true)
    (he : (g (pos.1 + direction.1, pos.2 + direction.2)).data.type = ParticleType.EMPTY)
    (hts : timesSwapped = 0) :
    StepInDirection (fuel + 1) rough u g pos firstPos particle direction depth timesSwapped
      = some (true, (g.set (pos.1 + direction.1, pos.2 + direction.2) particle).set firstPos
          (Particle.new rough .EMPTY)) := by
  have h1 : ¬ depth - 1 ≥ maxStepDepth := by unfold maxStepDepth; omega
  simp [StepInDirection, h1, hv, he, hts]

theorem step_empty_later
    (hv : isValidIndex (pos.1 + direction.1) (pos.2 + direction.2) = true)
    (he : (g (pos.1 + direction.1, pos.2 + direction.2)).data.type = ParticleType.EMPTY)
    (hts : timesSwapped ≠ 0) :
    StepInDirection (fuel + 1) rough u g pos firstPos particle direction depth timesSwapped
      = some (false, g) := by
  simp [StepInDirection, hv, he, hts]

theorem step_eraser (hd : depth ≤ 8)
    (hv : isValidIndex (pos.1 + direction.1) (pos.2 + direction.2) = true)
    (he : (g (pos.1 + direction.1, pos.2 + direction.2)).data.type = ParticleType.ERASER) :
    StepInDirection (fuel + 1) rough u g pos firstPos particle direction depth timesSwapped
      = some (true, g.set firstPos (Particle.new rough .EMPTY)) := by
  have h1 : ¬ depth - 1 ≥ maxStepDepth := by unfold maxStepDepth; omega
  simp [StepInDirection, h1, hv, he]

theorem step_immovable
    (hne : (g (pos.1 + direction.1, pos.2 + direction.2)).data.type ≠ ParticleType.EMPTY)
    (hnr : (g (pos.1 + direction.1, pos.2 + direction.2)).data.type ≠ ParticleType.ERASER)
    (hm : (g (pos.1 + direction.1, pos.2 + direction.2)).data.movementDirections = []) :
    StepInDirection (fuel + 1) rough u g pos firstPos particle direction depth timesSwapped
      = some (false, g) := by
  simp [StepInDirection, hne, hnr, hm]

theorem step_movable (hd : depth ≤ 8)
    (hv : isValidIndex (pos.1 + direction.1) (pos.2 + direction.2) = true)
    (hne : (g (pos.1 + direction.1, pos.2 + direction.2)).data.type ≠ ParticleType.EMPTY)
    (hnr : (g (pos.1 + direction.1, pos.2 + direction.2)).data.type ≠ ParticleType.ERASER)
    (hm : (g (pos.1 + direction.1, pos.2 + direction.2)).data.movementDirections ≠ []) :
    StepInDirection (fuel + 1) rough u g pos firstPos particle direction depth timesSwapped
      = afterRetry u firstPos (pos.1 + direction.1, pos.2 + direction.2) particle depth
          (if particle.data.state = ParticleState.FLUID ∧ direction.1 ≠ 0 then
            StepInDirection fuel rough u g (pos.1 + direction.1, pos.2 + direction.2) firstPos
              particle (direction.1, 0) (depth + 1)
              (if (g (pos.1 + direction.1, pos.2 + direction.2)).data.state ≠ ParticleState.FLUID
                then timesSwapped + 1 else timesSwapped)
          else some (false, g)) := by
  have h1 : ¬ depth - 1 ≥ maxStepDepth := by unfold maxStepDepth; omega
  simp only [StepInDirection, h1, hv, hne, hnr, if_true, if_false, List.isEmpty_iff, hm,
    not_false_eq_true]

/-- The branches of a step, as a case distinction on the target cell. -/
theorem step_cases :
    StepInDirection (fuel + 1) rough u g pos firstPos particle direction depth timesSwapped
        = some (false, g) ∨
    StepInDirection (fuel + 1) rough u g pos firstPos particle direction depth timesSwapped
        = some (true, g.set firstPos (Particle.new rough .EMPTY)) ∧
      (g (pos.1 + direction.1, pos.2 + direction.2)).data.type = ParticleType.ERASER ∨
    StepInDirection (fuel + 1) rough u g pos firstPos particle direction depth timesSwapped
        = some (true, (g.set (pos.1 + direction.1, pos.2 + direction.2) particle).set firstPos
          (Particle.new rough .EMPTY)) ∧
      (g (pos.1 + direction.1, pos.2 + direction.2)).data.type = ParticleType.EMPTY ∨
    StepInDirection (fuel + 1) rough u g pos firstPos particle direction depth timesSwapped
      = afterRetry u firstPos (pos.1 + direction.1, pos.2 + direction.2) particle depth
          (if particle.data.state = ParticleState.FLUID ∧ direction.1 ≠ 0 then
            StepInDirection fuel rough u g (pos.1 + direction.1, pos.2 + direction.2) firstPos
              particle (direction.1, 0) (depth + 1)
              (if (g (pos.1 + direction.1, pos.2 + direction.2)).data.state ≠ ParticleState.FLUID
                then timesSwapped + 1 else timesSwapped)
          else some (false, g)) := by
  by_cases hd : 9 ≤ depth
  · exact Or.inl (step_ceiling fuel rough u g pos firstPos particle direction depth timesSwapped hd)
  have hd8 : depth ≤ 8 := by omega
  by_cases hv : isValidIndex (pos.1 + direction.1) (pos.2 + direction.2) = true
  swap
  · exact Or.inl (step_oob fuel rough u g pos firstPos particle direction depth timesSwapped
      (by simpa using hv))
  by_cases he : (g (pos.1 + direction.1, pos.2 + direction.2)).data.type = ParticleType.EMPTY
  · by_cases hts : timesSwapped = 0
    · exact Or.inr (Or.inr (Or.inl ⟨step_empty_first fuel rough u g pos firstPos particle direction
        depth timesSwapped hd8 hv he hts, he⟩))
    · exact Or.inl (step_empty_later fuel rough u g pos firstPos particle direction depth
        timesSwapped hv he hts)
  by_cases hr : (g (pos.1 + direction.1, pos.2 + direction.2)).data.type = ParticleType.ERASER
  · exact Or.inr (Or.inl ⟨step_eraser fuel rough u g pos firstPos particle direction depth
      timesSwapped hd8 hv hr, hr⟩)
  by_cases hm : (g (pos.1 + direction.1, pos.2 + direction.2)).data.movementDirections = []
  · exact Or.inl (step_immovable fuel rough u g pos firstPos particle direction depth timesSwapped
      he hr hm)
  · exact Or.inr (Or.inr (Or.inr (step_movable fuel rough u g pos firstPos particle direction depth
      timesSwapped hd8 hv he hr hm)))

end StepBranches

theorem afterRetry_returns (u : ℚ) (firstPos target : Int × Int) (particle : Particle)
    (depth : Int) (x : Option (Bool × Grid)) (hx : ∃ r1, x = some r1) :
    ∃ r, afterRetry u firstPos target particle depth x = some r := by
  obtain ⟨⟨b, g1⟩, rfl⟩ := hx
  cases b
  · by_cases hd : depth ≠ 0
    · exact ⟨(false, g1), by simp only [afterRetry, if_pos hd]⟩
    · exact ⟨densitySwap u g1 firstPos target particle, by simp only [afterRetry, if_neg hd]⟩
  · exact ⟨_, rfl⟩

/-- Enough fuel: a call at `depth` returns as soon as `fuel + 1 ≥ 10 - depth`. -/
theorem step_returns (fuel : Nat) : ∀ (rough : Jitter) (u : ℚ) (g : Grid) (pos firstPos : Int × Int)
    (particle : Particle) (direction : Int × Int) (depth timesSwapped : Int),
    9 - depth ≤ (fuel : Int) →
    ∃ r, StepInDirection (fuel + 1) rough u g pos firstPos particle direction depth timesSwapped
      = some r := by
  induction fuel with
  | zero =>
    intro rough u g pos firstPos particle direction depth timesSwapped h
    exact ⟨_, step_ceiling 0 rough u g pos firstPos particle direction depth timesSwapped
      (by omega)⟩
  | succ n ih =>
    intro rough u g pos firstPos particle direction depth timesSwapped h
    rcases step_cases (n + 1) rough u g pos firstPos particle direction depth timesSwapped with
      h1 | ⟨h1, _⟩ | ⟨h1, _⟩ | h1
    · exact ⟨_, h1⟩
    · exact ⟨_, h1⟩
    · exact ⟨_, h1⟩
    · rw [h1]
      apply afterRetry_returns
      by_cases hf : particle.data.state = ParticleState.FLUID ∧ direction.1 ≠ 0
      · rw [if_pos hf]
        exact ih rough u g _ firstPos particle _ (depth + 1) _ (by push_cast at h; omega)
      · rw [if_neg hf]
        exact ⟨_, rfl⟩

theorem afterRetry_effect (rough : Jitter) (u : ℚ) (g : Grid) (firstPos target : Int × Int)
    (particle : Particle) (depth : Int) (x : Option (Bool × Grid)) (r : Bool × Grid)
    (hx : ∀ r1, x = some r1 → StepEffect rough g firstPos particle (depth + 1) r1)
    (hm : afterRetry u firstPos target particle depth x = some r) :
    StepEffect rough g firstPos particle depth r := by
  rcases x with _ | ⟨b, g1⟩
  · simp [afterRetry] at hm
  · have e := hx (b, g1) rfl
    cases b
    · have hg : g1 = g := by
        rcases e with ⟨_, e2⟩ | ⟨e1, _⟩
        · exact e2
        · simp at e1
      subst hg
      by_cases hd : depth ≠ 0
      · simp only [afterRetry, if_pos hd] at hm
        cases hm; exact Or.inl ⟨rfl, rfl⟩
      · simp only [afterRetry, if_neg hd] at hm
        have hd0 : depth = 0 := by simpa using hd
        cases hm
        rcases densitySwap_cases u g1 firstPos target particle with hs | hs
        · rw [hs]; exact Or.inl ⟨rfl, rfl⟩
        · rw [hs]; exact Or.inr ⟨rfl, Or.inr (Or.inr ⟨by omega, _, rfl⟩)⟩
    · simp only [afterRetry] at hm
      cases hm
      rcases e with ⟨e1, _⟩ | ⟨_, e2⟩
      · simp at e1
      · refine Or.inr ⟨rfl, ?_⟩
        rcases e2 with e2 | e2 | ⟨hd, e2⟩
        · exact Or.inl e2
        · exact Or.inr (Or.inl e2)
        · exact Or.inr (Or.inr ⟨by omega, e2⟩)

theorem step_effect (fuel : Nat) : ∀ (rough : Jitter) (u : ℚ) (g : Grid) (pos firstPos : Int × Int)
    (particle : Particle) (direction : Int × Int) (depth timesSwapped : Int) (r : Bool × Grid),
    StepInDirection fuel rough u g pos firstPos particle direction depth timesSwapped = some r →
    StepEffect rough g firstPos particle depth r := by
  induction fuel with
  | zero =>
    intro rough u g pos firstPos particle direction depth timesSwapped r h
    simp [StepInDirection] at h
  | succ n ih =>
    intro rough u g pos firstPos particle direction depth timesSwapped r h
    rcases step_cases n rough u g pos firstPos particle direction depth timesSwapped with
      h1 | ⟨h1, h2⟩ | ⟨h1, h2⟩ | h1
    · rw [h1] at h; cases h; exact Or.inl ⟨rfl, rfl⟩
    · rw [h1] at h; cases h; exact Or.inr ⟨rfl, Or.inl ⟨_, h2, rfl⟩⟩
    · rw [h1] at h; cases h; exact Or.inr ⟨rfl, Or.inr (Or.inl ⟨_, h2, rfl⟩)⟩
    · rw [h1] at h
      refine afterRetry_effect rough u g firstPos _ particle depth _ r ?_ h
      intro r1 hr1
      by_cases hf : particle.data.state = ParticleState.FLUID ∧ direction.1 ≠ 0
      · rw [if_pos hf] at hr1
        exact ih rough u g _ firstPos particle _ (depth + 1) _ r1 hr1
      · rw [if_neg hf] at hr1
        cases hr1; exact Or.inl ⟨rfl, rfl⟩

/-- A failed step leaves the grid as it was. -/
theorem step_false_unchanged (fuel : Nat) (rough : Jitter) (u : ℚ) (g g1 : Grid)
    (pos firstPos : Int × Int) (particle : Particle) (direction : Int × Int)
    (depth timesSwapped : Int)
    (h : StepInDirection fuel rough u g pos firstPos particle direction depth timesSwapped
      = some (false, g1)) : g1 = g := by
  rcases step_effect fuel rough u g pos firstPos particle direction depth timesSwapped _ h with
    ⟨_, e⟩ | ⟨e, _⟩
  · exact e
  · simp at e

/-- Any step changes at most the origin and one further cell. -/
theorem step_frame (fuel : Nat) (rough : Jitter) (u : ℚ) (g : Grid)
    (pos firstPos : Int × Int) (particle : Particle) (direction : Int × Int)
    (depth timesSwapped : Int) (r : Bool × Grid)
    (h : StepInDirection fuel rough u g pos firstPos particle direction depth timesSwapped
      = some r) : ∃ t, ∀ q, q ≠ firstPos → q ≠ t → r.2 q = g q := by
  rcases step_effect fuel rough u g pos firstPos particle direction depth timesSwapped _ h with
    ⟨_, e⟩ | ⟨_, ⟨_, _, e⟩ | ⟨t, _, e⟩ | ⟨_, t, e⟩⟩
  · exact ⟨firstPos, fun q _ _ => by rw [e]⟩
  · exact ⟨firstPos, fun q hq _ => by rw [e, Grid.set_other _ _ _ _ hq]⟩
  · exact ⟨t, fun q hq ht => by rw [e, Grid.set_other _ _ _ _ hq, Grid.set_other _ _ _ _ ht]⟩
  · exact ⟨t, fun q hq ht => by rw [e, Grid.swap_other _ _ _ _ hq ht]⟩

/-! ## Properties of `MoveParticle` -/

theorem tryDirections_effect (rnd : MoveDraws) (k : Nat) (pos : Int × Int) (particle : Particle)
    (dirs : List (Int × Int)) (idx : List Nat) : ∀ (j : Nat) (g : Grid) (r : Bool × Grid),
    tryDirections rnd k pos particle dirs idx j g = some r →
    (r.1 = false ∧ r.2 = g) ∨
    (r.1 = true ∧ ∃ j1 direction, direction ∈ dirs ∧
      StepInDirection stepFuel (rnd.rough k j1) (rnd.swapDraw k j1) g pos pos particle direction
        0 0 = some (true, r.2)) := by
  induction idx with
  | nil =>
    intro j g r h
    simp only [tryDirections] at h
    cases h
    exact Or.inl ⟨rfl, rfl⟩
  | cons i rest ih =>
    intro j g r h
    simp only [tryDirections] at h
    rcases hd : dirs[i]? with _ | direction
    · rw [hd] at h; simp at h
    · rw [hd] at h
      simp only at h
      rcases hs : StepInDirection stepFuel (rnd.rough k j) (rnd.swapDraw k j) g pos pos particle
          direction 0 0 with _ | ⟨b, g1⟩
      · rw [hs] at h; simp at h
      · rw [hs] at h
        cases b
        · simp only at h
          have hg : g1 = g := step_false_unchanged _ _ _ _ _ _ _ _ _ _ _ hs
          subst hg
          exact ih (j + 1) g1 r h
        · simp only at h
          cases h
          exact Or.inr ⟨rfl, j, direction, List.getElem?_mem hd, hs⟩

theorem moveLoop_effect (rnd : MoveDraws) (pos : Int × Int) (particle : Particle) (fuel : Nat) :
    ∀ (k : Nat) (tierIndices : List Nat) (g g1 : Grid),
    moveLoop rnd pos particle fuel k tierIndices g = some g1 →
    g1 = g ∨ ∃ k1 j1 direction,
      StepInDirection stepFuel (rnd.rough k1 j1) (rnd.swapDraw k1 j1) g pos pos particle direction
        0 0 = some (true, g1) := by
  induction fuel with
  | zero =>
    intro k tierIndices g g1 h
    simp [moveLoop] at h
  | succ n ih =>
    intro k tierIndices g g1 h
    unfold moveLoop at h
    by_cases he : tierIndices.isEmpty = true
    · rw [if_pos he] at h
      cases h
      exact Or.inl rfl
    · rw [if_neg he] at h
      simp only at h
      rcases hw : tierWeights particle.data.movementDirections tierIndices with _ | weights
      · rw [hw] at h; simp at h
      · rw [hw] at h
        simp only at h
        by_cases hc : sampleFromProbabilities (rnd.getRange k) weights < 0
        · rw [if_pos hc] at h; simp at h
        · rw [if_neg hc] at h
          rcases ha : tierIndices[(sampleFromProbabilities (rnd.getRange k) weights).toNat]? with
            _ | actual
          · rw [ha] at h; simp at h
          · rw [ha] at h
            simp only at h
            rcases ht : particle.data.movementDirections[actual]? with _ | tier
            · rw [ht] at h; simp at h
            · rw [ht] at h
              simp only at h
              rcases hr : tryDirections rnd k pos particle tier.2
                  (rnd.shuffle k (List.range tier.2.length)) 0 g with _ | ⟨b, g2⟩
              · rw [hr] at h; simp at h
              · rw [hr] at h
                rcases tryDirections_effect rnd k pos particle _ _ _ _ _ hr with
                  ⟨e1, e2⟩ | ⟨e1, j1, direction, _, e2⟩
                · simp only at e1 e2
                  subst e1 e2
                  simp only at h
                  exact ih _ _ _ _ h
                · simp only at e1 e2
                  subst e1
                  simp only at h
                  cases h
                  exact Or.inr ⟨k, j1, direction, e2⟩

/-- The sampling loop stops at an index of the list whenever the draw does not exceed the
total of the running sum and the remaining weights. -/
theorem sampleLoop_range (r : ℚ) (l : List ℚ) : ∀ (cum : ℚ) (i : Int),
    (l ≠ [] ∨ cum < r) → r ≤ cum + l.sum →
    i ≤ sampleLoop r l cum i ∧ sampleLoop r l cum i < i + l.length := by
  induction l with
  | nil =>
    intro cum i h1 h2
    rcases h1 with h1 | h1
    · exact absurd rfl h1
    · simp at h2
      exact absurd h2 (not_le.mpr h1)
  | cons p rest ih =>
    intro cum i _ h2
    simp only [sampleLoop]
    by_cases hr : r ≤ cum + p
    · rw [if_pos hr]
      simp only [List.length_cons]
      push_cast
      omega
    · rw [if_neg hr]
      have := ih (cum + p) (i + 1) (Or.inr (not_le.mp hr)) (by simpa [add_assoc] using h2)
      simp only [List.length_cons]
      push_cast
      omega

theorem sampleFromProbabilities_valid (getRange : ℚ → ℚ → ℚ) (weights : List ℚ)
    (hne : weights ≠ []) (hw : ∀ w ∈ weights, 0 ≤ w)
    (hr : ∀ hi, 0 ≤ hi → 0 ≤ getRange 0 hi ∧ getRange 0 hi ≤ hi) :
    0 ≤ sampleFromProbabilities getRange weights ∧
      sampleFromProbabilities getRange weights < weights.length := by
  unfold sampleFromProbabilities
  have he : weights.isEmpty = false := by
    cases weights with
    | nil => exact absurd rfl hne
    | cons a l => rfl
  simp only [he, Bool.false_eq_true, if_false]
  rw [foldl_add_eq_sum, zero_add]
  have hs : 0 ≤ weights.sum := List.sum_nonneg hw
  have := sampleLoop_range (getRange 0 weights.sum) weights 0 0 (Or.inl hne)
    (by simpa using (hr _ hs).2)
  simpa using this

theorem tierWeights_some (table : List Tier) (idx : List Nat) (h : ∀ i ∈ idx, i < table.length) :
    ∃ ws, tierWeights table idx = some ws ∧ ws.length = idx.length ∧
      ∀ w ∈ ws, ∃ t ∈ table, w = t.1 := by
  induction idx with
  | nil => exact ⟨[], rfl, rfl, by simp⟩
  | cons i rest ih =>
    obtain ⟨ws, h1, h2, h3⟩ := ih (fun j hj => h j (List.mem_cons_of_mem _ hj))
    have hi : i < table.length := h i (List.mem_cons_self _ _)
    refine ⟨table[i].1 :: ws, ?_, by simp [h2], ?_⟩
    · simp only [tierWeights, h1, List.getElem?_eq_getElem hi]
    · intro w hw
      rcases List.mem_cons.mp hw with hw | hw
      · exact ⟨table[i], List.getElem_mem _, hw⟩
      · exact h3 w hw

theorem tryDirections_returns (rnd : MoveDraws) (k : Nat) (pos : Int × Int) (particle : Particle)
    (dirs : List (Int × Int)) (idx : List Nat) (h : ∀ i ∈ idx, i < dirs.length) :
    ∀ (j : Nat) (g : Grid), ∃ r, tryDirections rnd k pos particle dirs idx j g = some r := by
  induction idx with
  | nil => intro j g; exact ⟨_, rfl⟩
  | cons i rest ih =>
    intro j g
    have hi : i < dirs.length := h i (List.mem_cons_self _ _)
    obtain ⟨⟨b, g1⟩, hs⟩ := step_returns 9 (rnd.rough k j) (rnd.swapDraw k j) g pos pos particle
      dirs[i] 0 0 (by norm_num)
    simp only [tryDirections, List.getElem?_eq_getElem hi]
    have hs' : StepInDirection stepFuel (rnd.rough k j) (rnd.swapDraw k j) g pos pos particle
      dirs[i] 0 0 = some (b, g1) := hs
    rw [hs']
    cases b
    · exact ih (fun j hj => h j (List.mem_cons_of_mem _ hj)) (j + 1) g1
    · exact ⟨_, rfl⟩

theorem moveLoop_returns (rnd : MoveDraws) (pos : Int × Int) (particle : Particle)
    (hw : ∀ tier ∈ particle.data.movementDirections, 0 ≤ tier.1)
    (hr : ∀ k hi, 0 ≤ hi → 0 ≤ rnd.getRange k 0 hi ∧ rnd.getRange k 0 hi ≤ hi)
    (hs : ∀ k n, (rnd.shuffle k (List.range n)).Perm (List.range n)) (fuel : Nat) :
    ∀ (k : Nat) (tierIndices : List Nat) (g : Grid),
    tierIndices.length < fuel →
    (∀ i ∈ tierIndices, i < particle.data.movementDirections.length) →
    ∃ g1, moveLoop rnd pos particle fuel k tierIndices g = some g1 := by
  induction fuel with
  | zero => intro k tierIndices g h; omega
  | succ n ih =>
    intro k tierIndices g hlen hidx
    unfold moveLoop
    by_cases he : tierIndices.isEmpty = true
    · rw [if_pos he]; exact ⟨_, rfl⟩
    · rw [if_neg he]
      have hne : tierIndices ≠ [] := by
        intro h; apply he; rw [h]; rfl
      obtain ⟨ws, h1, h2, h3⟩ := tierWeights_some particle.data.movementDirections tierIndices hidx
      simp only [h1]
      have hwne : ws ≠ [] := by
        intro h
        rw [h] at h2
        exact hne (List.length_eq_zero.mp h2.symm)
      have hwpos : ∀ w ∈ ws, 0 ≤ w := by
        intro w hmem
        obtain ⟨t, ht, rfl⟩ := h3 w hmem
        exact hw t ht
      obtain ⟨c1, c2⟩ := sampleFromProbabilities_valid (rnd.getRange k) ws hwne hwpos (hr k)
      rw [if_neg (not_lt.mpr c1)]
      have hc : (sampleFromProbabilities (rnd.getRange k) ws).toNat < tierIndices.length := by
        rw [← h2]; omega
      simp only [List.getElem?_eq_getElem hc]
      have ha : tierIndices[(sampleFromProbabilities (rnd.getRange k) ws).toNat]
          < particle.data.movementDirections.length := hidx _ (List.getElem_mem _)
      simp only [List.getElem?_eq_getElem ha]
      obtain ⟨⟨b, g2⟩, ht⟩ := tryDirections_returns rnd k pos particle
        (particle.data.movementDirections[tierIndices[(sampleFromProbabilities (rnd.getRange k)
          ws).toNat]]).2
        (rnd.shuffle k (List.range (particle.data.movementDirections[tierIndices[
          (sampleFromProbabilities (rnd.getRange k) ws).toNat]]).2.length))
        (fun i hi => List.mem_range.mp ((hs k _).mem_iff.mp hi)) 0 g
      rw [ht]
      cases b
      · apply ih
        · rw [List.length_eraseIdx]
          simp only [hc, if_true]
          omega
        · intro i hi
          exact hidx i (List.mem_of_mem_eraseIdx hi)
      · exact ⟨_, rfl⟩

/-! ## Facts about the sample inputs -/

theorem sampleGrid_55 (a b c : ParticleType) :
    sampleGrid a b c (5, 5) = Particle.new exactJitter a := by
  simp [sampleGrid]

theorem sampleGrid_54 (a b c : ParticleType) :
    sampleGrid a b c (5, 4) = Particle.new exactJitter b := by
  simp [sampleGrid]

theorem sampleGrid_65 (a b c : ParticleType) :
    sampleGrid a b c (6, 5) = Particle.new exactJitter c := by
  simp [sampleGrid]

theorem sampleGrid_75 (a b c : ParticleType) :
    sampleGrid a b c (7, 5) = Particle.new exactJitter .EMPTY := by
  simp [sampleGrid]

theorem new_table_nonempty (rough : Jitter) (t : ParticleType) (h : t ∈ moverTypes) :
    (Particle.new rough t).data.movementDirections ≠ [] := by
  rw [(new_fields rough t).2.2.2]
  exact (getParticleData_table rough t).1.mpr h

theorem new_SAND_density : (Particle.new exactJitter .SAND).data.density = 1700 := by
  rw [(new_fields _ _).2.2.1]
  simp [getParticleData, catalogEntry, withMovement, withThermal, exactJitter]

theorem new_WATER_density : (Particle.new exactJitter .WATER).data.density = 998 := by
  rw [(new_fields _ _).2.2.1]
  simp [getParticleData, catalogEntry, withMovement, withThermal, exactJitter]

theorem new_SAND_state : (Particle.new exactJitter .SAND).data.state = ParticleState.POWDER := by
  rw [(new_fields _ _).2.1]
  simp [getParticleData, catalogEntry, withMovement, withThermal]

theorem new_WATER_state : (Particle.new exactJitter .WATER).data.state = ParticleState.FLUID := by
  rw [(new_fields _ _).2.1]
  simp [getParticleData, catalogEntry, withMovement, withThermal]

theorem new_SAND_table : (Particle.new exactJitter .SAND).data.movementDirections
    = [(125/179, [(0, -1)]), (54/179, [(-1, -1), (1, -1)])] := by
  rw [(new_fields _ _).2.2.2]
  simp [getParticleData, catalogEntry, withMovement, withThermal, defaultParticleData,
    table_SAND]

/-! ## Neighbourhoods -/

theorem intRange_three (a : Int) : intRange (a - 1) (a + 1) = [a - 1, a, a + 1] := by
  have h : (a + 1 - (a - 1) + 1).toNat = 3 := by
    have : a + 1 - (a - 1) + 1 = 3 := by ring
    rw [this]; rfl
  simp [intRange, h, List.range_succ]
  ring

theorem filterMap_cell (x : Int) (pos : Int × Int) (l : List Int) :
    l.filterMap (fun y =>
        if x = pos.1 ∧ y = pos.2 then none
        else if isValidIndex x y then some (x, y)
        else none)
      = ((l.map (fun y => (x, y))).filter (fun p => decide (p ≠ pos))).filter
          (fun p => isValidIndex p.1 p.2) := by
  induction l with
  | nil => rfl
  | cons y l ih =>
    rw [List.filterMap_cons, ih, List.map_cons, List.filter_cons]
    by_cases hc : x = pos.1 ∧ y = pos.2
    · have hp : (x, y) = pos := Prod.ext hc.1 hc.2
      simp [hc, hp]
    · have hp : (x, y) ≠ pos := fun h => hc ⟨congrArg Prod.fst h, congrArg Prod.snd h⟩
      simp only [if_neg hc, hp, ne_eq, not_false_eq_true, decide_True, if_true,
        List.filter_cons]
      by_cases hv : isValidIndex x y = true
      · simp [hv]
      · simp [hv]

theorem getNeighbours_eq (pos : Int × Int) :
    getNeighbours pos = (mooreCandidates pos).filter (fun p => isValidIndex p.1 p.2) := by
  unfold getNeighbours getMooreNeighbours mooreCandidates
  simp only [intRange_three, filterMap_cell]
  obtain ⟨a, b⟩ := pos
  simp only
  have h1 : List.filter (fun p => decide (p ≠ (a, b)))
      (List.map (fun y => (a - 1, y)) [b - 1, b, b + 1])
      = [(a - 1, b - 1), (a - 1, b), (a - 1, b + 1)] := by simp
  have h2 : List.filter (fun p => decide (p ≠ (a, b)))
      (List.map (fun y => (a, y)) [b - 1, b, b + 1])
      = [(a, b - 1), (a, b + 1)] := by simp
  have h3 : List.filter (fun p => decide (p ≠ (a, b)))
      (List.map (fun y => (a + 1, y)) [b - 1, b, b + 1])
      = [(a + 1, b - 1), (a + 1, b), (a + 1, b + 1)] := by simp
  simp only [List.flatMap_cons, List.flatMap_nil, h1, h2, h3, List.append_nil,
    ← List.filter_append]
  rfl

theorem mooreCandidates_nodup (pos : Int × Int) : (mooreCandidates pos).Nodup := by
  obtain ⟨a, b⟩ := pos
  simp [mooreCandidates]
  omega

theorem not_mem_mooreCandidates (pos : Int × Int) : pos ∉ mooreCandidates pos := by
  obtain ⟨a, b⟩ := pos
  simp [mooreCandidates]
  omega

theorem getNeighbours_nodup (pos : Int × Int) : (getNeighbours pos).Nodup := by
  rw [getNeighbours_eq]
  exact (mooreCandidates_nodup pos).filter _

theorem not_mem_getNeighbours (pos : Int × Int) : pos ∉ getNeighbours pos := by
  rw [getNeighbours_eq]
  intro h
  exact not_mem_mooreCandidates pos (List.mem_of_mem_filter h)

/-! ## First thermal pass -/

theorem addHeat_addHeat (p : Particle) (a b : ℚ) : (p.addHeat a).addHeat b = p.addHeat (a + b) := by
  simp [Particle.addHeat, add_assoc]

theorem addHeat_zero (p : Particle) : p.addHeat 0 = p := by
  simp [Particle.addHeat]

theorem addHeat_fields (p : Particle) (a : ℚ) :
    (p.addHeat a).data.temperature = p.data.temperature ∧
    (p.addHeat a).data.thermalConductivity = p.data.thermalConductivity ∧
    (p.addHeat a).data.specificHeatCapacity = p.data.specificHeatCapacity ∧
    (p.addHeat a).data.type = p.data.type ∧
    (p.addHeat a).data.heatReceived = p.data.heatReceived + a :=
  ⟨rfl, rfl, rfl, rfl, rfl⟩

theorem heatExchange_addHeat (s j : Particle) (a n : ℚ) :
    heatExchange (s.addHeat a) j n = heatExchange s j n := rfl

theorem exchanges_addHeat (s j : Particle) (a : ℚ) :
    exchanges (s.addHeat a) j ↔ exchanges s j := Iff.rfl

/-- One neighbour step, for a neighbour other than the cell itself. -/
theorem heatStep_eq (pos : Int × Int) (n : Int) (g : Grid) (j : Int × Int) (hj : j ≠ pos) :
    heatStep pos n g j =
      if exchanges (g pos) (g j) then
        (g.set pos ((g pos).addHeat (- (heatExchange (g pos) (g j) n *
          ((g j).data.specificHeatCapacity / (g pos).data.specificHeatCapacity))))).set j
          ((g j).addHeat (heatExchange (g pos) (g j) n *
            ((g pos).data.specificHeatCapacity / (g j).data.specificHeatCapacity)))
      else g := by
  have hx : ((1:ℚ)/2 * (min (g pos).data.thermalConductivity (g j).data.thermalConductivity *
        ((g pos).data.temperature - (g j).data.temperature)) /
        ((g pos).data.specificHeatCapacity + (g j).data.specificHeatCapacity)) / (n : ℚ)
      = heatExchange (g pos) (g j) n := by
    unfold heatExchange
    rw [div_div, mul_assoc]
  unfold heatStep exchanges conductsHeat
  simp only [hx]
  by_cases h1 : (g j).data.thermalConductivity > 0 ∧ (g j).data.specificHeatCapacity > 0
  · by_cases h2 : (g pos).data.specificHeatCapacity + (g j).data.specificHeatCapacity > 0
    · rw [if_pos h1, if_pos h2, if_pos ⟨h1, h2⟩]
      have hset : (g.set pos { g pos with data := { (g pos).data with
          heatReceived := (g pos).data.heatReceived - heatExchange (g pos) (g j) n *
            ((g j).data.specificHeatCapacity / (g pos).data.specificHeatCapacity) } }) j
          = g j := Grid.set_other _ _ _ _ hj
      rw [hset]
      simp only [Particle.addHeat, sub_eq_add_neg]
    · rw [if_pos h1, if_neg h2, if_neg (fun h => h2 h.2)]
  · rw [if_neg h1, if_neg (fun h => h1 h.1)]

theorem foldl_heatStep (pos : Int × Int) (n : Int) (g : Grid) (ns : List (Int × Int)) :
    ns.Nodup → pos ∉ ns →
    ∀ q, (ns.foldl (heatStep pos n) g) q = (g q).addHeat (heatDelta g pos n ns q) := by
  induction ns using List.reverseRecOn with
  | nil =>
    intro _ _ q
    simp [heatDelta, heatGivenOff, addHeat_zero]
  | append_singleton ns j ih =>
    intro hnd hpos q
    have hnd1 : ns.Nodup := (List.nodup_append.mp hnd).1
    have hj : j ∉ ns := by
      intro hmem
      exact (List.nodup_append.mp hnd).2.2 hmem (List.mem_singleton_self j) 
    have hpos1 : pos ∉ ns := fun h => hpos (List.mem_append_left _ h)
    have hjp : j ≠ pos := fun h => hpos (h ▸ List.mem_append_right _ (List.mem_singleton_self j))
    have ih1 := ih hnd1 hpos1
    rw [List.foldl_append, List.foldl_cons, List.foldl_nil, heatStep_eq _ _ _ _ hjp]
    have hGpos := ih1 pos
    have hGj := ih1 j
    have hdj : heatDelta g pos n ns j = 0 := by
      simp [heatDelta, hjp, hj]
    rw [hdj, addHeat_zero] at hGj
    rw [hGpos, hGj]
    simp only [exchanges_addHeat, heatExchange_addHeat, (addHeat_fields _ _).2.2.1]
    have hsum : heatGivenOff g pos n (ns ++ [j]) = heatGivenOff g pos n ns +
        (if exchanges (g pos) (g j) then heatExchange (g pos) (g j) n *
          ((g j).data.specificHeatCapacity / (g pos).data.specificHeatCapacity) else 0) := by
      simp [heatGivenOff]
    by_cases hex' : exchanges (g pos) (g j)
    · rw [if_pos hex']
      by_cases hq : q = pos
      · subst hq
        rw [Grid.set_other _ _ _ _ (Ne.symm hjp), Grid.set_same, addHeat_addHeat]
        congr 1
        simp only [heatDelta, if_true, hsum, if_pos hex']
        ring
      · by_cases hqj : q = j
        · subst hqj
          rw [Grid.set_same]
          congr 1
          simp [heatDelta, hq, hex']
        · rw [Grid.set_other _ _ _ _ hqj, Grid.set_other _ _ _ _ hq, ih1 q]
          congr 1
          simp [heatDelta, hq, hqj]
    · rw [if_neg hex', ih1 q]
      congr 1
      by_cases hq : q = pos
      · subst hq
        simp only [heatDelta, if_true, hsum, if_neg hex', add_zero]
      · by_cases hqj : q = j
        · subst hqj
          simp [heatDelta, hq, hj, hex']
        · simp [heatDelta, hq, hqj]

theorem transferHeatFirstPass_eq (g : Grid) (pos q : Int × Int) :
    transferHeatFirstPass g pos q
      = (g q).addHeat (heatDelta g pos ((getNeighbours pos).length : Int) (getNeighbours pos) q) :=
  foldl_heatStep pos _ g _ (getNeighbours_nodup pos) (not_mem_getNeighbours pos) q

theorem exchanges_iff (s j : Particle) (hs : conductsHeat s) :
    exchanges s j ↔ conductsHeat j := by
  constructor
  · exact fun h => h.1
  · exact fun h => ⟨h, add_pos hs.2 h.2⟩

theorem heatExchange_sign (s j : Particle) (n : ℚ) (hs : conductsHeat s) (hj : conductsHeat j)
    (hn : 0 < n) :
    (j.data.temperature < s.data.temperature → 0 < heatExchange s j n) ∧
    (s.data.temperature < j.data.temperature → heatExchange s j n < 0) := by
  have hk : 0 < min s.data.thermalConductivity j.data.thermalConductivity := lt_min hs.1 hj.1
  have hc : 0 < (s.data.specificHeatCapacity + j.data.specificHeatCapacity) * n :=
    mul_pos (add_pos hs.2 hj.2) hn
  unfold heatExchange
  constructor
  · intro h
    exact div_pos (mul_pos (mul_pos (by norm_num) hk) (sub_pos.mpr h)) hc
  · intro h
    exact div_neg_of_neg_of_pos
      (mul_neg_of_pos_of_neg (mul_pos (by norm_num) hk) (sub_neg.mpr h)) hc

/-! ## Second thermal pass -/

theorem transferParticleData_same (g : Grid) (pos : Int × Int) (p : Particle) :
    transferParticleData g pos p true pos
      = { p with data := { p.data with temperature := (g pos).data.temperature } } := by
  simp [transferParticleData, Grid.set]

theorem transferParticleData_other (g : Grid) (pos q : Int × Int) (p : Particle) (b : Bool)
    (h : q ≠ pos) : transferParticleData g pos p b q = g q := by
  unfold transferParticleData
  cases b <;> simp [Grid.set, h]

theorem applyHeat_same (g : Grid) (pos : Int × Int) :
    applyHeat g pos pos = { g pos with data := { (g pos).data with
      temperature := (g pos).data.temperature + (g pos).data.heatReceived
      heatReceived := 0 } } := by
  simp [applyHeat, Grid.set]

theorem applyHeat_other (g : Grid) (pos q : Int × Int) (h : q ≠ pos) :
    applyHeat g pos q = g q := by
  simp [applyHeat, Grid.set, h]

theorem lowerTransition_other (rough : Jitter) (g g1 : Grid) (pos q : Int × Int) (h : q ≠ pos)
    (hr : lowerTransition rough g pos = some g1) : g1 q = g q := by
  unfold lowerTransition at hr
  simp only at hr
  split_ifs at hr
  · rcases ht : (g pos).data.lowerTransitionType with _ | t
    · rw [ht] at hr; simp at hr
    · rw [ht] at hr
      simp only [Option.some.injEq] at hr
      rw [← hr]
      exact transferParticleData_other _ _ _ _ _ h
  · cases hr; rfl
  · cases hr; rfl

theorem upperTransition_other (rough : Jitter) (g g1 : Grid) (pos q : Int × Int) (h : q ≠ pos)
    (hr : upperTransition rough g pos = some g1) : g1 q = g q := by
  unfold upperTransition at hr
  simp only at hr
  split_ifs at hr
  · rcases ht : (g pos).data.upperTransitionType with _ | t
    · rw [ht] at hr; simp at hr
    · rw [ht] at hr
      simp only [Option.some.injEq] at hr
      rw [← hr]
      exact transferParticleData_other _ _ _ _ _ h
  · cases hr; rfl
  · cases hr; rfl

theorem transferHeatSecondPass_other (r1 r2 : Jitter) (g g1 : Grid) (pos q : Int × Int)
    (h : q ≠ pos) (hr : transferHeatSecondPass r1 r2 g pos = some g1) : g1 q = g q := by
  unfold transferHeatSecondPass at hr
  rcases hl : lowerTransition r1 (applyHeat g pos) pos with _ | g2
  · rw [hl] at hr; simp at hr
  · rw [hl] at hr
    simp only [Option.some_bind] at hr
    rw [upperTransition_other r2 g2 g1 pos q h hr, lowerTransition_other r1 _ g2 pos q h hl,
      applyHeat_other g pos q h]

/-- The lower-transition block leaves the grid alone when its test fails. -/
theorem lowerTransition_idle (rough : Jitter) (g : Grid) (pos : Int × Int)
    (h : (g pos).data.lowerTransitionPoint = -1 ∨
      ¬ (g pos).data.temperature < (g pos).data.lowerTransitionPoint) :
    lowerTransition rough g pos = some g := by
  unfold lowerTransition
  simp only
  split_ifs with h1 h2
  · rcases h with h | h
    · exact absurd h h1
    · exact absurd h2 h
  · rfl
  · rfl

/-- The upper-transition block leaves the grid alone when its test fails. -/
theorem upperTransition_idle (rough : Jitter) (g : Grid) (pos : Int × Int)
    (h : (g pos).data.upperTransitionPoint = upperSentinel ∨
      ¬ (g pos).data.temperature > (g pos).data.upperTransitionPoint) :
    upperTransition rough g pos = some g := by
  unfold upperTransition
  simp only
  split_ifs with h1 h2
  · rcases h with h | h
    · exact absurd h h1
    · exact absurd h2 h
  · rfl
  · rfl

theorem thermalJitter_heat (rough : Jitter) (d : generalParticleData) :
    (thermalJitter rough d).heatReceived = d.heatReceived := by
  unfold thermalJitter
  simp only
  split_ifs <;> rfl

theorem new_heatReceived (rough : Jitter) (t : ParticleType) :
    (Particle.new rough t).data.heatReceived = 0 := by
  have h : (getParticleData rough t).heatReceived = 0 := by
    cases t <;>
      simp [getParticleData, catalogEntry, withMovement, withThermal, defaultParticleData]
  unfold Particle.new
  simp only
  split_ifs
  · rw [thermalJitter_heat]; exact h
  · exact h

/-! ## Thermal fields of sample particles -/

theorem new_exact_thermal (t : ParticleType)
    (h : (getParticleData exactJitter t).thermalConductivity > 0 ∧
      (getParticleData exactJitter t).specificHeatCapacity > 0) :
    (Particle.new exactJitter t).data = getParticleData exactJitter t := by
  unfold Particle.new
  simp only [h, and_self, decide_True, if_true]
  unfold thermalJitter exactJitter
  simp only
  split_ifs <;> rfl

theorem new_not_conducting (rough : Jitter) (t : ParticleType)
    (h : ¬ ((getParticleData rough t).thermalConductivity > 0 ∧
      (getParticleData rough t).specificHeatCapacity > 0)) :
    (Particle.new rough t).data = getParticleData rough t ∧
    (Particle.new rough t).specialPreActions = [] ∧
    SpecialAction.transferHeatSecondPass ∉ (Particle.new rough t).specialPostActions := by
  unfold Particle.new
  simp only [h, decide_False, if_false, Bool.false_eq_true]
  refine ⟨trivial, trivial, ?_⟩
  split_ifs <;> simp

theorem empty_not_conducting (rough : Jitter) : ¬ conductsHeat (Particle.new rough .EMPTY) := by
  have h : ¬ ((getParticleData rough .EMPTY).thermalConductivity > 0 ∧
      (getParticleData rough .EMPTY).specificHeatCapacity > 0) := by
    simp [getParticleData, catalogEntry, defaultParticleData]
  unfold conductsHeat
  rw [(new_not_conducting rough .EMPTY h).1]
  exact h

theorem water_data : (Particle.new exactJitter .WATER).data.upperTransitionPoint = 7463/20 ∧
    (Particle.new exactJitter .WATER).data.lowerTransitionPoint = 5463/20 ∧
    (Particle.new exactJitter .WATER).data.upperTransitionType = some .STEAM := by
  rw [new_exact_thermal .WATER (by
    simp [getParticleData, catalogEntry, withMovement, withThermal, defaultParticleData])]
  simp [getParticleData, catalogEntry, withMovement, withThermal, defaultParticleData,
    CELSIUS_TO_KELVIN]
  norm_num

theorem lava_data : (Particle.new exactJitter .LAVA).data.thermalConductivity = 1 ∧
    (Particle.new exactJitter .LAVA).data.specificHeatCapacity = 1 ∧
    (Particle.new exactJitter .LAVA).data.temperature = 46463/20 ∧
    (Particle.new exactJitter .LAVA).data.heatReceived = 0 ∧
    (Particle.new exactJitter .LAVA).data.lowerTransitionPoint = 25463/20 ∧
    (Particle.new exactJitter .LAVA).data.upperTransitionPoint = 205463/20 := by
  rw [new_exact_thermal .LAVA (by
    simp [getParticleData, catalogEntry, withMovement, withThermal, defaultParticleData])]
  simp [getParticleData, catalogEntry, withMovement, withThermal, defaultParticleData,
    CELSIUS_TO_KELVIN]
  norm_num

theorem lava_conducts : conductsHeat (Particle.new exactJitter .LAVA) := by
  unfold conductsHeat
  rw [lava_data.1, lava_data.2.1]
  norm_num

/-! ## Two first passes in a row -/

theorem heatDelta_congr (g g1 : Grid) (d : Int × Int → ℚ) (h : ∀ q, g1 q = (g q).addHeat (d q))
    (pos : Int × Int) (n : ℚ) (ns : List (Int × Int)) (q : Int × Int) :
    heatDelta g1 pos n ns q = heatDelta g pos n ns q := by
  have : g1 = fun q => (g q).addHeat (d q) := funext h
  subst this
  rfl

theorem two_first_passes (g : Grid) (a b q : Int × Int) :
    transferHeatFirstPass (transferHeatFirstPass g a) b q
      = (g q).addHeat
          (heatDelta g a ((getNeighbours a).length : Int) (getNeighbours a) q +
            heatDelta g b ((getNeighbours b).length : Int) (getNeighbours b) q) := by
  rw [transferHeatFirstPass_eq (transferHeatFirstPass g a) b q,
    heatDelta_congr g (transferHeatFirstPass g a) _ (transferHeatFirstPass_eq g a),
    transferHeatFirstPass_eq g a q, addHeat_addHeat]

theorem sum_map_single {α : Type} [DecidableEq α] (f : α → ℚ) (b : α) :
    ∀ (l : List α), l.Nodup → b ∈ l → (∀ j ∈ l, j ≠ b → f j = 0) → (l.map f).sum = f b := by
  intro l
  induction l with
  | nil => intro _ h; simp at h
  | cons x l ih =>
    intro hnd hb h0
    have hx : x ∉ l := (List.nodup_cons.mp hnd).1
    rcases List.mem_cons.mp hb with rfl | hb1
    · have : (l.map f).sum = 0 := by
        apply List.sum_eq_zero
        intro y hy
        obtain ⟨j, hj, rfl⟩ := List.mem_map.mp hy
        exact h0 j (List.mem_cons_of_mem _ hj) (fun h => hx (h ▸ hj))
      simp [this]
    · have hxb : x ≠ b := fun h => hx (h ▸ hb1)
      rw [List.map_cons, List.sum_cons, h0 x (List.mem_cons_self _ _) hxb, zero_add]
      exact ih (List.nodup_cons.mp hnd).2 hb1
        (fun j hj hne => h0 j (List.mem_cons_of_mem _ hj) hne)

/-- The change of pending heat made by a first pass on `a` when `b` is the only conducting
neighbour of the conducting cell `a`. -/
theorem heatDelta_single (g : Grid) (a b : Int × Int) (hab : b ∈ getNeighbours a)
    (ha : conductsHeat (g a)) (hb : conductsHeat (g b))
    (hoth : ∀ q, q ≠ a → q ≠ b → ¬ conductsHeat (g q)) :
    heatDelta g a ((getNeighbours a).length : Int) (getNeighbours a) a
      = - (heatExchange (g a) (g b) ((getNeighbours a).length : Int) *
          ((g b).data.specificHeatCapacity / (g a).data.specificHeatCapacity)) ∧
    heatDelta g a ((getNeighbours a).length : Int) (getNeighbours a) b
      = heatExchange (g a) (g b) ((getNeighbours a).length : Int) *
          ((g a).data.specificHeatCapacity / (g b).data.specificHeatCapacity) ∧
    ∀ q, q ≠ a → q ≠ b →
      heatDelta g a ((getNeighbours a).length : Int) (getNeighbours a) q = 0 := by
  have hne : b ≠ a := fun h => not_mem_getNeighbours a (h ▸ hab)
  refine ⟨?_, ?_, ?_⟩
  · simp only [heatDelta, if_true, heatGivenOff]
    rw [sum_map_single _ b _ (getNeighbours_nodup a) hab]
    · rw [if_pos ((exchanges_iff _ _ ha).mpr hb)]
    · intro j hj hjb
      have hja : j ≠ a := fun h => not_mem_getNeighbours a (h ▸ hj)
      rw [if_neg]
      exact fun h => hoth j hja hjb h.1
  · simp only [heatDelta, if_neg hne, hab, (exchanges_iff _ _ ha).mpr hb, and_self, if_true]
  · intro q hqa hqb
    simp only [heatDelta, if_neg hqa]
    rw [if_neg]
    exact fun h => hoth q hqa hqb h.2.1

/-- The second pass only applies the pending heat when neither transition test holds for the
new temperature. -/
theorem transferHeatSecondPass_idle (r1 r2 : Jitter) (g : Grid) (pos : Int × Int)
    (hL : (g pos).data.lowerTransitionPoint = -1 ∨
      ¬ (g pos).data.temperature + (g pos).data.heatReceived
        < (g pos).data.lowerTransitionPoint)
    (hU : (g pos).data.upperTransitionPoint = upperSentinel ∨
      ¬ (g pos).data.temperature + (g pos).data.heatReceived
        > (g pos).data.upperTransitionPoint) :
    transferHeatSecondPass r1 r2 g pos = some (applyHeat g pos) := by
  unfold transferHeatSecondPass
  rw [lowerTransition_idle r1 _ pos (by rw [applyHeat_same]; exact hL), Option.some_bind]
  exact upperTransition_idle r2 _ pos (by rw [applyHeat_same]; exact hU)

/-- The lower-transition block replaces the particle when its test holds. -/
theorem lowerTransition_fires (rough : Jitter) (g : Grid) (pos : Int × Int) (t : ParticleType)
    (h1 : (g pos).data.lowerTransitionPoint ≠ -1)
    (h2 : (g pos).data.temperature < (g pos).data.lowerTransitionPoint)
    (h3 : (g pos).data.lowerTransitionType = some t) :
    lowerTransition rough g pos
      = some (transferParticleData g pos (Particle.new rough t) true) := by
  unfold lowerTransition
  simp only
  rw [if_pos h1, if_pos h2, h3]

/-- The upper-transition block replaces the particle when its test holds. -/
theorem upperTransition_fires (rough : Jitter) (g : Grid) (pos : Int × Int) (t : ParticleType)
    (h1 : (g pos).data.upperTransitionPoint ≠ upperSentinel)
    (h2 : (g pos).data.temperature > (g pos).data.upperTransitionPoint)
    (h3 : (g pos).data.upperTransitionType = some t) :
    upperTransition rough g pos
      = some (transferParticleData g pos (Particle.new rough t) true) := by
  unfold upperTransition
  simp only
  rw [if_pos h1, if_pos h2, h3]

/-! ## A two-cell system -/

/-- One thermal round of two adjacent conducting cells without other conducting neighbours,
no transition being triggered: each cell ends with its temperature changed by the pending
heat it had plus what the two first passes gave it, and nothing else changed. -/
theorem twoCellRound_eq (r1 r2 r3 r4 : Jitter) (g : Grid) (a b : Int × Int)
    (hab : b ∈ getNeighbours a) (hba : a ∈ getNeighbours b)
    (ha : conductsHeat (g a)) (hb : conductsHeat (g b))
    (hoth : ∀ q, q ≠ a → q ≠ b → ¬ conductsHeat (g q))
    (da db : ℚ)
    (hda : da = - (heatExchange (g a) (g b) ((getNeighbours a).length : Int) *
          ((g b).data.specificHeatCapacity / (g a).data.specificHeatCapacity)) +
        heatExchange (g b) (g a) ((getNeighbours b).length : Int) *
          ((g b).data.specificHeatCapacity / (g a).data.specificHeatCapacity))
    (hdb : db = heatExchange (g a) (g b) ((getNeighbours a).length : Int) *
          ((g a).data.specificHeatCapacity / (g b).data.specificHeatCapacity) +
        - (heatExchange (g b) (g a) ((getNeighbours b).length : Int) *
          ((g a).data.specificHeatCapacity / (g b).data.specificHeatCapacity)))
    (hLa : (g a).data.lowerTransitionPoint = -1 ∨
      ¬ (g a).data.temperature + ((g a).data.heatReceived + da)
        < (g a).data.lowerTransitionPoint)
    (hUa : (g a).data.upperTransitionPoint = upperSentinel ∨
      ¬ (g a).data.temperature + ((g a).data.heatReceived + da)
        > (g a).data.upperTransitionPoint)
    (hLb : (g b).data.lowerTransitionPoint = -1 ∨
      ¬ (g b).data.temperature + ((g b).data.heatReceived + db)
        < (g b).data.lowerTransitionPoint)
    (hUb : (g b).data.upperTransitionPoint = upperSentinel ∨
      ¬ (g b).data.temperature + ((g b).data.heatReceived + db)
        > (g b).data.upperTransitionPoint) :
    ∃ g4, twoCellRound r1 r2 r3 r4 g a b = some g4 ∧
      (g4 a).data = { (g a).data with
        temperature := (g a).data.temperature + ((g a).data.heatReceived + da)
        heatReceived := 0 } ∧
      (g4 b).data = { (g b).data with
        temperature := (g b).data.temperature + ((g b).data.heatReceived + db)
        heatReceived := 0 } := by
  have hne : b ≠ a := fun h => not_mem_getNeighbours a (h ▸ hab)
  obtain ⟨a1, a2, _⟩ := heatDelta_single g a b hab ha hb hoth
  obtain ⟨b1, b2, _⟩ := heatDelta_single g b a hba hb ha (fun q h1 h2 => hoth q h2 h1)
  have h2a : transferHeatFirstPass (transferHeatFirstPass g a) b a = (g a).addHeat da := by
    rw [two_first_passes, a1, b2, hda]
  have h2b : transferHeatFirstPass (transferHeatFirstPass g a) b b = (g b).addHeat db := by
    rw [two_first_passes, a2, b1, hdb]
  have s1 : transferHeatSecondPass r1 r2 (transferHeatFirstPass (transferHeatFirstPass g a) b) a
      = some (applyHeat (transferHeatFirstPass (transferHeatFirstPass g a) b) a) := by
    apply transferHeatSecondPass_idle
    · rw [h2a]; exact hLa
    · rw [h2a]; exact hUa
  have h3b : applyHeat (transferHeatFirstPass (transferHeatFirstPass g a) b) a b
      = (g b).addHeat db := by
    rw [applyHeat_other _ _ _ hne, h2b]
  have s2 : transferHeatSecondPass r3 r4
      (applyHeat (transferHeatFirstPass (transferHeatFirstPass g a) b) a) b
      = some (applyHeat (applyHeat (transferHeatFirstPass (transferHeatFirstPass g a) b) a) b) := by
    apply transferHeatSecondPass_idle
    · rw [h3b]; exact hLb
    · rw [h3b]; exact hUb
  refine ⟨_, by unfold twoCellRound; rw [s1, Option.some_bind, s2], ?_, ?_⟩
  · rw [applyHeat_other _ _ _ (Ne.symm hne), applyHeat_same, h2a]
    rfl
  · rw [applyHeat_same, h3b]
    rfl

theorem stone_cap_data : (Particle.new capJitter .STONE).data.thermalConductivity = 1 ∧
    (Particle.new capJitter .STONE).data.specificHeatCapacity = 101/100 ∧
    (Particle.new capJitter .STONE).data.temperature = 6063/20 ∧
    (Particle.new capJitter .STONE).data.heatReceived = 0 ∧
    (Particle.new capJitter .STONE).data.lowerTransitionPoint = -1 ∧
    (Particle.new capJitter .STONE).data.upperTransitionPoint = 35463/20 ∧
    (Particle.new capJitter .STONE).data.type = ParticleType.STONE := by
  simp [Particle.new, getParticleData, catalogEntry, withMovement, withThermal,
    defaultParticleData, thermalJitter, capJitter, CELSIUS_TO_KELVIN, upperSentinel]
  norm_num

theorem steam_raised_data :
    (Particle.new raisedLowerJitter .STEAM).data.lowerTransitionPoint = 7463/20 * (1007/1000) ∧
    (Particle.new raisedLowerJitter .STEAM).data.lowerTransitionType = some .WATER ∧
    (Particle.new raisedLowerJitter .STEAM).data.heatReceived = 0 ∧
    (Particle.new raisedLowerJitter .STEAM).data.type = ParticleType.STEAM := by
  simp [Particle.new, getParticleData, catalogEntry, withMovement, withThermal,
    defaultParticleData, thermalJitter, raisedLowerJitter, CELSIUS_TO_KELVIN, upperSentinel]
  norm_num

theorem water_lowered_data :
    (Particle.new loweredUpperJitter .WATER).data.upperTransitionPoint
      = 7463/20 * (993/1000) ∧
    (Particle.new loweredUpperJitter .WATER).data.upperTransitionType = some .STEAM := by
  simp [Particle.new, getParticleData, catalogEntry, withMovement, withThermal,
    defaultParticleData, thermalJitter, loweredUpperJitter, CELSIUS_TO_KELVIN, upperSentinel]
  norm_num

/-! ## Normalisation and blending of the weights -/

theorem sum_pos_of_mem_pos : ∀ (l : List ℚ), (∀ w ∈ l, 0 ≤ w) → (∃ w ∈ l, 0 < w) → 0 < l.sum := by
  intro l hnn ⟨w, hw, hpos⟩
  have h1 : w ≤ l.sum := List.single_le_sum hnn w hw
  linarith

theorem altsoftmax_sum (l : List ℚ) (s : ℚ) (hnn : ∀ w ∈ l, 0 ≤ w) :
    (l.map (fun w => if w > 0 then w / s else 0)).sum = l.sum / s := by
  induction l with
  | nil => simp
  | cons a t ih =>
    have ha : 0 ≤ a := hnn a (List.mem_cons_self _ _)
    have ht : ∀ w ∈ t, 0 ≤ w := fun w hw => hnn w (List.mem_cons_of_mem _ hw)
    simp only [List.map_cons, List.sum_cons, ih ht]
    by_cases h : a > 0
    · rw [if_pos h]; ring
    · have : a = 0 := le_antisymm (not_lt.mp h) ha
      rw [if_neg h, this]; ring

theorem mapM_some_of_forall {α β : Type} (f : α → Option β) (f1 : α → β) :
    ∀ (l : List α), (∀ a ∈ l, f a = some (f1 a)) → l.mapM f = some (l.map f1) := by
  intro l
  induction l with
  | nil => intro _; rfl
  | cons a t ih =>
    intro h
    rw [List.mapM_cons, h a (List.mem_cons_self _ _),
      ih (fun b hb => h b (List.mem_cons_of_mem _ hb))]
    rfl

/-! ## Blending at the band anchors -/

theorem smoothstep_lower (lo hi : ℚ) : smoothstep lo hi lo = 0 := by
  simp [smoothstep, clamp]

theorem smoothstep_upper (lo hi : ℚ) (h : lo < hi) : smoothstep lo hi hi = 1 := by
  have : hi - lo ≠ 0 := by intro h0; linarith
  simp [smoothstep, clamp, div_self this]
  norm_num

theorem smoothstep_near (lo hi d : ℚ) (h : lo < hi) (h1 : lo ≤ d) (h2 : d ≤ hi) :
    smoothstep lo hi d ≤ 3 * (d - lo) / (hi - lo) ∧
    1 - smoothstep lo hi d ≤ 3 * (hi - d) / (hi - lo) := by
  have hpos : 0 < hi - lo := by linarith
  have hx0 : 0 ≤ (d - lo) / (hi - lo) := div_nonneg (by linarith) hpos.le
  have hx1 : (d - lo) / (hi - lo) ≤ 1 := (div_le_one hpos).mpr (by linarith)
  have hc : clamp ((d - lo) / (hi - lo)) 0 1 = (d - lo) / (hi - lo) := by
    unfold clamp
    rw [if_neg (not_lt.mpr hx0), if_neg (not_lt.mpr hx1)]
  have e1 : 3 * (d - lo) / (hi - lo) = 3 * ((d - lo) / (hi - lo)) := by ring
  have e2 : 3 * (hi - d) / (hi - lo) = 3 * (1 - (d - lo) / (hi - lo)) := by
    field_simp
  unfold smoothstep
  simp only
  rw [hc, e1, e2]
  generalize (d - lo) / (hi - lo) = x at hx0 hx1
  constructor
  · nlinarith [mul_nonneg hx0 (sub_nonneg.mpr hx1), mul_nonneg (mul_nonneg hx0 hx0) hx0]
  · nlinarith [mul_nonneg hx0 (sub_nonneg.mpr hx1),
      mul_nonneg (mul_nonneg (sub_nonneg.mpr hx1) (sub_nonneg.mpr hx1)) hx0,
      mul_nonneg (sub_nonneg.mpr hx1) (sub_nonneg.mpr hx1)]

theorem blendRows_zero : ∀ (lo hi : List ℚ), lo.length = hi.length → blendRows 0 lo hi = lo := by
  intro lo
  induction lo with
  | nil => intro hi _; simp [blendRows]
  | cons a lo ih =>
    intro hi h
    cases hi with
    | nil => simp at h
    | cons b hi =>
      have := ih hi (by simpa using h)
      simp only [blendRows, List.zipWith_cons_cons] at this ⊢
      rw [this]
      simp

theorem blendRows_one : ∀ (lo hi : List ℚ), lo.length = hi.length → blendRows 1 lo hi = hi := by
  intro lo
  induction lo with
  | nil => intro hi h; cases hi with
    | nil => simp [blendRows]
    | cons b hi => simp at h
  | cons a lo ih =>
    intro hi h
    cases hi with
    | nil => simp at h
    | cons b hi =>
      have := ih hi (by simpa using h)
      simp only [blendRows, List.zipWith_cons_cons] at this ⊢
      rw [this]
      simp

theorem blendRows_entry (t : ℚ) : ∀ (lo hi : List ℚ) (i : Nat) (x : ℚ),
    (blendRows t lo hi)[i]? = some x →
    ∃ a b, lo[i]? = some a ∧ hi[i]? = some b ∧ x = (1 - t) * a + t * b := by
  intro lo
  induction lo with
  | nil => intro hi i x h; simp [blendRows] at h
  | cons a lo ih =>
    intro hi i x h
    cases hi with
    | nil => simp [blendRows] at h
    | cons b hi =>
      cases i with
      | zero =>
        simp only [blendRows, List.zipWith_cons_cons, List.getElem?_cons_zero,
          Option.some.injEq] at h
        exact ⟨a, b, by simp, by simp, h.symm⟩
      | succ i =>
        simp only [blendRows, List.zipWith_cons_cons, List.getElem?_cons_succ] at h
        simpa using ih hi i x h

theorem selectWeights_unit (state : ParticleState) :
    ∀ row ∈ selectWeights state, ∀ w ∈ row, 0 ≤ w ∧ w ≤ 1 := by
  cases state <;>
    simp [selectWeights, solid_weights, powder_weights, fluid_weights, gas_weights,
      plasma_weights]
  all_goals norm_num

theorem interpolateWeights_band (state : ParticleState) (b : Nat × ℚ × ℚ) (hb : b ∈ bands)
    (d : ℚ) (h1 : b.2.1 ≤ d) (h2 : d < b.2.2) :
    interpolateWeights state d = blendBand (selectWeights state) b.1 b.2.1 b.2.2 d := by
  simp only [bands, List.mem_cons, List.mem_singleton, List.not_mem_nil, or_false] at hb
  rcases hb with rfl | rfl | rfl | rfl | rfl | rfl <;>
    simp only at h1 h2 ⊢ <;>
    unfold interpolateWeights <;>
    simp only <;>
    split_ifs <;>
    first
      | rfl
      | (exfalso; linarith)

theorem interpolateWeights_anchor (state : ParticleState) (hs : state ≠ ParticleState.EMPTY)
    (k : Nat) (h : k < bandAnchors.length) :
    interpolateWeights state bandAnchors[k] = (selectWeights state)[k]? := by
  obtain ⟨r0, r1, r2, r3, r4, r5, r6, hsel, g0, g1, g2, g3, g4, g5, g6⟩ :=
    selectWeights_rows state hs
  have l0 := g0.1
  have l1 := g1.1
  have l2 := g2.1
  have l3 := g3.1
  have l4 := g4.1
  have l5 := g5.1
  have l6 := g6.1
  simp only [bandAnchors, List.length_cons, List.length_nil] at h
  unfold interpolateWeights
  rw [hsel]
  interval_cases k
  · norm_num [bandAnchors, blendBand, smoothstep_lower]
    exact blendRows_zero _ _ (by rw [l0, l1])
  · norm_num [bandAnchors, blendBand, smoothstep_lower]
    exact blendRows_zero _ _ (by rw [l1, l2])
  · norm_num [bandAnchors, blendBand, smoothstep_lower]
    exact blendRows_zero _ _ (by rw [l2, l3])
  · norm_num [bandAnchors, blendBand, smoothstep_lower]
    exact blendRows_zero _ _ (by rw [l3, l4])
  · norm_num [bandAnchors, blendBand, smoothstep_lower]
    exact blendRows_zero _ _ (by rw [l4, l5])
  · norm_num [bandAnchors, blendBand, smoothstep_lower]
    exact blendRows_zero _ _ (by rw [l5, l6])
  · norm_num [bandAnchors]

/-- Helper for the pairing of weights and directions: entry `i` of a list zipped with entry
`i` of another. -/
theorem zip_of_getElem {α β : Type} : ∀ (l1 : List α) (l2 : List β) (i : Nat) (a : α) (b : β),
    l1[i]? = some a → l2[i]? = some b → (a, b) ∈ l1.zip l2 := by
  intro l1
  induction l1 with
  | nil => intro l2 i a b h; simp at h
  | cons x l1 ih =>
    intro l2 i a b h1 h2
    cases l2 with
    | nil => simp at h2
    | cons y l2 =>
      cases i with
      | zero =>
        simp only [List.getElem?_cons_zero, Option.some.injEq] at h1 h2
        simp [h1, h2]
      | succ i =>
        simp only [List.getElem?_cons_succ] at h1 h2
        exact List.mem_cons_of_mem _ (ih l2 i a b h1 h2)

/-- The movement table lists exactly the directions whose weight is positive, the weight of a
direction being the entry of the weight vector at the index of the direction in
`directions`. -/
theorem table_pairing (state : ParticleState) (density : ℚ)
    (hs : state ≠ ParticleState.EMPTY) :
    ∃ w tbl, interpolateWeights state density = some w ∧
      getMovementDirectionsFromDensity state density = some tbl ∧
      ∀ (i : Nat) (d : Int × Int) (x : ℚ), directions[i]? = some d → w[i]? = some x →
        (d ∈ tableDirections tbl ↔ 0 < x) := by
  obtain ⟨w, hw, hlen, hnn, hsum⟩ := interpolateWeights_good state density hs
  have hperm := List.perm_insertionSort probGE
    ((directions.zip (altsoftmax w)).filter (fun dp => dp.2 > 0))
  generalize hsd : List.insertionSort probGE
    ((directions.zip (altsoftmax w)).filter (fun dp => dp.2 > 0)) = sorted at hperm
  have hmem : ∀ d x, (d, x) ∈ directions.zip w → (d ∈ sorted.map Prod.fst ↔ 0 < x) := by
    intro d x hdx
    rw [(hperm.map Prod.fst).mem_iff]
    exact mem_filtered_iff w hsum d x hdx
  have hne : sorted ≠ [] := by
    obtain ⟨x, hx, hp⟩ := exists_pos_of_sum_pos w hsum
    have hzip : List.map Prod.snd (directions.zip w) = w :=
      List.map_snd_zip _ _ (by rw [hlen]; decide)
    rw [← hzip] at hx
    obtain ⟨⟨d, x1⟩, hm, rfl⟩ := List.mem_map.mp hx
    intro h
    have := (hmem d x1 hm).mpr hp
    rw [h] at this
    simp at this
  obtain ⟨first, rest, hsorted⟩ : ∃ first rest, sorted = first :: rest := by
    cases sorted with
    | nil => exact absurd rfl hne
    | cons a l => exact ⟨a, l, rfl⟩
  have htbl : ∃ tbl, getMovementDirectionsFromDensity state density = some tbl ∧
      tableDirections tbl = sorted.map Prod.fst := by
    unfold getMovementDirectionsFromDensity
    rw [hw]
    simp only [Option.bind_eq_bind, Option.some_bind, hsd]
    rw [hsorted]
    simp only [List.head?_cons, Option.some_bind]
    refine ⟨_, rfl, ?_⟩
    have key := foldl_groupStep_dirs (first :: rest) ([], (0, []), first.2)
    simp only [tableDirections, List.map_nil, List.flatten_nil, List.nil_append] at key
    split_ifs with he
    · rw [List.isEmpty_iff] at he
      rw [he, List.append_nil] at key
      exact key
    · rw [tableDirections_append]
      simpa [tableDirections] using key
  obtain ⟨tbl, ht1, ht2⟩ := htbl
  refine ⟨w, tbl, hw, ht1, ?_⟩
  intro i d x hd hx
  rw [ht2]
  exact hmem d x (zip_of_getElem directions w i d x hd hx)

/-! ## Hooks -/

/-- When the loop of `performSpecialActions` completes, the calls it has made are the entries
of the list, in list order. -/
theorem performSpecialActions_trace {σ : Type} (run : SpecialAction → σ → Option (Bool × σ))
    (actions : List SpecialAction) : ∀ (s : σ) (trace : List SpecialAction),
    performSpecialActions (recordHook run) actions (s, trace)
      = (performSpecialActions run actions s).map (fun s1 => (s1, trace ++ actions)) := by
  induction actions with
  | nil => intro s trace; simp [performSpecialActions]
  | cons a rest ih =>
    intro s trace
    simp only [performSpecialActions, recordHook]
    rcases h : run a s with _ | ⟨b, s1⟩
    · simp
    · cases b
      · simp [ih]
      · simp

theorem new_post_sublist (rough : Jitter) (t : ParticleType) :
    (Particle.new rough t).specialPostActions.Sublist constructorPostOrder := by
  unfold Particle.new
  simp only
  split_ifs <;> decide

/-! ## Properties of `checkAlchemyReactions` -/

theorem checkPrerequisites_iff (g : Grid) (neighbors : List (Int × Int)) (valid : Bool) :
    ∀ pres : List AlchemicPrerequisites,
      checkPrerequisites g neighbors valid pres = true ↔
        (valid = true ∧ ∀ prerequisite ∈ pres,
          ∃ n ∈ neighbors, (g n).data.type = prerequisite.type) := by
  intro pres
  induction pres with
  | nil => simp [checkPrerequisites]
  | cons p rest ih =>
    unfold checkPrerequisites
    simp only
    by_cases hc : List.countP (fun neighborPos => decide ((g neighborPos).data.type = p.type))
        neighbors = 0
    · rw [if_pos hc]
      have hno : ¬ ∃ n ∈ neighbors, (g n).data.type = p.type := by
        rintro ⟨n, hn, ht⟩
        have : 0 < List.countP (fun neighborPos =>
            decide ((g neighborPos).data.type = p.type)) neighbors :=
          List.countP_pos_iff.mpr ⟨n, hn, decide_eq_true ht⟩
        omega
      constructor
      · intro h; exact absurd h (by simp)
      · rintro ⟨_, h⟩
        exact absurd (h p (List.mem_cons_self _ _)) hno
    · rw [if_neg hc, ih]
      have hyes : ∃ n ∈ neighbors, (g n).data.type = p.type := by
        have := List.countP_pos_iff.mp (Nat.pos_of_ne_zero hc)
        obtain ⟨n, hn, ht⟩ := this
        exact ⟨n, hn, by simpa using ht⟩
      constructor
      · rintro ⟨hv, h⟩
        refine ⟨hv, ?_⟩
        intro q hq
        rcases List.mem_cons.mp hq with rfl | hq
        · exact hyes
        · exact h q hq
      · rintro ⟨hv, h⟩
        exact ⟨hv, fun q hq => h q (List.mem_cons_of_mem _ hq)⟩

theorem checkPrerequisites_fires (rnd : ReactionDraws) (g : Grid) (neighbors : List (Int × Int))
    (i : Nat) (reaction : AlchemicReaction) :
    checkPrerequisites g neighbors (decide (rnd.draw i < reaction.halflife))
        reaction.prerequisites = true ↔ ruleFires rnd g neighbors i reaction := by
  rw [checkPrerequisites_iff]
  simp [ruleFires]

theorem reactionLoop_cons_fires (rnd : ReactionDraws) (g : Grid) (pos : Int × Int)
    (neighbors : List (Int × Int)) (reaction : AlchemicReaction) (rest : List AlchemicReaction)
    (i : Nat) (h : ruleFires rnd g neighbors i reaction) :
    reactionLoop rnd g pos neighbors (reaction :: rest) i
      = (reaction.results[0]?).map (fireRule rnd g pos i) := by
  have hv := (checkPrerequisites_fires rnd g neighbors i reaction).mpr h
  unfold reactionLoop
  simp only [hv, if_true]
  cases hr : reaction.results[0]? with
  | none => rfl
  | some result =>
    simp only [Option.map_some', fireRule]
    split_ifs <;> rfl

theorem reactionLoop_cons_skips (rnd : ReactionDraws) (g : Grid) (pos : Int × Int)
    (neighbors : List (Int × Int)) (reaction : AlchemicReaction) (rest : List AlchemicReaction)
    (i : Nat) (h : ¬ ruleFires rnd g neighbors i reaction) :
    reactionLoop rnd g pos neighbors (reaction :: rest) i
      = reactionLoop rnd g pos neighbors rest (i + 1) := by
  have hv : ¬ (checkPrerequisites g neighbors (decide (rnd.draw i < reaction.halflife))
      reaction.prerequisites = true) :=
    fun hc => h ((checkPrerequisites_fires rnd g neighbors i reaction).mp hc)
  conv => lhs; unfold reactionLoop
  simp only [hv, if_false]
  rfl

/-- The rule loop stops at the first rule that fires; if none fires the grid is returned
unchanged. -/
theorem reactionLoop_spec (rnd : ReactionDraws) (g : Grid) (pos : Int × Int)
    (neighbors : List (Int × Int)) : ∀ (rules : List AlchemicReaction) (i : Nat),
    (∀ (k : Nat) (reaction : AlchemicReaction), rules[k]? = some reaction →
      (∀ (j : Nat) (earlier : AlchemicReaction), j < k → rules[j]? = some earlier →
        ¬ ruleFires rnd g neighbors (i + j) earlier) →
      ruleFires rnd g neighbors (i + k) reaction →
      reactionLoop rnd g pos neighbors rules i
        = (reaction.results[0]?).map (fireRule rnd g pos (i + k))) ∧
    ((∀ (k : Nat) (reaction : AlchemicReaction), rules[k]? = some reaction →
        ¬ ruleFires rnd g neighbors (i + k) reaction) →
      reactionLoop rnd g pos neighbors rules i = some g) := by
  intro rules
  induction rules with
  | nil =>
    intro i
    constructor
    · intro k reaction hk; simp at hk
    · intro _; rfl
  | cons r rest ih =>
    intro i
    constructor
    · intro k reaction hk hearlier hfires
      cases k with
      | zero =>
        simp only [List.getElem?_cons_zero, Option.some.injEq] at hk
        subst hk
        exact reactionLoop_cons_fires rnd g pos neighbors r rest i hfires
      | succ k =>
        simp only [List.getElem?_cons_succ] at hk
        have h0 : ¬ ruleFires rnd g neighbors i r := by
          have := hearlier 0 r (Nat.succ_pos k) (by simp)
          simpa using this
        rw [reactionLoop_cons_skips rnd g pos neighbors r rest i h0]
        have e : i + (k + 1) = i + 1 + k := by omega
        rw [e] at hfires ⊢
        refine (ih (i + 1)).1 k reaction hk ?_ hfires
        intro j earlier hj hje
        have := hearlier (j + 1) earlier (by omega) (by simpa using hje)
        have e2 : i + (j + 1) = i + 1 + j := by omega
        rwa [e2] at this
    · intro hnone
      have h0 : ¬ ruleFires rnd g neighbors i r := by
        have := hnone 0 r (by simp)
        simpa using this
      rw [reactionLoop_cons_skips rnd g pos neighbors r rest i h0]
      refine (ih (i + 1)).2 ?_
      intro k reaction hk
      have := hnone (k + 1) reaction (by simpa using hk)
      have e2 : i + (k + 1) = i + 1 + k := by omega
      rwa [e2] at this

theorem fireRule_same (rnd : ReactionDraws) (g : Grid) (pos : Int × Int) (i : Nat)
    (result : AlchemicResults) :
    (fireRule rnd g pos i result pos).data.type = result.type := by
  unfold fireRule
  simp only
  split_ifs
  · rw [Grid.set_same]
    simp only [transferParticleData_same]
    exact new_type _ _
  · rw [transferParticleData_same]
    exact new_type _ _

theorem fireRule_other (rnd : ReactionDraws) (g : Grid) (pos : Int × Int) (i : Nat)
    (result : AlchemicResults) (q : Int × Int) (hq : q ≠ pos) :
    fireRule rnd g pos i result q = g q := by
  unfold fireRule
  simp only
  split_ifs
  · rw [Grid.set_other _ _ _ _ hq, transferParticleData_other _ _ _ _ _ hq]
  · rw [transferParticleData_other _ _ _ _ _ hq]

theorem ruleFires_congr (rnd rnd2 : ReactionDraws) (g : Grid) (neighbors : List (Int × Int))
    (i : Nat) (reaction : AlchemicReaction) (h : rnd2.draw i = rnd.draw i) :
    ruleFires rnd2 g neighbors i reaction ↔ ruleFires rnd g neighbors i reaction := by
  unfold ruleFires
  rw [h]

theorem fireRule_congr (rnd rnd2 : ReactionDraws) (g : Grid) (pos : Int × Int) (i : Nat)
    (result : AlchemicResults) (h1 : rnd2.rough i = rnd.rough i)
    (h2 : rnd2.roughTemp i = rnd.roughTemp i) :
    fireRule rnd2 g pos i result = fireRule rnd g pos i result := by
  unfold fireRule
  rw [h1, h2]

theorem fire_reactions : (Particle.new exactJitter .FIRE).data.reactions
    = [mkReaction (1/8) .WATER ⟨.EMPTY, -1⟩] := by
  simp [Particle.new, getParticleData, catalogEntry, withMovement, withThermal,
    defaultParticleData, thermalJitter, exactJitter, mkReaction]

/-! ## Temperature across a replacement -/

theorem transferParticleData_temperature (g : Grid) (pos : Int × Int) (p : Particle) :
    (transferParticleData g pos p true pos).data.temperature = (g pos).data.temperature := by
  rw [transferParticleData_same]

theorem transferParticleData_type (g : Grid) (pos : Int × Int) (p : Particle) :
    (transferParticleData g pos p true pos).data.type = p.data.type := by
  rw [transferParticleData_same]

theorem fireRule_temperature (rnd : ReactionDraws) (g : Grid) (pos : Int × Int) (i : Nat)
    (result : AlchemicResults) :
    (fireRule rnd g pos i result pos).data.temperature
      = if result.particleTemp = -1 then (g pos).data.temperature
        else max (rnd.roughTemp i result.particleTemp (1/10)) (g pos).data.temperature := by
  unfold fireRule
  simp only
  by_cases h : result.particleTemp = -1
  · rw [if_neg (not_not.mpr h), if_pos h, transferParticleData_temperature]
  · rw [if_pos h, if_neg h, Grid.set_same]
    simp only [transferParticleData_temperature]

/-- The call returns the grid of the first rule that fires. -/
theorem checkAlchemyReactions_fires (rnd : ReactionDraws) (g : Grid) (pos : Int × Int) (k : Nat)
    (reaction : AlchemicReaction) (result : AlchemicResults)
    (hk : (g pos).data.reactions[k]? = some reaction)
    (hearlier : ∀ (j : Nat) (earlier : AlchemicReaction), j < k →
      (g pos).data.reactions[j]? = some earlier →
      ¬ ruleFires rnd g (getNeighbours pos) j earlier)
    (hfires : ruleFires rnd g (getNeighbours pos) k reaction)
    (hres : reaction.results[0]? = some result) :
    checkAlchemyReactions rnd g pos = some (fireRule rnd g pos k result) := by
  unfold checkAlchemyReactions
  have := (reactionLoop_spec rnd g pos (getNeighbours pos) (g pos).data.reactions 0).1
    k reaction hk
    (by intro j earlier hj hje; rw [Nat.zero_add]; exact hearlier j earlier hj hje)
    (by rw [Nat.zero_add]; exact hfires)
  rw [this, hres, Option.map_some', Nat.zero_add]

theorem oil_data : (Particle.new exactJitter .OIL).data.reactions
      = [mkReaction (1/8) .FIRE ⟨.FIRE, 1200 + CELSIUS_TO_KELVIN⟩] ∧
    (Particle.new exactJitter .OIL).data.temperature = 30 + CELSIUS_TO_KELVIN := by
  simp [Particle.new, getParticleData, catalogEntry, withMovement, withThermal,
    defaultParticleData, thermalJitter, exactJitter, mkReaction]

/-! ## Properties of `checkHalfLifeExpired` -/

theorem checkHalfLifeExpired_fires (rough : Jitter) (u : ℚ) (g : Grid) (pos : Int × Int)
    (t : ParticleType) (h1 : (g pos).data.type ≠ ParticleType.EMPTY)
    (h2 : (g pos).data.halflife ≠ -1) (h3 : u < (g pos).data.halflife)
    (h4 : (g pos).data.endOfLifeType = some t) :
    checkHalfLifeExpired rough u g pos
      = some (transferParticleData g pos (Particle.new rough t) true) := by
  unfold checkHalfLifeExpired
  simp only
  rw [if_pos h1, if_pos h2, if_pos h3, h4]

theorem checkHalfLifeExpired_idle (rough : Jitter) (u : ℚ) (g : Grid) (pos : Int × Int)
    (h : (g pos).data.type = ParticleType.EMPTY ∨ (g pos).data.halflife = -1 ∨
      (g pos).data.halflife ≤ u) :
    checkHalfLifeExpired rough u g pos = some g := by
  unfold checkHalfLifeExpired
  simp only
  by_cases h1 : (g pos).data.type = ParticleType.EMPTY
  · rw [if_neg (not_not.mpr h1)]
  · rw [if_pos h1]
    by_cases h2 : (g pos).data.halflife = -1
    · rw [if_neg (not_not.mpr h2)]
    · rw [if_pos h2]
      rcases h with h | h | h
      · exact absurd h h1
      · exact absurd h h2
      · rw [if_neg (not_lt.mpr h)]

theorem checkHalfLifeExpired_other (rough : Jitter) (u : ℚ) (g g1 : Grid) (pos q : Int × Int)
    (hq : q ≠ pos) (h : checkHalfLifeExpired rough u g pos = some g1) : g1 q = g q := by
  unfold checkHalfLifeExpired at h
  simp only at h
  split_ifs at h
  · cases ht : (g pos).data.endOfLifeType with
    | none => rw [ht] at h; exact absurd h (by simp)
    | some t =>
      rw [ht] at h
      simp only [Option.some.injEq] at h
      rw [← h, transferParticleData_other _ _ _ _ _ hq]
  all_goals
    simp only [Option.some.injEq] at h
    rw [← h]

theorem fire_decay_data : (Particle.new exactJitter .FIRE).data.halflife = 1/300 ∧
    (Particle.new exactJitter .FIRE).data.endOfLifeType = some .SMOKE ∧
    (Particle.new exactJitter .FIRE).data.temperature = 950 + CELSIUS_TO_KELVIN := by
  simp [Particle.new, getParticleData, catalogEntry, withMovement, withThermal,
    defaultParticleData, thermalJitter, exactJitter, mkReaction]

/-! ## Properties of `clone` -/

theorem cloneScan_fold (g : Grid) : ∀ (ns : List (Int × Int)) (r : ParticleType)
    (acc : List (Int × Int)),
    ns.foldl (cloneScan g) (r, acc)
      = ((if r ≠ ParticleType.EMPTY then r
          else match ns.find? (cloneable g) with
            | some neighborPos => (g neighborPos).data.type
            | none => ParticleType.EMPTY),
         acc ++ ns.filter (fun neighborPos => (g neighborPos).data.type = ParticleType.EMPTY)) := by
  intro ns
  induction ns with
  | nil => intro r acc; by_cases h : r = ParticleType.EMPTY <;> simp [h]
  | cons n rest ih =>
    intro r acc
    rw [List.foldl_cons]
    have hstep : cloneScan g (r, acc) n
        = if r = ParticleType.EMPTY ∧ (g n).data.type ≠ ParticleType.CLONE ∧
              (g n).data.type ≠ ParticleType.EMPTY then ((g n).data.type, acc)
          else if (g n).data.type = ParticleType.EMPTY then (r, acc ++ [n])
          else (r, acc) := rfl
    rw [hstep]
    by_cases hr : r = ParticleType.EMPTY
    · by_cases hc : (g n).data.type ≠ ParticleType.CLONE ∧ (g n).data.type ≠ ParticleType.EMPTY
      · rw [if_pos ⟨hr, hc⟩, ih]
        have hcl : cloneable g n = true := by simp [cloneable, hc.1, hc.2]
        simp [hr, hc.2, hcl, List.find?_cons]
      · have hn : ¬ (r = ParticleType.EMPTY ∧ (g n).data.type ≠ ParticleType.CLONE ∧
            (g n).data.type ≠ ParticleType.EMPTY) := fun h => hc h.2
        have hcl : cloneable g n = false := by
          simp only [cloneable, decide_eq_false_iff_not]
          exact hc
        rw [if_neg hn]
        by_cases he : (g n).data.type = ParticleType.EMPTY
        · rw [if_pos he, ih]
          simp [hr, he, hcl, List.find?_cons]
        · rw [if_neg he, ih]
          simp [hr, he, hcl, List.find?_cons]
    · have hn : ¬ (r = ParticleType.EMPTY ∧ (g n).data.type ≠ ParticleType.CLONE ∧
          (g n).data.type ≠ ParticleType.EMPTY) := fun h => hr h.1
      rw [if_neg hn]
      by_cases he : (g n).data.type = ParticleType.EMPTY
      · rw [if_pos he, ih]
        simp [hr, he]
      · rw [if_neg he, ih]
        simp [hr, he]

theorem clone_scan (g : Grid) (pos : Int × Int) :
    (getNeighbours pos).foldl (cloneScan g) ((g pos).rememberedParticleType, [])
      = (rememberedAfter g pos, emptyNeighbours g pos) := by
  rw [cloneScan_fold]
  simp [rememberedAfter, emptyNeighbours]

/-- The result of `clone` when it spawns: the memory is updated and the chosen EMPTY
neighbour is overwritten. -/
theorem clone_spawns (rough : Jitter) (rand : Nat) (g : Grid) (pos : Int × Int)
    (hr : rememberedAfter g pos ≠ ParticleType.EMPTY) (hne : emptyNeighbours g pos ≠ []) :
    clone rough rand g pos
      = (g.set pos { g pos with rememberedParticleType := rememberedAfter g pos }).set
          ((emptyNeighbours g pos).get ⟨rand % (emptyNeighbours g pos).length,
            Nat.mod_lt _ (List.length_pos.mpr hne)⟩)
          (Particle.new rough (rememberedAfter g pos)) := by
  unfold clone
  simp only
  rw [clone_scan]
  unfold cloneSpawn
  simp only
  rw [dif_pos ⟨hr, hne⟩]

/-- The result of `clone` when it does not spawn: only the memory is updated. -/
theorem clone_idle (rough : Jitter) (rand : Nat) (g : Grid) (pos : Int × Int)
    (h : rememberedAfter g pos = ParticleType.EMPTY ∨ emptyNeighbours g pos = []) :
    clone rough rand g pos
      = g.set pos { g pos with rememberedParticleType := rememberedAfter g pos } := by
  unfold clone
  simp only
  rw [clone_scan]
  unfold cloneSpawn
  simp only
  rw [dif_neg]
  rintro ⟨h1, h2⟩
  rcases h with h | h
  · exact h1 h
  · exact h2 h

theorem mem_emptyNeighbours (g : Grid) (pos q : Int × Int) :
    q ∈ emptyNeighbours g pos ↔
      q ∈ getNeighbours pos ∧ (g q).data.type = ParticleType.EMPTY := by
  simp [emptyNeighbours]

/-! ## Properties of `attemptEmissions` -/

theorem emissionLoop_fires (rnd : EmissionDraws) (emptyNeighbors : List (Int × Int))
    (emission : Emission) (rest : List Emission) (i : Nat) (g : Grid)
    (h : emptyNeighbors ≠ []) (hd : rnd.draw i < emission.halflife) :
    emissionLoop rnd emptyNeighbors (emission :: rest) i g
      = emissionLoop rnd emptyNeighbors rest (i + 1)
          (g.set (emptyNeighbors.get ⟨rnd.rand i % emptyNeighbors.length,
              Nat.mod_lt _ (List.length_pos.mpr h)⟩)
            (Particle.new (rnd.rough i) emission.type)) := by
  rw [emissionLoop, dif_neg h, if_pos hd]

theorem walledGrid_empties : emptyNeighbours walledGrid (5, 5) = [(5, 4)] := by
  have hn : getNeighbours (5, 5)
      = [(4, 4), (4, 5), (4, 6), (5, 4), (5, 6), (6, 4), (6, 5), (6, 6)] := by decide
  rw [emptyNeighbours, hn]
  simp [walledGrid, new_type]

/-! ## The position list -/

theorem flatMap_singleton {α β : Type} (f : α → β) (l : List α) :
    l.flatMap (fun a => [f a]) = l.map f := by
  induction l with
  | nil => rfl
  | cons a l ih => simp [List.flatMap_cons, ih]

theorem intRange_eq (lo hi : Int) :
    intRange lo hi = (List.range (hi - lo + 1).toNat).map (fun i : Nat => lo + (i : Int)) := by
  unfold intRange
  show List.map (fun (i : Int) => lo + i)
      ((List.range (hi - lo + 1).toNat).flatMap fun a => [(a : Int)]) = _
  rw [flatMap_singleton, List.map_map]
  rfl

theorem mem_intRange (lo hi v : Int) : v ∈ intRange lo hi ↔ lo ≤ v ∧ v ≤ hi := by
  rw [intRange_eq]
  simp only [List.mem_map, List.mem_range]
  constructor
  · rintro ⟨i, hi1, rfl⟩
    omega
  · rintro ⟨h1, h2⟩
    exact ⟨(v - lo).toNat, by omega, by omega⟩

theorem intRange_nodup (lo hi : Int) : (intRange lo hi).Nodup := by
  rw [intRange_eq]
  apply List.Nodup.map
  · intro a b h
    simpa using h
  · exact List.nodup_range _

theorem intRange_length (lo hi : Int) : (intRange lo hi).length = (hi - lo + 1).toNat := by
  rw [intRange_eq]
  simp

theorem mem_initPositions (p : Int × Int) :
    p ∈ initPositions ↔ isValidIndex p.1 p.2 = true := by
  obtain ⟨x, y⟩ := p
  simp only [initPositions, List.mem_flatMap, List.mem_map, mem_intRange, Prod.mk.injEq,
    isValidIndex, GRID_WIDTH, GRID_HEIGHT, decide_eq_true_eq]
  constructor
  · rintro ⟨a, ha, b, hb, rfl, rfl⟩
    omega
  · rintro ⟨h1, h2, h3, h4⟩
    exact ⟨x, by omega, y, by omega, rfl, rfl⟩

theorem initPositions_nodup : initPositions.Nodup := by
  unfold initPositions
  rw [List.nodup_flatMap]
  constructor
  · intro x _
    refine List.Nodup.map ?_ (intRange_nodup _ _)
    intro a b h
    exact (Prod.mk.inj h).2
  · refine List.Nodup.pairwise_of_forall_ne (intRange_nodup _ _) ?_
    intro a _ b _ hab
    simp only [Function.onFun, List.disjoint_left, List.mem_map]
    rintro p ⟨y1, _, rfl⟩ ⟨y2, _, h⟩
    exact hab (Prod.mk.inj h).1.symm

theorem initPositions_length : initPositions.length = 240 * 160 := by
  unfold initPositions
  rw [List.length_flatMap]
  have h : (List.length ∘ fun x : Int => List.map (fun y => (x, y)) (intRange 0 (GRID_HEIGHT - 1)))
      = fun _ => 160 := by
    funext x
    simp [intRange_length, GRID_HEIGHT]
  rw [h]
  have hsum : ∀ l : List Int, (l.map (fun _ => 160)).sum = l.length * 160 := by
    intro l
    induction l with
    | nil => rfl
    | cons a l ih => simp only [List.map_cons, List.sum_cons, ih, List.length_cons]; ring
  rw [hsum, intRange_length]
  simp [GRID_WIDTH]

/-! ## Sweeps -/

theorem sweep_traced {σ : Type} (phase : SweepPhase) (visit : Nat → Int × Int → σ → Option σ) :
    ∀ (order : List (Int × Int)) (i : Nat) (s : σ) (tr : List (SweepPhase × (Int × Int))),
      sweep (traced phase visit) order i (s, tr)
        = (sweep visit order i s).map
            (fun s1 => (s1, tr ++ order.map (fun pos => (phase, pos)))) := by
  intro order
  induction order with
  | nil => intro i s tr; simp [sweep]
  | cons pos rest ih =>
    intro i s tr
    simp only [sweep, traced]
    cases hv : visit i pos s with
    | none => rfl
    | some s1 =>
      simp only [Option.map_some', Option.some_bind, ih, List.map_cons, List.append_assoc,
        List.singleton_append]

theorem sweep_returns {σ : Type} (visit : Nat → Int × Int → σ → Option σ)
    (h : ∀ i pos s, ∃ s1, visit i pos s = some s1) :
    ∀ (order : List (Int × Int)) (i : Nat) (s : σ), ∃ s1, sweep visit order i s = some s1 := by
  intro order
  induction order with
  | nil => intro i s; exact ⟨s, rfl⟩
  | cons pos rest ih =>
    intro i s
    obtain ⟨s1, h1⟩ := h i pos s
    obtain ⟨s2, h2⟩ := ih (i + 1) s1
    exact ⟨s2, by simp only [sweep, h1, Option.some_bind, h2]⟩

theorem sweep_idle {σ : Type} (visit : Nat → Int × Int → σ → Option σ) (s : σ)
    (h : ∀ i pos, visit i pos s = some s) :
    ∀ (order : List (Int × Int)) (i : Nat), sweep visit order i s = some s := by
  intro order
  induction order with
  | nil => intro i; rfl
  | cons pos rest ih =>
    intro i
    simp only [sweep, h i pos, Option.some_bind, ih]

/-- The traced run of `UpdateParticles` is the run itself together with the trace of the
three sweeps over the shuffled list. -/
theorem UpdateParticlesWith_traced {σ : Type} (shuffle : List (Int × Int) → List (Int × Int))
    (pre main post : Nat → Int × Int → σ → Option σ) (positions : List (Int × Int)) (s : σ) :
    UpdateParticlesWith shuffle (traced .pre pre) (traced .main main) (traced .post post)
        positions (s, [])
      = (UpdateParticlesWith shuffle pre main post positions s).map
          (fun r => (r.1, (r.2, tickTrace (shuffle positions)))) := by
  unfold UpdateParticlesWith
  simp only [sweep_traced]
  cases h1 : sweep pre (shuffle positions) 0 s with
  | none => rfl
  | some s1 =>
    simp only [Option.map_some', Option.some_bind, sweep_traced]
    cases h2 : sweep main (shuffle positions) 0 s1 with
    | none => rfl
    | some s2 =>
      simp only [Option.map_some', Option.some_bind, sweep_traced]
      cases h3 : sweep post (shuffle positions) 0 s2 with
      | none => rfl
      | some s3 =>
        simp only [Option.map_some', tickTrace, List.nil_append, List.append_assoc]

theorem UpdateParticlesWith_returns {σ : Type} (shuffle : List (Int × Int) → List (Int × Int))
    (pre main post : Nat → Int × Int → σ → Option σ) (positions : List (Int × Int)) (s : σ)
    (hpre : ∀ i pos s, ∃ s1, pre i pos s = some s1)
    (hmain : ∀ i pos s, ∃ s1, main i pos s = some s1)
    (hpost : ∀ i pos s, ∃ s1, post i pos s = some s1) :
    ∃ s3, UpdateParticlesWith shuffle pre main post positions s
      = some (shuffle positions, s3) := by
  unfold UpdateParticlesWith
  obtain ⟨s1, h1⟩ := sweep_returns pre hpre (shuffle positions) 0 s
  obtain ⟨s2, h2⟩ := sweep_returns main hmain (shuffle positions) 0 s1
  obtain ⟨s3, h3⟩ := sweep_returns post hpost (shuffle positions) 0 s2
  exact ⟨s3, by simp only [h1, h2, h3, Option.some_bind, Option.map_some']⟩

theorem UpdateParticlesWith_positions {σ : Type}
    (shuffle : List (Int × Int) → List (Int × Int))
    (pre main post : Nat → Int × Int → σ → Option σ) (positions : List (Int × Int)) (s : σ)
    (r : List (Int × Int) × σ)
    (h : UpdateParticlesWith shuffle pre main post positions s = some r) :
    r.1 = shuffle positions := by
  unfold UpdateParticlesWith at h
  simp only [Option.bind_eq_some, Option.map_eq_some'] at h
  obtain ⟨s1, _, s2, _, s3, _, rfl⟩ := h
  rfl

theorem runHooks_nil (rnd : HookDraws) (pos : Int × Int) (g : Grid) :
    runHooks rnd pos [] g = some g := rfl

theorem new_EMPTY_hooks (rough : Jitter) :
    (Particle.new rough .EMPTY).specialPreActions = [] ∧
    (Particle.new rough .EMPTY).specialActions = [] ∧
    (Particle.new rough .EMPTY).specialPostActions = [] := by
  simp [Particle.new, getParticleData, catalogEntry, defaultParticleData]

/-- A visit of a cell that holds a fresh EMPTY particle changes nothing, in each sweep. -/
theorem visit_EMPTY (rnd : TickDraws) (i : Nat) (pos : Int × Int) (g : Grid) (rough : Jitter)
    (h : g pos = Particle.new rough .EMPTY) :
    preVisit rnd i pos g = some g ∧ mainVisit rnd i pos g = some g ∧
      postVisit rnd i pos g = some g := by
  obtain ⟨h1, h2, h3⟩ := new_EMPTY_hooks rough
  refine ⟨?_, ?_, ?_⟩
  · unfold preVisit
    simp only [h, h1, runHooks_nil]
  · unfold mainVisit
    simp only [h, new_type, ne_eq, not_true_eq_false, if_false, Option.some_bind, h2,
      runHooks_nil]
  · unfold postVisit
    simp only [h, h3, runHooks_nil]

theorem tickTrace_phase (order : List (Int × Int)) (phase : SweepPhase) :
    ((tickTrace order).filter (fun v => v.1 = phase)).map Prod.snd = order := by
  have hsame : ∀ (p : SweepPhase) (l : List (Int × Int)),
      ((l.map (fun pos => (p, pos))).filter (fun v => v.1 = p)).map Prod.snd = l := by
    intro p l
    induction l with
    | nil => rfl
    | cons a l ih => simp [List.filter_cons, ih]
  have hother : ∀ (p q : SweepPhase) (l : List (Int × Int)), p ≠ q →
      (l.map (fun pos => (p, pos))).filter (fun v => v.1 = q) = [] := by
    intro p q l hpq
    induction l with
    | nil => rfl
    | cons a l ih => simp [List.filter_cons, ih, hpq]
  unfold tickTrace
  simp only [List.filter_append, List.map_append]
  cases phase
  · rw [hsame, hother .main .pre _ (by decide), hother .post .pre _ (by decide)]
    simp
  · rw [hsame, hother .pre .main _ (by decide), hother .post .main _ (by decide)]
    simp
  · rw [hsame, hother .pre .post _ (by decide), hother .main .post _ (by decide)]
    simp

/-! ## Jitter and the catalog rules -/

theorem thermalJitter_rules (rough : Jitter) (d : generalParticleData) :
    (thermalJitter rough d).reactions = d.reactions ∧
    (thermalJitter rough d).emissions = d.emissions ∧
    (thermalJitter rough d).halflife = d.halflife ∧
    (thermalJitter rough d).endOfLifeType = d.endOfLifeType := by
  unfold thermalJitter
  simp only
  split_ifs <;> exact ⟨rfl, rfl, rfl, rfl⟩

theorem new_rules (rough : Jitter) (t : ParticleType) :
    (Particle.new rough t).data.reactions = (getParticleData rough t).reactions ∧
    (Particle.new rough t).data.emissions = (getParticleData rough t).emissions ∧
    (Particle.new rough t).data.halflife = (getParticleData rough t).halflife ∧
    (Particle.new rough t).data.endOfLifeType = (getParticleData rough t).endOfLifeType := by
  unfold Particle.new
  simp only
  split_ifs
  · exact thermalJitter_rules rough _
  · exact ⟨rfl, rfl, rfl, rfl⟩

theorem raisedJitter_admissible : admissibleJitter raisedJitter := by
  intro site value fraction hf
  have e : raisedJitter site value fraction - value = fraction / 2 * value := by
    unfold raisedJitter; ring
  rw [e, abs_mul, abs_of_nonneg (by linarith : (0 : ℚ) ≤ fraction / 2)]
  have := abs_nonneg value
  nlinarith

theorem exactJitter_admissible : admissibleJitter exactJitter := by
  intro site value fraction hf
  simp only [exactJitter, sub_self, abs_zero]
  exact mul_nonneg hf (abs_nonneg value)

/-! ## Sampling -/

/-- The index returned by the sampling loop is the first at which the running sum reaches the
draw. -/
theorem sampleLoop_least (r : ℚ) : ∀ (l : List ℚ) (cum : ℚ) (i : Int),
    r ≤ cum + l.sum → l ≠ [] →
    ∃ n : Nat, sampleLoop r l cum i = i + n ∧ n < l.length ∧
      r ≤ cum + (l.take (n + 1)).sum ∧
      ∀ m : Nat, m < n → cum + (l.take (m + 1)).sum < r := by
  intro l
  induction l with
  | nil => intro cum i _ h; exact absurd rfl h
  | cons p rest ih =>
    intro cum i h _
    simp only [sampleLoop]
    by_cases hr : r ≤ cum + p
    · rw [if_pos hr]
      refine ⟨0, by simp, by simp, by simpa using hr, ?_⟩
      intro m hm
      exact absurd hm (Nat.not_lt_zero m)
    · rw [if_neg hr]
      have hne : rest ≠ [] := by
        intro he
        rw [he] at h
        simp at h
        exact hr h
      obtain ⟨n, h1, h2, h3, h4⟩ := ih (cum + p) (i + 1)
        (by simpa [add_assoc] using h) hne
      refine ⟨n + 1, ?_, ?_, ?_, ?_⟩
      · rw [h1]; push_cast; ring
      · simpa using h2
      · simpa [add_assoc] using h3
      · intro m hm
        cases m with
        | zero => simpa using not_le.mp hr
        | succ m =>
          have := h4 m (by omega)
          simpa [add_assoc] using this

/-! ## A falling stone -/

theorem new_STONE_data : (Particle.new exactJitter .STONE).data.movementDirections
      = [(1, [(0, -1)])] ∧
    (Particle.new exactJitter .STONE).specialActions = [] := by
  constructor
  · rw [(new_fields _ _).2.2.2]
    simp [getParticleData, catalogEntry, withMovement, withThermal, defaultParticleData,
      table_STONE]
  · rfl

/-- One `MoveParticle` call with `sampleDraws` for a particle whose table is the single
direction straight down, above an EMPTY cell: the particle relocates into that cell. -/
theorem moveParticle_falls (g : Grid) (pos : Int × Int) (particle : Particle)
    (htable : particle.data.movementDirections = [(1, [(0, -1)])])
    (hv : isValidIndex (pos.1 + 0) (pos.2 + -1) = true)
    (he : (g (pos.1 + 0, pos.2 + -1)).data.type = ParticleType.EMPTY) :
    MoveParticle (particle.data.movementDirections.length + 1) sampleDraws g pos particle
      = some ((g.set (pos.1 + 0, pos.2 + -1) particle).set pos
          (Particle.new exactJitter .EMPTY)) := by
  have hstep := step_empty_first 9 exactJitter 0 g pos pos particle (0, -1) 0 0 (by norm_num)
    hv he rfl
  have hw : tierWeights [((1 : ℚ), [((0 : Int), (-1 : Int))])] [0] = some [1] := rfl
  have hsample : sampleFromProbabilities (sampleDraws.getRange 0) [1] = 0 := by
    norm_num [sampleFromProbabilities, sampleLoop, sampleDraws]
  have htry : tryDirections sampleDraws 0 pos particle [(0, -1)] [0] 0 g
      = some (true, (g.set (pos.1 + 0, pos.2 + -1) particle).set pos
          (Particle.new exactJitter .EMPTY)) := by
    rw [tryDirections]
    simp only [List.getElem?_cons_zero]
    have hd : StepInDirection stepFuel (sampleDraws.rough 0 0) (sampleDraws.swapDraw 0 0) g pos
        pos particle (0, -1) 0 0
        = some (true, (g.set (pos.1 + 0, pos.2 + -1) particle).set pos
            (Particle.new exactJitter .EMPTY)) := hstep
    rw [hd]
  unfold MoveParticle
  rw [htable]
  show moveLoop sampleDraws pos particle (1 + 1) 0 [0] g = _
  rw [moveLoop]
  simp only [List.isEmpty_cons, Bool.false_eq_true, if_false, htable, hw, hsample]
  simp only [lt_self_iff_false, if_false, Int.toNat_zero, List.getElem?_cons_zero]
  have hsh : sampleDraws.shuffle 0 (List.range ([((0 : Int), (-1 : Int))]).length) = [0] := rfl
  rw [hsh, htry]

/-- The main-sweep visit of a cell that holds such a particle above an EMPTY cell. -/
theorem mainVisit_falls (i : Nat) (g : Grid) (pos : Int × Int)
    (htype : (g pos).data.type ≠ ParticleType.EMPTY)
    (htable : (g pos).data.movementDirections = [(1, [(0, -1)])])
    (hv : isValidIndex (pos.1 + 0) (pos.2 + -1) = true)
    (he : (g (pos.1 + 0, pos.2 + -1)).data.type = ParticleType.EMPTY) :
    mainVisit revisitTick i pos g
      = some ((g.set (pos.1 + 0, pos.2 + -1) (g pos)).set pos
          (Particle.new exactJitter .EMPTY)) := by
  have hm : revisitTick.move i = sampleDraws := rfl
  unfold mainVisit
  simp only
  rw [if_pos htype, hm, moveParticle_falls g pos (g pos) htable hv he, Option.some_bind,
    Grid.set_same, (new_EMPTY_hooks exactJitter).2.1, runHooks_nil]

theorem revisitOrder_perm : revisitOrder.Perm initPositions := by
  have hnodup : revisitOrder.Nodup := by
    unfold revisitOrder
    refine List.nodup_cons.mpr ⟨?_, List.nodup_cons.mpr ⟨?_, initPositions_nodup.filter _⟩⟩
    · simp
    · simp
  rw [List.perm_ext_iff_of_nodup hnodup initPositions_nodup]
  intro p
  unfold revisitOrder
  simp only [List.mem_cons, List.mem_filter, decide_eq_true_eq]
  constructor
  · rintro (rfl | rfl | ⟨h, _⟩)
    · exact (mem_initPositions _).mpr (by decide)
    · exact (mem_initPositions _).mpr (by decide)
    · exact h
  · intro h
    by_cases h1 : p = (5, 5)
    · exact Or.inl h1
    · by_cases h2 : p = (5, 4)
      · exact Or.inr (Or.inl h2)
      · exact Or.inr (Or.inr ⟨h, h1, h2⟩)

/-! ## Tiers of the movement table -/

theorem tierProb_eq (t : Tier) (p : ℚ) (hne : t.2 ≠ []) (h : t.1 = (t.2.length : ℚ) * p) :
    tierProb t = p := by
  have hl : (t.2.length : ℚ) ≠ 0 := by
    have : t.2.length ≠ 0 := fun h0 => hne (List.length_eq_zero.mp h0)
    exact_mod_cast this
  unfold tierProb
  rw [h]
  field_simp

theorem groupStep_inv (pairs : List DirProb) (s : GroupState) (x : DirProb)
    (hx : x ∈ pairs) (hle : x.2 ≤ s.2.2) (h : GroupInv pairs s) :
    GroupInv pairs (groupStep s x) ∧ (groupStep s x).2.2 = x.2 := by
  obtain ⟨h1, h2, h3, h4, h5⟩ := h
  unfold groupStep
  by_cases he : x.2 = s.2.2
  · simp only [he, if_true]
    refine ⟨⟨h1, h2, ?_, ?_, ?_⟩, trivial⟩
    · simp
    · simp only [List.length_append, List.length_singleton, Nat.cast_add, Nat.cast_one]
      rw [h4]
      ring
    · intro d hd
      rcases List.mem_append.mp hd with hd | hd
      · exact h5 d hd
      · rw [List.mem_singleton] at hd
        rw [hd, ← he]
        exact hx
  · simp only [he, if_false]
    have hlt : x.2 < s.2.2 := lt_of_le_of_ne hle he
    have hcur : tierProb s.2.1 = s.2.2 := tierProb_eq _ _ h3 h4
    refine ⟨⟨?_, ?_, ?_, ?_, ?_⟩, trivial⟩
    · simp only [List.map_append, List.map_cons, List.map_nil]
      rw [List.pairwise_append]
      refine ⟨h1, List.pairwise_singleton _ _, ?_⟩
      intro a ha b hb
      rw [List.mem_singleton] at hb
      obtain ⟨t, ht, rfl⟩ := List.mem_map.mp ha
      rw [hb, hcur]
      exact (h2 t ht).1
    · intro t ht
      rcases List.mem_append.mp ht with ht | ht
      · obtain ⟨a, b, c, d⟩ := h2 t ht
        exact ⟨lt_trans hlt a, b, c, d⟩
      · rw [List.mem_singleton] at ht
        rw [ht, hcur]
        exact ⟨hlt, h3, h4, h5⟩
    · simp
    · simp
    · intro d hd
      rw [List.mem_singleton] at hd
      rw [hd]
      exact hx

theorem foldl_groupStep_inv (pairs : List DirProb) :
    ∀ (l : List DirProb) (s : GroupState), l.Sorted probGE →
      (∀ x ∈ l, x ∈ pairs ∧ x.2 ≤ s.2.2) → GroupInv pairs s →
      GroupInv pairs (l.foldl groupStep s) := by
  intro l
  induction l with
  | nil => intro s _ _ h; exact h
  | cons x rest ih =>
    intro s hsorted hmem h
    obtain ⟨hinv, hcp⟩ := groupStep_inv pairs s x (hmem x (List.mem_cons_self _ _)).1
      (hmem x (List.mem_cons_self _ _)).2 h
    rw [List.foldl_cons]
    apply ih _ (List.Sorted.of_cons hsorted) _ hinv
    intro y hy
    refine ⟨(hmem y (List.mem_cons_of_mem _ hy)).1, ?_⟩
    rw [hcp]
    exact List.rel_of_sorted_cons hsorted y hy

/-- The tiers of the table built for a non-EMPTY phase and any density: every tier is
non-empty, its directions all have the probability `tierProb` in the normalised pairing, its
stored weight is the member count times that probability, and the per-direction probabilities
strictly decrease from tier to tier. -/
theorem table_tiers (state : ParticleState) (density : ℚ)
    (hs : state ≠ ParticleState.EMPTY) :
    ∃ w tbl, interpolateWeights state density = some w ∧
      getMovementDirectionsFromDensity state density = some tbl ∧
      (tbl.map tierProb).Pairwise (fun a b => a > b) ∧
      ∀ t ∈ tbl, t.2 ≠ [] ∧ 0 < tierProb t ∧ t.1 = (t.2.length : ℚ) * tierProb t ∧
        ∀ d ∈ t.2, (d, tierProb t) ∈ directions.zip (altsoftmax w) := by
  obtain ⟨w, hw, hlen, hnn, hsum⟩ := interpolateWeights_good state density hs
  have hperm := List.perm_insertionSort probGE
    ((directions.zip (altsoftmax w)).filter (fun dp => dp.2 > 0))
  have hsort : (List.insertionSort probGE
      ((directions.zip (altsoftmax w)).filter (fun dp => dp.2 > 0))).Sorted probGE :=
    @List.sorted_insertionSort _ probGE _ ⟨fun a b => le_total b.2 a.2⟩
      ⟨fun a b c hab hbc => le_trans hbc hab⟩ _
  generalize hsd : List.insertionSort probGE
    ((directions.zip (altsoftmax w)).filter (fun dp => dp.2 > 0)) = sorted at hperm hsort
  have hin : ∀ x ∈ sorted, x ∈ directions.zip (altsoftmax w) ∧ 0 < x.2 := by
    intro x hx
    have := hperm.mem_iff.mp hx
    rw [List.mem_filter] at this
    exact ⟨this.1, by simpa using this.2⟩
  have hne : sorted ≠ [] := by
    intro h
    obtain ⟨x, hx, hp⟩ := exists_pos_of_sum_pos w hsum
    have hzip : List.map Prod.snd (directions.zip w) = w :=
      List.map_snd_zip _ _ (by rw [hlen]; decide)
    rw [← hzip] at hx
    obtain ⟨⟨d, x1⟩, hm, rfl⟩ := List.mem_map.mp hx
    have := (mem_filtered_iff w hsum d x1 hm).mpr hp
    rw [← (hperm.map Prod.fst).mem_iff, h] at this
    simp at this
  obtain ⟨first, rest, hsorted⟩ : ∃ first rest, sorted = first :: rest := by
    cases sorted with
    | nil => exact absurd rfl hne
    | cons a l => exact ⟨a, l, rfl⟩
  subst hsorted
  have hstep : groupStep ([], (0, []), first.2) first
      = ([], (0 + first.2, [] ++ [first.1]), first.2) := by
    simp [groupStep]
  have hinv0 : GroupInv (directions.zip (altsoftmax w))
      ([], (0 + first.2, [] ++ [first.1]), first.2) := by
    refine ⟨by simp, by simp, by simp, by simp, ?_⟩
    intro d hd
    simp only [List.nil_append, List.mem_singleton] at hd
    rw [hd]
    exact (hin first (List.mem_cons_self _ _)).1
  have hinv := foldl_groupStep_inv (directions.zip (altsoftmax w)) rest
    ([], (0 + first.2, [] ++ [first.1]), first.2) (List.Sorted.of_cons hsort)
    (fun x hx => ⟨(hin x (List.mem_cons_of_mem _ hx)).1, List.rel_of_sorted_cons hsort x hx⟩)
    hinv0
  have hcp : ∀ (l : List DirProb) (s : GroupState), (∀ x ∈ l, 0 < x.2) → 0 < s.2.2 →
      0 < (l.foldl groupStep s).2.2 := by
    intro l
    induction l with
    | nil => intro s _ h; exact h
    | cons x l ih =>
      intro s hx h
      rw [List.foldl_cons]
      apply ih _ (fun y hy => hx y (List.mem_cons_of_mem _ hy))
      unfold groupStep
      by_cases he : x.2 = s.2.2
      · simp only [he, if_true]
        exact h
      · simp only [he, if_false]
        exact hx x (List.mem_cons_self _ _)
  have hpos := hcp rest ([], (0 + first.2, [] ++ [first.1]), first.2)
    (fun x hx => (hin x (List.mem_cons_of_mem _ hx)).2) (hin first (List.mem_cons_self _ _)).2
  have hget : getMovementDirectionsFromDensity state density
      = some (if (List.foldl groupStep ([], (0 + first.2, [] ++ [first.1]), first.2)
            rest).2.1.2.isEmpty
          then (List.foldl groupStep ([], (0 + first.2, [] ++ [first.1]), first.2) rest).1
          else (List.foldl groupStep ([], (0 + first.2, [] ++ [first.1]), first.2) rest).1
            ++ [(List.foldl groupStep ([], (0 + first.2, [] ++ [first.1]), first.2)
              rest).2.1]) := by
    unfold getMovementDirectionsFromDensity
    rw [hw]
    simp only [Option.bind_eq_bind, Option.some_bind, hsd, List.head?_cons, List.foldl_cons,
      hstep]
    rfl
  generalize List.foldl groupStep ([], (0 + first.2, [] ++ [first.1]), first.2) rest = s
    at hget hinv hpos
  obtain ⟨h1, h2, h3, h4, h5⟩ := hinv
  have hcur : tierProb s.2.1 = s.2.2 := tierProb_eq _ _ h3 h4
  have hemp : s.2.1.2.isEmpty = false := by
    cases hc : s.2.1.2 with
    | nil => exact absurd hc h3
    | cons a l => rfl
  simp only [hemp, Bool.false_eq_true, if_false] at hget
  refine ⟨w, _, hw, hget, ?_, ?_⟩
  · simp only [List.map_append, List.map_cons, List.map_nil]
    rw [List.pairwise_append]
    refine ⟨h1, List.pairwise_singleton _ _, ?_⟩
    intro a ha b hb
    rw [List.mem_singleton] at hb
    obtain ⟨t, ht, rfl⟩ := List.mem_map.mp ha
    rw [hb, hcur]
    exact (h2 t ht).1
  · intro t ht
    rcases List.mem_append.mp ht with ht | ht
    · obtain ⟨a, b, c, d⟩ := h2 t ht
      exact ⟨b, lt_trans hpos a, c, d⟩
    · rw [List.mem_singleton] at ht
      rw [ht, hcur]
      exact ⟨h3, hpos, h4, h5⟩

theorem weights_GAS_fifth : interpolateWeights .GAS (1/5)
    = some [1, 6137/6912, 6137/6912, 0, 0, 0, 0, 0] := by
  norm_num [interpolateWeights, selectWeights, gas_weights, blendBand, blendRows, smoothstep, clamp]

theorem table_GAS_fifth : getMovementDirectionsFromDensity .GAS (1/5)
    = some [(3456/9593, [(0, 1)]), (6137/9593, [(-1, 1), (1, 1)])] := by
  rw [getMovementDirectionsFromDensity, weights_GAS_fifth]
  norm_num [altsoftmax, directions, List.insertionSort, List.orderedInsert, probGE, groupStep]
  all_goals exact List.cons_ne_nil _ _

/-! ## Fluid chains -/

theorem chainCell_fst (p direction : Int × Int) (i : Nat) :
    (chainCell p direction i).1 + (direction.1, (0 : Int)).1
      = (chainCell p direction (i + 1)).1 := by
  simp only [chainCell, Nat.cast_add, Nat.cast_one]
  ring

theorem chainCell_snd (p direction : Int × Int) (i : Nat) :
    (chainCell p direction i).2 + (direction.1, (0 : Int)).2
      = (chainCell p direction (i + 1)).2 := by
  simp [chainCell]

theorem chainCell_one (p direction : Int × Int) :
    (p.1 + direction.1, p.2 + direction.2) = chainCell p direction 1 := by
  simp [chainCell]

/-- The nested calls of a fluid chain that ends in front of an EMPTY cell: the call issued
from `T_i` relocates the mover into `T_(k+1)`. -/
theorem chain_moves (rough : Jitter) (u : ℚ) (g : Grid) (p : Int × Int) (particle : Particle)
    (direction : Int × Int) (hf : particle.data.state = ParticleState.FLUID)
    (hdx : direction.1 ≠ 0) (k : Nat) (hk : k ≤ 8)
    (hfluid : ∀ i, 1 ≤ i → i ≤ k → fluidCell g (chainCell p direction i))
    (hv : isValidIndex (chainCell p direction (k + 1)).1 (chainCell p direction (k + 1)).2 = true)
    (he : (g (chainCell p direction (k + 1))).data.type = ParticleType.EMPTY) :
    ∀ (n i : Nat), i + n = k → ∀ fuel, n + 1 ≤ fuel →
      StepInDirection fuel rough u g (chainCell p direction i) p particle (direction.1, 0)
        (i : Int) 0
        = some (true, (g.set (chainCell p direction (k + 1)) particle).set p
            (Particle.new rough .EMPTY)) := by
  intro n
  induction n with
  | zero =>
    intro i hi fuel hfuel
    obtain ⟨f, rfl⟩ : ∃ f, fuel = f + 1 := ⟨fuel - 1, by omega⟩
    have hik : i = k := by omega
    subst hik
    have := step_empty_first f rough u g (chainCell p direction i) p particle (direction.1, 0)
      (i : Int) 0 (by omega) (by rw [chainCell_fst, chainCell_snd]; exact hv)
      (by rw [chainCell_fst, chainCell_snd]; exact he) rfl
    rw [chainCell_fst, chainCell_snd] at this
    exact this
  | succ n ih =>
    intro i hi fuel hfuel
    obtain ⟨f, rfl⟩ : ∃ f, fuel = f + 1 := ⟨fuel - 1, by omega⟩
    obtain ⟨h1, h2, h3, h4, h5⟩ := hfluid (i + 1) (by omega) (by omega)
    have hstep := step_movable f rough u g (chainCell p direction i) p particle
      (direction.1, 0) (i : Int) 0 (by omega) (by rw [chainCell_fst, chainCell_snd]; exact h1)
      (by rw [chainCell_fst, chainCell_snd]; exact h2) (by rw [chainCell_fst, chainCell_snd]; exact h3)
      (by rw [chainCell_fst, chainCell_snd]; exact h5)
    rw [chainCell_fst, chainCell_snd] at hstep
    rw [hstep, if_pos ⟨hf, hdx⟩, if_neg (by rw [h4]; simp)]
    have := ih (i + 1) (by omega) f (by omega)
    rw [Nat.cast_add, Nat.cast_one] at this
    rw [this]
    rfl

/-- The nested calls of a chain of nine fluid cells: every one fails and leaves the grid as
it was, the innermost at the depth ceiling. -/
theorem chain_blocked (rough : Jitter) (u : ℚ) (g : Grid) (p : Int × Int) (particle : Particle)
    (direction : Int × Int) (hf : particle.data.state = ParticleState.FLUID)
    (hdx : direction.1 ≠ 0)
    (hfluid : ∀ i, 1 ≤ i → i ≤ 9 → fluidCell g (chainCell p direction i)) :
    ∀ (n i : Nat), 1 ≤ i → i + n = 9 → ∀ fuel, n + 1 ≤ fuel →
      StepInDirection fuel rough u g (chainCell p direction i) p particle (direction.1, 0)
        (i : Int) 0 = some (false, g) := by
  intro n
  induction n with
  | zero =>
    intro i _ hi fuel hfuel
    obtain ⟨f, rfl⟩ : ∃ f, fuel = f + 1 := ⟨fuel - 1, by omega⟩
    exact step_ceiling f rough u g _ p particle _ (i : Int) 0 (by omega)
  | succ n ih =>
    intro i hi1 hi fuel hfuel
    obtain ⟨f, rfl⟩ : ∃ f, fuel = f + 1 := ⟨fuel - 1, by omega⟩
    obtain ⟨h1, h2, h3, h4, h5⟩ := hfluid (i + 1) (by omega) (by omega)
    have hstep := step_movable f rough u g (chainCell p direction i) p particle
      (direction.1, 0) (i : Int) 0 (by omega) (by rw [chainCell_fst, chainCell_snd]; exact h1)
      (by rw [chainCell_fst, chainCell_snd]; exact h2) (by rw [chainCell_fst, chainCell_snd]; exact h3)
      (by rw [chainCell_fst, chainCell_snd]; exact h5)
    rw [chainCell_fst, chainCell_snd] at hstep
    rw [hstep, if_pos ⟨hf, hdx⟩, if_neg (by rw [h4]; simp)]
    have := ih (i + 1) (by omega) (by omega) f (by omega)
    rw [Nat.cast_add, Nat.cast_one] at this
    rw [this]
    have hd : (i : Int) ≠ 0 := by omega
    simp only [afterRetry, if_pos hd]

theorem new_WATER_fluid : (Particle.new exactJitter .WATER).data.state = ParticleState.FLUID := by
  rw [(new_fields _ _).2.1]
  simp [getParticleData, catalogEntry, withMovement, withThermal, defaultParticleData]

/-! ## Neighbourhoods on the bounded grid -/

/-! ## Size of the Moore neighbourhood -/

theorem isValidIndex_iff (x y : Int) :
    isValidIndex x y = true ↔ 0 ≤ x ∧ x < 240 ∧ 0 ≤ y ∧ y < 160 := by
  simp [isValidIndex, GRID_WIDTH, GRID_HEIGHT]

theorem mem_mooreCandidates (pos q : Int × Int) :
    q ∈ mooreCandidates pos ↔ chebyshev q pos = 1 := by
  obtain ⟨a, b⟩ := pos
  obtain ⟨x, y⟩ := q
  simp only [mooreCandidates, chebyshev, List.mem_cons, Prod.mk.injEq, List.mem_singleton,
    List.not_mem_nil, or_false]
  rcases abs_cases (x - a) with ⟨h1, _⟩ | ⟨h1, _⟩ <;>
    rcases abs_cases (y - b) with ⟨h2, _⟩ | ⟨h2, _⟩ <;>
    rw [h1, h2] <;> omega

theorem mem_getNeighbours (pos q : Int × Int) :
    q ∈ getNeighbours pos ↔ isValidIndex q.1 q.2 = true ∧ chebyshev q pos = 1 := by
  rw [getNeighbours_eq, List.mem_filter, mem_mooreCandidates]
  exact And.comm

/-- The number of neighbours from the number of in-bounds columns and rows around `pos`. -/
theorem getNeighbours_length (x y : Int) (hx : 0 ≤ x ∧ x < 240) (hy : 0 ≤ y ∧ y < 160) :
    (getNeighbours (x, y)).length
      = (if 1 ≤ x ∧ x ≤ 238 then 3 else 2) * (if 1 ≤ y ∧ y ≤ 158 then 3 else 2) - 1 := by
  rw [getNeighbours_eq]
  unfold mooreCandidates
  simp only
  by_cases hx0 : x = 0 <;> by_cases hx1 : x = 239 <;> by_cases hy0 : y = 0 <;>
    by_cases hy1 : y = 159
  all_goals
    repeat (first
      | rw [List.filter_cons_of_pos (by rw [isValidIndex_iff]; omega)]
      | rw [List.filter_cons_of_neg (by rw [isValidIndex_iff]; omega)])
  all_goals
    first
      | (exfalso; omega)
      | (rw [List.filter_nil]
         split_ifs <;> first | rfl | (exfalso; omega))

/-! ## What a step and a move write -/

theorem densitySwap_writes (u : ℚ) (g : Grid) (firstPos target : Int × Int)
    (particle : Particle) :
    densitySwap u g firstPos target particle = (false, g) ∨
      densitySwap u g firstPos target particle = (true, g.swap firstPos target) :=
  densitySwap_cases u g firstPos target particle

theorem step_writes (fuel : Nat) : ∀ (rough : Jitter) (u : ℚ) (g : Grid)
    (pos firstPos : Int × Int) (particle : Particle) (direction : Int × Int)
    (depth timesSwapped : Int) (r : Bool × Grid),
    StepInDirection fuel rough u g pos firstPos particle direction depth timesSwapped = some r →
    StepWrites rough g firstPos particle r := by
  induction fuel with
  | zero =>
    intro rough u g pos firstPos particle direction depth timesSwapped r h
    simp [StepInDirection] at h
  | succ n ih =>
    intro rough u g pos firstPos particle direction depth timesSwapped r h
    by_cases hd : 9 ≤ depth
    · rw [step_ceiling n rough u g pos firstPos particle direction depth timesSwapped hd] at h
      cases h; exact Or.inl ⟨rfl, rfl⟩
    have hd8 : depth ≤ 8 := by omega
    by_cases hv : isValidIndex (pos.1 + direction.1) (pos.2 + direction.2) = true
    swap
    · rw [step_oob n rough u g pos firstPos particle direction depth timesSwapped
        (by simpa using hv)] at h
      cases h; exact Or.inl ⟨rfl, rfl⟩
    by_cases he : (g (pos.1 + direction.1, pos.2 + direction.2)).data.type = ParticleType.EMPTY
    · by_cases hts : timesSwapped = 0
      · rw [step_empty_first n rough u g pos firstPos particle direction depth timesSwapped hd8
          hv he hts] at h
        cases h
        exact Or.inr ⟨rfl, _, hv, Or.inr (Or.inl ⟨he, rfl⟩)⟩
      · rw [step_empty_later n rough u g pos firstPos particle direction depth timesSwapped hv he
          hts] at h
        cases h; exact Or.inl ⟨rfl, rfl⟩
    by_cases hr : (g (pos.1 + direction.1, pos.2 + direction.2)).data.type = ParticleType.ERASER
    · rw [step_eraser n rough u g pos firstPos particle direction depth timesSwapped hd8 hv hr]
        at h
      cases h
      exact Or.inr ⟨rfl, _, hv, Or.inl ⟨hr, rfl⟩⟩
    by_cases hm : (g (pos.1 + direction.1, pos.2 + direction.2)).data.movementDirections = []
    · rw [step_immovable n rough u g pos firstPos particle direction depth timesSwapped he hr hm]
        at h
      cases h; exact Or.inl ⟨rfl, rfl⟩
    rw [step_movable n rough u g pos firstPos particle direction depth timesSwapped hd8 hv he hr
      hm] at h
    have hretry : ∀ r1, (if particle.data.state = ParticleState.FLUID ∧ direction.1 ≠ 0 then
            StepInDirection n rough u g (pos.1 + direction.1, pos.2 + direction.2) firstPos
              particle (direction.1, 0) (depth + 1)
              (if (g (pos.1 + direction.1, pos.2 + direction.2)).data.state ≠ ParticleState.FLUID
                then timesSwapped + 1 else timesSwapped)
          else some (false, g)) = some r1 → StepWrites rough g firstPos particle r1 := by
      intro r1 hr1
      by_cases hf : particle.data.state = ParticleState.FLUID ∧ direction.1 ≠ 0
      · rw [if_pos hf] at hr1
        exact ih rough u g _ firstPos particle _ (depth + 1) _ r1 hr1
      · rw [if_neg hf] at hr1
        cases hr1; exact Or.inl ⟨rfl, rfl⟩
    generalize (if particle.data.state = ParticleState.FLUID ∧ direction.1 ≠ 0 then
            StepInDirection n rough u g (pos.1 + direction.1, pos.2 + direction.2) firstPos
              particle (direction.1, 0) (depth + 1)
              (if (g (pos.1 + direction.1, pos.2 + direction.2)).data.state ≠ ParticleState.FLUID
                then timesSwapped + 1 else timesSwapped)
          else some (false, g)) = x at h hretry
    rcases x with _ | ⟨b, g1⟩
    · simp [afterRetry] at h
    · have e := hretry (b, g1) rfl
      cases b
      · have hg : g1 = g := by
          rcases e with ⟨_, e2⟩ | ⟨e1, _⟩
          · exact e2
          · simp at e1
        subst hg
        by_cases hd0 : depth ≠ 0
        · simp only [afterRetry, if_pos hd0] at h
          cases h; exact Or.inl ⟨rfl, rfl⟩
        · simp only [afterRetry, if_neg hd0] at h
          cases h
          rcases densitySwap_writes u g1 firstPos (pos.1 + direction.1, pos.2 + direction.2)
            particle with hs | hs
          · rw [hs]; exact Or.inl ⟨rfl, rfl⟩
          · rw [hs]
            exact Or.inr ⟨rfl, _, hv, Or.inr (Or.inr ⟨he, hr, hm, rfl⟩)⟩
      · simp only [afterRetry] at h
        cases h
        exact e

/-- The effect of one `MoveParticle` call: nothing, or what one successful step writes. -/
theorem move_writes (fuel : Nat) (rnd : MoveDraws) (g g1 : Grid) (pos : Int × Int)
    (particle : Particle) (h : MoveParticle fuel rnd g pos particle = some g1) :
    g1 = g ∨ ∃ rough, StepWrites rough g pos particle (true, g1) := by
  rcases moveLoop_effect rnd pos particle fuel 0 _ g g1 h with e | ⟨k1, j1, direction, e⟩
  · exact Or.inl e
  · exact Or.inr ⟨_, step_writes _ _ _ _ _ _ _ _ _ _ _ e⟩

theorem map_swap_perm {α : Type} (f : Int × Int → α) (l : List (Int × Int)) (hl : l.Nodup)
    (a b : Int × Int) (ha : a ∈ l) (hb : b ∈ l) :
    (l.map (fun q => if q = a then f b else if q = b then f a else f q)).Perm (l.map f) := by
  have hfun : (fun q => if q = a then f b else if q = b then f a else f q)
      = f ∘ (Equiv.swap a b) := by
    funext q
    simp only [Function.comp, Equiv.swap_apply_def]
    split_ifs <;> rfl
  rw [hfun, ← List.map_map]
  apply List.Perm.map
  rw [List.perm_ext_iff_of_nodup (hl.map (Equiv.swap a b).injective) hl]
  intro x
  rw [List.mem_map]
  constructor
  · rintro ⟨y, hy, rfl⟩
    rw [Equiv.swap_apply_def]
    split_ifs with h1 h2
    · exact hb
    · exact ha
    · exact hy
  · intro hx
    refine ⟨Equiv.swap a b x, ?_, Equiv.swap_apply_self a b x⟩
    rw [Equiv.swap_apply_def]
    split_ifs with h1 h2
    · exact hb
    · exact ha
    · exact hx

theorem filter_map_congr {α : Type} (P : α → Bool) (g1 g2 : Int × Int → α) :
    ∀ l : List (Int × Int),
      (∀ q ∈ l, g1 q = g2 q ∨ (P (g1 q) = false ∧ P (g2 q) = false)) →
      (l.map g1).filter P = (l.map g2).filter P := by
  intro l
  induction l with
  | nil => intro _; rfl
  | cons x rest ih =>
    intro h
    have ih1 := ih (fun q hq => h q (List.mem_cons_of_mem _ hq))
    rcases h x (List.mem_cons_self _ _) with e | ⟨e1, e2⟩
    · simp only [List.map_cons, List.filter_cons, e, ih1]
    · simp [List.filter_cons, e1, e2, ih1]

theorem filter_map_set {α : Type} (P : α → Bool) (g : Int × Int → α) (pos : Int × Int) (e : α)
    (hp : P (g pos) = true) (he : P e = false) :
    ∀ l : List (Int × Int), l.Nodup → pos ∈ l →
      ((l.map g).filter P).Perm
        (g pos :: (l.map (fun q => if q = pos then e else g q)).filter P) := by
  intro l
  induction l with
  | nil => intro _ h; simp at h
  | cons x rest ih =>
    intro hnd hmem
    have hx : x ∉ rest := (List.nodup_cons.mp hnd).1
    by_cases hxp : x = pos
    · subst hxp
      have hrest : rest.map (fun q => if q = x then e else g q) = rest.map g := by
        apply List.map_congr_left
        intro q hq
        have : q ≠ x := fun h => hx (h ▸ hq)
        simp [this]
      simp only [List.map_cons, List.filter_cons, hp, if_true, he, hrest]
      exact List.Perm.refl _
    · have hmem1 : pos ∈ rest := by
        rcases List.mem_cons.mp hmem with h | h
        · exact absurd h.symm hxp
        · exact h
      have ih1 := ih (List.nodup_cons.mp hnd).2 hmem1
      simp only [List.map_cons, List.filter_cons, hxp, if_false]
      by_cases hpx : P (g x) = true
      · simp only [hpx, if_true]
        exact (List.Perm.cons _ ih1).trans (List.Perm.swap _ _ _)
      · simp only [hpx, if_false]
        exact ih1

theorem matter_swap (g : Grid) (a b : Int × Int) (ha : isValidIndex a.1 a.2 = true)
    (hb : isValidIndex b.1 b.2 = true) : (matter (g.swap a b)).Perm (matter g) := by
  unfold matter
  apply List.Perm.filter
  exact map_swap_perm g initPositions initPositions_nodup a b ((mem_initPositions a).mpr ha)
    ((mem_initPositions b).mpr hb)

theorem matter_relocate (g : Grid) (pos t : Int × Int) (e : Particle)
    (he : e.data.type = ParticleType.EMPTY) (ht : (g t).data.type = ParticleType.EMPTY) :
    matter ((g.set t (g pos)).set pos e) = matter (g.swap pos t) := by
  unfold matter
  apply filter_map_congr
  intro q _
  by_cases hq : q = pos
  · subst hq
    right
    simp [Grid.set, Grid.swap, he, ht]
  · left
    by_cases hqt : q = t
    · subst hqt
      simp [Grid.set, Grid.swap, hq]
    · simp [Grid.set, Grid.swap, hq, hqt]

theorem matter_clear_empty (g : Grid) (pos : Int × Int) (e : Particle)
    (he : e.data.type = ParticleType.EMPTY) (hp : (g pos).data.type = ParticleType.EMPTY) :
    matter (g.set pos e) = matter g := by
  unfold matter
  apply filter_map_congr
  intro q _
  by_cases hq : q = pos
  · subst hq
    right
    simp [Grid.set, he, hp]
  · left
    simp [Grid.set, hq]

theorem matter_clear (g : Grid) (pos : Int × Int) (e : Particle)
    (hv : isValidIndex pos.1 pos.2 = true)
    (he : e.data.type = ParticleType.EMPTY) (hp : (g pos).data.type ≠ ParticleType.EMPTY) :
    (matter g).Perm (g pos :: matter (g.set pos e)) := by
  unfold matter
  exact filter_map_set _ g pos e (by simpa using hp) (by simp [he]) initPositions
    initPositions_nodup ((mem_initPositions pos).mpr hv)

/-! ## Emission writes -/

/-! ## The writes of `attemptEmissions` -/

theorem emissionLoop_writes (rnd : EmissionDraws) (emptyNeighbors : List (Int × Int)) :
    ∀ (emissions : List Emission) (i : Nat) (g : Grid),
      emissionLoop rnd emptyNeighbors emissions i g
        = applyWrites g (emissionWrites rnd emptyNeighbors emissions i) := by
  intro emissions
  induction emissions with
  | nil => intro i g; rfl
  | cons e rest ih =>
    intro i g
    rw [emissionLoop, emissionWrites]
    by_cases h : emptyNeighbors = []
    · rw [dif_pos h, dif_pos h]; rfl
    · rw [dif_neg h, dif_neg h]
      by_cases hd : rnd.draw i < e.halflife
      · rw [if_pos hd, if_pos hd, ih]
        rfl
      · rw [if_neg hd, if_neg hd, ih]

theorem emissionWrites_spec (rnd : EmissionDraws) (emptyNeighbors : List (Int × Int)) :
    ∀ (emissions : List Emission) (i : Nat),
      (emissionWrites rnd emptyNeighbors emissions i).length ≤ emissions.length ∧
      ((emissionWrites rnd emptyNeighbors emissions i).map (fun w => w.2.data.type)).Sublist
        (emissions.map (fun e => e.type)) ∧
      ∀ w ∈ emissionWrites rnd emptyNeighbors emissions i,
        w.1 ∈ emptyNeighbors ∧ ∃ rough t, w.2 = Particle.new rough t := by
  intro emissions
  induction emissions with
  | nil => intro i; simp [emissionWrites]
  | cons e rest ih =>
    intro i
    obtain ⟨h1, h2, h3⟩ := ih (i + 1)
    rw [emissionWrites]
    by_cases h : emptyNeighbors = []
    · rw [dif_pos h]
      simp
    · rw [dif_neg h]
      by_cases hd : rnd.draw i < e.halflife
      · rw [if_pos hd]
        refine ⟨by simpa using h1, ?_, ?_⟩
        · simp only [List.map_cons, new_type]
          exact h2.cons₂ _
        · intro w hw
          rcases List.mem_cons.mp hw with rfl | hw
          · exact ⟨List.get_mem _ _ _, _, _, rfl⟩
          · exact h3 w hw
      · rw [if_neg hd]
        exact ⟨Nat.le_succ_of_le h1, by simpa using h2.cons _, h3⟩

theorem applyWrites_other (q : Int × Int) : ∀ (writes : List ((Int × Int) × Particle)) (g : Grid),
    (∀ w ∈ writes, w.1 ≠ q) → applyWrites g writes q = g q := by
  intro writes
  induction writes with
  | nil => intro g _; rfl
  | cons w rest ih =>
    intro g h
    show applyWrites (g.set w.1 w.2) rest q = g q
    rw [ih _ (fun x hx => h x (List.mem_cons_of_mem _ hx)),
      Grid.set_other _ _ _ _ (fun e => h w (List.mem_cons_self _ _) e.symm)]

theorem new_temperature (rough : Jitter) (t : ParticleType) :
    (Particle.new rough t).data.temperature = (getParticleData rough t).temperature := by
  unfold Particle.new
  simp only
  split_ifs
  · unfold thermalJitter
    simp only
    split_ifs <;> rfl
  · rfl

/-! ## The heat budget -/

theorem sum_map_mem (F : Int × Int → ℚ) (l : List (Int × Int)) (hl : l.Nodup) :
    ∀ ns : List (Int × Int), ns.Nodup → (∀ j ∈ ns, j ∈ l) →
      (l.map (fun q => if q ∈ ns then F q else 0)).sum = (ns.map F).sum := by
  intro ns
  induction ns with
  | nil => intro _ _; simp
  | cons j rest ih =>
    intro hnd hsub
    have hj : j ∉ rest := (List.nodup_cons.mp hnd).1
    have hfun : (fun q => if q ∈ j :: rest then F q else 0)
        = fun q => (if q = j then F q else 0) + (if q ∈ rest then F q else 0) := by
      funext q
      by_cases hq : q = j
      · subst hq
        simp [hj]
      · simp [hq]
    rw [hfun, List.sum_map_add, ih (List.nodup_cons.mp hnd).2
      (fun x hx => hsub x (List.mem_cons_of_mem _ hx)),
      sum_map_single (fun q => if q = j then F q else 0) j l hl
        (hsub j (List.mem_cons_self _ _)) (fun x _ hx => by simp [hx])]
    simp

theorem heatDelta_sum (g : Grid) (pos : Int × Int) (hv : isValidIndex pos.1 pos.2 = true)
    (hs : conductsHeat (g pos))
    (hc : ∀ q, conductsHeat (g q) →
      (g q).data.specificHeatCapacity = (g pos).data.specificHeatCapacity) :
    (initPositions.map
      (heatDelta g pos ((getNeighbours pos).length : Int) (getNeighbours pos))).sum = 0 := by
  have hne : (g pos).data.specificHeatCapacity ≠ 0 := ne_of_gt hs.2
  have hG : heatGivenOff g pos ((getNeighbours pos).length : Int) (getNeighbours pos)
      = ((getNeighbours pos).map (fun j => if exchanges (g pos) (g j) then
          heatExchange (g pos) (g j) ((getNeighbours pos).length : Int) else 0)).sum := by
    unfold heatGivenOff
    congr 1
    apply List.map_congr_left
    intro j _
    by_cases hx : exchanges (g pos) (g j)
    · rw [if_pos hx, if_pos hx, hc j hx.1, div_self hne, mul_one]
    · rw [if_neg hx, if_neg hx]
  have hfun : heatDelta g pos ((getNeighbours pos).length : Int) (getNeighbours pos)
      = fun q => (if q = pos then
            - heatGivenOff g pos ((getNeighbours pos).length : Int) (getNeighbours pos) else 0)
          + (if q ∈ getNeighbours pos then (if exchanges (g pos) (g q) then
              heatExchange (g pos) (g q) ((getNeighbours pos).length : Int) else 0) else 0) := by
    funext q
    unfold heatDelta
    by_cases hq : q = pos
    · subst hq
      simp [not_mem_getNeighbours]
    · rw [if_neg hq, if_neg hq, zero_add]
      by_cases hm : q ∈ getNeighbours pos
      · rw [if_pos hm]
        by_cases hx : exchanges (g pos) (g q)
        · rw [if_pos ⟨hm, hx⟩, if_pos hx, hc q hx.1, div_self hne, mul_one]
        · rw [if_neg (fun h => hx h.2), if_neg hx]
      · rw [if_neg (fun h => hm h.1), if_neg hm]
  rw [hfun, List.sum_map_add,
    sum_map_single (fun q => if q = pos then
      - heatGivenOff g pos ((getNeighbours pos).length : Int) (getNeighbours pos) else 0) pos
      initPositions initPositions_nodup ((mem_initPositions pos).mpr hv)
      (fun x _ hx => by simp [hx]),
    sum_map_mem _ initPositions initPositions_nodup (getNeighbours pos) (getNeighbours_nodup pos)
      (fun j hj => (mem_initPositions j).mpr ((mem_getNeighbours pos j).mp hj).1), hG]
  simp

theorem heatBudget_firstPass (g : Grid) (pos : Int × Int) :
    heatBudget (transferHeatFirstPass g pos) = heatBudget g +
      (initPositions.map
        (heatDelta g pos ((getNeighbours pos).length : Int) (getNeighbours pos))).sum := by
  unfold heatBudget
  rw [← List.sum_map_add]
  congr 1
  apply List.map_congr_left
  intro q _
  rw [transferHeatFirstPass_eq]
  simp only [Particle.addHeat]
  ring

theorem stone_data : (Particle.new exactJitter .STONE).data.thermalConductivity = 1 ∧
    (Particle.new exactJitter .STONE).data.specificHeatCapacity = 1 := by
  rw [new_exact_thermal .STONE (by
    simp [getParticleData, catalogEntry, withMovement, withThermal, defaultParticleData])]
  simp [getParticleData, catalogEntry, withMovement, withThermal, defaultParticleData]

/-! ## Effects of the hooks -/

theorem retouched_refl (p : Particle) : Retouched p p :=
  ⟨rfl, rfl, rfl, rfl, rfl, Or.inl rfl⟩

theorem retouched_trans {p p1 p2 : Particle} (h1 : Retouched p p1) (h2 : Retouched p1 p2) :
    Retouched p p2 := by
  obtain ⟨a1, a2, a3, a4, a5, a6⟩ := h1
  obtain ⟨b1, b2, b3, b4, b5, b6⟩ := h2
  refine ⟨b1.trans a1, b2.trans a2, b3.trans a3, b4.trans a4, b5.trans a5, ?_⟩
  rcases b6 with b6 | b6
  · rw [b6]; exact a6
  · exact Or.inr b6

theorem constructed_retouch {p1 p2 : Particle} (h1 : Constructed p1) (h2 : Retouched p1 p2) :
    Constructed p2 := by
  obtain ⟨rough, t, h⟩ := h1
  exact ⟨rough, t, retouched_trans h h2⟩

theorem hookEffect_refl (g : Grid) (pos : Int × Int) : HookEffect g g pos :=
  ⟨Or.inl (retouched_refl _), fun _ _ => Or.inl rfl⟩

theorem transferParticleData_constructed (g : Grid) (pos : Int × Int) (rough : Jitter)
    (t : ParticleType) :
    Constructed (transferParticleData g pos (Particle.new rough t) true pos) := by
  rw [transferParticleData_same]
  exact ⟨rough, t, rfl, rfl, rfl, rfl, rfl, Or.inl rfl⟩

theorem transferParticleData_effect (g : Grid) (pos : Int × Int) (rough : Jitter)
    (t : ParticleType) :
    HookEffect g (transferParticleData g pos (Particle.new rough t) true) pos := by
  constructor
  · exact Or.inr (transferParticleData_constructed g pos rough t)
  · intro q hq
    exact Or.inl (transferParticleData_other g pos q _ _ hq)

theorem upperTransition_effect (rough : Jitter) (g g1 : Grid) (pos : Int × Int)
    (h : upperTransition rough g pos = some g1) : HookEffect g g1 pos := by
  unfold upperTransition at h
  simp only at h
  split_ifs at h
  · rcases ht : (g pos).data.upperTransitionType with _ | t
    · rw [ht] at h; simp at h
    · rw [ht] at h
      simp only [Option.some.injEq] at h
      rw [← h]
      exact transferParticleData_effect g pos rough t
  · cases h; exact hookEffect_refl g pos
  · cases h; exact hookEffect_refl g pos

theorem attemptEmissions_writes (rnd : EmissionDraws) (g : Grid) (pos : Int × Int) :
    attemptEmissions rnd g pos
      = applyWrites g (emissionWrites rnd (emptyNeighbours g pos)
          (rnd.shuffle (g pos).data.emissions) 0) := by
  unfold attemptEmissions
  simp only
  rw [emissionLoop_writes]
  rfl

/-- A hook loop that completes has made its first call without assigning the particle and
has gone on with the rest of the list from the grid that call left. -/
theorem runHooks_cons_some (rnd : HookDraws) (pos : Int × Int) (a : SpecialAction)
    (rest : List SpecialAction) (g g1 : Grid) (h : runHooks rnd pos (a :: rest) g = some g1) :
    ∃ g2, runHook rnd pos a g = some g2 ∧ hookAssigns rnd pos a g = false ∧
      runHooks rnd pos rest g2 = some g1 := by
  unfold runHooks at h ⊢
  simp only [performSpecialActions, callHook] at h
  rcases h2 : runHook rnd pos a g with _ | g2
  · rw [h2] at h; simp at h
  · rw [h2] at h
    simp only [Option.map_some'] at h
    cases hf : hookAssigns rnd pos a g
    · rw [hf] at h
      exact ⟨g2, rfl, rfl, h⟩
    · rw [hf] at h
      simp at h

theorem runHooks_cons_of (rnd : HookDraws) (pos : Int × Int) (a : SpecialAction)
    (rest : List SpecialAction) (g g2 : Grid) (h2 : runHook rnd pos a g = some g2)
    (hf : hookAssigns rnd pos a g = false) :
    runHooks rnd pos (a :: rest) g = runHooks rnd pos rest g2 := by
  unfold runHooks
  simp only [performSpecialActions, callHook, h2, hf, Option.map_some']

theorem runHooks_assigns (rnd : HookDraws) (pos : Int × Int) (a : SpecialAction)
    (rest : List SpecialAction) (g : Grid) (hf : hookAssigns rnd pos a g = true) :
    runHooks rnd pos (a :: rest) g = none := by
  unfold runHooks
  simp only [performSpecialActions, callHook, hf]
  cases runHook rnd pos a g <;> rfl

theorem hookAssigns_decay_idle (rnd : HookDraws) (pos : Int × Int) (g : Grid)
    (h : (g pos).data.type = ParticleType.EMPTY ∨ (g pos).data.halflife = -1 ∨
      (g pos).data.halflife ≤ rnd.draw) :
    hookAssigns rnd pos .checkHalfLifeExpired g = false := by
  simp only [hookAssigns, decide_eq_false_iff_not, not_and, not_lt]
  intro h1 h2
  rcases h with h | h | h
  · exact absurd h h1
  · exact absurd h h2
  · exact h

theorem hookAssigns_heat_idle (rnd : HookDraws) (pos : Int × Int) (g : Grid)
    (hL : (g pos).data.lowerTransitionPoint = -1 ∨
      ¬ (g pos).data.temperature + (g pos).data.heatReceived
        < (g pos).data.lowerTransitionPoint)
    (hU : (g pos).data.upperTransitionPoint = upperSentinel ∨
      ¬ (g pos).data.temperature + (g pos).data.heatReceived
        > (g pos).data.upperTransitionPoint) :
    hookAssigns rnd pos .transferHeatSecondPass g = false := by
  have hl : lowerTransition rnd.roughLower (applyHeat g pos) pos = some (applyHeat g pos) := by
    apply lowerTransition_idle
    rw [applyHeat_same]
    exact hL
  have h1 : lowerTransitionFires (applyHeat g pos) pos = false := by
    unfold lowerTransitionFires
    rw [applyHeat_same]
    simp only [decide_eq_false_iff_not, not_and]
    intro hne
    rcases hL with hL | hL
    · exact absurd hL hne
    · exact hL
  have h2 : upperTransitionFires (applyHeat g pos) pos = false := by
    unfold upperTransitionFires
    rw [applyHeat_same]
    simp only [decide_eq_false_iff_not, not_and]
    intro hne
    rcases hU with hU | hU
    · exact absurd hU hne
    · exact hU
  simp only [hookAssigns, h1, hl, h2, Bool.or_self]

theorem reaction_calm (rnd : ReactionDraws) (g : Grid) (pos : Int × Int)
    (neighbors : List (Int × Int)) : ∀ (rules : List AlchemicReaction) (i : Nat),
    (∀ reaction ∈ rules, ∀ k, reaction.halflife ≤ rnd.draw k) →
    reactionLoop rnd g pos neighbors rules i = some g ∧
      reactionAssigns rnd g neighbors rules i = false := by
  intro rules
  induction rules with
  | nil => intro i _; exact ⟨rfl, rfl⟩
  | cons reaction rest ih =>
    intro i h
    have hv : checkPrerequisites g neighbors (decide (rnd.draw i < reaction.halflife))
        reaction.prerequisites = false := by
      have hd : decide (rnd.draw i < reaction.halflife) = false :=
        decide_eq_false (not_lt.mpr (h reaction (List.mem_cons_self _ _) i))
      rw [hd]
      by_contra hc
      have := (checkPrerequisites_iff g neighbors false reaction.prerequisites).mp
        (by simpa using hc)
      simp at this
    obtain ⟨i1, i2⟩ := ih (i + 1) (fun r hr => h r (List.mem_cons_of_mem _ hr))
    constructor
    · rw [reactionLoop]
      simp only [hv, Bool.false_eq_true, if_false]
      exact i1
    · rw [reactionAssigns]
      simp only [hv, Bool.false_eq_true, if_false]
      exact i2

theorem fire_hooks : (Particle.new exactJitter .FIRE).specialPostActions
    = [.checkHalfLifeExpired, .transferHeatSecondPass, .checkAlchemyReactions] := by
  simp [Particle.new, getParticleData, catalogEntry, withMovement, withThermal,
    defaultParticleData, thermalJitter, exactJitter, mkReaction]
  norm_num

theorem fire_thermal_data : (Particle.new exactJitter .FIRE).data.temperature = 24463/20 ∧
    (Particle.new exactJitter .FIRE).data.heatReceived = 0 ∧
    (Particle.new exactJitter .FIRE).data.lowerTransitionPoint = 9463/20 ∧
    (Particle.new exactJitter .FIRE).data.upperTransitionPoint = 161463/20 ∧
    (Particle.new exactJitter .FIRE).data.reactions
      = [mkReaction (1/8) .WATER ⟨.EMPTY, -1⟩] := by
  rw [new_exact_thermal .FIRE (by
    simp [getParticleData, catalogEntry, withMovement, withThermal, defaultParticleData])]
  simp [getParticleData, catalogEntry, withMovement, withThermal, defaultParticleData,
    CELSIUS_TO_KELVIN, exactJitter]
  norm_num

/-- The post-pass hooks of a FIRE cell with no pending heat, under draws that let neither the
decay nor a reaction fire: the loop completes and the calls made are the decay check, the heat
second pass and the reaction check, in this order. -/
theorem fire_post_run :
    ∃ g1, performSpecialActions (recordHook (callHook calmHookDraws (5, 5)))
        (sampleGrid .FIRE .EMPTY .EMPTY (5, 5)).specialPostActions
        (sampleGrid .FIRE .EMPTY .EMPTY, [])
      = some (g1, [.checkHalfLifeExpired, .transferHeatSecondPass, .checkAlchemyReactions]) := by
  have hA : sampleGrid .FIRE .EMPTY .EMPTY (5, 5) = Particle.new exactJitter .FIRE :=
    sampleGrid_55 _ _ _
  obtain ⟨f1, f2, f3, f4, f5⟩ := fire_thermal_data
  have hdraw : calmHookDraws.draw = 1 := rfl
  have c1 : runHook calmHookDraws (5, 5) .checkHalfLifeExpired (sampleGrid .FIRE .EMPTY .EMPTY)
      = some (sampleGrid .FIRE .EMPTY .EMPTY) :=
    checkHalfLifeExpired_idle _ _ _ _ (by
      right; right
      rw [hA, fire_decay_data.1, hdraw]
      norm_num)
  have a1 : hookAssigns calmHookDraws (5, 5) .checkHalfLifeExpired
      (sampleGrid .FIRE .EMPTY .EMPTY) = false :=
    hookAssigns_decay_idle _ _ _ (by
      right; right
      rw [hA, fire_decay_data.1, hdraw]
      norm_num)
  have hL : (sampleGrid .FIRE .EMPTY .EMPTY (5, 5)).data.lowerTransitionPoint = -1 ∨
      ¬ (sampleGrid .FIRE .EMPTY .EMPTY (5, 5)).data.temperature
          + (sampleGrid .FIRE .EMPTY .EMPTY (5, 5)).data.heatReceived
        < (sampleGrid .FIRE .EMPTY .EMPTY (5, 5)).data.lowerTransitionPoint := by
    right
    rw [hA, f1, f2, f3]
    norm_num
  have hU : (sampleGrid .FIRE .EMPTY .EMPTY (5, 5)).data.upperTransitionPoint = upperSentinel ∨
      ¬ (sampleGrid .FIRE .EMPTY .EMPTY (5, 5)).data.temperature
          + (sampleGrid .FIRE .EMPTY .EMPTY (5, 5)).data.heatReceived
        > (sampleGrid .FIRE .EMPTY .EMPTY (5, 5)).data.upperTransitionPoint := by
    right
    rw [hA, f1, f2, f4]
    norm_num
  have c2 : runHook calmHookDraws (5, 5) .transferHeatSecondPass
      (sampleGrid .FIRE .EMPTY .EMPTY)
      = some (applyHeat (sampleGrid .FIRE .EMPTY .EMPTY) (5, 5)) :=
    transferHeatSecondPass_idle _ _ _ _ hL hU
  have a2 := hookAssigns_heat_idle calmHookDraws (5, 5) (sampleGrid .FIRE .EMPTY .EMPTY) hL hU
  have hr : (applyHeat (sampleGrid .FIRE .EMPTY .EMPTY) (5, 5) (5, 5)).data.reactions
      = [mkReaction (1/8) .WATER ⟨.EMPTY, -1⟩] := by
    rw [applyHeat_same, hA]
    exact f5
  obtain ⟨c3, a3⟩ := reaction_calm calmHookDraws.reaction
    (applyHeat (sampleGrid .FIRE .EMPTY .EMPTY) (5, 5)) (5, 5) (getNeighbours (5, 5))
    [mkReaction (1/8) .WATER ⟨.EMPTY, -1⟩] 0 (by
      intro reaction hmem k
      rw [List.mem_singleton] at hmem
      rw [hmem]
      show (1/8 : ℚ) ≤ 1
      norm_num)
  have c3' : runHook calmHookDraws (5, 5) .checkAlchemyReactions
      (applyHeat (sampleGrid .FIRE .EMPTY .EMPTY) (5, 5))
      = some (applyHeat (sampleGrid .FIRE .EMPTY .EMPTY) (5, 5)) := by
    show checkAlchemyReactions _ _ _ = _
    unfold checkAlchemyReactions
    rw [hr]
    exact c3
  have a3' : hookAssigns calmHookDraws (5, 5) .checkAlchemyReactions
      (applyHeat (sampleGrid .FIRE .EMPTY .EMPTY) (5, 5)) = false := by
    show reactionAssigns _ _ _ _ _ = false
    rw [hr]
    exact a3
  have hrun : runHooks calmHookDraws (5, 5)
      [.checkHalfLifeExpired, .transferHeatSecondPass, .checkAlchemyReactions]
      (sampleGrid .FIRE .EMPTY .EMPTY)
      = some (applyHeat (sampleGrid .FIRE .EMPTY .EMPTY) (5, 5)) := by
    rw [runHooks_cons_of _ _ _ _ _ _ c1 a1, runHooks_cons_of _ _ _ _ _ _ c2 a2,
      runHooks_cons_of _ _ _ _ _ _ c3' a3', runHooks_nil]
  refine ⟨applyHeat (sampleGrid .FIRE .EMPTY .EMPTY) (5, 5), ?_⟩
  rw [hA, fire_hooks, performSpecialActions_trace]
  have hrun' : performSpecialActions (callHook calmHookDraws (5, 5))
      [.checkHalfLifeExpired, .transferHeatSecondPass, .checkAlchemyReactions]
      (sampleGrid .FIRE .EMPTY .EMPTY)
      = some (applyHeat (sampleGrid .FIRE .EMPTY .EMPTY) (5, 5)) := hrun
  rw [hrun']
  rfl

/-! ## A tick with heat exchange and a fall -/

theorem firstPass_keeps (g : Grid) (pos q : Int × Int) :
    (transferHeatFirstPass g pos q).specialPreActions = (g q).specialPreActions ∧
    (transferHeatFirstPass g pos q).specialActions = (g q).specialActions ∧
    (transferHeatFirstPass g pos q).specialPostActions = (g q).specialPostActions ∧
    (transferHeatFirstPass g pos q).data.movementDirections = (g q).data.movementDirections := by
  rw [transferHeatFirstPass_eq]
  exact ⟨rfl, rfl, rfl, rfl⟩

theorem reactionLoop_unassigned (rnd : ReactionDraws) (g : Grid) (pos : Int × Int)
    (neighbors : List (Int × Int)) :
    ∀ (rules : List AlchemicReaction) (i : Nat),
      reactionAssigns rnd g neighbors rules i = false →
      reactionLoop rnd g pos neighbors rules i = some g := by
  intro rules
  induction rules with
  | nil => intro i _; rfl
  | cons reaction rest ih =>
    intro i h
    unfold reactionAssigns at h
    unfold reactionLoop
    simp only at h ⊢
    by_cases hv : checkPrerequisites g neighbors (decide (rnd.draw i < reaction.halflife))
        reaction.prerequisites = true
    · rw [if_pos hv] at h
      cases h
    · rw [if_neg hv] at h
      rw [if_neg hv]
      exact ih (i + 1) h

/-- A hook call that does not assign the particle of `pos` leaves the three hook vectors of
the particle stored at `pos` as they were: the vector under iteration is still the one the
loop has started on. -/
theorem hook_keeps_vectors (rnd : HookDraws) (pos : Int × Int) (a : SpecialAction)
    (g g1 : Grid) (h : runHook rnd pos a g = some g1) (hf : hookAssigns rnd pos a g = false) :
    (g1 pos).specialPreActions = (g pos).specialPreActions ∧
    (g1 pos).specialActions = (g pos).specialActions ∧
    (g1 pos).specialPostActions = (g pos).specialPostActions := by
  cases a with
  | clone =>
    simp only [runHook, Option.some.injEq] at h
    rw [← h]
    by_cases hs : rememberedAfter g pos ≠ ParticleType.EMPTY ∧ emptyNeighbours g pos ≠ []
    · rw [clone_spawns rnd.rough rnd.rand g pos hs.1 hs.2]
      have hmem := (mem_emptyNeighbours g pos _).mp
        (List.get_mem (emptyNeighbours g pos) (rnd.rand % (emptyNeighbours g pos).length)
          (Nat.mod_lt _ (List.length_pos.mpr hs.2)))
      have hne : pos ≠ (emptyNeighbours g pos).get ⟨rnd.rand % (emptyNeighbours g pos).length,
          Nat.mod_lt _ (List.length_pos.mpr hs.2)⟩ := by
        intro e
        rw [← e] at hmem
        exact not_mem_getNeighbours pos hmem.1
      rw [Grid.set_other _ _ _ _ hne, Grid.set_same]
      exact ⟨rfl, rfl, rfl⟩
    · rw [clone_idle rnd.rough rnd.rand g pos (by
        by_cases h1 : rememberedAfter g pos = ParticleType.EMPTY
        · exact Or.inl h1
        · right
          by_contra h2
          exact hs ⟨h1, h2⟩), Grid.set_same]
      exact ⟨rfl, rfl, rfl⟩
  | checkHalfLifeExpired =>
    have hf1 : ¬ ((g pos).data.type ≠ ParticleType.EMPTY ∧ (g pos).data.halflife ≠ -1 ∧
        rnd.draw < (g pos).data.halflife) := of_decide_eq_false hf
    have hrun : checkHalfLifeExpired rnd.rough rnd.draw g pos = some g1 := h
    rw [checkHalfLifeExpired_idle rnd.rough rnd.draw g pos (by
      by_cases h1 : (g pos).data.type = ParticleType.EMPTY
      · exact Or.inl h1
      · by_cases h2 : (g pos).data.halflife = -1
        · exact Or.inr (Or.inl h2)
        · exact Or.inr (Or.inr (not_lt.mp (fun h3 => hf1 ⟨h1, h2, h3⟩))))] at hrun
    cases hrun
    exact ⟨rfl, rfl, rfl⟩
  | transferHeatFirstPass =>
    simp only [runHook, Option.some.injEq] at h
    rw [← h]
    exact ⟨(firstPass_keeps g pos pos).1, (firstPass_keeps g pos pos).2.1,
      (firstPass_keeps g pos pos).2.2.1⟩
  | transferHeatSecondPass =>
    have hrun : transferHeatSecondPass rnd.roughLower rnd.roughUpper g pos = some g1 := h
    simp only [hookAssigns, Bool.or_eq_false_iff] at hf
    obtain ⟨hl, hu⟩ := hf
    unfold transferHeatSecondPass at hrun
    have hlow : lowerTransition rnd.roughLower (applyHeat g pos) pos
        = some (applyHeat g pos) := by
      apply lowerTransition_idle
      simp only [lowerTransitionFires, decide_eq_false_iff_not, not_and, ne_eq] at hl
      by_cases hp : (applyHeat g pos pos).data.lowerTransitionPoint = -1
      · exact Or.inl hp
      · exact Or.inr (hl hp)
    rw [hlow] at hu hrun
    simp only [Option.some_bind] at hrun
    simp only [upperTransitionFires, decide_eq_false_iff_not, not_and, ne_eq] at hu
    rw [upperTransition_idle rnd.roughUpper _ pos (by
      by_cases hp : (applyHeat g pos pos).data.upperTransitionPoint = upperSentinel
      · exact Or.inl hp
      · exact Or.inr (hu hp))] at hrun
    cases hrun
    rw [applyHeat_same]
    exact ⟨rfl, rfl, rfl⟩
  | checkAlchemyReactions =>
    have hrun : reactionLoop rnd.reaction g pos (getNeighbours pos) (g pos).data.reactions 0
        = some g1 := h
    rw [reactionLoop_unassigned rnd.reaction g pos _ _ 0 hf] at hrun
    cases hrun
    exact ⟨rfl, rfl, rfl⟩
  | attemptEmissions =>
    simp only [runHook, Option.some.injEq] at h
    rw [← h]
    obtain ⟨_, _, h3⟩ := emissionWrites_spec rnd.emission (emptyNeighbours g pos)
      (rnd.emission.shuffle (g pos).data.emissions) 0
    rw [attemptEmissions_writes, applyWrites_other pos _ g (fun w hw e => by
      have := (mem_emptyNeighbours g pos w.1).mp (h3 w hw).1
      rw [e] at this
      exact not_mem_getNeighbours pos this.1)]
    exact ⟨rfl, rfl, rfl⟩

theorem lowerTransition_replaces (rough : Jitter) (g g1 : Grid) (pos : Int × Int)
    (hf : lowerTransitionFires g pos = true) (h : lowerTransition rough g pos = some g1) :
    Constructed (g1 pos) := by
  have hf1 : (g pos).data.lowerTransitionPoint ≠ -1 ∧
      (g pos).data.temperature < (g pos).data.lowerTransitionPoint := of_decide_eq_true hf
  unfold lowerTransition at h
  simp only at h
  rw [if_pos hf1.1, if_pos hf1.2] at h
  rcases ht : (g pos).data.lowerTransitionType with _ | t
  · rw [ht] at h; simp at h
  · rw [ht] at h
    simp only [Option.some.injEq] at h
    rw [← h]
    exact transferParticleData_constructed g pos rough t

theorem upperTransition_replaces (rough : Jitter) (g g1 : Grid) (pos : Int × Int)
    (hf : upperTransitionFires g pos = true) (h : upperTransition rough g pos = some g1) :
    Constructed (g1 pos) := by
  have hf1 : (g pos).data.upperTransitionPoint ≠ upperSentinel ∧
      (g pos).data.temperature > (g pos).data.upperTransitionPoint := of_decide_eq_true hf
  unfold upperTransition at h
  simp only at h
  rw [if_pos hf1.1, if_pos hf1.2] at h
  rcases ht : (g pos).data.upperTransitionType with _ | t
  · rw [ht] at h; simp at h
  · rw [ht] at h
    simp only [Option.some.injEq] at h
    rw [← h]
    exact transferParticleData_constructed g pos rough t

theorem reactionLoop_replaces (rnd : ReactionDraws) (g g1 : Grid) (pos : Int × Int)
    (neighbors : List (Int × Int)) :
    ∀ (rules : List AlchemicReaction) (i : Nat),
      reactionAssigns rnd g neighbors rules i = true →
      reactionLoop rnd g pos neighbors rules i = some g1 → Constructed (g1 pos) := by
  intro rules
  induction rules with
  | nil => intro i hf _; cases hf
  | cons reaction rest ih =>
    intro i hf h
    unfold reactionAssigns at hf
    rw [reactionLoop] at h
    simp only at hf h
    by_cases hv : checkPrerequisites g neighbors (decide (rnd.draw i < reaction.halflife))
        reaction.prerequisites = true
    · rw [if_pos hv] at h
      rcases hres : reaction.results[0]? with _ | result
      · rw [hres] at h; simp at h
      · rw [hres] at h
        simp only at h
        by_cases htemp : result.particleTemp ≠ (-1 : ℚ)
        · rw [if_pos htemp] at h
          simp only [Option.some.injEq] at h
          rw [← h, Grid.set_same]
          exact constructed_retouch
            (transferParticleData_constructed g pos (rnd.rough i) result.type)
            ⟨rfl, rfl, rfl, rfl, rfl, Or.inl rfl⟩
        · rw [if_neg htemp] at h
          simp only [Option.some.injEq] at h
          rw [← h]
          exact transferParticleData_constructed g pos (rnd.rough i) result.type
    · rw [if_neg hv] at hf h
      exact ih (i + 1) hf h

/-- A hook call that assigns the particle of `pos` leaves there a particle built by the
constructor, with the hook vectors of that particle. -/
theorem hook_assigns_replaces (rnd : HookDraws) (pos : Int × Int) (a : SpecialAction)
    (g g1 : Grid) (h : runHook rnd pos a g = some g1) (hf : hookAssigns rnd pos a g = true) :
    Constructed (g1 pos) := by
  cases a with
  | clone => cases hf
  | checkHalfLifeExpired =>
    have hf1 : (g pos).data.type ≠ ParticleType.EMPTY ∧ (g pos).data.halflife ≠ -1 ∧
        rnd.draw < (g pos).data.halflife := of_decide_eq_true hf
    have hrun : checkHalfLifeExpired rnd.rough rnd.draw g pos = some g1 := h
    unfold checkHalfLifeExpired at hrun
    simp only at hrun
    rw [if_pos hf1.1, if_pos hf1.2.1, if_pos hf1.2.2] at hrun
    rcases ht : (g pos).data.endOfLifeType with _ | t
    · rw [ht] at hrun; simp at hrun
    · rw [ht] at hrun
      simp only [Option.some.injEq] at hrun
      rw [← hrun]
      exact transferParticleData_constructed g pos rnd.rough t
  | transferHeatFirstPass => cases hf
  | transferHeatSecondPass =>
    have hrun : transferHeatSecondPass rnd.roughLower rnd.roughUpper g pos = some g1 := h
    unfold transferHeatSecondPass at hrun
    rcases hl : lowerTransition rnd.roughLower (applyHeat g pos) pos with _ | g2
    · rw [hl] at hrun; simp at hrun
    · rw [hl] at hrun
      simp only [Option.some_bind] at hrun
      have hf1 : (lowerTransitionFires (applyHeat g pos) pos ||
          match lowerTransition rnd.roughLower (applyHeat g pos) pos with
          | none => false
          | some g1 => upperTransitionFires g1 pos) = true := hf
      rw [hl] at hf1
      simp only [Bool.or_eq_true] at hf1
      rcases hf1 with hlow | hup
      · have hc := lowerTransition_replaces _ _ g2 pos hlow hl
        rcases (upperTransition_effect _ g2 g1 pos hrun).1 with e | e
        · exact constructed_retouch hc e
        · exact e
      · exact upperTransition_replaces _ g2 g1 pos hup hrun
  | checkAlchemyReactions =>
    exact reactionLoop_replaces rnd.reaction g g1 pos _ _ 0 hf h
  | attemptEmissions => cases hf

/-- The decay check of a FIRE cell under the draw 0 assigns the particle of the cell. -/
theorem fire_decay_assigns :
    hookAssigns sampleHookDraws (5, 5) .checkHalfLifeExpired (sampleGrid .FIRE .EMPTY .EMPTY)
      = true := by
  have hA : sampleGrid .FIRE .EMPTY .EMPTY (5, 5) = Particle.new exactJitter .FIRE :=
    sampleGrid_55 _ _ _
  have hdraw : sampleHookDraws.draw = 0 := rfl
  have ht : (Particle.new exactJitter .FIRE).data.type = ParticleType.FIRE := by
    rw [(new_fields _ _).1]
    simp [getParticleData, catalogEntry, withMovement, withThermal, defaultParticleData]
  show decide ((sampleGrid .FIRE .EMPTY .EMPTY (5, 5)).data.type ≠ ParticleType.EMPTY ∧
    (sampleGrid .FIRE .EMPTY .EMPTY (5, 5)).data.halflife ≠ -1 ∧
    sampleHookDraws.draw < (sampleGrid .FIRE .EMPTY .EMPTY (5, 5)).data.halflife) = true
  apply decide_eq_true
  rw [hA, ht, fire_decay_data.1, hdraw]
  refine ⟨by decide, ?_, ?_⟩ <;> norm_num

/-! # The claims -/

/-- C1. Density swap rule. A call at depth 0 whose target is in bounds and holds a
movement-capable material (not EMPTY, not ERASER, non-empty movement table), made for a mover
that is not a fluid or in a direction without horizontal component, swaps the origin with the
target and returns true exactly when both densities are positive and unequal and either the
mover is lighter than 1.2, lighter than the target and `u < min / max`, or the mover is at
least 1.2, denser than the target and `u < 1 - min / max`; otherwise it returns false and
leaves the grid alone. After the swap each of the two cells holds the other's previous
contents and all other cells are unchanged. -/
theorem density_swap_rule (fuel : Nat) (rough : Jitter) (u : ℚ) (g : Grid)
    (pos firstPos : Int × Int) (particle : Particle) (direction : Int × Int) (timesSwapped : Int)
    (hv : isValidIndex (pos.1 + direction.1) (pos.2 + direction.2) = true)
    (hne : (g (pos.1 + direction.1, pos.2 + direction.2)).data.type ≠ ParticleType.EMPTY)
    (hnr : (g (pos.1 + direction.1, pos.2 + direction.2)).data.type ≠ ParticleType.ERASER)
    (hm : (g (pos.1 + direction.1, pos.2 + direction.2)).data.movementDirections ≠ [])
    (hmover : particle.data.state ≠ ParticleState.FLUID ∨ direction.1 = 0) :
    (swapCondition u particle.data.density
        (g (pos.1 + direction.1, pos.2 + direction.2)).data.density →
      StepInDirection (fuel + 1) rough u g pos firstPos particle direction 0 timesSwapped
        = some (true, g.swap firstPos (pos.1 + direction.1, pos.2 + direction.2))) ∧
    (¬ swapCondition u particle.data.density
        (g (pos.1 + direction.1, pos.2 + direction.2)).data.density →
      StepInDirection (fuel + 1) rough u g pos firstPos particle direction 0 timesSwapped
        = some (false, g)) ∧
    (g.swap firstPos (pos.1 + direction.1, pos.2 + direction.2)) firstPos
      = g (pos.1 + direction.1, pos.2 + direction.2) ∧
    (g.swap firstPos (pos.1 + direction.1, pos.2 + direction.2))
        (pos.1 + direction.1, pos.2 + direction.2) = g firstPos ∧
    ∀ q, q ≠ firstPos → q ≠ (pos.1 + direction.1, pos.2 + direction.2) →
      (g.swap firstPos (pos.1 + direction.1, pos.2 + direction.2)) q = g q := by
  unfold swapCondition
  have hstep : StepInDirection (fuel + 1) rough u g pos firstPos particle direction 0 timesSwapped
      = some (densitySwap u g firstPos (pos.1 + direction.1, pos.2 + direction.2) particle) := by
    rw [step_movable fuel rough u g pos firstPos particle direction 0 timesSwapped (by norm_num)
      hv hne hnr hm]
    have hf : ¬ (particle.data.state = ParticleState.FLUID ∧ direction.1 ≠ 0) := by
      rintro ⟨h1, h2⟩
      rcases hmover with h | h
      · exact h h1
      · exact h2 h
    rw [if_neg hf]
    simp [afterRetry]
  refine ⟨?_, ?_, ?_, ?_, ?_⟩
  · rintro ⟨h1, h2, h3, h4⟩
    rw [hstep]
    unfold densitySwap
    simp only
    rw [if_pos ⟨h1, h2, h3⟩]
    rcases h4 with ⟨h5, h6, h7⟩ | ⟨h5, h6, h7⟩
    · simp only [if_pos h5]
      rw [if_pos]
      exact ⟨h7, by simpa using (min_eq_left h6.le).symm⟩
    · have h5' : ¬ particle.data.density < 6/5 := not_lt.mpr h5
      simp only [if_neg h5']
      rw [if_pos]
      exact ⟨h7, by simpa using (max_eq_left h6.le).symm⟩
  · intro hc
    rw [hstep]
    unfold densitySwap
    simp only
    by_cases hpos : particle.data.density > 0 ∧
        (g (pos.1 + direction.1, pos.2 + direction.2)).data.density > 0 ∧
        particle.data.density ≠ (g (pos.1 + direction.1, pos.2 + direction.2)).data.density
    · rw [if_pos hpos]
      rw [if_neg]
      rintro ⟨h7, h8⟩
      apply hc
      refine ⟨hpos.1, hpos.2.1, hpos.2.2, ?_⟩
      by_cases h5 : particle.data.density < 6/5
      · left
        simp only [if_pos h5] at h7 h8
        have h9 : particle.data.density
            = min particle.data.density
                (g (pos.1 + direction.1, pos.2 + direction.2)).data.density := by simpa using h8
        have h10 : particle.data.density
            ≤ (g (pos.1 + direction.1, pos.2 + direction.2)).data.density := by
          rw [h9]; exact min_le_right _ _
        exact ⟨h5, lt_of_le_of_ne h10 hpos.2.2, h7⟩
      · right
        simp only [if_neg h5] at h7 h8
        have h9 : particle.data.density
            = max particle.data.density
                (g (pos.1 + direction.1, pos.2 + direction.2)).data.density := by simpa using h8
        have h10 : (g (pos.1 + direction.1, pos.2 + direction.2)).data.density
            ≤ particle.data.density := by
          rw [h9]; exact le_max_right _ _
        exact ⟨not_lt.mp h5, lt_of_le_of_ne h10 (Ne.symm hpos.2.2), h7⟩
    · rw [if_neg hpos]
  · simp [Grid.swap]
  · by_cases h : (pos.1 + direction.1, pos.2 + direction.2) = firstPos
    · simp [Grid.swap, h]
    · simp [Grid.swap, h]
  · intro q h1 h2
    exact Grid.swap_other g _ _ q h1 h2

/-- Witness of C1: SAND (density 1700) above WATER (density 998) steps straight down; with the
draw 0 the two cells are swapped, with the draw 1 nothing happens. -/
theorem density_swap_rule_witness :
    StepInDirection 1 exactJitter 0 (sampleGrid .SAND .WATER .EMPTY) (5, 5) (5, 5)
        (Particle.new exactJitter .SAND) (0, -1) 0 0
      = some (true, (sampleGrid .SAND .WATER .EMPTY).swap (5, 5) (5, 4)) ∧
    StepInDirection 1 exactJitter 1 (sampleGrid .SAND .WATER .EMPTY) (5, 5) (5, 5)
        (Particle.new exactJitter .SAND) (0, -1) 0 0
      = some (false, sampleGrid .SAND .WATER .EMPTY) := by
  have hv : isValidIndex (((5, 5) : Int × Int).1 + ((0, -1) : Int × Int).1)
      (((5, 5) : Int × Int).2 + ((0, -1) : Int × Int).2) = true := by decide
  have hcell : sampleGrid .SAND .WATER .EMPTY
      (((5, 5) : Int × Int).1 + ((0, -1) : Int × Int).1,
        ((5, 5) : Int × Int).2 + ((0, -1) : Int × Int).2)
      = Particle.new exactJitter .WATER := sampleGrid_54 _ _ _
  have hne : (sampleGrid .SAND .WATER .EMPTY
      (((5, 5) : Int × Int).1 + ((0, -1) : Int × Int).1,
        ((5, 5) : Int × Int).2 + ((0, -1) : Int × Int).2)).data.type ≠ ParticleType.EMPTY := by
    rw [hcell, new_type]; decide
  have hnr : (sampleGrid .SAND .WATER .EMPTY
      (((5, 5) : Int × Int).1 + ((0, -1) : Int × Int).1,
        ((5, 5) : Int × Int).2 + ((0, -1) : Int × Int).2)).data.type ≠ ParticleType.ERASER := by
    rw [hcell, new_type]; decide
  have hm : (sampleGrid .SAND .WATER .EMPTY
      (((5, 5) : Int × Int).1 + ((0, -1) : Int × Int).1,
        ((5, 5) : Int × Int).2 + ((0, -1) : Int × Int).2)).data.movementDirections ≠ [] := by
    rw [hcell]; exact new_table_nonempty _ _ (by decide)
  constructor
  · refine (density_swap_rule 0 exactJitter 0 (sampleGrid .SAND .WATER .EMPTY) (5, 5) (5, 5)
      (Particle.new exactJitter .SAND) (0, -1) 0 hv hne hnr hm (Or.inr rfl)).1 ?_
    rw [hcell, new_SAND_density, new_WATER_density]
    norm_num [swapCondition]
  · refine (density_swap_rule 0 exactJitter 1 (sampleGrid .SAND .WATER .EMPTY) (5, 5) (5, 5)
      (Particle.new exactJitter .SAND) (0, -1) 0 hv hne hnr hm (Or.inr rfl)).2.1 ?_
    rw [hcell, new_SAND_density, new_WATER_density]
    norm_num [swapCondition]

/-- C2. Relocation into an empty cell. A call with `timesSwapped = 0` and `depth ≤ 8` whose
target is in bounds and EMPTY returns true; afterwards `firstPos` holds a fresh EMPTY particle,
the target (a cell other than `firstPos`) holds the mover's previous full contents, and every
other cell is unchanged. -/
theorem relocation_into_empty (fuel : Nat) (rough : Jitter) (u : ℚ) (g : Grid)
    (pos firstPos : Int × Int) (particle : Particle) (direction : Int × Int) (depth : Int)
    (hd : depth ≤ 8)
    (hv : isValidIndex (pos.1 + direction.1) (pos.2 + direction.2) = true)
    (he : (g (pos.1 + direction.1, pos.2 + direction.2)).data.type = ParticleType.EMPTY) :
    ∃ g1, StepInDirection (fuel + 1) rough u g pos firstPos particle direction depth 0
        = some (true, g1) ∧
      g1 firstPos = Particle.new rough .EMPTY ∧
      (g1 firstPos).data.type = ParticleType.EMPTY ∧
      ((pos.1 + direction.1, pos.2 + direction.2) ≠ firstPos →
        g1 (pos.1 + direction.1, pos.2 + direction.2) = particle) ∧
      ∀ q, q ≠ (pos.1 + direction.1, pos.2 + direction.2) → q ≠ firstPos → g1 q = g q := by
  refine ⟨_, step_empty_first fuel rough u g pos firstPos particle direction depth 0 hd hv he rfl,
    Grid.set_same _ _ _, ?_, ?_, ?_⟩
  · rw [Grid.set_same]; exact new_type rough .EMPTY
  · intro h
    rw [Grid.set_other _ _ _ _ h, Grid.set_same]
  · intro q h1 h2
    rw [Grid.set_other _ _ _ _ h2, Grid.set_other _ _ _ _ h1]

/-- Witness of C2: SAND at (5, 5) steps straight down into the EMPTY cell (5, 4). -/
theorem relocation_into_empty_witness :
    ∃ g1, StepInDirection 1 exactJitter 0 (sampleGrid .SAND .EMPTY .EMPTY) (5, 5) (5, 5)
        (Particle.new exactJitter .SAND) (0, -1) 0 0 = some (true, g1) ∧
      g1 (5, 5) = Particle.new exactJitter .EMPTY ∧
      (g1 (5, 5)).data.type = ParticleType.EMPTY ∧
      (((5, 4) : Int × Int) ≠ (5, 5) → g1 (5, 4) = Particle.new exactJitter .SAND) ∧
      ∀ q, q ≠ ((5, 4) : Int × Int) → q ≠ (5, 5) → g1 q = sampleGrid .SAND .EMPTY .EMPTY q :=
  relocation_into_empty 0 exactJitter 0 (sampleGrid .SAND .EMPTY .EMPTY) (5, 5) (5, 5)
    (Particle.new exactJitter .SAND) (0, -1) 0 (by decide) (by decide)
    (by
      have hcell : sampleGrid .SAND .EMPTY .EMPTY
          (((5, 5) : Int × Int).1 + ((0, -1) : Int × Int).1,
            ((5, 5) : Int × Int).2 + ((0, -1) : Int × Int).2)
          = Particle.new exactJitter .EMPTY := sampleGrid_54 _ _ _
      rw [hcell, new_type])

/-- C3. The `timesSwapped` guard. A call with `timesSwapped ≥ 1` whose target is in bounds and
EMPTY returns false and leaves the grid unchanged. In particular, when a fluid mover steps with
a horizontal component into a non-fluid movable cell whose next horizontal cell is EMPTY, the
nested retry fails without touching the grid, the call as a whole does not succeed unless it
is the depth-0 call (which goes on to the density block), and the empty cell (a cell other
than `firstPos`) is left as it was. -/
theorem timesSwapped_guard (fuel : Nat) (rough : Jitter) (u : ℚ) (g : Grid)
    (pos firstPos : Int × Int) (particle : Particle) (direction : Int × Int)
    (depth timesSwapped : Int) :
    (1 ≤ timesSwapped →
      isValidIndex (pos.1 + direction.1) (pos.2 + direction.2) = true →
      (g (pos.1 + direction.1, pos.2 + direction.2)).data.type = ParticleType.EMPTY →
      StepInDirection (fuel + 1) rough u g pos firstPos particle direction depth timesSwapped
        = some (false, g)) ∧
    (0 ≤ timesSwapped →
      particle.data.state = ParticleState.FLUID → direction.1 ≠ 0 →
      isValidIndex (pos.1 + direction.1) (pos.2 + direction.2) = true →
      (g (pos.1 + direction.1, pos.2 + direction.2)).data.type ≠ ParticleType.EMPTY →
      (g (pos.1 + direction.1, pos.2 + direction.2)).data.type ≠ ParticleType.ERASER →
      (g (pos.1 + direction.1, pos.2 + direction.2)).data.movementDirections ≠ [] →
      (g (pos.1 + direction.1, pos.2 + direction.2)).data.state ≠ ParticleState.FLUID →
      isValidIndex (pos.1 + direction.1 + direction.1) (pos.2 + direction.2) = true →
      (g (pos.1 + direction.1 + direction.1, pos.2 + direction.2)).data.type
        = ParticleType.EMPTY →
      StepInDirection (fuel + 1) rough u g (pos.1 + direction.1, pos.2 + direction.2) firstPos
          particle (direction.1, 0) (depth + 1) (timesSwapped + 1) = some (false, g) ∧
      ∃ b g1, StepInDirection (fuel + 2) rough u g pos firstPos particle direction depth
          timesSwapped = some (b, g1) ∧
        (depth ≠ 0 → b = false ∧ g1 = g) ∧
        ((pos.1 + direction.1 + direction.1, pos.2 + direction.2) ≠ firstPos →
          g1 (pos.1 + direction.1 + direction.1, pos.2 + direction.2)
            = g (pos.1 + direction.1 + direction.1, pos.2 + direction.2))) := by
  constructor
  · intro hts hv he
    exact step_empty_later fuel rough u g pos firstPos particle direction depth timesSwapped hv he
      (by omega)
  · intro hts hfl hdx hv hne hnr hm hnf hv2 he2
    have hnested : StepInDirection (fuel + 1) rough u g (pos.1 + direction.1, pos.2 + direction.2)
        firstPos particle (direction.1, 0) (depth + 1) (timesSwapped + 1) = some (false, g) := by
      apply step_empty_later
      · simpa using hv2
      · simpa using he2
      · omega
    refine ⟨hnested, ?_⟩
    by_cases hd : 9 ≤ depth
    · refine ⟨false, g, step_ceiling _ rough u g pos firstPos particle direction depth
        timesSwapped hd, fun _ => ⟨rfl, rfl⟩, fun _ => rfl⟩
    · have hstep := step_movable (fuel + 1) rough u g pos firstPos particle direction depth
        timesSwapped (by omega) hv hne hnr hm
      rw [if_pos ⟨hfl, hdx⟩, if_pos hnf, hnested] at hstep
      by_cases hd0 : depth ≠ 0
      · simp only [afterRetry, if_pos hd0] at hstep
        exact ⟨false, g, hstep, fun _ => ⟨rfl, rfl⟩, fun _ => rfl⟩
      · simp only [afterRetry, if_neg hd0] at hstep
        refine ⟨(densitySwap u g firstPos (pos.1 + direction.1, pos.2 + direction.2) particle).1,
          (densitySwap u g firstPos (pos.1 + direction.1, pos.2 + direction.2) particle).2,
          hstep, fun h => absurd h hd0, ?_⟩
        intro hfp
        rcases densitySwap_cases u g firstPos (pos.1 + direction.1, pos.2 + direction.2)
          particle with hs | hs
        · rw [hs]
        · rw [hs]
          apply Grid.swap_other _ _ _ _ hfp
          intro heq
          have := congrArg Prod.fst heq
          simp at this
          exact hdx this

/-- Witness of C3: with `timesSwapped = 1` a step towards the EMPTY cell (7, 5) fails; and
WATER at (5, 5) stepping right into SAND at (6, 5), with (7, 5) EMPTY behind it, is not
relocated into (7, 5). -/
theorem timesSwapped_guard_witness :
    StepInDirection 1 exactJitter 0 (sampleGrid .WATER .EMPTY .SAND) (6, 5) (5, 5)
        (Particle.new exactJitter .WATER) (1, 0) 1 1
      = some (false, sampleGrid .WATER .EMPTY .SAND) ∧
    ∃ b g1, StepInDirection 2 exactJitter 0 (sampleGrid .WATER .EMPTY .SAND) (5, 5) (5, 5)
        (Particle.new exactJitter .WATER) (1, 0) 0 0 = some (b, g1) ∧
      g1 (7, 5) = sampleGrid .WATER .EMPTY .SAND (7, 5) := by
  have h65 : sampleGrid .WATER .EMPTY .SAND
      (((5, 5) : Int × Int).1 + ((1, 0) : Int × Int).1,
        ((5, 5) : Int × Int).2 + ((1, 0) : Int × Int).2)
      = Particle.new exactJitter .SAND := sampleGrid_65 _ _ _
  have h75 : sampleGrid .WATER .EMPTY .SAND
      (((5, 5) : Int × Int).1 + ((1, 0) : Int × Int).1 + ((1, 0) : Int × Int).1,
        ((5, 5) : Int × Int).2 + ((1, 0) : Int × Int).2)
      = Particle.new exactJitter .EMPTY := sampleGrid_75 _ _ _
  have h75b : sampleGrid .WATER .EMPTY .SAND
      (((6, 5) : Int × Int).1 + ((1, 0) : Int × Int).1,
        ((6, 5) : Int × Int).2 + ((1, 0) : Int × Int).2)
      = Particle.new exactJitter .EMPTY := sampleGrid_75 _ _ _
  constructor
  · exact (timesSwapped_guard 0 exactJitter 0 (sampleGrid .WATER .EMPTY .SAND) (6, 5) (5, 5)
      (Particle.new exactJitter .WATER) (1, 0) 1 1).1 (by decide) (by decide)
      (by rw [h75b, new_type])
  · obtain ⟨_, b, g1, h1, _, h3⟩ := (timesSwapped_guard 0 exactJitter 0
      (sampleGrid .WATER .EMPTY .SAND) (5, 5) (5, 5) (Particle.new exactJitter .WATER) (1, 0) 0
      0).2 (by decide) new_WATER_state (by decide) (by decide)
      (by rw [h65, new_type]; decide) (by rw [h65, new_type]; decide)
      (by rw [h65]; exact new_table_nonempty _ _ (by decide))
      (by rw [h65, new_SAND_state]; decide) (by decide) (by rw [h75, new_type])
    exact ⟨b, g1, h1, h3 (by decide)⟩

/-- C4. The eraser destroys the mover. A call at any `depth ≤ 8` and with any `timesSwapped`
whose target is in bounds and holds ERASER returns true; `firstPos` becomes a fresh EMPTY
particle and every other cell, the ERASER cell among them, is unchanged. -/
theorem eraser_destroys_mover (fuel : Nat) (rough : Jitter) (u : ℚ) (g : Grid)
    (pos firstPos : Int × Int) (particle : Particle) (direction : Int × Int)
    (depth timesSwapped : Int) (hd : depth ≤ 8)
    (hv : isValidIndex (pos.1 + direction.1) (pos.2 + direction.2) = true)
    (he : (g (pos.1 + direction.1, pos.2 + direction.2)).data.type = ParticleType.ERASER) :
    ∃ g1, StepInDirection (fuel + 1) rough u g pos firstPos particle direction depth timesSwapped
        = some (true, g1) ∧
      g1 firstPos = Particle.new rough .EMPTY ∧
      (g1 firstPos).data.type = ParticleType.EMPTY ∧
      ((pos.1 + direction.1, pos.2 + direction.2) ≠ firstPos →
        g1 (pos.1 + direction.1, pos.2 + direction.2)
          = g (pos.1 + direction.1, pos.2 + direction.2)) ∧
      ∀ q, q ≠ firstPos → g1 q = g q := by
  refine ⟨_, step_eraser fuel rough u g pos firstPos particle direction depth timesSwapped hd hv
    he, Grid.set_same _ _ _, ?_, ?_, ?_⟩
  · rw [Grid.set_same]; exact new_type rough .EMPTY
  · intro h
    exact Grid.set_other _ _ _ _ h
  · intro q h
    exact Grid.set_other _ _ _ _ h

/-- Witness of C4: SAND at (5, 5) steps straight down into the ERASER at (5, 4). -/
theorem eraser_destroys_mover_witness :
    ∃ g1, StepInDirection 1 exactJitter 0 (sampleGrid .SAND .ERASER .EMPTY) (5, 5) (5, 5)
        (Particle.new exactJitter .SAND) (0, -1) 0 0 = some (true, g1) ∧
      g1 (5, 5) = Particle.new exactJitter .EMPTY ∧
      (g1 (5, 5)).data.type = ParticleType.EMPTY ∧
      (((5, 4) : Int × Int) ≠ (5, 5) → g1 (5, 4) = sampleGrid .SAND .ERASER .EMPTY (5, 4)) ∧
      ∀ q, q ≠ ((5, 5) : Int × Int) → g1 q = sampleGrid .SAND .ERASER .EMPTY q :=
  eraser_destroys_mover 0 exactJitter 0 (sampleGrid .SAND .ERASER .EMPTY) (5, 5) (5, 5)
    (Particle.new exactJitter .SAND) (0, -1) 0 0 (by decide) (by decide)
    (by
      have hcell : sampleGrid .SAND .ERASER .EMPTY
          (((5, 5) : Int × Int).1 + ((0, -1) : Int × Int).1,
            ((5, 5) : Int × Int).2 + ((0, -1) : Int × Int).2)
          = Particle.new exactJitter .ERASER := sampleGrid_54 _ _ _
      rw [hcell, new_type])

/-- C5. Swapping happens only in the original call. A call with `depth ≥ 1` returns (with
fuel 9 or more) and never exchanges two cells: it fails and leaves the grid unchanged, or it
succeeds by clearing `firstPos` in front of an ERASER, or by relocating the mover into a cell
that was EMPTY and clearing `firstPos`. Hence no non-empty cell other than `firstPos` is
altered. -/
theorem nested_step_never_swaps (fuel : Nat) (rough : Jitter) (u : ℚ) (g : Grid)
    (pos firstPos : Int × Int) (particle : Particle) (direction : Int × Int)
    (depth timesSwapped : Int) (hd : 1 ≤ depth) :
    ∃ b g1, StepInDirection (fuel + 9) rough u g pos firstPos particle direction depth
        timesSwapped = some (b, g1) ∧
      ((b = false ∧ g1 = g) ∨
        (b = true ∧
          ((∃ t, (g t).data.type = ParticleType.ERASER ∧
              g1 = g.set firstPos (Particle.new rough .EMPTY)) ∨
           (∃ t, (g t).data.type = ParticleType.EMPTY ∧
              g1 = (g.set t particle).set firstPos (Particle.new rough .EMPTY))))) ∧
      ∀ q, q ≠ firstPos → (g q).data.type ≠ ParticleType.EMPTY → g1 q = g q := by
  obtain ⟨⟨b, g1⟩, hr⟩ := step_returns (fuel + 8) rough u g pos firstPos particle direction depth
    timesSwapped (by push_cast; omega)
  refine ⟨b, g1, hr, ?_, ?_⟩
  · rcases step_effect _ rough u g pos firstPos particle direction depth timesSwapped _ hr with
      e | ⟨e1, e2 | e2 | ⟨e2, _⟩⟩
    · exact Or.inl e
    · exact Or.inr ⟨e1, Or.inl e2⟩
    · exact Or.inr ⟨e1, Or.inr e2⟩
    · omega
  · intro q hq hne
    rcases step_effect _ rough u g pos firstPos particle direction depth timesSwapped _ hr with
      ⟨_, e⟩ | ⟨_, ⟨_, _, e⟩ | ⟨t, ht, e⟩ | ⟨e2, _⟩⟩
    · simp only at e; rw [e]
    · simp only at e; rw [e, Grid.set_other _ _ _ _ hq]
    · simp only at e
      have hqt : q ≠ t := fun h => hne (h ▸ ht)
      rw [e, Grid.set_other _ _ _ _ hq, Grid.set_other _ _ _ _ hqt]
    · omega

/-- Witness of C5: a nested call at depth 1, made for WATER at (5, 5) from the probe position
(6, 5). -/
theorem nested_step_never_swaps_witness :
    ∃ b g1, StepInDirection 9 exactJitter 0 (sampleGrid .WATER .EMPTY .SAND) (6, 5) (5, 5)
        (Particle.new exactJitter .WATER) (1, 0) 1 1 = some (b, g1) ∧
      ((b = false ∧ g1 = sampleGrid .WATER .EMPTY .SAND) ∨
        (b = true ∧
          ((∃ t, (sampleGrid .WATER .EMPTY .SAND t).data.type = ParticleType.ERASER ∧
              g1 = (sampleGrid .WATER .EMPTY .SAND).set (5, 5)
                (Particle.new exactJitter .EMPTY)) ∨
           (∃ t, (sampleGrid .WATER .EMPTY .SAND t).data.type = ParticleType.EMPTY ∧
              g1 = ((sampleGrid .WATER .EMPTY .SAND).set t
                (Particle.new exactJitter .WATER)).set (5, 5)
                (Particle.new exactJitter .EMPTY))))) ∧
      ∀ q, q ≠ ((5, 5) : Int × Int) →
        (sampleGrid .WATER .EMPTY .SAND q).data.type ≠ ParticleType.EMPTY →
        g1 q = sampleGrid .WATER .EMPTY .SAND q :=
  nested_step_never_swaps 0 exactJitter 0 (sampleGrid .WATER .EMPTY .SAND) (6, 5) (5, 5)
    (Particle.new exactJitter .WATER) (1, 0) 1 1 (by decide)

/-- C6. Out-of-bounds target. A call whose target coordinates fall outside `0 ≤ x < 240`,
`0 ≤ y < 160` returns false and leaves the grid unchanged, whatever the grid holds: the
outcome does not depend on any value stored for the target coordinates. -/
theorem out_of_bounds_target (fuel : Nat) (rough : Jitter) (u : ℚ) (g : Grid)
    (pos firstPos : Int × Int) (particle : Particle) (direction : Int × Int)
    (depth timesSwapped : Int)
    (h : ¬ (0 ≤ pos.1 + direction.1 ∧ pos.1 + direction.1 < 240 ∧
            0 ≤ pos.2 + direction.2 ∧ pos.2 + direction.2 < 160)) :
    StepInDirection (fuel + 1) rough u g pos firstPos particle direction depth timesSwapped
      = some (false, g) ∧
    ∀ p, StepInDirection (fuel + 1) rough u
        (g.set (pos.1 + direction.1, pos.2 + direction.2) p) pos firstPos particle direction
        depth timesSwapped
      = some (false, g.set (pos.1 + direction.1, pos.2 + direction.2) p) := by
  have hv : isValidIndex (pos.1 + direction.1) (pos.2 + direction.2) = false := by
    simp only [isValidIndex, GRID_WIDTH, GRID_HEIGHT, decide_eq_false_iff_not]
    intro hc
    apply h
    norm_num at hc
    exact hc
  exact ⟨step_oob fuel rough u g pos firstPos particle direction depth timesSwapped hv,
    fun p => step_oob fuel rough u _ pos firstPos particle direction depth timesSwapped hv⟩

/-- Witness of C6: a step to the left from the cell (0, 0). -/
theorem out_of_bounds_target_witness :
    StepInDirection 1 exactJitter 0 (sampleGrid .SAND .EMPTY .EMPTY) (0, 0) (0, 0)
        (Particle.new exactJitter .SAND) (-1, 0) 0 0
      = some (false, sampleGrid .SAND .EMPTY .EMPTY) :=
  (out_of_bounds_target 0 exactJitter 0 (sampleGrid .SAND .EMPTY .EMPTY) (0, 0) (0, 0)
    (Particle.new exactJitter .SAND) (-1, 0) 0 0 (by decide)).1

/-- C7. At most one move per particle per `MoveParticle` call. Whatever the random draws, a
call that returns either leaves the grid unchanged or produces exactly the grid of one
successful `StepInDirection` call made on the original grid (every step before it failed and
changed nothing, and nothing is attempted after it); so the grid differs from the grid before
in at most two cells, the particle's own cell and one other. The call does return once the fuel
exceeds the number of tiers, for non-negative tier weights, in-range sampling draws and
shuffles that permute. -/
theorem move_at_most_once (fuel : Nat) (rnd : MoveDraws) (g : Grid) (pos : Int × Int)
    (particle : Particle) :
    (∀ g1, MoveParticle fuel rnd g pos particle = some g1 →
      (g1 = g ∨ ∃ k j direction,
        StepInDirection stepFuel (rnd.rough k j) (rnd.swapDraw k j) g pos pos particle direction
          0 0 = some (true, g1)) ∧
      ∃ t, ∀ q, q ≠ pos → q ≠ t → g1 q = g q) ∧
    ((∀ tier ∈ particle.data.movementDirections, 0 ≤ tier.1) →
      (∀ k hi, 0 ≤ hi → 0 ≤ rnd.getRange k 0 hi ∧ rnd.getRange k 0 hi ≤ hi) →
      (∀ k n, (rnd.shuffle k (List.range n)).Perm (List.range n)) →
      ∃ g1, MoveParticle (particle.data.movementDirections.length + 1 + fuel) rnd g pos particle
        = some g1) := by
  constructor
  · intro g1 h
    have e := moveLoop_effect rnd pos particle fuel 0 _ g g1 h
    refine ⟨e, ?_⟩
    rcases e with e | ⟨k, j, direction, e⟩
    · exact ⟨pos, fun q _ _ => by rw [e]⟩
    · exact step_frame _ _ _ _ _ _ _ _ _ _ _ e
  · intro hw hr hs
    apply moveLoop_returns rnd pos particle hw hr hs
    · rw [List.length_range]; omega
    · intro i hi
      exact List.mem_range.mp hi

/-- Witness of C7: one `MoveParticle` call for SAND at (5, 5) above WATER. -/
theorem move_at_most_once_witness :
    ∃ g1, MoveParticle ((Particle.new exactJitter .SAND).data.movementDirections.length + 1 + 0)
        sampleDraws (sampleGrid .SAND .WATER .EMPTY) (5, 5) (Particle.new exactJitter .SAND)
        = some g1 ∧
      ∃ t, ∀ q, q ≠ ((5, 5) : Int × Int) → q ≠ t → g1 q = sampleGrid .SAND .WATER .EMPTY q := by
  obtain ⟨g1, h⟩ := (move_at_most_once 0 sampleDraws (sampleGrid .SAND .WATER .EMPTY) (5, 5)
    (Particle.new exactJitter .SAND)).2
    (by rw [new_SAND_table]; intro tier ht; simp at ht; rcases ht with rfl | rfl <;> norm_num)
    (fun _ hi h => ⟨le_refl _, h⟩) (fun _ _ => List.Perm.refl _)
  exact ⟨g1, h, ((move_at_most_once _ sampleDraws (sampleGrid .SAND .WATER .EMPTY) (5, 5)
    (Particle.new exactJitter .SAND)).1 g1 h).2⟩

/-- C8. Depth ceiling and termination. Every call returns once its fuel covers the levels up
to the ceiling (`fuel + 1 ≥ 10 - depth`); a call with `depth ≥ 9` returns false without
modifying the grid; and since each nested call is made with `depth + 1`, a call at a
non-negative depth completes within 10 nested calls. -/
theorem step_terminates (fuel : Nat) (rough : Jitter) (u : ℚ) (g : Grid)
    (pos firstPos : Int × Int) (particle : Particle) (direction : Int × Int)
    (depth timesSwapped : Int) :
    (9 - depth ≤ (fuel : Int) →
      ∃ r, StepInDirection (fuel + 1) rough u g pos firstPos particle direction depth
        timesSwapped = some r) ∧
    (9 ≤ depth →
      StepInDirection (fuel + 1) rough u g pos firstPos particle direction depth timesSwapped
        = some (false, g)) ∧
    (0 ≤ depth →
      ∃ r, StepInDirection 10 rough u g pos firstPos particle direction depth timesSwapped
        = some r) :=
  ⟨step_returns fuel rough u g pos firstPos particle direction depth timesSwapped,
   step_ceiling fuel rough u g pos firstPos particle direction depth timesSwapped,
   fun h => step_returns 9 rough u g pos firstPos particle direction depth timesSwapped
     (by push_cast; omega)⟩

/-- Witness of C8: a call at depth 0 returns with fuel 10, and a call at depth 9 fails. -/
theorem step_terminates_witness :
    (∃ r, StepInDirection 10 exactJitter 0 (sampleGrid .WATER .EMPTY .SAND) (5, 5) (5, 5)
        (Particle.new exactJitter .WATER) (1, 0) 0 0 = some r) ∧
    StepInDirection 1 exactJitter 0 (sampleGrid .WATER .EMPTY .SAND) (5, 5) (5, 5)
        (Particle.new exactJitter .WATER) (1, 0) 9 0
      = some (false, sampleGrid .WATER .EMPTY .SAND) :=
  ⟨(step_terminates 9 exactJitter 0 (sampleGrid .WATER .EMPTY .SAND) (5, 5) (5, 5)
      (Particle.new exactJitter .WATER) (1, 0) 0 0).1 (by decide),
   (step_terminates 0 exactJitter 0 (sampleGrid .WATER .EMPTY .SAND) (5, 5) (5, 5)
      (Particle.new exactJitter .WATER) (1, 0) 9 0).2.1 (by decide)⟩

/-- C9. For every material of the catalog, the weights stored with the tiers of its movement
table are strictly descending from the first tier to the last; the table is non-empty exactly
for SAND, WATER, METHANE, FIRE, SMOKE, STEAM, STONE, DUST, LAVA, PLASMA, MERCURY and OIL, and
for each of these it is the table that `getMovementDirectionsFromDensity` builds from the
phase and the nominal density of the catalog entry. -/
theorem catalog_tier_weights_descending (rough : Jitter) (t : ParticleType) :
    ((getParticleData rough t).movementDirections ≠ [] ↔ t ∈ moverTypes) ∧
    ((getParticleData rough t).movementDirections.map Prod.fst).Sorted (fun a b => a > b) ∧
    (t ∈ moverTypes →
      getMovementDirectionsFromDensity (getParticleData rough t).state
          (catalogEntry rough false (defaultParticleData t) t).density
        = some (getParticleData rough t).movementDirections) := by
  refine ⟨(getParticleData_table rough t).1, (getParticleData_table rough t).2, ?_⟩
  intro ht
  cases t <;>
    first
    | (exfalso; revert ht; decide)
    | simp [getParticleData, catalogEntry, withMovement, withThermal, defaultParticleData,
        table_SAND, table_WATER, table_METHANE, table_FIRE, table_SMOKE, table_STEAM,
        table_STONE, table_DUST, table_LAVA, table_PLASMA, table_MERCURY, table_OIL]

/-- Witness of C9: the table of WATER. -/
theorem catalog_tier_weights_descending_witness :
    getMovementDirectionsFromDensity (getParticleData exactJitter .WATER).state
        (catalogEntry exactJitter false (defaultParticleData .WATER) .WATER).density
      = some (getParticleData exactJitter .WATER).movementDirections :=
  (catalog_tier_weights_descending exactJitter .WATER).2.2 (by decide)

/-- C10. For every non-EMPTY phase and every density `getMovementDirectionsFromDensity`
returns a table (no undefined access is made), and the directions listed across its tiers
are pairwise distinct, are compass offsets in {-1,0,1}² other than (0,0), are exactly the
directions whose interpolated weight is positive, and there is at least one of them, so that
the table is non-empty. -/
theorem table_directions (state : ParticleState) (density : ℚ)
    (hs : state ≠ ParticleState.EMPTY) :
    ∃ w tbl, interpolateWeights state density = some w ∧
      getMovementDirectionsFromDensity state density = some tbl ∧
      (tableDirections tbl).Nodup ∧
      (∀ d ∈ tableDirections tbl,
        (d.1 = -1 ∨ d.1 = 0 ∨ d.1 = 1) ∧ (d.2 = -1 ∨ d.2 = 0 ∨ d.2 = 1) ∧ d ≠ (0, 0)) ∧
      (∀ d x, (d, x) ∈ directions.zip w → (d ∈ tableDirections tbl ↔ 0 < x)) ∧
      (∀ d ∈ directions, ∃ x, (d, x) ∈ directions.zip w) ∧
      tableDirections tbl ≠ [] ∧ tbl ≠ [] := by
  obtain ⟨w, hw, hlen, hnn, hsum⟩ := interpolateWeights_good state density hs
  -- the sorted list of the source
  have hperm := List.perm_insertionSort probGE
    ((directions.zip (altsoftmax w)).filter (fun dp => dp.2 > 0))
  generalize hsd : List.insertionSort probGE
    ((directions.zip (altsoftmax w)).filter (fun dp => dp.2 > 0)) = sorted at hperm
  -- every direction is paired with a weight
  have hpair : ∀ d ∈ directions, ∃ x, (d, x) ∈ directions.zip w := by
    intro d hd
    have hfst : List.map Prod.fst (directions.zip w) = directions :=
      List.map_fst_zip _ _ (by rw [hlen]; decide)
    rw [← hfst] at hd
    obtain ⟨⟨d1, x⟩, hm, rfl⟩ := List.mem_map.mp hd
    exact ⟨x, hm⟩
  have hmem : ∀ d x, (d, x) ∈ directions.zip w → (d ∈ sorted.map Prod.fst ↔ 0 < x) := by
    intro d x hdx
    rw [(hperm.map Prod.fst).mem_iff]
    exact mem_filtered_iff w hsum d x hdx
  -- the first sorted element exists
  have hne : sorted.map Prod.fst ≠ [] := by
    obtain ⟨x, hx, hp⟩ := exists_pos_of_sum_pos w hsum
    have hzip : List.map Prod.snd (directions.zip w) = w :=
      List.map_snd_zip _ _ (by rw [hlen]; decide)
    rw [← hzip] at hx
    obtain ⟨⟨d, x1⟩, hm, rfl⟩ := List.mem_map.mp hx
    intro h
    have := (hmem d x1 hm).mpr hp
    rw [h] at this
    simp at this
  obtain ⟨first, rest, hsorted⟩ : ∃ first rest, sorted = first :: rest := by
    cases sorted with
    | nil => simp at hne
    | cons a l => exact ⟨a, l, rfl⟩
  -- the table
  have htbl : ∃ tbl, getMovementDirectionsFromDensity state density = some tbl ∧
      tableDirections tbl = sorted.map Prod.fst := by
    unfold getMovementDirectionsFromDensity
    rw [hw]
    simp only [Option.bind_eq_bind, Option.some_bind, hsd]
    rw [hsorted]
    simp only [List.head?_cons, Option.some_bind]
    refine ⟨_, rfl, ?_⟩
    have key := foldl_groupStep_dirs (first :: rest) ([], (0, []), first.2)
    simp only [tableDirections, List.map_nil, List.flatten_nil, List.nil_append] at key
    split_ifs with he
    · rw [List.isEmpty_iff] at he
      rw [he, List.append_nil] at key
      exact key
    · rw [tableDirections_append]
      simpa [tableDirections] using key
  obtain ⟨tbl, ht1, ht2⟩ := htbl
  have hsub : (sorted.map Prod.fst).Nodup := by
    rw [(hperm.map Prod.fst).nodup_iff]
    have h1 : ((directions.zip (altsoftmax w)).filter (fun dp => dp.2 > 0)).Sublist
        (directions.zip (altsoftmax w)) := List.filter_sublist _
    have h2 := h1.map Prod.fst
    rw [List.map_fst_zip _ _ (by simp [altsoftmax, hlen, directions])] at h2
    exact directions_nodup.sublist h2
  have hin : ∀ d ∈ sorted.map Prod.fst, d ∈ directions := by
    intro d hd
    rw [(hperm.map Prod.fst).mem_iff] at hd
    obtain ⟨⟨d1, p⟩, hm, rfl⟩ := List.mem_map.mp hd
    exact (List.of_mem_zip (List.mem_of_mem_filter hm)).1
  refine ⟨w, tbl, hw, ht1, ?_, ?_, ?_, hpair, ?_, ?_⟩
  · rw [ht2]; exact hsub
  · intro d hd
    rw [ht2] at hd
    have := hin d hd
    simp only [directions, List.mem_cons, List.mem_singleton, List.not_mem_nil, or_false] at this
    rcases this with h | h | h | h | h | h | h | h <;> subst h <;> decide
  · intro d x hdx
    rw [ht2]
    exact hmem d x hdx
  · rw [ht2]; exact hne
  · intro h
    rw [h] at ht2
    exact hne ht2.symm

/-- Witness of C10: the table of a POWDER of density 1700. -/
theorem table_directions_witness :
    ∃ w tbl, interpolateWeights .POWDER 1700 = some w ∧
      getMovementDirectionsFromDensity .POWDER 1700 = some tbl ∧
      (tableDirections tbl).Nodup ∧
      (∀ d ∈ tableDirections tbl,
        (d.1 = -1 ∨ d.1 = 0 ∨ d.1 = 1) ∧ (d.2 = -1 ∨ d.2 = 0 ∨ d.2 = 1) ∧ d ≠ (0, 0)) ∧
      (∀ d x, (d, x) ∈ directions.zip w → (d ∈ tableDirections tbl ↔ 0 < x)) ∧
      (∀ d ∈ directions, ∃ x, (d, x) ∈ directions.zip w) ∧
      tableDirections tbl ≠ [] ∧ tbl ≠ [] :=
  table_directions .POWDER 1700 (by decide)
/-- C11. Linear normalisation: `altsoftmax` returns a vector of the length of its input whose
entry `i` is `w_i / (sum of all weights)` when `w_i > 0` and `0` otherwise; for non-negative
weights with at least one positive entry the outputs lie in `[0, 1]` and sum to exactly 1;
for non-negative weights no division by zero is executed (every executed division has a
positive divisor, and the checked variant returns the same vector). -/
theorem altsoftmax_normalises (weights : List ℚ) :
    (altsoftmax weights).length = weights.length ∧
    (∀ i (h : i < weights.length),
      (altsoftmax weights)[i]? =
        some (if weights[i] > 0 then weights[i] / weights.sum else 0)) ∧
    ((∀ w ∈ weights, 0 ≤ w) → (∃ w ∈ weights, 0 < w) →
      (∀ p ∈ altsoftmax weights, 0 ≤ p ∧ p ≤ 1) ∧ (altsoftmax weights).sum = 1) ∧
    ((∀ w ∈ weights, 0 ≤ w) →
      (∀ w ∈ weights, w > 0 → 0 < weights.foldl (fun acc w => acc + w) 0) ∧
      altsoftmaxChecked weights = some (altsoftmax weights)) := by
  have hsum : weights.foldl (fun acc w => acc + w) 0 = weights.sum := by
    rw [foldl_add_eq_sum]; ring
  refine ⟨by simp [altsoftmax], ?_, ?_, ?_⟩
  · intro i h
    simp only [altsoftmax, hsum, List.getElem?_map, List.getElem?_eq_getElem h, Option.map_some']
  · intro hnn hex
    have hpos : 0 < weights.sum := sum_pos_of_mem_pos weights hnn hex
    constructor
    · intro p hp
      simp only [altsoftmax, hsum, List.mem_map] at hp
      obtain ⟨w, hw, rfl⟩ := hp
      by_cases h : w > 0
      · rw [if_pos h]
        have hle : w ≤ weights.sum := List.single_le_sum hnn w hw
        exact ⟨div_nonneg (le_of_lt h) (le_of_lt hpos), (div_le_one hpos).mpr hle⟩
      · rw [if_neg h]; exact ⟨le_refl _, zero_le_one⟩
    · simp only [altsoftmax, hsum]
      rw [altsoftmax_sum weights _ hnn]
      exact div_self (ne_of_gt hpos)
  · intro hnn
    have hdiv : ∀ w ∈ weights, w > 0 → 0 < weights.foldl (fun acc w => acc + w) 0 := by
      intro w hw h
      rw [hsum]
      exact sum_pos_of_mem_pos weights hnn ⟨w, hw, h⟩
    refine ⟨hdiv, ?_⟩
    unfold altsoftmaxChecked altsoftmax
    apply mapM_some_of_forall
    intro w hw
    by_cases h : w > 0
    · simp only [if_pos h]
      rw [if_neg (ne_of_gt (hdiv w hw h))]
    · simp only [if_neg h]

/-- Witness of C11: the weights 1, 0, 3. -/
theorem altsoftmax_normalises_witness :
    (∀ w ∈ ([1, 0, 3] : List ℚ), 0 ≤ w) ∧ (∃ w ∈ ([1, 0, 3] : List ℚ), 0 < w) ∧
    ((∀ p ∈ altsoftmax [1, 0, 3], 0 ≤ p ∧ p ≤ 1) ∧ (altsoftmax [1, 0, 3]).sum = 1) ∧
    altsoftmaxChecked [1, 0, 3] = some (altsoftmax [1, 0, 3]) :=
  have hnn : ∀ w ∈ ([1, 0, 3] : List ℚ), 0 ≤ w := by
    intro w hw; simp at hw; rcases hw with rfl | rfl | rfl <;> norm_num
  have hex : ∃ w ∈ ([1, 0, 3] : List ℚ), 0 < w := ⟨1, by simp, by norm_num⟩
  ⟨hnn, hex, (altsoftmax_normalises [1, 0, 3]).2.2.1 hnn hex,
    ((altsoftmax_normalises [1, 0, 3]).2.2.2 hnn).2⟩
/-- C12. Continuity of the interpolated weights at the band boundaries, for every non-EMPTY
phase: at each anchor `interpolateWeights` returns the canonical row of that anchor; on a band
it is the smoothstep blend of the two rows, the blend parameter is 0 at the lower and 1 at the
upper anchor, and the blend of the band ending at an anchor, evaluated at the anchor, is the
value at the anchor; below the first and from the last anchor on the weights are constant; and
inside a band every component is within `3 * (d - lo) / (hi - lo)` of its value at the lower
anchor and within `3 * (hi - d) / (hi - lo)` of its value at the upper anchor, so that no
component jumps at a boundary. -/
theorem band_boundary_continuity (state : ParticleState) (hs : state ≠ ParticleState.EMPTY) :
    (∀ k (h : k < bandAnchors.length), ∃ row, (selectWeights state)[k]? = some row ∧
      interpolateWeights state bandAnchors[k] = some row) ∧
    (∀ b ∈ bands,
      smoothstep b.2.1 b.2.2 b.2.1 = 0 ∧ smoothstep b.2.1 b.2.2 b.2.2 = 1 ∧
      blendBand (selectWeights state) b.1 b.2.1 b.2.2 b.2.2 = interpolateWeights state b.2.2 ∧
      ∀ d, b.2.1 ≤ d → d < b.2.2 →
        interpolateWeights state d = blendBand (selectWeights state) b.1 b.2.1 b.2.2 d) ∧
    (∀ d, d < 1/100 → interpolateWeights state d = interpolateWeights state (1/100)) ∧
    (∀ d, 2000 ≤ d → interpolateWeights state d = interpolateWeights state 2000) ∧
    (∀ b ∈ bands, ∀ d, b.2.1 ≤ d → d < b.2.2 → ∀ (i : Nat) (x : ℚ),
      (interpolateWeights state d).bind (fun (w : List ℚ) => w[i]?) = some x →
      (∀ y : ℚ, (interpolateWeights state b.2.1).bind (fun (w : List ℚ) => w[i]?) = some y →
        |x - y| ≤ 3 * (d - b.2.1) / (b.2.2 - b.2.1)) ∧
      (∀ y : ℚ, (interpolateWeights state b.2.2).bind (fun (w : List ℚ) => w[i]?) = some y →
        |x - y| ≤ 3 * (b.2.2 - d) / (b.2.2 - b.2.1))) := by
  obtain ⟨r0, r1, r2, r3, r4, r5, r6, hsel, g0, g1, g2, g3, g4, g5, g6⟩ :=
    selectWeights_rows state hs
  have hunit := selectWeights_unit state
  rw [hsel] at hunit
  have a0 := interpolateWeights_anchor state hs 0 (by decide)
  have a1 := interpolateWeights_anchor state hs 1 (by decide)
  have a2 := interpolateWeights_anchor state hs 2 (by decide)
  have a3 := interpolateWeights_anchor state hs 3 (by decide)
  have a4 := interpolateWeights_anchor state hs 4 (by decide)
  have a5 := interpolateWeights_anchor state hs 5 (by decide)
  have a6 := interpolateWeights_anchor state hs 6 (by decide)
  rw [hsel] at a0 a1 a2 a3 a4 a5 a6
  simp only [bandAnchors, List.getElem_cons_zero, List.getElem_cons_succ,
    List.getElem?_cons_zero, List.getElem?_cons_succ] at a0 a1 a2 a3 a4 a5 a6
  -- the component bound shared by the six bands
  have key : ∀ (lo hi d : ℚ) (rl rh : List ℚ), lo < hi → lo ≤ d → d ≤ hi →
      (∀ w ∈ rl, 0 ≤ w ∧ w ≤ 1) → (∀ w ∈ rh, 0 ≤ w ∧ w ≤ 1) → ∀ (i : Nat) (x : ℚ),
      (blendRows (smoothstep lo hi d) rl rh)[i]? = some x →
      (∀ y : ℚ, rl[i]? = some y → |x - y| ≤ 3 * (d - lo) / (hi - lo)) ∧
      (∀ y : ℚ, rh[i]? = some y → |x - y| ≤ 3 * (hi - d) / (hi - lo)) := by
    intro lo hi d rl rh hlt h1 h2 ul uh i x hx
    obtain ⟨a, b, ha, hb, rfl⟩ := blendRows_entry _ _ _ _ _ hx
    obtain ⟨n1, n2⟩ := smoothstep_near lo hi d hlt h1 h2
    obtain ⟨t0, t1⟩ := smoothstep_bounds lo hi d
    obtain ⟨ha0, ha1⟩ := ul a (List.getElem?_mem ha)
    obtain ⟨hb0, hb1⟩ := uh b (List.getElem?_mem hb)
    generalize smoothstep lo hi d = t at n1 n2 t0 t1
    constructor
    · intro y hy
      rw [ha] at hy
      obtain rfl := Option.some.inj hy
      rw [abs_le]
      constructor <;> nlinarith [mul_nonneg t0 ha0, mul_nonneg t0 hb0,
        mul_nonneg t0 (sub_nonneg.mpr ha1), mul_nonneg t0 (sub_nonneg.mpr hb1)]
    · intro y hy
      rw [hb] at hy
      obtain rfl := Option.some.inj hy
      rw [abs_le]
      constructor <;> nlinarith [mul_nonneg (sub_nonneg.mpr t1) ha0,
        mul_nonneg (sub_nonneg.mpr t1) hb0,
        mul_nonneg (sub_nonneg.mpr t1) (sub_nonneg.mpr ha1),
        mul_nonneg (sub_nonneg.mpr t1) (sub_nonneg.mpr hb1)]
  refine ⟨?_, ?_, ?_, ?_, ?_⟩
  · intro k h
    have h7 : k < 7 := by simpa [bandAnchors] using h
    rw [interpolateWeights_anchor state hs k h, hsel]
    interval_cases k <;> exact ⟨_, rfl, rfl⟩
  · intro b hb
    have hband := interpolateWeights_band state b hb
    simp only [bands, List.mem_cons, List.mem_singleton, List.not_mem_nil, or_false] at hb
    rcases hb with rfl | rfl | rfl | rfl | rfl | rfl
    · refine ⟨smoothstep_lower _ _, smoothstep_upper _ _ (by norm_num), ?_, hband⟩
      rw [a1, hsel]
      simp only [blendBand, smoothstep_upper (1/100 : ℚ) (1/4) (by norm_num)]
      exact congrArg some (blendRows_one _ _ (by simp [g0.1, g1.1]))
    · refine ⟨smoothstep_lower _ _, smoothstep_upper _ _ (by norm_num), ?_, hband⟩
      rw [a2, hsel]
      simp only [blendBand, smoothstep_upper (1/4 : ℚ) 1 (by norm_num)]
      exact congrArg some (blendRows_one _ _ (by simp [g1.1, g2.1]))
    · refine ⟨smoothstep_lower _ _, smoothstep_upper _ _ (by norm_num), ?_, hband⟩
      rw [a3, hsel]
      simp only [blendBand, smoothstep_upper (1 : ℚ) (6/5) (by norm_num)]
      exact congrArg some (blendRows_one _ _ (by simp [g2.1, g3.1]))
    · refine ⟨smoothstep_lower _ _, smoothstep_upper _ _ (by norm_num), ?_, hband⟩
      rw [a4, hsel]
      simp only [blendBand, smoothstep_upper (6/5 : ℚ) (7/5) (by norm_num)]
      exact congrArg some (blendRows_one _ _ (by simp [g3.1, g4.1]))
    · refine ⟨smoothstep_lower _ _, smoothstep_upper _ _ (by norm_num), ?_, hband⟩
      rw [a5, hsel]
      simp only [blendBand, smoothstep_upper (7/5 : ℚ) 1000 (by norm_num)]
      exact congrArg some (blendRows_one _ _ (by simp [g4.1, g5.1]))
    · refine ⟨smoothstep_lower _ _, smoothstep_upper _ _ (by norm_num), ?_, hband⟩
      rw [a6, hsel]
      simp only [blendBand, smoothstep_upper (1000 : ℚ) 2000 (by norm_num)]
      exact congrArg some (blendRows_one _ _ (by simp [g5.1, g6.1]))
  · intro d hd
    rw [a0]
    unfold interpolateWeights
    rw [hsel]
    simp only [if_pos hd]
    rfl
  · intro d hd
    rw [a6]
    unfold interpolateWeights
    rw [hsel]
    simp only
    rw [if_neg (by linarith), if_neg (by linarith), if_neg (by linarith), if_neg (by linarith),
      if_neg (by linarith), if_neg (by linarith), if_neg (by linarith)]
    rfl
  · intro b hb d h1 h2 i x hx
    rw [interpolateWeights_band state b hb d h1 h2, hsel] at hx
    simp only [bands, List.mem_cons, List.mem_singleton, List.not_mem_nil, or_false] at hb
    rcases hb with rfl | rfl | rfl | rfl | rfl | rfl
    · simp only [a0, a1, Option.some_bind]
      exact key _ _ d r0 r1 (by norm_num) h1 h2.le (hunit r0 (by simp)) (hunit r1 (by simp)) i x
        (by simpa [blendBand] using hx)
    · simp only [a1, a2, Option.some_bind]
      exact key _ _ d r1 r2 (by norm_num) h1 h2.le (hunit r1 (by simp)) (hunit r2 (by simp)) i x
        (by simpa [blendBand] using hx)
    · simp only [a2, a3, Option.some_bind]
      exact key _ _ d r2 r3 (by norm_num) h1 h2.le (hunit r2 (by simp)) (hunit r3 (by simp)) i x
        (by simpa [blendBand] using hx)
    · simp only [a3, a4, Option.some_bind]
      exact key _ _ d r3 r4 (by norm_num) h1 h2.le (hunit r3 (by simp)) (hunit r4 (by simp)) i x
        (by simpa [blendBand] using hx)
    · simp only [a4, a5, Option.some_bind]
      exact key _ _ d r4 r5 (by norm_num) h1 h2.le (hunit r4 (by simp)) (hunit r5 (by simp)) i x
        (by simpa [blendBand] using hx)
    · simp only [a5, a6, Option.some_bind]
      exact key _ _ d r5 r6 (by norm_num) h1 h2.le (hunit r5 (by simp)) (hunit r6 (by simp)) i x
        (by simpa [blendBand] using hx)

/-- Witness of C12: the FLUID weights at the anchor 1000 are row 5 of the FLUID template. -/
theorem band_boundary_continuity_witness :
    ParticleState.FLUID ≠ ParticleState.EMPTY ∧
    ∃ row, (selectWeights .FLUID)[5]? = some row ∧
      interpolateWeights .FLUID bandAnchors[5] = some row :=
  ⟨by decide, (band_boundary_continuity .FLUID (by decide)).1 5 (by decide)⟩
/-- C13, evaluated on the code. For a SOLID of density 2800 the only positive weight is entry
5 and the only direction of the table is straight down (0, -1): under the claimed order entry
5 would weight the down-diagonal (-1, -1), which is not in the table, and entry 7, whose
weight is 0, would be straight down, which is in the table. -/
theorem direction_order_counterexample :
    ∃ w tbl, interpolateWeights .SOLID 2800 = some w ∧
      getMovementDirectionsFromDensity .SOLID 2800 = some tbl ∧
      w = [0, 0, 0, 0, 0, 1, 0, 0] ∧ tableDirections tbl = [(0, -1)] ∧
      claimedDirections[5]? = some (-1, -1) ∧ claimedDirections[7]? = some (0, -1) ∧
      ¬ (∀ (i : Nat) (d : Int × Int) (x : ℚ), claimedDirections[i]? = some d → w[i]? = some x →
        (d ∈ tableDirections tbl ↔ 0 < x)) := by
  refine ⟨_, _, weights_STONE, table_STONE, rfl, rfl, rfl, rfl, ?_⟩
  intro h
  have h5 := (h 5 (-1, -1) 1 rfl rfl).mpr one_pos
  simp [tableDirections] at h5

/-- C13, amended. The direction order of the 8-entry weight vectors is up (0,1);
up-diagonals (-1,1), (1,1); horizontals (-1,0), (1,0); down (0,-1); down-diagonals (-1,-1),
(1,-1): entry 5 weights straight down and entries 6 and 7 weight the two down-diagonals. For
every non-EMPTY phase and every density the direction at index `i` of this order is in the
movement table exactly when entry `i` of the interpolated weight vector is positive. -/
theorem direction_order :
    directions = [(0, 1), (-1, 1), (1, 1), (-1, 0), (1, 0), (0, -1), (-1, -1), (1, -1)] ∧
    ∀ (state : ParticleState) (density : ℚ), state ≠ ParticleState.EMPTY →
      ∃ w tbl, interpolateWeights state density = some w ∧
        getMovementDirectionsFromDensity state density = some tbl ∧
        ∀ (i : Nat) (d : Int × Int) (x : ℚ), directions[i]? = some d → w[i]? = some x →
          (d ∈ tableDirections tbl ↔ 0 < x) :=
  ⟨rfl, table_pairing⟩

/-- Witness of the amended C13: the table of a SOLID of density 2800. -/
theorem direction_order_witness :
    ParticleState.SOLID ≠ ParticleState.EMPTY ∧
    ∃ w tbl, interpolateWeights .SOLID 2800 = some w ∧
      getMovementDirectionsFromDensity .SOLID 2800 = some tbl ∧
      ∀ (i : Nat) (d : Int × Int) (x : ℚ), directions[i]? = some d → w[i]? = some x →
        (d ∈ tableDirections tbl ↔ 0 < x) :=
  ⟨by decide, direction_order.2 .SOLID 2800 (by decide)⟩
/-- C14, evaluated on the code at a failing input. A LAVA cell (k = 1, c = 1, 2323.15 K) at
(5, 5) and a STONE cell (k = 1, c = 1.01, 303.15 K) at (5, 4), all other cells EMPTY, no
pending heat: after the first pass on both cells and the second pass on both no transition
has been triggered, and the thermal energy `c_A * T_A + c_B * T_B` has dropped by 505/402. -/
theorem heat_energy_not_conserved :
    ∃ g4, twoCellRound exactJitter exactJitter exactJitter exactJitter
        (twoCellGrid (Particle.new exactJitter .LAVA) (Particle.new capJitter .STONE))
        (5, 5) (5, 4) = some g4 ∧
      (g4 (5, 5)).data.type = ParticleType.LAVA ∧
      (g4 (5, 4)).data.type = ParticleType.STONE ∧
      thermalEnergy g4 (5, 5) (5, 4)
        = thermalEnergy (twoCellGrid (Particle.new exactJitter .LAVA)
            (Particle.new capJitter .STONE)) (5, 5) (5, 4) - 505/402 ∧
      thermalEnergy g4 (5, 5) (5, 4)
        ≠ thermalEnergy (twoCellGrid (Particle.new exactJitter .LAVA)
            (Particle.new capJitter .STONE)) (5, 5) (5, 4) := by
  have hA : twoCellGrid (Particle.new exactJitter .LAVA) (Particle.new capJitter .STONE) (5, 5)
      = Particle.new exactJitter .LAVA := by simp [twoCellGrid]
  have hB : twoCellGrid (Particle.new exactJitter .LAVA) (Particle.new capJitter .STONE) (5, 4)
      = Particle.new capJitter .STONE := by simp [twoCellGrid]
  have hlenA : (getNeighbours (5, 5)).length = 8 := by decide
  have hlenB : (getNeighbours (5, 4)).length = 8 := by decide
  obtain ⟨l1, l2, l3, l4, l5, l6⟩ := lava_data
  obtain ⟨s1, s2, s3, s4, s5, s6, s7⟩ := stone_cap_data
  have hcB : conductsHeat (Particle.new capJitter .STONE) := by
    unfold conductsHeat
    rw [s1, s2]
    norm_num
  have eAB : heatExchange (Particle.new exactJitter .LAVA) (Particle.new capJitter .STONE)
      (((8 : Nat) : Int) : ℚ) = 12625/201 := by
    unfold heatExchange
    rw [l1, l2, l3, s1, s2, s3]
    norm_num
  have eBA : heatExchange (Particle.new capJitter .STONE) (Particle.new exactJitter .LAVA)
      (((8 : Nat) : Int) : ℚ) = -12625/201 := by
    unfold heatExchange
    rw [l1, l2, l3, s1, s2, s3]
    norm_num
  obtain ⟨g4, h1, h2, h3⟩ := twoCellRound_eq exactJitter exactJitter exactJitter exactJitter
    (twoCellGrid (Particle.new exactJitter .LAVA) (Particle.new capJitter .STONE)) (5, 5) (5, 4)
    (by decide) (by decide) (by rw [hA]; exact lava_conducts) (by rw [hB]; exact hcB)
    (by
      intro q hq1 hq2
      have : twoCellGrid (Particle.new exactJitter .LAVA) (Particle.new capJitter .STONE) q
          = Particle.new exactJitter .EMPTY := by simp [twoCellGrid, hq1, hq2]
      rw [this]
      exact empty_not_conducting exactJitter)
    (-1275125/10050) (2525000/20301)
    (by rw [hA, hB, hlenA, hlenB, eAB, eBA, l2, s2]; norm_num)
    (by rw [hA, hB, hlenA, hlenB, eAB, eBA, l2, s2]; norm_num)
    (by rw [hA, l3, l4, l5]; right; norm_num)
    (by rw [hA, l3, l4, l6]; right; norm_num)
    (by rw [hB, s5]; left; rfl)
    (by rw [hB, s3, s4, s6]; right; norm_num)
  have hval : thermalEnergy g4 (5, 5) (5, 4)
      = thermalEnergy (twoCellGrid (Particle.new exactJitter .LAVA)
          (Particle.new capJitter .STONE)) (5, 5) (5, 4) - 505/402 := by
    unfold thermalEnergy
    rw [h2, h3, hA, hB]
    simp only
    rw [l2, l3, l4, s2, s3, s4]
    norm_num
  refine ⟨g4, h1, ?_, ?_, hval, ?_⟩
  · rw [h2, hA]; exact new_type exactJitter .LAVA
  · rw [h3, hB]; exact s7
  · rw [hval]
    norm_num
/-- C15. First-pass heat exchange formula. For a conducting cell `s` at `pos` with `n`
in-bounds Moore neighbours, `transferHeatFirstPass` takes from the pending heat of `s`, for
each neighbour `j` that conducts heat, the amount `e_j * (c_j / c_s)` with
`e_j = 0.5 * min(k_s, k_j) * (T_s - T_j) / ((c_s + c_j) * n)`, and adds `e_j * (c_s / c_j)` to
the pending heat of `j`. Every cell keeps everything but its pending heat (temperature and
material included), every cell other than `s` and its conducting neighbours is unchanged,
and heat flows from the hotter to the colder cell: `e_j` is positive when `s` is hotter than
`j`, negative when `j` is hotter, and then the pending heat of `j` decreases. -/
theorem first_pass_formula (g : Grid) (pos : Int × Int) (hs : conductsHeat (g pos)) :
    (transferHeatFirstPass g pos pos).data.heatReceived
      = (g pos).data.heatReceived -
        ((getNeighbours pos).map (fun j =>
          if conductsHeat (g j) then
            heatExchange (g pos) (g j) ((getNeighbours pos).length : Int) *
              ((g j).data.specificHeatCapacity / (g pos).data.specificHeatCapacity)
          else 0)).sum ∧
    (∀ j ∈ getNeighbours pos, conductsHeat (g j) →
      (transferHeatFirstPass g pos j).data.heatReceived
        = (g j).data.heatReceived +
          heatExchange (g pos) (g j) ((getNeighbours pos).length : Int) *
            ((g pos).data.specificHeatCapacity / (g j).data.specificHeatCapacity)) ∧
    (∀ q, q ≠ pos → ¬ (q ∈ getNeighbours pos ∧ conductsHeat (g q)) →
      transferHeatFirstPass g pos q = g q) ∧
    (∀ q, ∃ dh, transferHeatFirstPass g pos q = (g q).addHeat dh) ∧
    (∀ q, (transferHeatFirstPass g pos q).data.temperature = (g q).data.temperature ∧
      (transferHeatFirstPass g pos q).data.type = (g q).data.type) ∧
    (∀ j ∈ getNeighbours pos, conductsHeat (g j) →
      ((g j).data.temperature < (g pos).data.temperature →
        0 < heatExchange (g pos) (g j) ((getNeighbours pos).length : Int) ∧
        (g j).data.heatReceived < (transferHeatFirstPass g pos j).data.heatReceived) ∧
      ((g pos).data.temperature < (g j).data.temperature →
        heatExchange (g pos) (g j) ((getNeighbours pos).length : Int) < 0 ∧
        (transferHeatFirstPass g pos j).data.heatReceived < (g j).data.heatReceived)) := by
  have hpending : ∀ j ∈ getNeighbours pos, conductsHeat (g j) →
      (transferHeatFirstPass g pos j).data.heatReceived
        = (g j).data.heatReceived +
          heatExchange (g pos) (g j) ((getNeighbours pos).length : Int) *
            ((g pos).data.specificHeatCapacity / (g j).data.specificHeatCapacity) := by
    intro j hj hc
    have hne : j ≠ pos := fun h => not_mem_getNeighbours pos (h ▸ hj)
    rw [transferHeatFirstPass_eq, (addHeat_fields _ _).2.2.2.2]
    simp only [heatDelta, if_neg hne, hj, (exchanges_iff _ _ hs).mpr hc, and_self, if_true]
  refine ⟨?_, hpending, ?_, ?_, ?_, ?_⟩
  · rw [transferHeatFirstPass_eq, (addHeat_fields _ _).2.2.2.2]
    simp only [heatDelta, if_true, heatGivenOff, exchanges_iff _ _ hs]
    ring
  · intro q hq hn
    rw [transferHeatFirstPass_eq]
    have : heatDelta g pos ((getNeighbours pos).length : Int) (getNeighbours pos) q = 0 := by
      simp only [heatDelta, if_neg hq, exchanges_iff _ _ hs, if_neg hn]
    rw [this, addHeat_zero]
  · intro q
    exact ⟨_, transferHeatFirstPass_eq g pos q⟩
  · intro q
    rw [transferHeatFirstPass_eq]
    exact ⟨rfl, rfl⟩
  · intro j hj hc
    have hn : (0 : ℚ) < (((getNeighbours pos).length : Int) : ℚ) := by
      have : 0 < (getNeighbours pos).length := List.length_pos_of_mem hj
      exact_mod_cast this
    have hcj : 0 < (g pos).data.specificHeatCapacity / (g j).data.specificHeatCapacity :=
      div_pos hs.2 hc.2
    obtain ⟨s1, s2⟩ := heatExchange_sign (g pos) (g j) _ hs hc hn
    constructor
    · intro h
      refine ⟨s1 h, ?_⟩
      rw [hpending j hj hc]
      linarith [mul_pos (s1 h) hcj]
    · intro h
      refine ⟨s2 h, ?_⟩
      rw [hpending j hj hc]
      linarith [mul_neg_of_neg_of_pos (s2 h) hcj]

/-- Witness of C15: the pending heat of a LAVA cell at (5, 5) after its first pass, next to a
STONE cell at (5, 4). -/
theorem first_pass_formula_witness :
    (transferHeatFirstPass (twoCellGrid (Particle.new exactJitter .LAVA)
        (Particle.new exactJitter .STONE)) (5, 5) (5, 5)).data.heatReceived
      = (twoCellGrid (Particle.new exactJitter .LAVA)
          (Particle.new exactJitter .STONE) (5, 5)).data.heatReceived -
        ((getNeighbours (5, 5)).map (fun j =>
          if conductsHeat (twoCellGrid (Particle.new exactJitter .LAVA)
              (Particle.new exactJitter .STONE) j) then
            heatExchange (twoCellGrid (Particle.new exactJitter .LAVA)
                (Particle.new exactJitter .STONE) (5, 5))
              (twoCellGrid (Particle.new exactJitter .LAVA)
                (Particle.new exactJitter .STONE) j) ((getNeighbours (5, 5)).length : Int) *
              ((twoCellGrid (Particle.new exactJitter .LAVA)
                  (Particle.new exactJitter .STONE) j).data.specificHeatCapacity /
                (twoCellGrid (Particle.new exactJitter .LAVA)
                  (Particle.new exactJitter .STONE) (5, 5)).data.specificHeatCapacity)
          else 0)).sum :=
  (first_pass_formula (twoCellGrid (Particle.new exactJitter .LAVA)
    (Particle.new exactJitter .STONE)) (5, 5) lava_conducts).1

/-- C16. Non-conductors never take part in heat exchange. A material whose thermal
conductivity or specific heat capacity is zero gets neither thermal hook from the constructor
and keeps these constants; EMPTY, WALL, CLONE and ERASER are such materials. The first pass
run on any other cell leaves a cell holding such a particle unchanged, and the second pass
run on any other cell leaves every cell but its own unchanged. -/
theorem non_conductors_excluded :
    (∀ (rough : Jitter) (t : ParticleType),
      ((getParticleData rough t).thermalConductivity = 0 ∨
        (getParticleData rough t).specificHeatCapacity = 0) →
      SpecialAction.transferHeatFirstPass ∉ (Particle.new rough t).specialPreActions ∧
      SpecialAction.transferHeatSecondPass ∉ (Particle.new rough t).specialPostActions ∧
      ((Particle.new rough t).data.thermalConductivity = 0 ∨
        (Particle.new rough t).data.specificHeatCapacity = 0)) ∧
    (∀ (rough : Jitter) (t : ParticleType),
      t ∈ [ParticleType.EMPTY, ParticleType.WALL, ParticleType.CLONE, ParticleType.ERASER] →
      (getParticleData rough t).thermalConductivity = 0 ∧
        (getParticleData rough t).specificHeatCapacity = 0) ∧
    (∀ (g : Grid) (pos q : Int × Int), q ≠ pos →
      ((g q).data.thermalConductivity = 0 ∨ (g q).data.specificHeatCapacity = 0) →
      transferHeatFirstPass g pos q = g q) ∧
    (∀ (r1 r2 : Jitter) (g g1 : Grid) (pos q : Int × Int), q ≠ pos →
      transferHeatSecondPass r1 r2 g pos = some g1 → g1 q = g q) := by
  refine ⟨?_, ?_, ?_, ?_⟩
  · intro rough t h
    have hn : ¬ ((getParticleData rough t).thermalConductivity > 0 ∧
        (getParticleData rough t).specificHeatCapacity > 0) := by
      rintro ⟨h1, h2⟩
      rcases h with h | h
      · rw [h] at h1; exact lt_irrefl _ h1
      · rw [h] at h2; exact lt_irrefl _ h2
    obtain ⟨e1, e2, e3⟩ := new_not_conducting rough t hn
    refine ⟨by rw [e2]; simp, e3, ?_⟩
    rw [e1]
    exact h
  · intro rough t ht
    simp only [List.mem_cons, List.mem_singleton, List.not_mem_nil, or_false] at ht
    rcases ht with rfl | rfl | rfl | rfl <;>
      simp [getParticleData, catalogEntry, defaultParticleData]
  · intro g pos q hq h
    rw [transferHeatFirstPass_eq]
    have hnc : ¬ exchanges (g pos) (g q) := by
      rintro ⟨⟨h1, h2⟩, _⟩
      rcases h with h | h
      · rw [h] at h1; exact lt_irrefl _ h1
      · rw [h] at h2; exact lt_irrefl _ h2
    have : heatDelta g pos ((getNeighbours pos).length : Int) (getNeighbours pos) q = 0 := by
      simp only [heatDelta, if_neg hq, hnc, and_false, if_false]
    rw [this, addHeat_zero]
  · intro r1 r2 g g1 pos q hq h
    exact transferHeatSecondPass_other r1 r2 g g1 pos q hq h

/-- Witness of C16: the EMPTY particle, and an EMPTY cell next to a LAVA cell. -/
theorem non_conductors_excluded_witness :
    (SpecialAction.transferHeatFirstPass ∉ (Particle.new exactJitter .EMPTY).specialPreActions ∧
      SpecialAction.transferHeatSecondPass ∉
        (Particle.new exactJitter .EMPTY).specialPostActions ∧
      ((Particle.new exactJitter .EMPTY).data.thermalConductivity = 0 ∨
        (Particle.new exactJitter .EMPTY).data.specificHeatCapacity = 0)) ∧
    transferHeatFirstPass (twoCellGrid (Particle.new exactJitter .LAVA)
        (Particle.new exactJitter .EMPTY)) (5, 5) (5, 4)
      = twoCellGrid (Particle.new exactJitter .LAVA) (Particle.new exactJitter .EMPTY) (5, 4) := by
  have h0 := (non_conductors_excluded.2.1 exactJitter .EMPTY (by simp))
  have h1 := non_conductors_excluded.1 exactJitter .EMPTY (Or.inl h0.1)
  refine ⟨h1, non_conductors_excluded.2.2.1 _ (5, 5) (5, 4) (by decide) ?_⟩
  have : twoCellGrid (Particle.new exactJitter .LAVA) (Particle.new exactJitter .EMPTY) (5, 4)
      = Particle.new exactJitter .EMPTY := by simp [twoCellGrid]
  rw [this]
  exact h1.2.2

/-- C17. Upper transition preserves temperature. For a cell with a configured upper transition
point (not the sentinel) and upper transition material, whose temperature after adding its
pending heat exceeds that point and is not below a configured lower transition point,
`transferHeatSecondPass` leaves the cell holding a fresh particle of the upper transition
material with exactly that temperature and pending heat 0, and changes no other cell. -/
theorem upper_transition_preserves_temperature (r1 r2 : Jitter) (g : Grid) (pos : Int × Int)
    (t : ParticleType)
    (hU : (g pos).data.upperTransitionPoint ≠ upperSentinel)
    (ht : (g pos).data.upperTransitionType = some t)
    (hT : (g pos).data.temperature + (g pos).data.heatReceived
      > (g pos).data.upperTransitionPoint)
    (hL : (g pos).data.lowerTransitionPoint = -1 ∨
      ¬ (g pos).data.temperature + (g pos).data.heatReceived
        < (g pos).data.lowerTransitionPoint) :
    ∃ g1, transferHeatSecondPass r1 r2 g pos = some g1 ∧
      g1 pos = (Particle.new r2 t).withTemperature
        ((g pos).data.temperature + (g pos).data.heatReceived) ∧
      (g1 pos).data.type = t ∧
      (g1 pos).data.temperature = (g pos).data.temperature + (g pos).data.heatReceived ∧
      (g1 pos).data.heatReceived = 0 ∧
      ∀ q, q ≠ pos → g1 q = g q := by
  have hlow : lowerTransition r1 (applyHeat g pos) pos = some (applyHeat g pos) := by
    apply lowerTransition_idle
    rw [applyHeat_same]
    exact hL
  have hup : upperTransition r2 (applyHeat g pos) pos
      = some (transferParticleData (applyHeat g pos) pos (Particle.new r2 t) true) := by
    unfold upperTransition
    simp only [applyHeat_same]
    rw [if_pos hU, if_pos hT, ht]
  have hcell : transferParticleData (applyHeat g pos) pos (Particle.new r2 t) true pos
      = (Particle.new r2 t).withTemperature
        ((g pos).data.temperature + (g pos).data.heatReceived) := by
    rw [transferParticleData_same, applyHeat_same]
    rfl
  refine ⟨_, by unfold transferHeatSecondPass; rw [hlow, Option.some_bind, hup], hcell, ?_, ?_,
    ?_, ?_⟩
  · rw [hcell]; exact new_type r2 t
  · rw [hcell]; rfl
  · rw [hcell]; exact new_heatReceived r2 t
  · intro q hq
    rw [transferParticleData_other _ _ _ _ _ hq, applyHeat_other _ _ _ hq]

/-- Witness of C17: a WATER cell at 400 K becomes STEAM at 400 K. -/
theorem upper_transition_preserves_temperature_witness :
    ∃ g1, transferHeatSecondPass exactJitter exactJitter
        (twoCellGrid ((Particle.new exactJitter .WATER).withTemperature 400)
          (Particle.new exactJitter .EMPTY)) (5, 5) = some g1 ∧
      (g1 (5, 5)).data.type = ParticleType.STEAM ∧
      (g1 (5, 5)).data.temperature = 400 ∧
      (g1 (5, 5)).data.heatReceived = 0 := by
  have hcell : twoCellGrid ((Particle.new exactJitter .WATER).withTemperature 400)
      (Particle.new exactJitter .EMPTY) (5, 5)
      = (Particle.new exactJitter .WATER).withTemperature 400 := by simp [twoCellGrid]
  have hheat : ((Particle.new exactJitter .WATER).withTemperature 400).data.heatReceived = 0 :=
    new_heatReceived exactJitter .WATER
  obtain ⟨g1, h1, _, h3, h4, h5, _⟩ := upper_transition_preserves_temperature exactJitter
    exactJitter (twoCellGrid ((Particle.new exactJitter .WATER).withTemperature 400)
      (Particle.new exactJitter .EMPTY)) (5, 5) .STEAM
    (by rw [hcell]
        show (Particle.new exactJitter .WATER).data.upperTransitionPoint ≠ upperSentinel
        rw [water_data.1]; norm_num [upperSentinel])
    (by rw [hcell]; exact water_data.2.2)
    (by rw [hcell, hheat]
        show (400 : ℚ) + 0 > (Particle.new exactJitter .WATER).data.upperTransitionPoint
        rw [water_data.1]; norm_num)
    (by rw [hcell, hheat]
        right
        show ¬ ((400 : ℚ) + 0 < (Particle.new exactJitter .WATER).data.lowerTransitionPoint)
        rw [water_data.2.1]; norm_num)
  refine ⟨g1, h1, h3, ?_, h5⟩
  rw [h4, hcell, hheat]
  show (400 : ℚ) + 0 = 400
  norm_num

/-- C18, evaluated on the code at a failing input. A STEAM cell at 375 K whose lower
transition point was jittered to 375.76 K: in one `transferHeatSecondPass` call the lower
block replaces STEAM by WATER, and the upper block, which reads the transition point of the
particle now stored in the cell (370.54 K for this WATER), replaces WATER by STEAM again. -/
theorem second_pass_replaces_twice :
    ∃ g1 g2,
      (applyHeat (twoCellGrid ((Particle.new raisedLowerJitter .STEAM).withTemperature 375)
          (Particle.new exactJitter .EMPTY)) (5, 5) (5, 5)).data.type = ParticleType.STEAM ∧
      lowerTransition loweredUpperJitter
          (applyHeat (twoCellGrid ((Particle.new raisedLowerJitter .STEAM).withTemperature 375)
            (Particle.new exactJitter .EMPTY)) (5, 5)) (5, 5) = some g1 ∧
      (g1 (5, 5)).data.type = ParticleType.WATER ∧
      upperTransition exactJitter g1 (5, 5) = some g2 ∧
      (g2 (5, 5)).data.type = ParticleType.STEAM ∧
      transferHeatSecondPass loweredUpperJitter exactJitter
          (twoCellGrid ((Particle.new raisedLowerJitter .STEAM).withTemperature 375)
            (Particle.new exactJitter .EMPTY)) (5, 5) = some g2 := by
  obtain ⟨s1, s2, s3, s4⟩ := steam_raised_data
  obtain ⟨w1, w2⟩ := water_lowered_data
  have hcell : twoCellGrid ((Particle.new raisedLowerJitter .STEAM).withTemperature 375)
      (Particle.new exactJitter .EMPTY) (5, 5)
      = (Particle.new raisedLowerJitter .STEAM).withTemperature 375 := by simp [twoCellGrid]
  have h0 : applyHeat (twoCellGrid ((Particle.new raisedLowerJitter .STEAM).withTemperature 375)
      (Particle.new exactJitter .EMPTY)) (5, 5) (5, 5)
      = (Particle.new raisedLowerJitter .STEAM).withTemperature (375 + 0) := by
    rw [applyHeat_same, hcell]
    simp only [Particle.withTemperature, s3]
  have hlow : lowerTransition loweredUpperJitter
      (applyHeat (twoCellGrid ((Particle.new raisedLowerJitter .STEAM).withTemperature 375)
        (Particle.new exactJitter .EMPTY)) (5, 5)) (5, 5)
      = some (transferParticleData
          (applyHeat (twoCellGrid ((Particle.new raisedLowerJitter .STEAM).withTemperature 375)
            (Particle.new exactJitter .EMPTY)) (5, 5)) (5, 5)
          (Particle.new loweredUpperJitter .WATER) true) := by
    apply lowerTransition_fires
    · rw [h0]
      show (Particle.new raisedLowerJitter .STEAM).data.lowerTransitionPoint ≠ -1
      rw [s1]; norm_num
    · rw [h0]
      show (375 : ℚ) + 0 < (Particle.new raisedLowerJitter .STEAM).data.lowerTransitionPoint
      rw [s1]; norm_num
    · rw [h0]
      exact s2
  have hmid : transferParticleData
      (applyHeat (twoCellGrid ((Particle.new raisedLowerJitter .STEAM).withTemperature 375)
        (Particle.new exactJitter .EMPTY)) (5, 5)) (5, 5)
      (Particle.new loweredUpperJitter .WATER) true (5, 5)
      = (Particle.new loweredUpperJitter .WATER).withTemperature (375 + 0) := by
    rw [transferParticleData_same, h0]
    rfl
  have hup : upperTransition exactJitter (transferParticleData
      (applyHeat (twoCellGrid ((Particle.new raisedLowerJitter .STEAM).withTemperature 375)
        (Particle.new exactJitter .EMPTY)) (5, 5)) (5, 5)
      (Particle.new loweredUpperJitter .WATER) true) (5, 5)
      = some (transferParticleData (transferParticleData
          (applyHeat (twoCellGrid ((Particle.new raisedLowerJitter .STEAM).withTemperature 375)
            (Particle.new exactJitter .EMPTY)) (5, 5)) (5, 5)
          (Particle.new loweredUpperJitter .WATER) true) (5, 5)
          (Particle.new exactJitter .STEAM) true) := by
    apply upperTransition_fires
    · rw [hmid]
      show (Particle.new loweredUpperJitter .WATER).data.upperTransitionPoint ≠ upperSentinel
      rw [w1]; norm_num [upperSentinel]
    · rw [hmid]
      show (375 : ℚ) + 0 > (Particle.new loweredUpperJitter .WATER).data.upperTransitionPoint
      rw [w1]; norm_num
    · rw [hmid]
      exact w2
  refine ⟨_, _, ?_, hlow, ?_, hup, ?_, ?_⟩
  · rw [h0]
    exact s4
  · rw [hmid]
    exact new_type loweredUpperJitter .WATER
  · rw [transferParticleData_same]
    exact new_type exactJitter .STEAM
  · unfold transferHeatSecondPass
    rw [hlow, Option.some_bind, hup]
/-- C19, evaluated on the code. The post-pass hooks of a FIRE particle are, in the order of
its vector, the decay check, the heat second pass and the reaction check. On a FIRE cell under
draws that let neither the decay nor a reaction fire, the loop of `performSpecialActions`
completes and the calls it has made are these three in this order: the decay check runs
before the heat second pass, so the hooks are not run in the claimed order. Under the draw 0
the decay check, the first call, assigns the particle of the cell, and the loop over the
overwritten vector is undefined: no order of the later calls is fixed by the program. -/
theorem post_hook_order_counterexample :
    (Particle.new exactJitter .FIRE).specialPostActions
      = [.checkHalfLifeExpired, .transferHeatSecondPass, .checkAlchemyReactions] ∧
    (∃ g1, performSpecialActions (recordHook (callHook calmHookDraws (5, 5)))
        (sampleGrid .FIRE .EMPTY .EMPTY (5, 5)).specialPostActions
        (sampleGrid .FIRE .EMPTY .EMPTY, [])
      = some (g1,
          [.checkHalfLifeExpired, .transferHeatSecondPass, .checkAlchemyReactions])) ∧
    ¬ ([.checkHalfLifeExpired, .transferHeatSecondPass, .checkAlchemyReactions] :
        List SpecialAction).Sublist claimedPostOrder ∧
    hookAssigns sampleHookDraws (5, 5) .checkHalfLifeExpired (sampleGrid .FIRE .EMPTY .EMPTY)
      = true ∧
    runHooks sampleHookDraws (5, 5)
        [.checkHalfLifeExpired, .transferHeatSecondPass, .checkAlchemyReactions]
        (sampleGrid .FIRE .EMPTY .EMPTY) = none :=
  ⟨fire_hooks, fire_post_run, by decide, fire_decay_assigns,
    runHooks_assigns _ _ _ _ _ fire_decay_assigns⟩

/-- C19, amended. For every material and every jitter, the post-pass hooks attached by the
constructor are a sublist of: decay check, heat second pass, reaction check, emission attempt,
and for FIRE, SMOKE and STEAM the decay check is the first and the heat second pass the second
hook. A loop of `performSpecialActions` that completes has called the hooks of the vector in
this order, each on the grid the previous call left, and none of the calls has assigned the
cell's particle; a call that does not assign the particle leaves the hook vectors of the cell
as they were, so the vector under iteration is the one the loop has started on; a call that
assigns the particle leaves the loop undefined. -/
theorem post_hook_order :
    (∀ (rough : Jitter) (t : ParticleType),
      (Particle.new rough t).specialPostActions.Sublist
        [.checkHalfLifeExpired, .transferHeatSecondPass, .checkAlchemyReactions,
          .attemptEmissions]) ∧
    (∀ t ∈ [ParticleType.FIRE, ParticleType.SMOKE, ParticleType.STEAM],
      (Particle.new exactJitter t).specialPostActions.take 2
        = [.checkHalfLifeExpired, .transferHeatSecondPass]) ∧
    (∀ (rnd : HookDraws) (pos : Int × Int) (actions : List SpecialAction) (g g1 : Grid)
        (trace : List SpecialAction),
      performSpecialActions (recordHook (callHook rnd pos)) actions (g, []) = some (g1, trace) →
      trace = actions ∧ runHooks rnd pos actions g = some g1) ∧
    (∀ (rnd : HookDraws) (pos : Int × Int) (a : SpecialAction) (rest : List SpecialAction)
        (g g1 : Grid),
      runHooks rnd pos (a :: rest) g = some g1 →
      ∃ g2, runHook rnd pos a g = some g2 ∧ hookAssigns rnd pos a g = false ∧
        runHooks rnd pos rest g2 = some g1) ∧
    (∀ (rnd : HookDraws) (pos : Int × Int) (a : SpecialAction) (g g1 : Grid),
      runHook rnd pos a g = some g1 → hookAssigns rnd pos a g = false →
      (g1 pos).specialPreActions = (g pos).specialPreActions ∧
      (g1 pos).specialActions = (g pos).specialActions ∧
      (g1 pos).specialPostActions = (g pos).specialPostActions) ∧
    (∀ (rnd : HookDraws) (pos : Int × Int) (a : SpecialAction) (rest : List SpecialAction)
        (g : Grid),
      hookAssigns rnd pos a g = true → runHooks rnd pos (a :: rest) g = none) := by
  refine ⟨new_post_sublist, ?_, ?_, runHooks_cons_some, hook_keeps_vectors,
    runHooks_assigns⟩
  · intro t ht
    simp only [List.mem_cons, List.mem_singleton, List.not_mem_nil, or_false] at ht
    rcases ht with rfl | rfl | rfl
    all_goals
      simp [Particle.new, getParticleData, catalogEntry, withMovement, withThermal,
        defaultParticleData, thermalJitter, exactJitter, mkReaction]
    all_goals norm_num
  · intro rnd pos actions g g1 trace h
    rw [performSpecialActions_trace] at h
    rcases hr : performSpecialActions (callHook rnd pos) actions g with _ | g2
    · rw [hr] at h; simp at h
    · rw [hr] at h
      simp only [Option.map_some', Option.some.injEq, Prod.mk.injEq, List.nil_append] at h
      exact ⟨h.2.symm, by rw [← h.1]; exact hr⟩

/-- Witness of the amended C19: the first two post-pass hooks of FIRE, and the completed loop
over the post-pass hooks of a FIRE cell. -/
theorem post_hook_order_witness :
    ParticleType.FIRE ∈ [ParticleType.FIRE, ParticleType.SMOKE, ParticleType.STEAM] ∧
    (Particle.new exactJitter .FIRE).specialPostActions.take 2
      = [.checkHalfLifeExpired, .transferHeatSecondPass] ∧
    ∃ g1, runHooks calmHookDraws (5, 5)
        (sampleGrid .FIRE .EMPTY .EMPTY (5, 5)).specialPostActions
        (sampleGrid .FIRE .EMPTY .EMPTY) = some g1 := by
  obtain ⟨g1, h⟩ := fire_post_run
  exact ⟨by decide, post_hook_order.2.1 .FIRE (by decide), g1,
    (post_hook_order.2.2.1 calmHookDraws (5, 5) _ _ g1 _ h).2⟩

/-- C20. Reaction firing rule of `checkAlchemyReactions`, whose neighbours are the in-bounds
cells of the Moore neighbourhood: the `valid` flag of a rule is set exactly when the draw of
the rule is below its halflife and every prerequisite material is held by a neighbour; when
rule `k` is the first rule that fires, the cell's material becomes the first listed outcome
of rule `k`, the other cells are unchanged, and the result does not depend on the draws of
later rules; when no rule fires the grid is unchanged; and a cell none of whose rules has all
prerequisites present is left unchanged whatever the draws. -/
theorem reaction_firing_rule (rnd : ReactionDraws) (g : Grid) (pos : Int × Int) :
    getNeighbours pos = (mooreCandidates pos).filter (fun p => isValidIndex p.1 p.2) ∧
    (∀ (i : Nat) (reaction : AlchemicReaction),
      checkPrerequisites g (getNeighbours pos) (decide (rnd.draw i < reaction.halflife))
          reaction.prerequisites = true ↔
        (rnd.draw i < reaction.halflife ∧
          ∀ prerequisite ∈ reaction.prerequisites,
            ∃ n ∈ getNeighbours pos, (g n).data.type = prerequisite.type)) ∧
    (∀ (k : Nat) (reaction : AlchemicReaction) (result : AlchemicResults),
      (g pos).data.reactions[k]? = some reaction →
      (∀ (j : Nat) (earlier : AlchemicReaction), j < k →
        (g pos).data.reactions[j]? = some earlier →
        ¬ ruleFires rnd g (getNeighbours pos) j earlier) →
      ruleFires rnd g (getNeighbours pos) k reaction →
      reaction.results[0]? = some result →
      ∃ g1, checkAlchemyReactions rnd g pos = some g1 ∧
        (g1 pos).data.type = result.type ∧
        (∀ q, q ≠ pos → g1 q = g q) ∧
        ∀ rnd2 : ReactionDraws, (∀ j, j ≤ k → rnd2.draw j = rnd.draw j) →
          rnd2.rough k = rnd.rough k → rnd2.roughTemp k = rnd.roughTemp k →
          checkAlchemyReactions rnd2 g pos = some g1) ∧
    ((∀ (k : Nat) (reaction : AlchemicReaction), (g pos).data.reactions[k]? = some reaction →
        ¬ ruleFires rnd g (getNeighbours pos) k reaction) →
      checkAlchemyReactions rnd g pos = some g) ∧
    ((∀ reaction ∈ (g pos).data.reactions,
        ¬ prerequisitesPresent g (getNeighbours pos) reaction) →
      ∀ rnd2 : ReactionDraws, checkAlchemyReactions rnd2 g pos = some g) := by
  refine ⟨getNeighbours_eq pos, ?_, ?_, ?_, ?_⟩
  · intro i reaction
    exact checkPrerequisites_fires rnd g (getNeighbours pos) i reaction
  · intro k reaction result hk hearlier hfires hres
    have hloop : ∀ rnd2 : ReactionDraws, (∀ j, j ≤ k → rnd2.draw j = rnd.draw j) →
        rnd2.rough k = rnd.rough k → rnd2.roughTemp k = rnd.roughTemp k →
        checkAlchemyReactions rnd2 g pos = some (fireRule rnd g pos k result) := by
      intro rnd2 hd h1 h2
      unfold checkAlchemyReactions
      have := (reactionLoop_spec rnd2 g pos (getNeighbours pos) (g pos).data.reactions 0).1
        k reaction hk
        (by
          intro j earlier hj hje
          rw [Nat.zero_add, ruleFires_congr rnd rnd2 g _ j earlier (hd j (le_of_lt hj))]
          exact hearlier j earlier hj hje)
        (by
          rw [Nat.zero_add, ruleFires_congr rnd rnd2 g _ k reaction (hd k (le_refl k))]
          exact hfires)
      rw [this, hres, Option.map_some', Nat.zero_add, fireRule_congr rnd rnd2 g pos k result h1 h2]
    exact ⟨fireRule rnd g pos k result, hloop rnd (fun _ _ => rfl) rfl rfl,
      fireRule_same rnd g pos k result, fun q hq => fireRule_other rnd g pos k result q hq,
      hloop⟩
  · intro hnone
    unfold checkAlchemyReactions
    refine (reactionLoop_spec rnd g pos (getNeighbours pos) (g pos).data.reactions 0).2 ?_
    intro k reaction hk
    rw [Nat.zero_add]
    exact hnone k reaction hk
  · intro hnone rnd2
    unfold checkAlchemyReactions
    refine (reactionLoop_spec rnd2 g pos (getNeighbours pos) (g pos).data.reactions 0).2 ?_
    intro k reaction hk hf
    exact hnone reaction (List.getElem?_mem hk) hf.2

/-- Witness of C20: a FIRE cell with WATER below it and a draw of 0; the only rule of FIRE
fires and the cell becomes EMPTY. -/
theorem reaction_firing_rule_witness :
    (sampleGrid .FIRE .WATER .EMPTY (5, 5)).data.reactions[0]?
      = some (mkReaction (1/8) .WATER ⟨.EMPTY, -1⟩) ∧
    ruleFires sampleReactionDraws (sampleGrid .FIRE .WATER .EMPTY) (getNeighbours (5, 5)) 0
      (mkReaction (1/8) .WATER ⟨.EMPTY, -1⟩) ∧
    ∃ g1, checkAlchemyReactions sampleReactionDraws (sampleGrid .FIRE .WATER .EMPTY) (5, 5)
        = some g1 ∧
      (g1 (5, 5)).data.type = ParticleType.EMPTY ∧
      (∀ q, q ≠ (5, 5) → g1 q = sampleGrid .FIRE .WATER .EMPTY q) ∧
      ∀ rnd2 : ReactionDraws, (∀ j, j ≤ 0 → rnd2.draw j = sampleReactionDraws.draw j) →
        rnd2.rough 0 = sampleReactionDraws.rough 0 →
        rnd2.roughTemp 0 = sampleReactionDraws.roughTemp 0 →
        checkAlchemyReactions rnd2 (sampleGrid .FIRE .WATER .EMPTY) (5, 5) = some g1 :=
  have hk : (sampleGrid .FIRE .WATER .EMPTY (5, 5)).data.reactions[0]?
      = some (mkReaction (1/8) .WATER ⟨.EMPTY, -1⟩) := by
    rw [sampleGrid_55, fire_reactions]
    rfl
  have hf : ruleFires sampleReactionDraws (sampleGrid .FIRE .WATER .EMPTY)
      (getNeighbours (5, 5)) 0 (mkReaction (1/8) .WATER ⟨.EMPTY, -1⟩) := by
    refine ⟨by norm_num [sampleReactionDraws, mkReaction], ?_⟩
    intro prerequisite hp
    simp only [mkReaction, List.mem_singleton] at hp
    subst hp
    exact ⟨(5, 4), by decide, by rw [sampleGrid_54]; exact new_type _ _⟩
  ⟨hk, hf, (reaction_firing_rule sampleReactionDraws (sampleGrid .FIRE .WATER .EMPTY) (5, 5)).2.2.1
    0 (mkReaction (1/8) .WATER ⟨.EMPTY, -1⟩) ⟨.EMPTY, -1⟩ hk
    (fun j _ hj _ => absurd hj (Nat.not_lt_zero j)) hf rfl⟩

/-- C21. Temperature after a reaction. When rule `k` is the first rule that fires on a cell
with prior temperature `T`, `checkAlchemyReactions` returns a grid in which the temperature of
the cell is exactly `T` if the outcome has no forced temperature (`particleTemp = -1`) and
the larger of the jittered forced temperature and `T` otherwise; in both cases it is at
least `T`. -/
theorem reaction_temperature (rnd : ReactionDraws) (g : Grid) (pos : Int × Int) (k : Nat)
    (reaction : AlchemicReaction) (result : AlchemicResults)
    (hk : (g pos).data.reactions[k]? = some reaction)
    (hearlier : ∀ (j : Nat) (earlier : AlchemicReaction), j < k →
      (g pos).data.reactions[j]? = some earlier →
      ¬ ruleFires rnd g (getNeighbours pos) j earlier)
    (hfires : ruleFires rnd g (getNeighbours pos) k reaction)
    (hres : reaction.results[0]? = some result) :
    ∃ g1, checkAlchemyReactions rnd g pos = some g1 ∧
      (g1 pos).data.type = result.type ∧
      (result.particleTemp = -1 → (g1 pos).data.temperature = (g pos).data.temperature) ∧
      (result.particleTemp ≠ -1 → (g1 pos).data.temperature
        = max (rnd.roughTemp k result.particleTemp (1/10)) (g pos).data.temperature) ∧
      (g pos).data.temperature ≤ (g1 pos).data.temperature := by
  refine ⟨fireRule rnd g pos k result,
    checkAlchemyReactions_fires rnd g pos k reaction result hk hearlier hfires hres,
    fireRule_same rnd g pos k result, ?_, ?_, ?_⟩
  · intro h
    rw [fireRule_temperature, if_pos h]
  · intro h
    rw [fireRule_temperature, if_neg h]
  · rw [fireRule_temperature]
    split_ifs
    · exact le_refl _
    · exact le_max_right _ _

/-- Witness of C21: an OIL cell at 303.15 K with FIRE below it and a draw of 0; the rule
fires and the cell becomes FIRE at the forced temperature 1473.15 K. -/
theorem reaction_temperature_witness :
    (sampleGrid .OIL .FIRE .EMPTY (5, 5)).data.reactions[0]?
      = some (mkReaction (1/8) .FIRE ⟨.FIRE, 1200 + CELSIUS_TO_KELVIN⟩) ∧
    ruleFires sampleReactionDraws (sampleGrid .OIL .FIRE .EMPTY) (getNeighbours (5, 5)) 0
      (mkReaction (1/8) .FIRE ⟨.FIRE, 1200 + CELSIUS_TO_KELVIN⟩) ∧
    ∃ g1, checkAlchemyReactions sampleReactionDraws (sampleGrid .OIL .FIRE .EMPTY) (5, 5)
        = some g1 ∧
      (g1 (5, 5)).data.type = ParticleType.FIRE ∧
      (g1 (5, 5)).data.temperature = 29463/20 := by
  have hk : (sampleGrid .OIL .FIRE .EMPTY (5, 5)).data.reactions[0]?
      = some (mkReaction (1/8) .FIRE ⟨.FIRE, 1200 + CELSIUS_TO_KELVIN⟩) := by
    rw [sampleGrid_55, oil_data.1]
    rfl
  have hf : ruleFires sampleReactionDraws (sampleGrid .OIL .FIRE .EMPTY)
      (getNeighbours (5, 5)) 0 (mkReaction (1/8) .FIRE ⟨.FIRE, 1200 + CELSIUS_TO_KELVIN⟩) := by
    refine ⟨by norm_num [sampleReactionDraws, mkReaction], ?_⟩
    intro prerequisite hp
    simp only [mkReaction, List.mem_singleton] at hp
    subst hp
    exact ⟨(5, 4), by decide, by rw [sampleGrid_54]; exact new_type _ _⟩
  obtain ⟨g1, h1, h2, _, h4, _⟩ := reaction_temperature sampleReactionDraws
    (sampleGrid .OIL .FIRE .EMPTY) (5, 5) 0 _ ⟨.FIRE, 1200 + CELSIUS_TO_KELVIN⟩ hk
    (fun j _ hj _ => absurd hj (Nat.not_lt_zero j)) hf rfl
  refine ⟨hk, hf, g1, h1, h2, ?_⟩
  rw [h4 (by norm_num [CELSIUS_TO_KELVIN]), sampleGrid_55, oil_data.2]
  norm_num [sampleReactionDraws, CELSIUS_TO_KELVIN]
/-- C22. Decay. For a non-EMPTY cell whose material has a halflife `h ≠ -1` and a configured
end-of-life material, `checkHalfLifeExpired` with the uniform draw `u` replaces the cell's
material by the end-of-life material when `u < h`, and the new cell keeps the prior
temperature; when `u ≥ h`, or the cell is EMPTY, or `h = -1`, the grid is returned unchanged;
in every case no other cell is changed. -/
theorem decay_rule (rough : Jitter) (u : ℚ) (g : Grid) (pos : Int × Int) :
    (∀ t, (g pos).data.type ≠ ParticleType.EMPTY → (g pos).data.halflife ≠ -1 →
      (g pos).data.endOfLifeType = some t → u < (g pos).data.halflife →
      ∃ g1, checkHalfLifeExpired rough u g pos = some g1 ∧
        g1 pos = { Particle.new rough t with
          data := { (Particle.new rough t).data with
            temperature := (g pos).data.temperature } } ∧
        (g1 pos).data.type = t ∧
        (g1 pos).data.temperature = (g pos).data.temperature) ∧
    (((g pos).data.type = ParticleType.EMPTY ∨ (g pos).data.halflife = -1 ∨
        (g pos).data.halflife ≤ u) →
      checkHalfLifeExpired rough u g pos = some g) ∧
    (∀ g1, checkHalfLifeExpired rough u g pos = some g1 → ∀ q, q ≠ pos → g1 q = g q) := by
  refine ⟨?_, checkHalfLifeExpired_idle rough u g pos, ?_⟩
  · intro t h1 h2 h4 h3
    refine ⟨_, checkHalfLifeExpired_fires rough u g pos t h1 h2 h3 h4,
      transferParticleData_same g pos _, ?_, transferParticleData_temperature g pos _⟩
    rw [transferParticleData_type]
    exact new_type rough t
  · intro g1 h q hq
    exact checkHalfLifeExpired_other rough u g g1 pos q hq h

/-- Witness of C22: a FIRE cell at 1223.15 K with a draw of 0 becomes SMOKE at 1223.15 K. -/
theorem decay_rule_witness :
    (sampleGrid .FIRE .EMPTY .EMPTY (5, 5)).data.type ≠ ParticleType.EMPTY ∧
    (sampleGrid .FIRE .EMPTY .EMPTY (5, 5)).data.halflife ≠ -1 ∧
    (sampleGrid .FIRE .EMPTY .EMPTY (5, 5)).data.endOfLifeType = some .SMOKE ∧
    (0 : ℚ) < (sampleGrid .FIRE .EMPTY .EMPTY (5, 5)).data.halflife ∧
    ∃ g1, checkHalfLifeExpired exactJitter 0 (sampleGrid .FIRE .EMPTY .EMPTY) (5, 5) = some g1 ∧
      (g1 (5, 5)).data.type = ParticleType.SMOKE ∧
      (g1 (5, 5)).data.temperature = 24463/20 := by
  have h1 : (sampleGrid .FIRE .EMPTY .EMPTY (5, 5)).data.type ≠ ParticleType.EMPTY := by
    rw [sampleGrid_55, new_type]; decide
  have h2 : (sampleGrid .FIRE .EMPTY .EMPTY (5, 5)).data.halflife ≠ -1 := by
    rw [sampleGrid_55, fire_decay_data.1]; norm_num
  have h3 : (sampleGrid .FIRE .EMPTY .EMPTY (5, 5)).data.endOfLifeType = some .SMOKE := by
    rw [sampleGrid_55, fire_decay_data.2.1]
  have h4 : (0 : ℚ) < (sampleGrid .FIRE .EMPTY .EMPTY (5, 5)).data.halflife := by
    rw [sampleGrid_55, fire_decay_data.1]; norm_num
  obtain ⟨g1, e1, _, e3, e4⟩ := (decay_rule exactJitter 0 (sampleGrid .FIRE .EMPTY .EMPTY)
    (5, 5)).1 .SMOKE h1 h2 h3 h4
  refine ⟨h1, h2, h3, h4, g1, e1, e3, ?_⟩
  rw [e4, sampleGrid_55, fire_decay_data.2.2]
  norm_num [CELSIUS_TO_KELVIN]
/-- C23, evaluated on the code at a failing input. A cell with two emission rules (FIRE and
SMOKE, both certain) whose only EMPTY neighbour is (5, 4): the first rule spawns FIRE into
(5, 4); no neighbour is EMPTY any more, yet the loop goes on and the second rule spawns
SMOKE into the same cell, because the list of empty neighbours is never updated. -/
theorem emissions_reuse_neighbour :
    (walledGrid (5, 5)).data.emissions = [⟨.FIRE, 1⟩, ⟨.SMOKE, 1⟩] ∧
    emptyNeighbours walledGrid (5, 5) = [(5, 4)] ∧
    emissionLoop sampleEmissionDraws [(5, 4)] [⟨.FIRE, 1⟩, ⟨.SMOKE, 1⟩] 0 walledGrid
      = emissionLoop sampleEmissionDraws [(5, 4)] [⟨.SMOKE, 1⟩] 1
          (walledGrid.set (5, 4) (Particle.new exactJitter .FIRE)) ∧
    emptyNeighbours (walledGrid.set (5, 4) (Particle.new exactJitter .FIRE)) (5, 5) = [] ∧
    attemptEmissions sampleEmissionDraws walledGrid (5, 5)
      = (walledGrid.set (5, 4) (Particle.new exactJitter .FIRE)).set (5, 4)
          (Particle.new exactJitter .SMOKE) ∧
    (attemptEmissions sampleEmissionDraws walledGrid (5, 5) (5, 4)).data.type
      = ParticleType.SMOKE := by
  have hne : ([(5, 4)] : List (Int × Int)) ≠ [] := by simp
  have h1 : emissionLoop sampleEmissionDraws [(5, 4)] [⟨.FIRE, 1⟩, ⟨.SMOKE, 1⟩] 0 walledGrid
      = emissionLoop sampleEmissionDraws [(5, 4)] [⟨.SMOKE, 1⟩] 1
          (walledGrid.set (5, 4) (Particle.new exactJitter .FIRE)) := by
    rw [emissionLoop_fires sampleEmissionDraws _ _ _ _ _ hne
      (by norm_num [sampleEmissionDraws])]
    rfl
  have h2 : emissionLoop sampleEmissionDraws [(5, 4)] [⟨.SMOKE, 1⟩] 1
        (walledGrid.set (5, 4) (Particle.new exactJitter .FIRE))
      = (walledGrid.set (5, 4) (Particle.new exactJitter .FIRE)).set (5, 4)
          (Particle.new exactJitter .SMOKE) := by
    rw [emissionLoop_fires sampleEmissionDraws _ _ _ _ _ hne
      (by norm_num [sampleEmissionDraws])]
    rfl
  have h3 : attemptEmissions sampleEmissionDraws walledGrid (5, 5)
      = (walledGrid.set (5, 4) (Particle.new exactJitter .FIRE)).set (5, 4)
          (Particle.new exactJitter .SMOKE) := by
    have he := walledGrid_empties
    unfold emptyNeighbours at he
    unfold attemptEmissions
    simp only
    rw [he]
    show emissionLoop sampleEmissionDraws [(5, 4)] [⟨.FIRE, 1⟩, ⟨.SMOKE, 1⟩] 0 walledGrid = _
    rw [h1, h2]
  refine ⟨rfl, walledGrid_empties, h1, ?_, h3, ?_⟩
  · have hn : getNeighbours (5, 5)
        = [(4, 4), (4, 5), (4, 6), (5, 4), (5, 6), (6, 4), (6, 5), (6, 6)] := by decide
    rw [emptyNeighbours, hn]
    simp [walledGrid, Grid.set, new_type]
  · rw [h3, Grid.set_same, new_type]
/-- C24. Clone memory is sticky. After a `clone` call the cell at `pos` is the cell before
with its remembered type updated: a remembered type that is not EMPTY is kept whatever the
neighbours are; an EMPTY one becomes the type of the first neighbour in scan order that is
neither EMPTY nor CLONE, and stays EMPTY when there is none. When the remembered type after
the update is not EMPTY and some neighbour is EMPTY, exactly one EMPTY neighbour (number
`rand() % count` of the EMPTY neighbours) is replaced by a fresh particle of the remembered
type and every cell other than it and `pos` is unchanged; otherwise every cell other than
`pos` is unchanged. -/
theorem clone_memory_sticky (rough : Jitter) (rand : Nat) (g : Grid) (pos : Int × Int) :
    clone rough rand g pos pos
      = { g pos with rememberedParticleType := rememberedAfter g pos } ∧
    ((g pos).rememberedParticleType ≠ ParticleType.EMPTY →
      (clone rough rand g pos pos).rememberedParticleType = (g pos).rememberedParticleType) ∧
    ((g pos).rememberedParticleType = ParticleType.EMPTY → ∀ n,
      (getNeighbours pos).find? (cloneable g) = some n →
      (clone rough rand g pos pos).rememberedParticleType = (g n).data.type ∧
        n ∈ getNeighbours pos ∧ (g n).data.type ≠ ParticleType.EMPTY ∧
        (g n).data.type ≠ ParticleType.CLONE) ∧
    ((g pos).rememberedParticleType = ParticleType.EMPTY →
      (∀ n ∈ getNeighbours pos, (g n).data.type = ParticleType.EMPTY ∨
        (g n).data.type = ParticleType.CLONE) →
      (clone rough rand g pos pos).rememberedParticleType = ParticleType.EMPTY) ∧
    ((clone rough rand g pos pos).rememberedParticleType ≠ ParticleType.EMPTY →
      (∃ n ∈ getNeighbours pos, (g n).data.type = ParticleType.EMPTY) →
      ∃ target ∈ getNeighbours pos, (g target).data.type = ParticleType.EMPTY ∧
        (emptyNeighbours g pos)[rand % (emptyNeighbours g pos).length]? = some target ∧
        clone rough rand g pos target
          = Particle.new rough (clone rough rand g pos pos).rememberedParticleType ∧
        ∀ q, q ≠ target → q ≠ pos → clone rough rand g pos q = g q) ∧
    (((clone rough rand g pos pos).rememberedParticleType = ParticleType.EMPTY ∨
        ∀ n ∈ getNeighbours pos, (g n).data.type ≠ ParticleType.EMPTY) →
      ∀ q, q ≠ pos → clone rough rand g pos q = g q) := by
  -- the cell itself
  have hself : clone rough rand g pos pos
      = { g pos with rememberedParticleType := rememberedAfter g pos } := by
    by_cases h : rememberedAfter g pos ≠ ParticleType.EMPTY ∧ emptyNeighbours g pos ≠ []
    · rw [clone_spawns rough rand g pos h.1 h.2]
      have hmem := List.get_mem (emptyNeighbours g pos)
        (rand % (emptyNeighbours g pos).length) (Nat.mod_lt _ (List.length_pos.mpr h.2))
      have hne : pos ≠ (emptyNeighbours g pos).get ⟨rand % (emptyNeighbours g pos).length,
          Nat.mod_lt _ (List.length_pos.mpr h.2)⟩ := by
        intro he
        rw [← he] at hmem
        exact not_mem_getNeighbours pos ((mem_emptyNeighbours g pos pos).mp hmem).1
      rw [Grid.set_other _ _ _ _ hne, Grid.set_same]
    · rw [clone_idle rough rand g pos (by
        by_cases h1 : rememberedAfter g pos = ParticleType.EMPTY
        · exact Or.inl h1
        · right
          by_contra h2
          exact h ⟨h1, h2⟩), Grid.set_same]
  have hmemory : (clone rough rand g pos pos).rememberedParticleType = rememberedAfter g pos := by
    rw [hself]
  refine ⟨hself, ?_, ?_, ?_, ?_, ?_⟩
  · intro h
    rw [hmemory, rememberedAfter, if_pos h]
  · intro h n hn
    rw [hmemory, rememberedAfter, if_neg (not_not.mpr h), hn]
    have hc := List.find?_some hn
    simp only [cloneable, decide_eq_true_eq] at hc
    exact ⟨rfl, List.mem_of_find?_eq_some hn, hc.2, hc.1⟩
  · intro h hall
    rw [hmemory, rememberedAfter, if_neg (not_not.mpr h)]
    have hnone : (getNeighbours pos).find? (cloneable g) = none := by
      rw [List.find?_eq_none]
      intro n hn
      simp only [cloneable, decide_eq_true_eq]
      rcases hall n hn with h1 | h1
      · exact fun hc => hc.2 h1
      · exact fun hc => hc.1 h1
    rw [hnone]
  · intro hr ⟨n, hn, hne⟩
    rw [hmemory] at hr ⊢
    have hnonempty : emptyNeighbours g pos ≠ [] := by
      intro he
      have := (mem_emptyNeighbours g pos n).mpr ⟨hn, hne⟩
      rw [he] at this
      exact absurd this (List.not_mem_nil n)
    have hlt := Nat.mod_lt rand (List.length_pos.mpr hnonempty)
    have hmem := List.get_mem (emptyNeighbours g pos)
      (rand % (emptyNeighbours g pos).length) hlt
    have hm := (mem_emptyNeighbours g pos _).mp hmem
    refine ⟨(emptyNeighbours g pos).get ⟨rand % (emptyNeighbours g pos).length, hlt⟩,
      hm.1, hm.2, ?_, ?_, ?_⟩
    · rw [List.getElem?_eq_getElem hlt]
      rfl
    · rw [clone_spawns rough rand g pos hr hnonempty, Grid.set_same]
    · intro q hq1 hq2
      rw [clone_spawns rough rand g pos hr hnonempty, Grid.set_other _ _ _ _ hq1,
        Grid.set_other _ _ _ _ hq2]
  · intro h q hq
    rw [hmemory] at h
    rw [clone_idle rough rand g pos (by
      rcases h with h | h
      · exact Or.inl h
      · right
        rw [List.eq_nil_iff_forall_not_mem]
        intro n hn
        have := (mem_emptyNeighbours g pos n).mp hn
        exact h n this.1 this.2), Grid.set_other _ _ _ _ hq]

/-- Witness of C24: a fresh CLONE cell at (5, 5) with SAND below it remembers SAND. -/
theorem clone_memory_sticky_witness :
    (sampleGrid .CLONE .SAND .EMPTY (5, 5)).rememberedParticleType = ParticleType.EMPTY ∧
    (getNeighbours (5, 5)).find? (cloneable (sampleGrid .CLONE .SAND .EMPTY)) = some (5, 4) ∧
    (clone exactJitter 0 (sampleGrid .CLONE .SAND .EMPTY) (5, 5) (5, 5)).rememberedParticleType
      = ParticleType.SAND := by
  have h1 : (sampleGrid .CLONE .SAND .EMPTY (5, 5)).rememberedParticleType
      = ParticleType.EMPTY := by
    rw [sampleGrid_55]; rfl
  have hn : getNeighbours (5, 5)
      = [(4, 4), (4, 5), (4, 6), (5, 4), (5, 6), (6, 4), (6, 5), (6, 6)] := by decide
  have h2 : (getNeighbours (5, 5)).find? (cloneable (sampleGrid .CLONE .SAND .EMPTY))
      = some (5, 4) := by
    rw [hn]
    simp [List.find?, cloneable, sampleGrid, new_type]
  refine ⟨h1, h2, ?_⟩
  rw [((clone_memory_sticky exactJitter 0 (sampleGrid .CLONE .SAND .EMPTY) (5, 5)).2.2.1
    h1 (5, 4) h2).1, sampleGrid_54, new_type]
/-- C25. Scheduler order. In one `UpdateParticles` call the position list is shuffled once;
when the shuffle permutes a list of all grid positions, the shuffled list is again a
permutation of all 240 x 160 grid positions, without repetition. The visits of the call are
the pre-pass over the whole shuffled list, then the main pass over it, then the post-pass over
it, so that each sweep visits every grid position exactly once and all three use the same
order; the shuffled list is what the call leaves in `positions`. On the grid of
`InitializeGrid` the call returns and leaves the grid as it is. -/
theorem scheduler_order (rnd : TickDraws) (positions : List (Int × Int)) (g : Grid)
    (hshuffle : (rnd.shuffle positions).Perm positions)
    (hinit : positions.Perm initPositions) :
    (rnd.shuffle positions).Perm initPositions ∧
    (rnd.shuffle positions).Nodup ∧
    (rnd.shuffle positions).length = 240 * 160 ∧
    (∀ p, p ∈ rnd.shuffle positions ↔ isValidIndex p.1 p.2 = true) ∧
    UpdateParticlesWith rnd.shuffle (traced .pre (preVisit rnd)) (traced .main (mainVisit rnd))
        (traced .post (postVisit rnd)) positions (g, [])
      = (UpdateParticles rnd positions g).map
          (fun r => (r.1, (r.2, tickTrace (rnd.shuffle positions)))) ∧
    (∀ phase : SweepPhase,
      ((tickTrace (rnd.shuffle positions)).filter (fun v => v.1 = phase)).map Prod.snd
        = rnd.shuffle positions) ∧
    (∀ r, UpdateParticles rnd positions g = some r → r.1 = rnd.shuffle positions) ∧
    (∀ rough : Int × Int → Jitter,
      UpdateParticles rnd positions (InitializeGrid rough)
        = some (rnd.shuffle positions, InitializeGrid rough)) := by
  have hperm : (rnd.shuffle positions).Perm initPositions := hshuffle.trans hinit
  refine ⟨hperm, hperm.nodup_iff.mpr initPositions_nodup, ?_, ?_, ?_, ?_, ?_, ?_⟩
  · rw [hperm.length_eq, initPositions_length]
  · intro p
    rw [hperm.mem_iff, mem_initPositions]
  · exact UpdateParticlesWith_traced rnd.shuffle _ _ _ positions g
  · exact tickTrace_phase _
  · intro r h
    exact UpdateParticlesWith_positions rnd.shuffle _ _ _ positions g r h
  · intro rough
    have hv : ∀ i pos, preVisit rnd i pos (InitializeGrid rough) = some (InitializeGrid rough) ∧
        mainVisit rnd i pos (InitializeGrid rough) = some (InitializeGrid rough) ∧
        postVisit rnd i pos (InitializeGrid rough) = some (InitializeGrid rough) :=
      fun i pos => visit_EMPTY rnd i pos (InitializeGrid rough) (rough pos) rfl
    unfold UpdateParticles UpdateParticlesWith
    simp only [sweep_idle (preVisit rnd) _ (fun i pos => (hv i pos).1),
      sweep_idle (mainVisit rnd) _ (fun i pos => (hv i pos).2.1),
      sweep_idle (postVisit rnd) _ (fun i pos => (hv i pos).2.2), Option.some_bind,
      Option.map_some']

/-- Witness of C25: the list of `main` with a shuffle that keeps the order, on the grid of
`InitializeGrid`. -/
theorem scheduler_order_witness :
    (sampleTick.shuffle initPositions).Perm initPositions ∧
    initPositions.Perm initPositions ∧
    (sampleTick.shuffle initPositions).Nodup ∧
    (sampleTick.shuffle initPositions).length = 240 * 160 ∧
    UpdateParticlesWith sampleTick.shuffle (traced .pre (preVisit sampleTick))
        (traced .main (mainVisit sampleTick)) (traced .post (postVisit sampleTick))
        initPositions (InitializeGrid (fun _ => exactJitter), [])
      = some (sampleTick.shuffle initPositions,
          (InitializeGrid (fun _ => exactJitter),
            tickTrace (sampleTick.shuffle initPositions))) := by
  obtain ⟨_, h2, h3, _, h5, _, _, h8⟩ := scheduler_order sampleTick initPositions
    (InitializeGrid (fun _ => exactJitter)) (List.Perm.refl _) (List.Perm.refl _)
  refine ⟨List.Perm.refl _, List.Perm.refl _, h2, h3, ?_⟩
  rw [h5, h8 (fun _ => exactJitter)]
  rfl
/-- C26, evaluated on the code. For the tag COUNT, which has no branch in the `if / else if`
chain, `getParticleData` returns the default profile it starts from: a profile is returned,
and it is the default one. -/
theorem unknown_material_counterexample :
    getParticleData exactJitter .COUNT = defaultParticleData .COUNT ∧
    (getParticleData exactJitter .COUNT).temperature = 6063/20 ∧
    (getParticleData exactJitter .COUNT).state = ParticleState.EMPTY ∧
    (getParticleData exactJitter .COUNT).movementDirections = [] := by
  refine ⟨?_, ?_, ?_, ?_⟩ <;>
    simp [getParticleData, catalogEntry, defaultParticleData, exactJitter, CELSIUS_TO_KELVIN]
  norm_num

/-- C26, amended. For every jitter, `getParticleData` called with the tag COUNT, the one tag
without a catalog entry, returns the default profile for that tag (density 0 before the
density jitter, temperature 303.15 K, conductivity and capacity 1, no pending heat, unused
transition points, no halflife, state EMPTY, no reactions, no emissions, no movement table)
with the density jitter applied; every other tag has a catalog entry that assigns a state or
sets both thermal constants to 0. -/
theorem unknown_material_default (rough : Jitter) :
    getParticleData rough .COUNT
      = { defaultParticleData .COUNT with density := rough .density 0 (1/10000) } ∧
    defaultParticleData .COUNT
      = { type := .COUNT, density := 0, temperature := 30 + CELSIUS_TO_KELVIN,
          thermalConductivity := 1, specificHeatCapacity := 1, heatReceived := 0,
          lowerTransitionPoint := -1, lowerTransitionType := none,
          upperTransitionPoint := upperSentinel, upperTransitionType := none,
          halflife := -1, endOfLifeType := none, state := ParticleState.EMPTY,
          reactions := [], emissions := [], movementDirections := [] } ∧
    (∀ t : ParticleType, t ≠ .COUNT →
      (getParticleData rough t).state ≠ ParticleState.EMPTY ∨
      ((getParticleData rough t).thermalConductivity = 0 ∧
        (getParticleData rough t).specificHeatCapacity = 0)) := by
  refine ⟨rfl, rfl, ?_⟩
  intro t ht
  cases t <;>
    simp [getParticleData, catalogEntry, withMovement, withThermal, defaultParticleData] at ht ⊢

/-- Witness of the amended C26: SAND is not the tag COUNT and its catalog entry assigns the
state POWDER. -/
theorem unknown_material_default_witness :
    ParticleType.SAND ≠ ParticleType.COUNT ∧
    ((getParticleData exactJitter .SAND).state ≠ ParticleState.EMPTY ∨
      ((getParticleData exactJitter .SAND).thermalConductivity = 0 ∧
        (getParticleData exactJitter .SAND).specificHeatCapacity = 0)) :=
  ⟨by decide, (unknown_material_default exactJitter).2.2 .SAND (by decide)⟩

/-- C27, evaluated on the code at a failing input. With a jitter that raises every nominal
value by half of the allowed fraction, which is admissible, the second reaction rule of
METHANE, written `getRoughly(1.0, 0.1)`, gets the halflife 21/20, which is above 1. -/
theorem reaction_halflife_above_one :
    admissibleJitter raisedJitter ∧
    (getParticleData raisedJitter .METHANE).reactions[1]?
      = some (mkReaction (21/20) .PLASMA ⟨.FIRE, 1960 + CELSIUS_TO_KELVIN⟩) ∧
    (Particle.new raisedJitter .METHANE).data.reactions[1]?
      = some (mkReaction (21/20) .PLASMA ⟨.FIRE, 1960 + CELSIUS_TO_KELVIN⟩) ∧
    ¬ ((mkReaction (21/20) .PLASMA ⟨.FIRE, 1960 + CELSIUS_TO_KELVIN⟩).halflife ≤ 1) := by
  refine ⟨raisedJitter_admissible, ?_, ?_, ?_⟩
  · simp [getParticleData, catalogEntry, withMovement, withThermal, defaultParticleData,
      raisedJitter, mkReaction]
    norm_num
  · rw [(new_rules raisedJitter .METHANE).1]
    simp [getParticleData, catalogEntry, withMovement, withThermal, defaultParticleData,
      raisedJitter, mkReaction]
    norm_num
  · norm_num [mkReaction]
/-- C28. Weighted sampling. `sampleFromProbabilities` returns -1 on the empty list; for a
non-empty list of non-negative weights and a draw `r` with `0 ≤ r ≤ sum of the weights` it
returns the least index `i` with `r ≤ w_0 + ... + w_i`, which is a valid index of the list
and so never -1. -/
theorem sampling_least_index (getRange : ℚ → ℚ → ℚ) (weights : List ℚ) :
    sampleFromProbabilities getRange [] = -1 ∧
    (weights ≠ [] → (∀ w ∈ weights, 0 ≤ w) →
      0 ≤ getRange 0 weights.sum → getRange 0 weights.sum ≤ weights.sum →
      ∃ i : Nat, sampleFromProbabilities getRange weights = (i : Int) ∧
        i < weights.length ∧
        sampleFromProbabilities getRange weights ≠ -1 ∧
        getRange 0 weights.sum ≤ (weights.take (i + 1)).sum ∧
        ∀ j : Nat, j < i → (weights.take (j + 1)).sum < getRange 0 weights.sum) := by
  refine ⟨rfl, ?_⟩
  intro hne _ _ hr
  unfold sampleFromProbabilities
  have he : weights.isEmpty = false := by
    cases weights with
    | nil => exact absurd rfl hne
    | cons a l => rfl
  simp only [he, Bool.false_eq_true, if_false]
  rw [foldl_add_eq_sum, zero_add]
  obtain ⟨n, h1, h2, h3, h4⟩ := sampleLoop_least (getRange 0 weights.sum) weights 0 0
    (by simpa using hr) hne
  refine ⟨n, by simpa using h1, h2, ?_, by simpa using h3, ?_⟩
  · rw [h1]
    omega
  · intro j hj
    simpa using h4 j hj

/-- Witness of C28: the weights 1, 2, 3 and the draw 5/2 select index 1. -/
theorem sampling_least_index_witness :
    ([1, 2, 3] : List ℚ) ≠ [] ∧ (∀ w ∈ ([1, 2, 3] : List ℚ), 0 ≤ w) ∧
    ∃ i : Nat, sampleFromProbabilities (fun _ _ => 5/2) [1, 2, 3] = (i : Int) ∧
      i < ([1, 2, 3] : List ℚ).length ∧
      sampleFromProbabilities (fun _ _ => 5/2) [1, 2, 3] ≠ -1 ∧
      (5/2 : ℚ) ≤ (([1, 2, 3] : List ℚ).take (i + 1)).sum ∧
      ∀ j : Nat, j < i → (([1, 2, 3] : List ℚ).take (j + 1)).sum < 5/2 :=
  have hnn : ∀ w ∈ ([1, 2, 3] : List ℚ), 0 ≤ w := by
    intro w hw; simp at hw; rcases hw with rfl | rfl | rfl <;> norm_num
  ⟨by simp, hnn, (sampling_least_index (fun _ _ => 5/2) [1, 2, 3]).2 (by simp) hnn
    (by norm_num) (by norm_num)⟩
/-- C29. Temperature inheritance on material change. After
`transferParticleData(pos, p)` with `copySourceTemp = true` the cell at `pos` holds `p` with
its temperature replaced by the temperature the cell had before the call: the material, the
profile, the hooks and the pending heat are those of `p` (the pending heat of a particle
built by the constructor is 0), and no other cell changes. Transitions, decay and reactions
replace a cell by this call with a particle built by the constructor. -/
theorem temperature_inheritance (g : Grid) (pos : Int × Int) (p : Particle) :
    transferParticleData g pos p true pos
      = { p with data := { p.data with temperature := (g pos).data.temperature } } ∧
    (transferParticleData g pos p true pos).data.type = p.data.type ∧
    (transferParticleData g pos p true pos).data.temperature = (g pos).data.temperature ∧
    (transferParticleData g pos p true pos).data.heatReceived = p.data.heatReceived ∧
    (transferParticleData g pos p true pos).specialPreActions = p.specialPreActions ∧
    (transferParticleData g pos p true pos).specialActions = p.specialActions ∧
    (transferParticleData g pos p true pos).specialPostActions = p.specialPostActions ∧
    (∀ q, q ≠ pos → transferParticleData g pos p true q = g q) ∧
    (∀ (rough : Jitter) (t : ParticleType), (Particle.new rough t).data.heatReceived = 0) ∧
    (∀ (rough : Jitter) (t : ParticleType), (g pos).data.lowerTransitionPoint ≠ -1 →
      (g pos).data.temperature < (g pos).data.lowerTransitionPoint →
      (g pos).data.lowerTransitionType = some t →
      lowerTransition rough g pos
        = some (transferParticleData g pos (Particle.new rough t) true)) ∧
    (∀ (rough : Jitter) (t : ParticleType), (g pos).data.upperTransitionPoint ≠ upperSentinel →
      (g pos).data.temperature > (g pos).data.upperTransitionPoint →
      (g pos).data.upperTransitionType = some t →
      upperTransition rough g pos
        = some (transferParticleData g pos (Particle.new rough t) true)) ∧
    (∀ (rough : Jitter) (u : ℚ) (t : ParticleType),
      (g pos).data.type ≠ ParticleType.EMPTY → (g pos).data.halflife ≠ -1 →
      u < (g pos).data.halflife → (g pos).data.endOfLifeType = some t →
      checkHalfLifeExpired rough u g pos
        = some (transferParticleData g pos (Particle.new rough t) true)) ∧
    (∀ (rnd : ReactionDraws) (i : Nat) (result : AlchemicResults), result.particleTemp = -1 →
      fireRule rnd g pos i result
        = transferParticleData g pos (Particle.new (rnd.rough i) result.type) true) := by
  have h := transferParticleData_same g pos p
  refine ⟨h, by rw [h], by rw [h], by rw [h], by rw [h], by rw [h], by rw [h],
    fun q hq => transferParticleData_other g pos q p true hq, new_heatReceived,
    fun rough t => lowerTransition_fires rough g pos t,
    fun rough t => upperTransition_fires rough g pos t,
    fun rough u t => checkHalfLifeExpired_fires rough u g pos t, ?_⟩
  intro rnd i result hr
  unfold fireRule
  simp only
  rw [if_neg (not_not.mpr hr)]

/-- Witness of C29: a SAND cell at (5, 5) replaced by SMOKE keeps the temperature of the SAND,
and the cell below it is untouched. -/
theorem temperature_inheritance_witness :
    ((5, 4) : Int × Int) ≠ (5, 5) ∧
    transferParticleData (sampleGrid .SAND .WATER .EMPTY) (5, 5)
        (Particle.new exactJitter .SMOKE) true (5, 4)
      = sampleGrid .SAND .WATER .EMPTY (5, 4) ∧
    (transferParticleData (sampleGrid .SAND .WATER .EMPTY) (5, 5)
        (Particle.new exactJitter .SMOKE) true (5, 5)).data.temperature
      = (sampleGrid .SAND .WATER .EMPTY (5, 5)).data.temperature :=
  ⟨by decide,
    (temperature_inheritance (sampleGrid .SAND .WATER .EMPTY) (5, 5)
      (Particle.new exactJitter .SMOKE)).2.2.2.2.2.2.2.1 (5, 4) (by decide),
    (temperature_inheritance (sampleGrid .SAND .WATER .EMPTY) (5, 5)
      (Particle.new exactJitter .SMOKE)).2.2.1⟩
/-- C30. Same-sweep re-visitation. On the grid with a STONE at (5, 5) and EMPTY cells at
(5, 4) and (5, 3), with a visiting order of all grid positions that starts with (5, 5) and
(5, 4), the main sweep relocates the STONE twice: the visit of (5, 5) moves it to (5, 4),
and the visit of (5, 4), which sees the grid as the first visit left it, moves the same
particle on to (5, 3); the rest of the sweep runs on from that grid. -/
theorem same_sweep_revisit :
    revisitOrder.Perm initPositions ∧
    revisitTick.shuffle initPositions
      = (5, 5) :: (5, 4) :: initPositions.filter (fun p => p ≠ (5, 5) ∧ p ≠ (5, 4)) ∧
    (sampleGrid .STONE .EMPTY .EMPTY (5, 5)).data.type = ParticleType.STONE ∧
    (sampleGrid .STONE .EMPTY .EMPTY (5, 4)).data.type = ParticleType.EMPTY ∧
    (sampleGrid .STONE .EMPTY .EMPTY (5, 3)).data.type = ParticleType.EMPTY ∧
    ∃ g1 g2,
      mainVisit revisitTick 0 (5, 5) (sampleGrid .STONE .EMPTY .EMPTY) = some g1 ∧
      g1 (5, 4) = sampleGrid .STONE .EMPTY .EMPTY (5, 5) ∧
      (g1 (5, 5)).data.type = ParticleType.EMPTY ∧
      (g1 (5, 3)).data.type = ParticleType.EMPTY ∧
      mainVisit revisitTick 1 (5, 4) g1 = some g2 ∧
      g2 (5, 3) = sampleGrid .STONE .EMPTY .EMPTY (5, 5) ∧
      (g2 (5, 4)).data.type = ParticleType.EMPTY ∧
      (g2 (5, 5)).data.type = ParticleType.EMPTY ∧
      sweep (mainVisit revisitTick) (revisitTick.shuffle initPositions) 0
          (sampleGrid .STONE .EMPTY .EMPTY)
        = sweep (mainVisit revisitTick)
            (initPositions.filter (fun p => p ≠ (5, 5) ∧ p ≠ (5, 4))) 2 g2 := by
  have t55 : (sampleGrid .STONE .EMPTY .EMPTY (5, 5)).data.type = ParticleType.STONE := by
    rw [sampleGrid_55, new_type]
  have t54 : (sampleGrid .STONE .EMPTY .EMPTY (5, 4)).data.type = ParticleType.EMPTY := by
    rw [sampleGrid_54, new_type]
  have c53 : sampleGrid .STONE .EMPTY .EMPTY (5, 3) = Particle.new exactJitter .EMPTY := by
    simp [sampleGrid]
  have t53 : (sampleGrid .STONE .EMPTY .EMPTY (5, 3)).data.type = ParticleType.EMPTY := by
    rw [c53, new_type]
  have v1 : mainVisit revisitTick 0 (5, 5) (sampleGrid .STONE .EMPTY .EMPTY)
      = some (((sampleGrid .STONE .EMPTY .EMPTY).set (5, 4)
          (sampleGrid .STONE .EMPTY .EMPTY (5, 5))).set (5, 5)
            (Particle.new exactJitter .EMPTY)) :=
    mainVisit_falls 0 (sampleGrid .STONE .EMPTY .EMPTY) (5, 5) (by rw [t55]; decide)
      (by rw [sampleGrid_55]; exact new_STONE_data.1) (by decide) t54
  have e54 : (((sampleGrid .STONE .EMPTY .EMPTY).set (5, 4)
      (sampleGrid .STONE .EMPTY .EMPTY (5, 5))).set (5, 5) (Particle.new exactJitter .EMPTY))
      (5, 4) = sampleGrid .STONE .EMPTY .EMPTY (5, 5) := by
    rw [Grid.set_other _ _ _ _ (by decide), Grid.set_same]
  have e53 : (((sampleGrid .STONE .EMPTY .EMPTY).set (5, 4)
      (sampleGrid .STONE .EMPTY .EMPTY (5, 5))).set (5, 5) (Particle.new exactJitter .EMPTY))
      (5, 3) = Particle.new exactJitter .EMPTY := by
    rw [Grid.set_other _ _ _ _ (by decide), Grid.set_other _ _ _ _ (by decide), c53]
  have v2 := mainVisit_falls 1 (((sampleGrid .STONE .EMPTY .EMPTY).set (5, 4)
      (sampleGrid .STONE .EMPTY .EMPTY (5, 5))).set (5, 5) (Particle.new exactJitter .EMPTY))
    (5, 4) (by rw [e54, t55]; decide)
    (by rw [e54, sampleGrid_55]; exact new_STONE_data.1) (by decide)
    (by show (_ : Particle).data.type = _
        rw [show ((5 : Int) + 0, (4 : Int) + -1) = (5, 3) from rfl, e53, new_type])
  rw [show (((5 : Int), (4 : Int)).1 + 0, ((5 : Int), (4 : Int)).2 + -1) = (5, 3) from rfl,
    e54] at v2
  refine ⟨revisitOrder_perm, rfl, t55, t54, t53, _, _, v1, e54, ?_, ?_, v2, ?_, ?_, ?_, ?_⟩
  · rw [Grid.set_same, new_type]
  · rw [e53, new_type]
  · rw [Grid.set_other _ _ _ _ (by decide), Grid.set_same]
  · rw [Grid.set_same, new_type]
  · rw [Grid.set_other _ _ _ _ (by decide), Grid.set_other _ _ _ _ (by decide), Grid.set_same,
      new_type]
  · show sweep (mainVisit revisitTick)
        ((5, 5) :: (5, 4) :: initPositions.filter (fun p => p ≠ (5, 5) ∧ p ≠ (5, 4))) 0 _ = _
    rw [sweep, v1, Option.some_bind, sweep, v2, Option.some_bind]

/-- C31. Tier grouping. For every non-EMPTY phase and every density the table returned by
`getMovementDirectionsFromDensity` has, tier by tier, a common probability `p`: the tier is
non-empty, every direction of the tier is paired with exactly `p` in the normalised
probabilities, the stored weight of the tier is the sum of the probabilities of its members,
which is the member count times `p`, and the common probabilities strictly decrease from each
tier to the next. -/
theorem tier_grouping (state : ParticleState) (density : ℚ)
    (hs : state ≠ ParticleState.EMPTY) :
    ∃ (w : List ℚ) (tbl : List Tier) (ps : List ℚ),
      interpolateWeights state density = some w ∧
      getMovementDirectionsFromDensity state density = some tbl ∧
      ps.length = tbl.length ∧ ps.Pairwise (fun a b => a > b) ∧
      ∀ (i : Nat) (t : Tier) (p : ℚ), tbl[i]? = some t → ps[i]? = some p →
        t.2 ≠ [] ∧ 0 < p ∧ (∀ d ∈ t.2, (d, p) ∈ directions.zip (altsoftmax w)) ∧
        t.1 = (t.2.map (fun _ => p)).sum ∧ t.1 = (t.2.length : ℚ) * p := by
  obtain ⟨w, tbl, hw, ht, hp, hall⟩ := table_tiers state density hs
  refine ⟨w, tbl, tbl.map tierProb, hw, ht, by simp, hp, ?_⟩
  intro i t p hti hpi
  rw [List.getElem?_map, hti] at hpi
  simp only [Option.map_some', Option.some.injEq] at hpi
  subst hpi
  obtain ⟨a, b, c, d⟩ := hall t (List.getElem?_mem hti)
  refine ⟨a, b, d, ?_, c⟩
  rw [List.map_const', List.sum_replicate, nsmul_eq_mul]
  exact c

/-- Witness of C31: the table of a GAS of density 0.2. -/
theorem tier_grouping_witness :
    ∃ (w : List ℚ) (tbl : List Tier) (ps : List ℚ),
      interpolateWeights .GAS (1/5) = some w ∧
      getMovementDirectionsFromDensity .GAS (1/5) = some tbl ∧
      ps.length = tbl.length ∧ ps.Pairwise (fun a b => a > b) ∧
      ∀ (i : Nat) (t : Tier) (p : ℚ), tbl[i]? = some t → ps[i]? = some p →
        t.2 ≠ [] ∧ 0 < p ∧ (∀ d ∈ t.2, (d, p) ∈ directions.zip (altsoftmax w)) ∧
        t.1 = (t.2.map (fun _ => p)).sum ∧ t.1 = (t.2.length : ℚ) * p :=
  tier_grouping .GAS (1/5) (by decide)

/-- C32, evaluated on the code. For a GAS of density 0.2 the table has the two tiers
`(3456/9593, [up])` and `(6137/9593, [up-left, up-right])`: the stored weight of the second
tier exceeds that of the first, so the stored weights are not descending. -/
theorem tier_weights_not_descending :
    ∃ tbl, getMovementDirectionsFromDensity .GAS (1/5) = some tbl ∧
      tbl = [(3456/9593, [(0, 1)]), (6137/9593, [(-1, 1), (1, 1)])] ∧
      ¬ (tbl.map Prod.fst).Sorted (fun a b => a > b) := by
  refine ⟨_, table_GAS_fifth, rfl, ?_⟩
  simp only [List.map_cons, List.map_nil, List.Sorted, List.pairwise_cons]
  norm_num

/-- C32, amended. For every non-EMPTY phase and every density the tiers of the table returned
by `getMovementDirectionsFromDensity` are non-empty and their stored weights, each divided by
the number of directions of its tier, are strictly descending from the first tier to the
last. -/
theorem tier_probabilities_descending (state : ParticleState) (density : ℚ)
    (hs : state ≠ ParticleState.EMPTY) :
    ∃ tbl, getMovementDirectionsFromDensity state density = some tbl ∧
      (∀ t ∈ tbl, t.2 ≠ []) ∧
      (tbl.map (fun t => t.1 / (t.2.length : ℚ))).Sorted (fun a b => a > b) := by
  obtain ⟨w, tbl, _, ht, hp, hall⟩ := table_tiers state density hs
  exact ⟨tbl, ht, fun t h => (hall t h).1, hp⟩

/-- Witness of the amended C32: the table of a GAS of density 0.2, whose per-direction
probabilities are 3456/9593 and 6137/19186. -/
theorem tier_probabilities_descending_witness :
    ∃ tbl, getMovementDirectionsFromDensity .GAS (1/5) = some tbl ∧
      (∀ t ∈ tbl, t.2 ≠ []) ∧
      (tbl.map (fun t => t.1 / (t.2.length : ℚ))).Sorted (fun a b => a > b) :=
  tier_probabilities_descending .GAS (1/5) (by decide)
/-- C33. Fluid horizontal chain. A fluid mover at the origin `p` steps at depth 0 in a
direction `(dx, dy)` with `dx ≠ 0`; `T_1 = p + (dx, dy)` and `T_(i+1) = T_i + (dx, 0)`. If
`T_1 .. T_k` hold fluid materials with non-empty movement tables for some `1 ≤ k ≤ 8` and
`T_(k+1)` is in bounds and EMPTY, the step returns true, the mover ends up in `T_(k+1)`, the
origin holds a fresh EMPTY particle and every other cell is unchanged. If `T_1 .. T_9` all
hold such fluids, every nested call fails and leaves the grid unchanged, and the step returns
the outcome of the density swap of the origin with `T_1`. -/
theorem fluid_chain (fuel : Nat) (rough : Jitter) (u : ℚ) (g : Grid) (p : Int × Int)
    (particle : Particle) (direction : Int × Int)
    (hf : particle.data.state = ParticleState.FLUID) (hdx : direction.1 ≠ 0) :
    (chainCell p direction 1 = (p.1 + direction.1, p.2 + direction.2) ∧
      ∀ i, chainCell p direction (i + 1)
        = ((chainCell p direction i).1 + direction.1, (chainCell p direction i).2 + 0)) ∧
    (∀ k : Nat, 1 ≤ k → k ≤ 8 →
      (∀ i, 1 ≤ i → i ≤ k → fluidCell g (chainCell p direction i)) →
      isValidIndex (chainCell p direction (k + 1)).1 (chainCell p direction (k + 1)).2 = true →
      (g (chainCell p direction (k + 1))).data.type = ParticleType.EMPTY →
      k + 1 ≤ fuel →
      ∃ g1, StepInDirection fuel rough u g p p particle direction 0 0 = some (true, g1) ∧
        g1 (chainCell p direction (k + 1)) = particle ∧
        g1 p = Particle.new rough .EMPTY ∧
        ∀ q, q ≠ p → q ≠ chainCell p direction (k + 1) → g1 q = g q) ∧
    ((∀ i, 1 ≤ i → i ≤ 9 → fluidCell g (chainCell p direction i)) → 10 ≤ fuel →
      (∀ i : Nat, 1 ≤ i → i ≤ 9 →
        StepInDirection (fuel - i) rough u g (chainCell p direction i) p particle
          (direction.1, 0) (i : Int) 0 = some (false, g)) ∧
      StepInDirection fuel rough u g p p particle direction 0 0
        = some (densitySwap u g p (chainCell p direction 1) particle)) := by
  refine ⟨⟨(chainCell_one p direction).symm, fun i => ?_⟩, ?_, ?_⟩
  · simp only [chainCell, Nat.cast_add, Nat.cast_one, Prod.mk.injEq]
    constructor <;> ring
  · intro k hk1 hk8 hfluid hv he hfuel
    obtain ⟨f, rfl⟩ : ∃ f, fuel = f + 1 := ⟨fuel - 1, by omega⟩
    obtain ⟨h1, h2, h3, h4, h5⟩ := hfluid 1 (le_refl 1) hk1
    rw [← chainCell_one] at h1 h2 h3 h4 h5
    have hstep := step_movable f rough u g p p particle direction 0 0 (by norm_num) h1 h2 h3 h5
    rw [if_pos ⟨hf, hdx⟩, if_neg (by rw [h4]; simp), chainCell_one] at hstep
    have hnest := chain_moves rough u g p particle direction hf hdx k hk8 hfluid hv he
      (k - 1) 1 (by omega) f (by omega)
    rw [Nat.cast_one] at hnest
    rw [zero_add, hnest] at hstep
    have hne : chainCell p direction (k + 1) ≠ p := by
      intro h
      have h1 := congrArg Prod.fst h
      simp only [chainCell] at h1
      have : ((k + 1 : Nat) : Int) * direction.1 = 0 := by linarith
      rcases mul_eq_zero.mp this with h0 | h0
      · omega
      · exact hdx h0
    refine ⟨_, hstep, ?_, ?_, ?_⟩
    · rw [Grid.set_other _ _ _ _ hne, Grid.set_same]
    · rw [Grid.set_same]
    · intro q hq1 hq2
      rw [Grid.set_other _ _ _ _ hq1, Grid.set_other _ _ _ _ hq2]
  · intro hfluid hfuel
    constructor
    · intro i hi1 hi9
      exact chain_blocked rough u g p particle direction hf hdx hfluid (9 - i) i hi1 (by omega)
        (fuel - i) (by omega)
    · obtain ⟨f, rfl⟩ : ∃ f, fuel = f + 1 := ⟨fuel - 1, by omega⟩
      obtain ⟨h1, h2, h3, h4, h5⟩ := hfluid 1 (le_refl 1) (by norm_num)
      rw [← chainCell_one] at h1 h2 h3 h4 h5
      have hstep := step_movable f rough u g p p particle direction 0 0 (by norm_num) h1 h2 h3 h5
      rw [if_pos ⟨hf, hdx⟩, if_neg (by rw [h4]; simp), chainCell_one] at hstep
      have hnest := chain_blocked rough u g p particle direction hf hdx hfluid 8 1 (le_refl 1)
        (by norm_num) f (by omega)
      rw [Nat.cast_one] at hnest
      rw [zero_add, hnest] at hstep
      rw [hstep]
      simp [afterRetry]

/-- Witness of C33: WATER at (5, 5) steps to the right; (6, 5) holds WATER and (7, 5) is
EMPTY, so the mover ends up in (7, 5). -/
theorem fluid_chain_witness :
    ∃ g1, StepInDirection stepFuel exactJitter 0 (sampleGrid .WATER .EMPTY .WATER) (5, 5) (5, 5)
        (Particle.new exactJitter .WATER) (1, 0) 0 0 = some (true, g1) ∧
      g1 (chainCell (5, 5) (1, 0) (1 + 1)) = Particle.new exactJitter .WATER ∧
      g1 (5, 5) = Particle.new exactJitter .EMPTY ∧
      ∀ q, q ≠ (5, 5) → q ≠ chainCell (5, 5) (1, 0) (1 + 1) →
        g1 q = sampleGrid .WATER .EMPTY .WATER q := by
  refine (fluid_chain stepFuel exactJitter 0 (sampleGrid .WATER .EMPTY .WATER) (5, 5)
    (Particle.new exactJitter .WATER) (1, 0) new_WATER_fluid (by decide)).2.1 1 (le_refl 1)
    (by decide) ?_ (by decide) ?_ (by decide)
  · intro i hi1 hi2
    have hi : i = 1 := le_antisymm hi2 hi1
    subst hi
    have hc : chainCell (5, 5) (1, 0) 1 = (6, 5) := by decide
    rw [hc]
    unfold fluidCell
    rw [sampleGrid_65]
    refine ⟨by decide, ?_, ?_, new_WATER_fluid, new_table_nonempty _ _ (by decide)⟩
    · rw [new_type]; decide
    · rw [new_type]; decide
  · have hc : chainCell (5, 5) (1, 0) (1 + 1) = (7, 5) := by decide
    rw [hc, sampleGrid_75]
    exact new_type _ _
/-- C34. Moore neighbourhood with bounds. For every in-bounds position `pos`,
`getMooreNeighbours(pos, 1)` returns, without duplicates, exactly the in-bounds cells at
Chebyshev distance 1 from `pos`, never `pos` itself and never an out-of-bounds coordinate:
8 cells for an interior position, 5 for a border position that is not a corner and 3 for a
corner. -/
theorem moore_neighbourhood (pos : Int × Int) (hv : isValidIndex pos.1 pos.2 = true) :
    (getMooreNeighbours pos 1).Nodup ∧
    (∀ q, q ∈ getMooreNeighbours pos 1 ↔
      isValidIndex q.1 q.2 = true ∧ chebyshev q pos = 1) ∧
    pos ∉ getMooreNeighbours pos 1 ∧
    ((1 ≤ pos.1 ∧ pos.1 ≤ GRID_WIDTH - 2) ∧ (1 ≤ pos.2 ∧ pos.2 ≤ GRID_HEIGHT - 2) →
      (getMooreNeighbours pos 1).length = 8) ∧
    (((pos.1 = 0 ∨ pos.1 = GRID_WIDTH - 1) ∧ (1 ≤ pos.2 ∧ pos.2 ≤ GRID_HEIGHT - 2)) ∨
      ((1 ≤ pos.1 ∧ pos.1 ≤ GRID_WIDTH - 2) ∧ (pos.2 = 0 ∨ pos.2 = GRID_HEIGHT - 1)) →
      (getMooreNeighbours pos 1).length = 5) ∧
    ((pos.1 = 0 ∨ pos.1 = GRID_WIDTH - 1) ∧ (pos.2 = 0 ∨ pos.2 = GRID_HEIGHT - 1) →
      (getMooreNeighbours pos 1).length = 3) := by
  obtain ⟨x, y⟩ := pos
  have hb := (isValidIndex_iff x y).mp hv
  have hlen := getNeighbours_length x y ⟨hb.1, hb.2.1⟩ ⟨hb.2.2.1, hb.2.2.2⟩
  change (getNeighbours (x, y)).Nodup ∧ (∀ q, q ∈ getNeighbours (x, y) ↔ _) ∧
    (x, y) ∉ getNeighbours (x, y) ∧ (_ → (getNeighbours (x, y)).length = 8) ∧
    (_ → (getNeighbours (x, y)).length = 5) ∧ (_ → (getNeighbours (x, y)).length = 3)
  refine ⟨getNeighbours_nodup _, fun q => mem_getNeighbours _ q, not_mem_getNeighbours _,
    ?_, ?_, ?_⟩
  · simp only [GRID_WIDTH, GRID_HEIGHT]
    rintro ⟨h1, h2⟩
    rw [hlen, if_pos (by omega), if_pos (by omega)]
  · simp only [GRID_WIDTH, GRID_HEIGHT]
    rintro (⟨h1, h2⟩ | ⟨h1, h2⟩)
    · rw [hlen, if_neg (by omega), if_pos (by omega)]
    · rw [hlen, if_pos (by omega), if_neg (by omega)]
  · simp only [GRID_WIDTH, GRID_HEIGHT]
    rintro ⟨h1, h2⟩
    rw [hlen, if_neg (by omega), if_neg (by omega)]

/-- Witness of C34: the corner (0, 0) has the three neighbours (0, 1), (1, 0) and (1, 1). -/
theorem moore_neighbourhood_witness :
    isValidIndex 0 0 = true ∧ (getMooreNeighbours (0, 0) 1).length = 3 ∧
    getMooreNeighbours (0, 0) 1 = [(0, 1), (1, 0), (1, 1)] :=
  ⟨by decide, (moore_neighbourhood (0, 0) (by decide)).2.2.2.2.2 (by decide), by decide⟩
/-- C36. Atomic failure of a step. For every grid, mover, direction, depth, `timesSwapped`
and random draws: a `StepInDirection` call that returns false leaves the grid identical to the
grid before the call; after a call that returns true only the origin `firstPos` and at most
one other cell differ from before; and the call does return once its fuel covers the levels up
to the depth ceiling. -/
theorem step_atomic_failure (fuel : Nat) (rough : Jitter) (u : ℚ) (g : Grid)
    (pos firstPos : Int × Int) (particle : Particle) (direction : Int × Int)
    (depth timesSwapped : Int) :
    (∀ g1, StepInDirection fuel rough u g pos firstPos particle direction depth timesSwapped
        = some (false, g1) → g1 = g) ∧
    (∀ g1, StepInDirection fuel rough u g pos firstPos particle direction depth timesSwapped
        = some (true, g1) → ∃ t, ∀ q, q ≠ firstPos → q ≠ t → g1 q = g q) ∧
    (9 - depth ≤ (fuel : Int) →
      ∃ r, StepInDirection (fuel + 1) rough u g pos firstPos particle direction depth
        timesSwapped = some r) := by
  refine ⟨?_, ?_, ?_⟩
  · intro g1 h
    exact step_false_unchanged fuel rough u g g1 pos firstPos particle direction depth
      timesSwapped h
  · intro g1 h
    exact step_frame fuel rough u g pos firstPos particle direction depth timesSwapped _ h
  · intro h
    exact step_returns fuel rough u g pos firstPos particle direction depth timesSwapped h

/-- Witness of C36: a SAND step from (5, 5) straight down onto WALL fails and leaves the grid
as it was. -/
theorem step_atomic_failure_witness :
    StepInDirection 1 exactJitter 0 (sampleGrid .SAND .WALL .EMPTY) (5, 5) (5, 5)
        (Particle.new exactJitter .SAND) (0, -1) 0 0
      = some (false, sampleGrid .SAND .WALL .EMPTY) ∧
    sampleGrid .SAND .WALL .EMPTY = sampleGrid .SAND .WALL .EMPTY := by
  have h : StepInDirection 1 exactJitter 0 (sampleGrid .SAND .WALL .EMPTY) (5, 5) (5, 5)
      (Particle.new exactJitter .SAND) (0, -1) 0 0
      = some (false, sampleGrid .SAND .WALL .EMPTY) := by
    apply step_immovable
    · show (sampleGrid .SAND .WALL .EMPTY (5, 4)).data.type ≠ _
      rw [sampleGrid_54, new_type]; decide
    · show (sampleGrid .SAND .WALL .EMPTY (5, 4)).data.type ≠ _
      rw [sampleGrid_54, new_type]; decide
    · show (sampleGrid .SAND .WALL .EMPTY (5, 4)).data.movementDirections = _
      rw [sampleGrid_54, (new_fields _ _).2.2.2]
      simp [getParticleData, catalogEntry, defaultParticleData]
  exact ⟨h, (step_atomic_failure 1 exactJitter 0 (sampleGrid .SAND .WALL .EMPTY) (5, 5) (5, 5)
    (Particle.new exactJitter .SAND) (0, -1) 0 0).1 _ h⟩
/-- C38. Movement never creates matter. For every grid, in-bounds cell `pos` and random draws,
a `MoveParticle` call on the particle of `pos` that returns the grid `g1` either keeps the
multiset of non-EMPTY cell contents (and so their number), or the particle was non-EMPTY and
has been destroyed in front of an ERASER: then the old contents are the new contents plus the
destroyed particle, one more than after the call. -/
theorem movement_conserves_matter (fuel : Nat) (rnd : MoveDraws) (g g1 : Grid)
    (pos : Int × Int) (hv : isValidIndex pos.1 pos.2 = true)
    (h : MoveParticle fuel rnd g pos (g pos) = some g1) :
    ((matter g1).Perm (matter g) ∧ (matter g1).length = (matter g).length) ∨
    ((g pos).data.type ≠ ParticleType.EMPTY ∧
      (∃ t : Int × Int, isValidIndex t.1 t.2 = true ∧
        (g t).data.type = ParticleType.ERASER) ∧
      (∃ rough, g1 = g.set pos (Particle.new rough .EMPTY)) ∧
      (matter g).Perm (g pos :: matter g1) ∧
      (matter g1).length + 1 = (matter g).length) := by
  rcases move_writes fuel rnd g g1 pos (g pos) h with e | ⟨rough, e⟩
  · subst e
    exact Or.inl ⟨List.Perm.refl _, rfl⟩
  · rcases e with ⟨e1, _⟩ | ⟨_, t, ht, e⟩
    · simp at e1
    · rcases e with ⟨hE, e⟩ | ⟨hE, e⟩ | ⟨_, _, _, e⟩
      · simp only at e
        by_cases hp : (g pos).data.type = ParticleType.EMPTY
        · left
          have := matter_clear_empty g pos (Particle.new rough .EMPTY) (new_type _ _) hp
          rw [e, this]
          exact ⟨List.Perm.refl _, rfl⟩
        · right
          have hperm := matter_clear g pos (Particle.new rough .EMPTY) hv (new_type _ _) hp
          rw [← e] at hperm
          refine ⟨hp, ⟨t, ht, hE⟩, ⟨rough, e⟩, hperm, ?_⟩
          rw [hperm.length_eq, List.length_cons]
      · left
        simp only at e
        have hperm : (matter g1).Perm (matter g) := by
          rw [e, matter_relocate g pos t _ (new_type _ _) hE]
          exact matter_swap g pos t hv ht
        exact ⟨hperm, hperm.length_eq⟩
      · left
        simp only at e
        have hperm : (matter g1).Perm (matter g) := by
          rw [e]
          exact matter_swap g pos t hv ht
        exact ⟨hperm, hperm.length_eq⟩

/-- Witness of C38: STONE at (5, 5) above an EMPTY cell falls into it; the non-EMPTY contents
of the grid stay the same. -/
theorem movement_conserves_matter_witness :
    ∃ g1, MoveParticle 2 sampleDraws (sampleGrid .STONE .EMPTY .EMPTY) (5, 5)
        (sampleGrid .STONE .EMPTY .EMPTY (5, 5)) = some g1 ∧
      (((matter g1).Perm (matter (sampleGrid .STONE .EMPTY .EMPTY)) ∧
        (matter g1).length = (matter (sampleGrid .STONE .EMPTY .EMPTY)).length) ∨
      ((sampleGrid .STONE .EMPTY .EMPTY (5, 5)).data.type ≠ ParticleType.EMPTY ∧
        (∃ t : Int × Int, isValidIndex t.1 t.2 = true ∧
          (sampleGrid .STONE .EMPTY .EMPTY t).data.type = ParticleType.ERASER) ∧
        (∃ rough, g1 = (sampleGrid .STONE .EMPTY .EMPTY).set (5, 5)
          (Particle.new rough .EMPTY)) ∧
        (matter (sampleGrid .STONE .EMPTY .EMPTY)).Perm
          (sampleGrid .STONE .EMPTY .EMPTY (5, 5) :: matter g1) ∧
        (matter g1).length + 1 = (matter (sampleGrid .STONE .EMPTY .EMPTY)).length)) := by
  have hrun := moveParticle_falls (sampleGrid .STONE .EMPTY .EMPTY) (5, 5)
    (sampleGrid .STONE .EMPTY .EMPTY (5, 5))
    (by rw [sampleGrid_55]; exact new_STONE_data.1) (by decide)
    (by
      have : (((5 : Int), (5 : Int)).1 + 0, ((5 : Int), (5 : Int)).2 + -1)
          = ((5 : Int), (4 : Int)) := by
        decide
      rw [this, sampleGrid_54]
      exact new_type _ _)
  have hlen : (sampleGrid .STONE .EMPTY .EMPTY (5, 5)).data.movementDirections.length + 1 = 2 := by
    rw [sampleGrid_55, new_STONE_data.1]
    rfl
  rw [hlen] at hrun
  exact ⟨_, hrun,
    movement_conserves_matter 2 sampleDraws (sampleGrid .STONE .EMPTY .EMPTY) _ (5, 5)
      (by decide) hrun⟩
/-- C39. Emission writes only into empty cells. The grid after `attemptEmissions` is the grid
before with a list of cell assignments applied: at most one for each emission rule, in rule
order, each a fresh particle of the rule's material (at the temperature the catalog gives it)
written to a cell that was an EMPTY Moore neighbour of the emitter when the call began. So
every cell that was not such a neighbour is unchanged, the emitter cell among them, and an
emitter without empty neighbour changes nothing. -/
theorem emission_frame (rnd : EmissionDraws) (g : Grid) (pos : Int × Int) :
    attemptEmissions rnd g pos
      = applyWrites g (emissionWrites rnd (emptyNeighbours g pos)
          (rnd.shuffle (g pos).data.emissions) 0) ∧
    (emissionWrites rnd (emptyNeighbours g pos) (rnd.shuffle (g pos).data.emissions) 0).length
      ≤ (rnd.shuffle (g pos).data.emissions).length ∧
    ((emissionWrites rnd (emptyNeighbours g pos) (rnd.shuffle (g pos).data.emissions) 0).map
        (fun w => w.2.data.type)).Sublist
      ((rnd.shuffle (g pos).data.emissions).map (fun e => e.type)) ∧
    (∀ w ∈ emissionWrites rnd (emptyNeighbours g pos) (rnd.shuffle (g pos).data.emissions) 0,
      w.1 ∈ getNeighbours pos ∧ (g w.1).data.type = ParticleType.EMPTY ∧
      ∃ rough t, w.2 = Particle.new rough t ∧
        w.2.data.temperature = (getParticleData rough t).temperature) ∧
    attemptEmissions rnd g pos pos = g pos ∧
    (∀ q, (q ∉ getNeighbours pos ∨ (g q).data.type ≠ ParticleType.EMPTY) →
      attemptEmissions rnd g pos q = g q) ∧
    ((∀ n ∈ getNeighbours pos, (g n).data.type ≠ ParticleType.EMPTY) →
      attemptEmissions rnd g pos = g) := by
  obtain ⟨h1, h2, h3⟩ := emissionWrites_spec rnd (emptyNeighbours g pos)
    (rnd.shuffle (g pos).data.emissions) 0
  have heq : attemptEmissions rnd g pos
      = applyWrites g (emissionWrites rnd (emptyNeighbours g pos)
          (rnd.shuffle (g pos).data.emissions) 0) := by
    unfold attemptEmissions
    simp only
    rw [emissionLoop_writes]
    rfl
  have hframe : ∀ q, (q ∉ getNeighbours pos ∨ (g q).data.type ≠ ParticleType.EMPTY) →
      attemptEmissions rnd g pos q = g q := by
    intro q hq
    rw [heq]
    apply applyWrites_other
    intro w hw e
    have := (mem_emptyNeighbours g pos w.1).mp (h3 w hw).1
    rw [e] at this
    rcases hq with hq | hq
    · exact hq this.1
    · exact hq this.2
  refine ⟨heq, h1, h2, ?_, hframe pos (Or.inl (not_mem_getNeighbours pos)), hframe, ?_⟩
  · intro w hw
    obtain ⟨hm, rough, t, e⟩ := h3 w hw
    have := (mem_emptyNeighbours g pos w.1).mp hm
    exact ⟨this.1, this.2, rough, t, e, by rw [e]; exact new_temperature rough t⟩
  · intro hnone
    funext q
    apply hframe
    by_cases hq : q ∈ getNeighbours pos
    · exact Or.inr (hnone q hq)
    · exact Or.inl hq

/-- Witness of C39: the cell (7, 5) is no neighbour of the emitter at (5, 5) and is left as it
was. -/
theorem emission_frame_witness :
    (((7, 5) : Int × Int) ∉ getNeighbours (5, 5) ∨
      (walledGrid (7, 5)).data.type ≠ ParticleType.EMPTY) ∧
    attemptEmissions sampleEmissionDraws walledGrid (5, 5) (7, 5) = walledGrid (7, 5) :=
  ⟨Or.inl (by decide),
    (emission_frame sampleEmissionDraws walledGrid (5, 5)).2.2.2.2.2.1 (7, 5)
      (Or.inl (by decide))⟩
/-- C40. Equal-capacity exchanges conserve temperature. When the current cell `pos` and a
conducting neighbour `j` have the same specific heat capacity, the loop body of
`transferHeatFirstPass` for that pair subtracts the exchange amount from the pending heat of
`pos` and adds exactly the same amount to the pending heat of `j`. If all conducting cells
share the capacity of the conducting cell `pos`, the sum over the grid of temperature plus
pending heat is unchanged by the first pass on `pos`. In a closed two-cell system of equal
capacities, one full round (both first passes, both second passes) in which no transition
threshold is crossed returns, clears both pending heats and leaves the sum of the two
temperatures equal to the former sum of temperature plus pending heat, hence equal to the
former sum of temperatures when no heat was pending. -/
theorem equal_capacity_conservation (g : Grid) (pos : Int × Int) :
    (∀ (j : Int × Int) (n : Int), j ≠ pos → conductsHeat (g j) →
      (g pos).data.specificHeatCapacity = (g j).data.specificHeatCapacity →
      heatStep pos n g j
        = (g.set pos ((g pos).addHeat (- heatExchange (g pos) (g j) n))).set j
            ((g j).addHeat (heatExchange (g pos) (g j) n))) ∧
    (isValidIndex pos.1 pos.2 = true → conductsHeat (g pos) →
      (∀ q, conductsHeat (g q) →
        (g q).data.specificHeatCapacity = (g pos).data.specificHeatCapacity) →
      heatBudget (transferHeatFirstPass g pos) = heatBudget g) ∧
    (∀ (r1 r2 r3 r4 : Jitter) (b : Int × Int) (d : ℚ),
      b ∈ getNeighbours pos → pos ∈ getNeighbours b →
      conductsHeat (g pos) → conductsHeat (g b) →
      (∀ q, q ≠ pos → q ≠ b → ¬ conductsHeat (g q)) →
      (g pos).data.specificHeatCapacity = (g b).data.specificHeatCapacity →
      d = heatExchange (g b) (g pos) ((getNeighbours b).length : Int)
          - heatExchange (g pos) (g b) ((getNeighbours pos).length : Int) →
      ((g pos).data.lowerTransitionPoint = -1 ∨
        ¬ (g pos).data.temperature + ((g pos).data.heatReceived + d)
          < (g pos).data.lowerTransitionPoint) →
      ((g pos).data.upperTransitionPoint = upperSentinel ∨
        ¬ (g pos).data.temperature + ((g pos).data.heatReceived + d)
          > (g pos).data.upperTransitionPoint) →
      ((g b).data.lowerTransitionPoint = -1 ∨
        ¬ (g b).data.temperature + ((g b).data.heatReceived + -d)
          < (g b).data.lowerTransitionPoint) →
      ((g b).data.upperTransitionPoint = upperSentinel ∨
        ¬ (g b).data.temperature + ((g b).data.heatReceived + -d)
          > (g b).data.upperTransitionPoint) →
      ∃ g4, twoCellRound r1 r2 r3 r4 g pos b = some g4 ∧
        (g4 pos).data.heatReceived = 0 ∧ (g4 b).data.heatReceived = 0 ∧
        (g4 pos).data.temperature + (g4 b).data.temperature
          = ((g pos).data.temperature + (g pos).data.heatReceived)
            + ((g b).data.temperature + (g b).data.heatReceived) ∧
        ((g pos).data.heatReceived = 0 → (g b).data.heatReceived = 0 →
          (g4 pos).data.temperature + (g4 b).data.temperature
            = (g pos).data.temperature + (g b).data.temperature)) := by
  refine ⟨?_, ?_, ?_⟩
  · intro j n hj hcj hc
    have hpos : 0 < (g j).data.specificHeatCapacity := hcj.2
    have hx : exchanges (g pos) (g j) := ⟨hcj, by rw [hc]; exact add_pos hpos hpos⟩
    rw [heatStep_eq pos n g j hj, if_pos hx, hc, div_self (ne_of_gt hpos), mul_one]
  · intro hv hs hc
    rw [heatBudget_firstPass, heatDelta_sum g pos hv hs hc, add_zero]
  · intro r1 r2 r3 r4 b d hab hba ha hb hoth hc hd hLa hUa hLb hUb
    have hne : (g b).data.specificHeatCapacity ≠ 0 := ne_of_gt hb.2
    obtain ⟨g4, h1, h2, h3⟩ := twoCellRound_eq r1 r2 r3 r4 g pos b hab hba ha hb hoth d (-d)
      (by rw [hd, hc, div_self hne]; ring) (by rw [hd, hc, div_self hne]; ring)
      hLa hUa hLb hUb
    have hsum : (g4 pos).data.temperature + (g4 b).data.temperature
          = ((g pos).data.temperature + (g pos).data.heatReceived)
            + ((g b).data.temperature + (g b).data.heatReceived) := by
      rw [h2, h3]
      simp only
      ring
    refine ⟨g4, h1, by rw [h2], by rw [h3], hsum, ?_⟩
    intro h0a h0b
    rw [hsum, h0a, h0b]
    ring

/-- Witness of C40: a LAVA cell next to a STONE cell, both of capacity 1; the first pass on
the LAVA cell keeps the sum of temperature plus pending heat. -/
theorem equal_capacity_conservation_witness :
    heatBudget (transferHeatFirstPass
        (twoCellGrid (Particle.new exactJitter .LAVA) (Particle.new exactJitter .STONE)) (5, 5))
      = heatBudget
        (twoCellGrid (Particle.new exactJitter .LAVA) (Particle.new exactJitter .STONE)) := by
  have hA : twoCellGrid (Particle.new exactJitter .LAVA) (Particle.new exactJitter .STONE) (5, 5)
      = Particle.new exactJitter .LAVA := by simp [twoCellGrid]
  have hB : twoCellGrid (Particle.new exactJitter .LAVA) (Particle.new exactJitter .STONE) (5, 4)
      = Particle.new exactJitter .STONE := by simp [twoCellGrid]
  refine (equal_capacity_conservation
    (twoCellGrid (Particle.new exactJitter .LAVA) (Particle.new exactJitter .STONE))
    (5, 5)).2.1 (by decide) (by rw [hA]; exact lava_conducts) ?_
  intro q hq
  by_cases h1 : q = (5, 5)
  · rw [h1]
  · by_cases h2 : q = (5, 4)
    · rw [h2, hA, hB, stone_data.2, lava_data.2.1]
    · exfalso
      have : twoCellGrid (Particle.new exactJitter .LAVA) (Particle.new exactJitter .STONE) q
          = Particle.new exactJitter .EMPTY := by simp [twoCellGrid, h1, h2]
      rw [this] at hq
      exact empty_not_conducting exactJitter hq

end FallingSand
